import Mathlib

/-!
# A shallow embedding of `sps.c`, the scripted table editor

The table, the selections and the commands of `sps.c` are embedded as Lean
data, the C functions as Lean functions that keep the names of the source.

Conventions of the embedding.

* A C string is the list of its characters, the terminating NUL left out.
  Reading a string at its length (the terminator) or past it yields NUL.
* A cell (`col_t`) is its content; the field `length` of the source is always
  `strlen (content)` (every writer, `col_alloc`, `set_cell_value`,
  `fill_cell_value`, keeps it so) and `size` is buffer bookkeeping.
  A row (`row_t`) is the list of its cells and `no_cols` is its length; a table
  (`table_t`) is the list of its rows and `no_rows` is its length.
* C `int` values are integers; where the source narrows a `long` to an `int`
  the embedding wraps to 32 bits explicitly.
* The C library (`strtol`, `strtod`) is not part of the repository: `strtol`
  is modelled after the C standard, `strtod` and the arithmetic and the
  comparison of `double` are parameters (`numeric_lib`), so that a value
  that compares like NaN is not excluded.
* An allocation of one byte or more is taken to succeed.  `realloc` with size
  zero, which the C standard leaves to the implementation, frees the block and
  returns NULL, as the GNU C library does: where the source takes that NULL
  for a failed allocation the embedding has the exit (`alloc_fail`).
* A write or a read outside an array is undefined in C.  Where the source
  indexes the cells of the table with a coordinate outside the table
  (`set_cell_value`, `get_cell_content`) the embedding leaves the table as it
  is and reads the empty string; statements that depend on such an access say
  so.  Where the source overruns a buffer of the parser the embedding ends
  with an error of its own (`selections_lost`, `fragment_overflow`).
-/

namespace Sps

/-! ## Data model -/

/-- The content of a C string, without its terminating NUL. -/
abbrev CStr := List Char

/-- The enumeration `stype_t`: the kind of a selection. -/
inductive stype_t where
  | CELL | ROW | COL | BOX | TABLE | MIN | MAX | STR | TMP_VAR | INVALID_S
deriving DecidableEq, Repr

/-- The enumeration `cmd_types_t`: the kind of a script fragment. -/
inductive cmd_types_t where
  | VARIABLE | MODIFICATION | DATA | SELECTION | INVALID
deriving DecidableEq, Repr

/-- The constant `SLASH`: the marker of an open second bound of a BOX. -/
def SLASH : Int := -1

/-- The structure `selection_t`; `str` is `none` for the NULL pointer. -/
structure selection_t where
  type : stype_t
  row1 : Int
  col1 : Int
  row2 : Int
  col2 : Int
  str : Option CStr
deriving DecidableEq, Repr

/-- A row of the table: its cells, `no_cols` being the length of the list. -/
abbrev row_t := List CStr

/-- The table: its rows, `no_rows` being the length of the list. -/
abbrev table_t := List row_t

/-- The field `table->no_rows`. -/
def no_rows (t : table_t) : Int := t.length

/-- The expression `table->rows[0].no_cols` (0 when the table has no row). -/
def no_cols (t : table_t) : Int := (t.headD []).length

/-- The expression `table->rows[row].no_cols`. -/
def row_no_cols (t : table_t) (row : Int) : Int :=
  if row < 0 then 0 else (t.getD row.toNat []).length

/-- The function `get_cell_content`: `table->rows[row].cols[col].content`.
With an index outside the table the source reads outside its arrays, which is
undefined in C; the embedding reads the empty string. -/
def get_cell_content (t : table_t) (row col : Int) : CStr :=
  if row < 0 ∨ col < 0 then [] else (t.getD row.toNat []).getD col.toNat []

/-- The values `lo, lo+1, ..., hi-1` that the counter of
`for (int i = lo; i < hi; i++)` takes when the body changes neither bound. -/
def loop_range (lo hi : Int) : List Int :=
  (List.range (hi - lo).toNat).map (fun (k : Nat) => lo + (k : Int))

/-! ## Numeric cells and the minimum search -/

/-- The function `get_cell_numeric`: the returned flag paired with the value
stored through `var`, which is assigned whatever the flag is.  `strtod` maps a
string to the converted value and the unconverted rest (`endptr`). -/
def get_cell_numeric {α : Type} (strtod : CStr → α × CStr) (t : table_t)
    (row col : Int) : Bool × α :=
  let content := get_cell_content t row col
  let r := strtod content
  let endptr := r.2
  if content.length = 0 then (false, r.1)
  else if endptr.any (fun c => c != ' ') then (false, r.1)
  else if endptr.length = 0 then (true, r.1)
  else (false, r.1)

/-- The body of every loop of `find_min_cell`: visit cell `(r, c)` and, when it
is numeric and smaller than the minimum so far, record `(nr, nc)` in `new`.
The first component is `none` while `no_min` holds and `some min` afterwards
(`min` is read only when `no_min` is false); `lt` is the comparison `<` of
`double` in `num < min`. -/
def min_visit {α : Type} (lt : α → α → Bool) (strtod : CStr → α × CStr) (t : table_t)
    (r c nr nc : Int) (st : Option α × selection_t) : Option α × selection_t :=
  let g := get_cell_numeric strtod t r c
  if g.1 then
    match st.1 with
    | none => (some g.2, { st.2 with row1 := nr, col1 := nc })
    | some m =>
      if lt g.2 m then (some g.2, { st.2 with row1 := nr, col1 := nc }) else st
  else st

/-- The local `new` of `apply_call` as it is handed to the search functions. -/
def new_init : selection_t :=
  { type := stype_t.INVALID_S, row1 := 0, col1 := 0, row2 := 0, col2 := 0, str := none }

/-- The function `find_min_cell`: the returned flag and the final `*new`. -/
def find_min_cell {α : Type} (lt : α → α → Bool) (strtod : CStr → α × CStr)
    (t : table_t) (old : selection_t) (new : selection_t) : Bool × selection_t :=
  let new := { new with type := stype_t.CELL }
  match old.type with
  | stype_t.CELL =>
    if (get_cell_numeric strtod t (old.row1 - 1) (old.col1 - 1)).1 then
      (true, { new with row1 := old.row1, col1 := old.col1 })
    else (false, new)
  | stype_t.ROW =>
    let st := (loop_range 0 (no_cols t)).foldl
      (fun st i => min_visit lt strtod t (old.row1 - 1) i old.row1 (i + 1) st) (none, new)
    if st.2.col1 = 0 then (false, st.2) else (true, st.2)
  | stype_t.COL =>
    let st := (loop_range 0 (no_rows t)).foldl
      (fun st i => min_visit lt strtod t i (old.col1 - 1) (i + 1) old.col1 st) (none, new)
    if st.2.row1 = 0 then (false, st.2) else (true, st.2)
  | stype_t.BOX =>
    let row2 := if old.row2 = SLASH then no_rows t else old.row2
    let col2 := if old.col2 = SLASH then no_cols t else old.col2
    let st := (loop_range (old.row1 - 1) row2).foldl
      (fun st i => (loop_range (old.col1 - 1) col2).foldl
        (fun st j => min_visit lt strtod t i j (i + 1) (j + 1) st) st) (none, new)
    if st.2.row1 = 0 ∨ st.2.col1 = 0 then (false, st.2) else (true, st.2)
  | stype_t.TABLE =>
    let st := (loop_range 0 (no_rows t)).foldl
      (fun st i => (loop_range 0 (no_cols t)).foldl
        (fun st j => min_visit lt strtod t i j (i + 1) (j + 1) st) st) (none, new)
    if st.2.row1 = 0 ∨ st.2.col1 = 0 then (false, st.2) else (true, st.2)
  | _ => (false, new)

/-- A table is rectangular with `m` columns when every row has `m` cells. -/
def rectangular (t : table_t) (m : Nat) : Prop := ∀ row ∈ t, row.length = m

/-- A concrete selection lies inside the table: its 1-based coordinates name
existing rows and columns (an open bound of a BOX names the last one). -/
def inside (t : table_t) (s : selection_t) : Prop :=
  match s.type with
  | stype_t.CELL => 1 ≤ s.row1 ∧ s.row1 ≤ no_rows t ∧ 1 ≤ s.col1 ∧ s.col1 ≤ no_cols t
  | stype_t.ROW => 1 ≤ s.row1 ∧ s.row1 ≤ no_rows t
  | stype_t.COL => 1 ≤ s.col1 ∧ s.col1 ≤ no_cols t
  | stype_t.BOX =>
    1 ≤ s.row1 ∧ 1 ≤ s.col1 ∧ (s.row2 = SLASH ∨ (s.row1 ≤ s.row2 ∧ s.row2 ≤ no_rows t)) ∧
      (s.col2 = SLASH ∨ (s.col1 ≤ s.col2 ∧ s.col2 ≤ no_cols t))
  | stype_t.TABLE => True
  | _ => False

/-- The rectangle of 0-based coordinates `r0 ≤ i < r1`, `c0 ≤ j < c1`, listed
row by row (row-major order). -/
def rect_cells (r0 r1 c0 c1 : Int) : List (Int × Int) :=
  (loop_range r0 r1).flatMap (fun i => (loop_range c0 c1).map (fun j => (i, j)))

/-- The 0-based coordinates a concrete selection covers, in row-major order,
as the specification words it: the single cell of a Cell, the full row of a
Row, the full column of a Col, the full rectangle of a Box (an open bound
standing for the current extent of the table) or of the Table. -/
def covered (t : table_t) (s : selection_t) : List (Int × Int) :=
  match s.type with
  | stype_t.CELL => [(s.row1 - 1, s.col1 - 1)]
  | stype_t.ROW => rect_cells (s.row1 - 1) s.row1 0 (no_cols t)
  | stype_t.COL => rect_cells 0 (no_rows t) (s.col1 - 1) s.col1
  | stype_t.BOX =>
    rect_cells (s.row1 - 1) (if s.row2 = SLASH then no_rows t else s.row2)
      (s.col1 - 1) (if s.col2 = SLASH then no_cols t else s.col2)
  | stype_t.TABLE => rect_cells 0 (no_rows t) 0 (no_cols t)
  | _ => []

/-- The comparisons `lt` (`<`) and `le` (`<=`) order the values in `S`
linearly: any two of them are comparable by `le`, `le` is transitive on them,
and `a < b` holds exactly when `b <= a` does not.  The comparisons of `double`
do so on every set of values without NaN; a NaN is not comparable by `<=`,
not even to itself. -/
def ordered_values {α : Type} (lt le : α → α → Bool) (S : α → Prop) : Prop :=
  (∀ a b, S a → S b → le a b = true ∨ le b a = true) ∧
  (∀ a b c, S a → S b → S c → le a b = true → le b c = true → le a c = true) ∧
  (∀ a b, S a → S b → (lt a b = true ↔ le b a = false))

/-- The value `v` is the value of some numeric cell of the list `l`. -/
def numeric_value {α : Type} (strtod : CStr → α × CStr) (t : table_t)
    (l : List (Int × Int)) (v : α) : Prop :=
  ∃ p ∈ l, (get_cell_numeric strtod t p.1 p.2).1 = true ∧
    v = (get_cell_numeric strtod t p.1 p.2).2

/-- The cell `(r, c)` is the first cell, in the order of the list `l`, among
the numeric cells of `l` that hold the smallest value: it stands in `l`, it is
numeric, its value is `<=` the value of every numeric cell of `l`, and `<` the
value of every numeric cell before it. -/
def FirstMinimum {α : Type} (lt le : α → α → Bool) (strtod : CStr → α × CStr) (t : table_t)
    (l : List (Int × Int)) (r c : Int) : Prop :=
  ∃ k : Nat, l[k]? = some (r, c) ∧ (get_cell_numeric strtod t r c).1 = true ∧
    (∀ q ∈ l, (get_cell_numeric strtod t q.1 q.2).1 = true →
      le (get_cell_numeric strtod t r c).2 (get_cell_numeric strtod t q.1 q.2).2 = true) ∧
    (∀ (j : Nat) (q : Int × Int), j < k → l[j]? = some q →
      (get_cell_numeric strtod t q.1 q.2).1 = true →
      lt (get_cell_numeric strtod t r c).2 (get_cell_numeric strtod t q.1 q.2).2 = true)

/-- The loop body of `find_min_cell` at the 0-based coordinate `p`. -/
def min_at {α : Type} (lt : α → α → Bool) (strtod : CStr → α × CStr) (t : table_t)
    (st : Option α × selection_t) (p : Int × Int) : Option α × selection_t :=
  min_visit lt strtod t p.1 p.2 (p.1 + 1) (p.2 + 1) st

/-- The loop invariant of the minimum search after the cells `pre` were
visited: no cell was numeric and nothing is recorded, or the recorded cell is
a numeric cell of `pre` whose value is the minimum so far, and, when the
values of the numeric cells of `pre` are ordered linearly, it is the first
minimum of `pre`. -/
def MinInv {α : Type} (lt le : α → α → Bool) (strtod : CStr → α × CStr) (t : table_t)
    (pre : List (Int × Int)) (st : Option α × selection_t) : Prop :=
  (st.1 = none ∧ st.2.row1 = 0 ∧ st.2.col1 = 0 ∧
      ∀ p ∈ pre, (get_cell_numeric strtod t p.1 p.2).1 = false) ∨
  (∃ (k : Nat) (p : Int × Int), pre[k]? = some p ∧ st.1 = some (get_cell_numeric strtod t p.1 p.2).2 ∧
      st.2.row1 = p.1 + 1 ∧ st.2.col1 = p.2 + 1 ∧
      (get_cell_numeric strtod t p.1 p.2).1 = true ∧
      (ordered_values lt le (numeric_value strtod t pre) →
        (∀ q ∈ pre, (get_cell_numeric strtod t q.1 q.2).1 = true →
          le (get_cell_numeric strtod t p.1 p.2).2 (get_cell_numeric strtod t q.1 q.2).2 = true) ∧
        (∀ (j : Nat) (q : Int × Int), j < k → pre[j]? = some q →
          (get_cell_numeric strtod t q.1 q.2).1 = true →
          lt (get_cell_numeric strtod t p.1 p.2).2 (get_cell_numeric strtod t q.1 q.2).2 = true)))

/-! ## The C library, modelled after the C standard -/

/-- The NUL character that terminates a C string. -/
def NUL : Char := Char.ofNat 0

/-- The character `s[i]` of a C string: reading at the terminator, or in the
zero-filled bytes after it, yields NUL. -/
def char_at (s : CStr) (i : Nat) : Char := s.getD i NUL

/-- The C library function `isspace` in the C locale. -/
def isspace (c : Char) : Bool :=
  c == ' ' || c == '\t' || c == '\n' || c == Char.ofNat 11 || c == Char.ofNat 12 || c == '\r'

/-- The value of a run of decimal digits, most significant digit first. -/
def digits_value (ds : CStr) : Nat :=
  ds.foldl (fun acc c => 10 * acc + (c.toNat - 48)) 0

/-- The constant `LONG_MAX` of a 64-bit `long`. -/
def LONG_MAX : Int := 9223372036854775807

/-- The constant `LONG_MIN` of a 64-bit `long`. -/
def LONG_MIN : Int := -9223372036854775808

/-- The C library function `strtol` in base 10, returning the converted value
and the unconverted rest (`endptr`): leading white space is skipped, an optional
sign is read, then the longest run of digits.  With no digit there is no
conversion: the value is 0 and the rest is the whole input.  A value outside
the range of `long` is clamped to `LONG_MIN` or `LONG_MAX`. -/
def strtol (s : CStr) : Int × CStr :=
  let s1 := s.dropWhile isspace
  let neg := s1.head? == some '-'
  let s2 := if s1.head? == some '-' || s1.head? == some '+' then s1.tail else s1
  let ds := s2.takeWhile Char.isDigit
  if ds.isEmpty then (0, s)
  else
    let v : Int := if neg then -(digits_value ds : Int) else (digits_value ds : Int)
    (max LONG_MIN (min LONG_MAX v), s2.dropWhile Char.isDigit)

/-- The conversion of a `long` to `int` on assignment (`int x = strtol (...)`):
the value is reduced modulo 2^32 into the range of a 32-bit `int`. -/
def to_int (x : Int) : Int := (x + 2147483648) % 4294967296 - 2147483648

/-- The text `sprintf` writes for the conversion `%d`. -/
def sprintf_d (n : Int) : CStr := (toString n).toList

/-- The string `ds` is a decimal writing of the number `n`: a non-empty run of
decimal digits whose value is `n`. -/
def is_decimal (ds : CStr) (n : Nat) : Prop :=
  ds ≠ [] ∧ (∀ c ∈ ds, c.isDigit = true) ∧ digits_value ds = n

/-- An integer-only stand-in for `strtod`, used to run the numeric functions
on sample tables: it converts like `strtol`. -/
def strtod_sample (s : CStr) : Int × CStr := strtol s

/-- The string is empty or begins with a character that is not a digit. -/
def no_digit_ahead (rest : CStr) : Prop := ∀ c ∈ rest.head?, c.isDigit = false

/-! ## The command classifier -/

/-- The array `mod_list`: the names of the structural commands. -/
def mod_list : List CStr :=
  ["irow".toList, "arow".toList, "drow".toList, "icol".toList, "acol".toList, "dcol".toList]

/-- The array `data_list`: the names of the data commands; the trailing blank
from `swap` on is part of the name, as in the source. -/
def data_list : List CStr :=
  ["set".toList, "clear".toList, "swap ".toList, "sum ".toList, "avg ".toList,
    "count ".toList, "len ".toList]

/-- The array `var_list`: the names of the variable commands. -/
def var_list : List CStr :=
  ["def _".toList, "use _".toList, "inc _".toList, "[set]".toList]

/-- The function `get_no_commas`. -/
def get_no_commas (str : CStr) : Nat := str.count ','

/-- The function `is_selection`. -/
def is_selection (cmd : CStr) : Bool :=
  let length := cmd.length
  let no_commas := get_no_commas cmd
  if no_commas = 0 ∨ no_commas = 1 ∨ no_commas = 3 then
    char_at cmd 0 == '[' && char_at cmd (length - 1) == ']'
  else false

/-- The function `is_modification`. -/
def is_modification (cmd : CStr) : Bool := mod_list.any (fun name => cmd == name)

/-- The function `begins_with`: does `haystack` begin with `needle`. -/
def begins_with (haystack needle : CStr) : Bool :=
  if haystack.length < needle.length then false
  else (List.range needle.length).all (fun i => char_at haystack i == char_at needle i)

/-- The loop of `single_word` over the characters from `text_start` on, with
the flags `quoted` and `escaped`; at the end an open quote is refused. -/
def single_word_loop : CStr → Bool → Bool → Bool
  | [], quoted, _ => !quoted
  | c :: rest, quoted, escaped =>
    if c = '\\' ∧ escaped = false then single_word_loop rest quoted true
    else
      let quoted := if c = '"' ∧ escaped = false then !quoted else quoted
      if c = ' ' ∧ quoted = false then false
      else single_word_loop rest quoted false

/-- The function `single_word`. -/
def single_word (str : CStr) (text_start : Nat) : Bool :=
  single_word_loop (str.drop text_start) false false

/-- The constant `SET_LEN`. -/
def SET_LEN : Nat := 5

/-- The constant `FIND_LEN`. -/
def FIND_LEN : Nat := 5

/-- The function `is_set_str`. -/
def is_set_str (cmd : CStr) : Bool :=
  if cmd.length < SET_LEN then false
  else if !begins_with cmd "set ".toList then false
  else if !single_word cmd (SET_LEN - 1) then false
  else true

/-- The loop of `is_two_arg_data` over `data_list` from index `TWO_ARG_DATA`:
the last name the command begins with, if any. -/
def two_arg_match (cmd : CStr) : Option CStr :=
  (data_list.drop 2).foldl (fun m name => if begins_with cmd name then some name else m) none

/-- The function `is_two_arg_data`. -/
def is_two_arg_data (cmd : CStr) : Bool :=
  match two_arg_match cmd with
  | none => false
  | some name =>
    let start := name.length
    let no_commas := get_no_commas cmd
    let length := cmd.length
    no_commas == 1 && char_at cmd start == '[' && char_at cmd (length - 1) == ']'

/-- The function `is_data`. -/
def is_data (cmd : CStr) : Bool :=
  if is_set_str cmd then true
  else if cmd == "clear".toList then true
  else if is_two_arg_data cmd then true
  else false

/-- The function `is_var`: the command is one of the first three names of
`var_list` followed by one digit, or it is the literal `[set]`.  The source
builds each name with its digit in `current_var`, a buffer of `VAR_LEN_NAME`
bytes, which has no room for the terminator `strcat` writes; the embedding
compares the command with the name as built. -/
def is_var (cmd : CStr) : Bool :=
  if (var_list.take 3).any (fun name =>
      (List.range 10).any (fun j => name ++ sprintf_d (j : Int) == cmd)) then true
  else if "[set]".toList == cmd then true
  else false

/-- The function `get_command_type`: the first of `is_var`, `is_modification`,
`is_data`, `is_selection` that holds decides the type. -/
def get_command_type (cmd : CStr) : cmd_types_t :=
  if is_var cmd then cmd_types_t.VARIABLE
  else if is_modification cmd then cmd_types_t.MODIFICATION
  else if is_data cmd then cmd_types_t.DATA
  else if is_selection cmd then cmd_types_t.SELECTION
  else cmd_types_t.INVALID

/-! ## The selection parser -/

/-- The function `prepare_selection`: every character moves one place to the
left, a comma becoming a blank, and the last character is then cut off; so
the brackets go and the commas are blanks. -/
def prepare_selection (selection : CStr) : CStr :=
  ((selection.drop 1).map (fun c => if c = ',' then ' ' else c)).dropLast

/-- The function `first_underslash`. -/
def first_underslash (selection : CStr) : Bool := char_at selection 0 == '_'

/-- The function `second_underslash`. -/
def second_underslash (selection : CStr) : Bool :=
  (loop_range 1 selection.length).any (fun i =>
    char_at selection i.toNat == ' ' && char_at selection (i.toNat + 1) == '_')

/-- The function `is_find_selection`.  The source copies the first `FIND_LEN`
characters into `test` and never writes the byte after them; the embedding
takes that byte to be NUL, the only value with which a `[find ...]` selection
is ever recognised.  `single_word` then runs on `test`, not on the selection. -/
def is_find_selection (selection : CStr) : Bool :=
  if selection.length ≤ FIND_LEN then false
  else
    let test := selection.take FIND_LEN
    if test != "find ".toList then false
    else if !single_word test FIND_LEN then false
    else true

/-- The function `create_find_selection`. -/
def create_find_selection (selection : CStr) : CStr := selection.drop FIND_LEN

/-- The function `is_box_selection`: the returned flag, the selection `*sel`
and the string `cmd` as the function leaves it (it cuts a blank and an
open marker out of `cmd` in place).  After the cut the two old bytes stay
behind the new terminator, so `endptr3[1]` reads the open marker again when
nothing follows it. -/
def is_box_selection (cmd : CStr) (sel : selection_t) : Bool × selection_t × CStr :=
  let r1 := strtol cmd
  let first := to_int r1.1
  let endptr1 := r1.2
  let r2 := strtol endptr1
  let second := to_int r2.1
  let endptr2 := r2.2
  let open3 := char_at endptr2 1 == '-'
  let third := if open3 then SLASH else to_int (strtol endptr2).1
  let endptr3 := if open3 then endptr2.drop 2 else (strtol endptr2).2
  let cmd := if open3 then cmd.take (cmd.length - endptr2.length) ++ endptr2.drop 2 else cmd
  let after3 := if open3 ∧ endptr2.length = 2 then '-' else char_at endptr3 1
  let fourth := if after3 == '-' then SLASH else to_int (strtol endptr3).1
  if first = 0 ∨ second = 0 ∨ third = 0 ∨ fourth = 0 then (false, sel, cmd)
  else (true, { sel with row1 := first, col1 := second, row2 := third, col2 := fourth }, cmd)

/-- The function `load_selection_info`.  For a `[find ...]` selection the
source copies the pattern with `strcpy` into a buffer of `calloc(length, ...)`
bytes, which has no room for the terminating NUL; the embedding keeps the
pattern as the text copied. -/
def load_selection_info (select_str : CStr) : selection_t :=
  let s : selection_t := new_init
  if select_str = "[_]".toList then { s with type := stype_t.TMP_VAR }
  else if select_str = "[_,_]".toList then { s with type := stype_t.TABLE }
  else
    let no_commas := get_no_commas select_str
    let select_str := prepare_selection select_str
    let f_uslash := first_underslash select_str
    let select_str := if f_uslash then '0' :: select_str.tail else select_str
    let r1 := strtol select_str
    let r2 := strtol r1.2
    let s := { s with row1 := to_int r1.1, col1 := to_int r2.1 }
    let b := is_box_selection select_str s
    let s := b.2.1
    let select_str := b.2.2
    if b.1 ∧ no_commas = 3 then { s with type := stype_t.BOX }
    else if 0 < s.row1 ∧ 0 < s.col1 ∧ no_commas = 1 then { s with type := stype_t.CELL }
    else if 0 < s.row1 ∧ s.col1 = 0 ∧ second_underslash select_str ∧ no_commas = 1 then
      { s with type := stype_t.ROW }
    else if s.row1 = 0 ∧ 0 < s.col1 ∧ f_uslash ∧ no_commas = 1 then
      { s with type := stype_t.COL }
    else if select_str = "min".toList then { s with type := stype_t.MIN }
    else if select_str = "max".toList then { s with type := stype_t.MAX }
    else if is_find_selection select_str then
      { s with type := stype_t.STR, str := some (create_find_selection select_str) }
    else s

/-! ## Commands and the parsed call -/

/-- A pointer to a `selection_t`: either the address of an entry of the array
`call->selections`, or the address of the local `new` of `apply_call`. -/
inductive sel_ptr where
  | entry (k : Nat)
  | local_new
deriving DecidableEq, Repr

/-- The structure `command_t`; `selection` is `none` for the NULL pointer. -/
structure command_t where
  type : cmd_types_t
  cmd_name : CStr
  cmd_num : Int
  arg1 : Int
  arg2 : Int
  str : Option CStr
  selection : Option sel_ptr
deriving DecidableEq, Repr

/-- The structure `call_t`: the arrays of commands and of selections (their
counts are the lengths of the lists) and the delimiter string. -/
structure call_t where
  commands : List command_t
  selections : List selection_t
  delim : CStr
deriving DecidableEq, Repr

/-- The macro `CHUNK`: the number of entries `call_ctor` allocates for each of
the arrays `commands` and `selections`. -/
def CHUNK : Nat := 128

/-- The ways the parser does not hand a call to `main`: the three exits with
`exit (EXIT_FAILURE)`; `selections_lost`, the state after
`call_add_selection` has found the array of selections full; and
`fragment_overflow`, the state after `load_command` has written past the end
of its buffer `current`. -/
inductive parse_error where
  | unknown_command
  | invalid_argument
  | not_enough_commands
  | selections_lost
  | fragment_overflow
deriving DecidableEq, Repr

deriving instance DecidableEq for Except

/-- The function `call_add_cmd`. -/
def call_add_cmd (call : call_t) (new : command_t) : call_t :=
  { call with commands := call.commands ++ [new] }

/-- The function `call_add_selection`.  While the array has room the selection
is stored at its end.  When the array is full (`size_s == count_s`, with
`size_s` still `CHUNK`) the source passes `call->commands`, not
`call->selections`, to `realloc` and stores the result in `call->selections`:
the stored selections are gone and `call->commands` points to memory that was
freed or is shared with the selections.  Nothing is defined from there on; the
result is `selections_lost`. -/
def call_add_selection (call : call_t) (new : selection_t) : Except parse_error call_t :=
  if call.selections.length = CHUNK then Except.error parse_error.selections_lost
  else Except.ok { call with selections := call.selections ++ [new] }

/-- The expression `&call->selections[call->count_s - 1]`. -/
def last_selection (call : call_t) : Option sel_ptr :=
  some (sel_ptr.entry (call.selections.length - 1))

/-- The function `load_modification_info`. -/
def load_modification_info (cmd : CStr) (call : call_t) : command_t :=
  let cmd_num : Int := (List.range 6).foldl
    (fun n i => if cmd == mod_list.getD i [] then (i : Int) else n) (-1)
  { type := cmd_types_t.MODIFICATION, cmd_name := cmd, cmd_num := cmd_num, arg1 := 0,
    arg2 := 0, str := none, selection := last_selection call }

/-- Step 1 of `load_data_info`: the last name of `data_list` the command
begins with, and its index (`cmd_name` and `cmd_num`). -/
def data_name (cmd : CStr) : CStr × Int :=
  (List.range 7).foldl
    (fun f i => if begins_with cmd (data_list.getD i []) then (data_list.getD i [], (i : Int)) else f)
    ([], 0)

/-- Step 2 of `load_data_info`: the two arguments read with `strtol` from the
part of the command after its name, prepared like a selection. -/
def data_args (cmd name : CStr) : Int × Int :=
  let arg_str := prepare_selection (cmd.drop name.length)
  let r1 := strtol arg_str
  let r2 := strtol r1.2
  (to_int r1.1, to_int r2.1)

/-- The function `load_data_info`; the error is the exit after
`Invalid argument!`. -/
def load_data_info (cmd : CStr) (call : call_t) : Except parse_error command_t :=
  let found := data_name cmd
  let cmd_s : command_t :=
    { type := cmd_types_t.DATA, cmd_name := found.1, cmd_num := found.2, arg1 := 0, arg2 := 0,
      str := none, selection := last_selection call }
  let step2 : Except parse_error command_t :=
    if cmd_s.cmd_name ≠ "set".toList ∧ cmd_s.cmd_name ≠ "clear".toList then
      let a := data_args cmd cmd_s.cmd_name
      let cmd_s := { cmd_s with arg1 := a.1, arg2 := a.2 }
      if cmd_s.arg1 < 0 ∨ cmd_s.arg2 < 0 then Except.error parse_error.invalid_argument
      else Except.ok cmd_s
    else Except.ok cmd_s
  match step2 with
  | Except.error e => Except.error e
  | Except.ok cmd_s =>
    if cmd_s.cmd_name = "set".toList then
      Except.ok { cmd_s with str := some (cmd.drop (cmd_s.cmd_name.length + 1)) }
    else Except.ok cmd_s

/-- The function `load_var_info`. -/
def load_var_info (cmd : CStr) (call : call_t) : command_t :=
  let cmd_s : command_t :=
    { type := cmd_types_t.VARIABLE, cmd_name := cmd, cmd_num := 0, arg1 := 0, arg2 := 0,
      str := none, selection := none }
  let cmd_s :=
    if begins_with cmd "def _".toList then
      { cmd_s with selection := last_selection call, cmd_num := 0 }
    else if begins_with cmd "use _".toList then
      { cmd_s with selection := last_selection call, cmd_num := 1 }
    else if begins_with cmd "inc _".toList then { cmd_s with cmd_num := 2 }
    else cmd_s
  if cmd = "[set]".toList then { cmd_s with selection := last_selection call, cmd_num := 3 }
  else cmd_s

/-- The body of the loop of `load_command` for one finished fragment
`current`: empty fragments are skipped, the others are classified, parsed and
added to the call, and counted in `no_commands`. -/
def load_fragment (current : CStr) (st : call_t × Int) : Except parse_error (call_t × Int) :=
  if current.length = 0 then Except.ok st
  else
    let cmd_type := get_command_type current
    if cmd_type = cmd_types_t.INVALID then Except.error parse_error.unknown_command
    else
      let no_commands := st.2 + 1
      let call := st.1
      match cmd_type with
      | cmd_types_t.SELECTION =>
        let scurent := load_selection_info current
        if scurent.type = stype_t.INVALID_S then Except.error parse_error.unknown_command
        else
          match call_add_selection call scurent with
          | Except.error e => Except.error e
          | Except.ok call => Except.ok (call, no_commands)
      | cmd_types_t.MODIFICATION =>
        Except.ok (call_add_cmd call (load_modification_info current call), no_commands)
      | cmd_types_t.DATA =>
        match load_data_info current call with
        | Except.error e => Except.error e
        | Except.ok ccurrent => Except.ok (call_add_cmd call ccurrent, no_commands)
      | cmd_types_t.VARIABLE =>
        Except.ok (call_add_cmd call (load_var_info current call), no_commands)
      | cmd_types_t.INVALID => Except.ok (call, no_commands)

/-- The loop of `load_command` over the characters of the script: a character
other than `;` is appended to `current`; at a `;` and at the end of the script
the fragment in `current` is terminated and handled, and `current` starts
afresh.  The buffer `current` has `CHUNK` bytes and the source never tests
`curr_i` against that size: the write `current[curr_i]`, of a character or of
the terminator, with `CHUNK` characters already stored is outside the buffer.
Nothing is defined from there on; the result is `fragment_overflow`. -/
def load_command_loop : CStr → CStr → call_t × Int → Except parse_error (call_t × Int)
  | [], current, st =>
    if CHUNK ≤ current.length then Except.error parse_error.fragment_overflow
    else load_fragment current st
  | c :: rest, current, st =>
    if CHUNK ≤ current.length then Except.error parse_error.fragment_overflow
    else if c = ';' then
      match load_fragment current st with
      | Except.error e => Except.error e
      | Except.ok st => load_command_loop rest [] st
    else load_command_loop rest (current ++ [c]) st

/-- The default selection `[1,1]` that `load_command` adds first. -/
def default_selection : selection_t :=
  { type := stype_t.CELL, row1 := 1, col1 := 1, row2 := 0, col2 := 0, str := none }

/-- The function `load_command`. -/
def load_command (cmd : CStr) (no_commands : Int) (call : call_t) :
    Except parse_error (call_t × Int) :=
  match call_add_selection call default_selection with
  | Except.error e => Except.error e
  | Except.ok call => load_command_loop cmd [] (call, no_commands)

/-- The call `call_ctor` builds, with the delimiter `main` stores in it. -/
def call_ctor (delim : CStr) : call_t := { commands := [], selections := [], delim := delim }

/-- The function `cmd_parse` for a script that was given (`cmd != NULL`), on
the call and the counter `no_cmd = 0` of `main`. -/
def cmd_parse (cmd : CStr) (delim : CStr) : Except parse_error call_t :=
  match load_command cmd 0 (call_ctor delim) with
  | Except.error e => Except.error e
  | Except.ok r => if r.2 < 1 then Except.error parse_error.not_enough_commands else Except.ok r.1

/-! ## The table and its structural operations

Row and column indices that the source passes as `int` are natural numbers
here: the callers convert with `Int.toNat`, so a negative index, which is
outside every array in C, is not distinguished from index 0. -/

/-- The ways `apply_call` and `table_trim` end without returning: the exit of
`no_match_error`, the use of a value that was never initialised, and the exit
of `alloc_fail_table` after `realloc` with size zero has returned NULL. -/
inductive exec_error where
  | no_match
  | uninitialised
  | alloc_fail
deriving DecidableEq, Repr

/-- The function `set_cell_value`: the cell `(row, col)` takes the content
`value`; the other cells keep theirs.  With a coordinate outside the table the
source writes outside its arrays, which is undefined in C; the embedding
leaves the table as it is. -/
def set_cell_value (t : table_t) (row col : Int) (value : CStr) : table_t :=
  if row < 0 ∨ col < 0 then t
  else t.set row.toNat ((t.getD row.toNat []).set col.toNat value)

/-- The functions `row_swap` and `col_swap` on the elements `a` and `b` of an
array: the two elements change places. -/
def list_swap {β : Type} (d : β) (l : List β) (a b : Nat) : List β :=
  (l.set a (l.getD b d)).set b (l.getD a d)

/-- The first loop of `move_row` and `move_col` (`index_from > index_to`),
with the number of rounds left: swap with the element before, step down. -/
def move_down {β : Type} (d : β) : Nat → Nat → List β → List β
  | 0, _, l => l
  | n + 1, index_from, l => move_down d n (index_from - 1) (list_swap d l index_from (index_from - 1))

/-- The second loop of `move_row` and `move_col` (`index_from < index_to`),
with the number of rounds left: swap with the element after, step up. -/
def move_up {β : Type} (d : β) : Nat → Nat → List β → List β
  | 0, _, l => l
  | n + 1, index_from, l => move_up d n (index_from + 1) (list_swap d l index_from (index_from + 1))

/-- The body shared by `move_row` and `move_col`: move the element at
`index_from` to `index_to` by swaps of neighbours. -/
def move_elem {β : Type} (d : β) (l : List β) (index_from index_to : Nat) : List β :=
  if index_from > index_to then move_down d (index_from - index_to) index_from l
  else move_up d (index_to - index_from) index_from l

/-- The function `table_add_rows`.  Every new row takes its `no_cols` from
`table->rows[1]`: in a table that had at least two rows this is the width of
its second row; in a table that had fewer, `rows[1]` is itself a new row whose
`no_cols` was never written, and the result is `uninitialised`. -/
def table_add_rows (t : table_t) (count : Nat) : Except exec_error table_t :=
  if count = 0 then Except.ok t
  else
    match t with
    | _ :: second :: _ => Except.ok (t ++ List.replicate count (List.replicate second.length []))
    | _ => Except.error exec_error.uninitialised

/-- The function `table_delete_row`: the last row goes. -/
def table_delete_row (t : table_t) : table_t := t.dropLast

/-- The function `table_add_cols`: `count` empty cells at the end of each row. -/
def table_add_cols (t : table_t) (count : Nat) : table_t :=
  t.map (fun row => row ++ List.replicate count [])

/-- The function `row_delete_col`: the last cell of the row goes.  When the
row is left without cells, `realloc` is called with size zero and returns
NULL, and the source, which unlike `table_delete_row` does not exempt the
size zero from its NULL check, exits through `alloc_fail_table`.  (On a row
that has no cell the source reads `cols[-1]`; the embedding ends in the same
way.) -/
def row_delete_col (row : row_t) : Except exec_error row_t :=
  if row.length ≤ 1 then Except.error exec_error.alloc_fail else Except.ok row.dropLast

/-- The function `table_delete_col`: `row_delete_col` on every row, in order. -/
def table_delete_col : table_t → Except exec_error table_t
  | [] => Except.ok []
  | row :: rest =>
    match row_delete_col row with
    | Except.error e => Except.error e
    | Except.ok row =>
      match table_delete_col rest with
      | Except.error e => Except.error e
      | Except.ok rest => Except.ok (row :: rest)

/-- The function `move_row`. -/
def move_row (t : table_t) (index_from index_to : Nat) : table_t :=
  move_elem [] t index_from index_to

/-- The function `add_row_before`. -/
def add_row_before (t : table_t) (row : Nat) : Except exec_error table_t :=
  match table_add_rows t 1 with
  | Except.error e => Except.error e
  | Except.ok t => Except.ok (move_row t (t.length - 1) row)

/-- The function `add_row_after`. -/
def add_row_after (t : table_t) (row : Nat) : Except exec_error table_t :=
  match table_add_rows t 1 with
  | Except.error e => Except.error e
  | Except.ok t => Except.ok (move_row t (t.length - 1) (row + 1))

/-- The function `delete_row`. -/
def delete_row (t : table_t) (row : Nat) : table_t :=
  table_delete_row (move_row t row (t.length - 1))

/-- The function `move_col`: the same move in every row. -/
def move_col (t : table_t) (index_from index_to : Nat) : table_t :=
  t.map (fun row => move_elem [] row index_from index_to)

/-- The function `add_col_before`. -/
def add_col_before (t : table_t) (col : Nat) : table_t :=
  let t := table_add_cols t 1
  move_col t ((no_cols t).toNat - 1) col

/-- The function `add_col_after`. -/
def add_col_after (t : table_t) (col : Nat) : table_t :=
  let t := table_add_cols t 1
  move_col t ((no_cols t).toNat - 1) (col + 1)

/-- The function `delete_col`. -/
def delete_col (t : table_t) (col : Nat) : Except exec_error table_t :=
  table_delete_col (move_col t col ((no_cols t).toNat - 1))

/-- The values `lo, lo+2, lo+4, ...` below `hi` that the counter of
`for (int i = lo; i < hi; i += 2)` takes when the bounds are fixed. -/
def loop_range2 (lo hi : Int) : List Int :=
  (List.range ((hi - lo + 1) / 2).toNat).map (fun (k : Nat) => lo + 2 * (k : Int))

/-- The loop `for (int i = ...; i < table->no_rows; i += 2) body (table, i)` of
`irow` and `arow`, whose bound moves: every round adds one row to the table
and two to `i`, so the distance `no_rows - i` drops by one per round and the
loop makes as many rounds as that distance was at its start.  The first
argument is the distance left. -/
def grow_rows_loop (body : table_t → Nat → Except exec_error table_t) :
    Nat → table_t → Nat → Except exec_error table_t
  | 0, t, _ => Except.ok t
  | n + 1, t, i =>
    match body t i with
    | Except.error e => Except.error e
    | Except.ok t => grow_rows_loop body n t (i + 2)

/-- The same loop over the columns, `i < table->rows[0].no_cols`, in `icol`
and `acol`. -/
def grow_cols_loop (body : table_t → Nat → table_t) : Nat → table_t → Nat → table_t
  | 0, t, _ => t
  | n + 1, t, i => grow_cols_loop body n (body t i) (i + 2)

/-- The bound `row_end` (or `col_end`) of the BOX branches: the last index
when the second bound is the open marker, else the bound less one. -/
def box_end (second last : Int) : Int := if second = SLASH then last - 1 else second - 1

/-- The function `irow`, on the selection the command points to. -/
def irow (t : table_t) (selection : selection_t) : Except exec_error table_t :=
  let row := selection.row1 - 1
  if selection.type = stype_t.CELL ∨ selection.type = stype_t.ROW then
    add_row_before t row.toNat
  else if selection.type = stype_t.COL ∨ selection.type = stype_t.TABLE then
    grow_rows_loop add_row_before t.length t 0
  else if selection.type = stype_t.BOX then
    let row_start := selection.row1 - 1
    let row_end := box_end selection.row2 (no_rows t)
    let max_step := row_start + 2 * (row_end - row_start) + 1
    (loop_range2 row_start max_step).foldlM (fun t i => add_row_before t i.toNat) t
  else Except.ok t

/-- The function `arow`, on the selection the command points to. -/
def arow (t : table_t) (selection : selection_t) : Except exec_error table_t :=
  let row := selection.row1 - 1
  if selection.type = stype_t.CELL ∨ selection.type = stype_t.ROW then
    add_row_after t row.toNat
  else if selection.type = stype_t.COL ∨ selection.type = stype_t.TABLE then
    grow_rows_loop add_row_after t.length t 0
  else if selection.type = stype_t.BOX then
    let row_start := selection.row1 - 1
    let row_end := box_end selection.row2 (no_rows t)
    let max_step := row_start + 2 * (row_end - row_start) + 1
    (loop_range2 row_start max_step).foldlM (fun t i => add_row_after t i.toNat) t
  else Except.ok t

/-- The function `drow`, on the selection the command points to;
`table_dtor` leaves the table without rows. -/
def drow (t : table_t) (selection : selection_t) : table_t :=
  let row := selection.row1 - 1
  if selection.type = stype_t.CELL ∨ selection.type = stype_t.ROW then
    delete_row t row.toNat
  else if selection.type = stype_t.COL ∨ selection.type = stype_t.TABLE then []
  else if selection.type = stype_t.BOX then
    let row_start := selection.row1 - 1
    let row_end := box_end selection.row2 (no_rows t)
    let max_step := row_start + row_end - row_start + 1
    (loop_range row_start max_step).foldl (fun t _ => delete_row t row_start.toNat) t
  else t

/-- The function `icol`, on the selection the command points to. -/
def icol (t : table_t) (selection : selection_t) : table_t :=
  let col := selection.col1 - 1
  if selection.type = stype_t.CELL ∨ selection.type = stype_t.COL then
    add_col_before t col.toNat
  else if selection.type = stype_t.ROW ∨ selection.type = stype_t.TABLE then
    grow_cols_loop add_col_before (no_cols t).toNat t 0
  else if selection.type = stype_t.BOX then
    let col_start := selection.col1 - 1
    let col_end := box_end selection.col2 (no_cols t)
    let max_step := col_start + 2 * (col_end - col_start) + 1
    (loop_range2 col_start max_step).foldl (fun t i => add_col_before t i.toNat) t
  else t

/-- The function `acol`, on the selection the command points to. -/
def acol (t : table_t) (selection : selection_t) : table_t :=
  let col := selection.col1 - 1
  if selection.type = stype_t.CELL ∨ selection.type = stype_t.COL then
    add_col_after t col.toNat
  else if selection.type = stype_t.ROW ∨ selection.type = stype_t.TABLE then
    grow_cols_loop add_col_after (no_cols t).toNat t 0
  else if selection.type = stype_t.BOX then
    let col_start := selection.col1 - 1
    let col_end := box_end selection.col2 (no_cols t)
    let max_step := col_start + 2 * (col_end - col_start) + 1
    (loop_range2 col_start max_step).foldl (fun t i => add_col_after t i.toNat) t
  else t

/-- The function `dcol`, on the selection the command points to;
`table_dtor` leaves the table without rows. -/
def dcol (t : table_t) (selection : selection_t) : Except exec_error table_t :=
  let col := selection.col1 - 1
  if selection.type = stype_t.CELL ∨ selection.type = stype_t.COL then
    delete_col t col.toNat
  else if selection.type = stype_t.ROW ∨ selection.type = stype_t.TABLE then Except.ok []
  else if selection.type = stype_t.BOX then
    let col_start := selection.col1 - 1
    let col_end := box_end selection.col2 (no_cols t)
    let max_step := col_start + col_end - col_start + 1
    (loop_range col_start max_step).foldlM (fun t _ => delete_col t col_start.toNat) t
  else Except.ok t

/-- The function `process_mods`: the dispatch on `cmd_num` over
`irow, arow, drow, icol, acol, dcol`. -/
def process_mods (t : table_t) (cmd_num : Int) (selection : selection_t) :
    Except exec_error table_t :=
  if cmd_num = 0 then irow t selection
  else if cmd_num = 1 then arow t selection
  else if cmd_num = 2 then Except.ok (drow t selection)
  else if cmd_num = 3 then Except.ok (icol t selection)
  else if cmd_num = 4 then Except.ok (acol t selection)
  else if cmd_num = 5 then dcol t selection
  else Except.ok t

/-! ## Data operations -/

/-- The function `is_delim`. -/
def is_delim (c : Char) (delim : CStr) : Bool := delim.any (fun d => c == d)

/-- The loop of `unescape_string` over the characters that are left, with the
flags `quote_open` and `escaped`; the result is what is appended to `new`. -/
def unescape_loop (delim : CStr) : CStr → Bool → Bool → CStr
  | [], _, _ => []
  | c :: rest, quote_open, escaped =>
    if c = '\\' ∧ escaped = false then unescape_loop delim rest quote_open true
    else if c = '"' ∧ escaped = false then unescape_loop delim rest (!quote_open) escaped
    else if quote_open = false ∧ (c = '\n' ∨ (is_delim c delim = true ∧ escaped = false)) then []
    else c :: unescape_loop delim rest quote_open false

/-- The function `unescape_string`: the string it leaves in place of its
argument; `delim` is `call->delim`. -/
def unescape_string (delim : CStr) (string : CStr) : CStr :=
  unescape_loop delim string false false

/-- The loop of `col_substr` over the characters of the cell that are left,
with the counter `match`. -/
def col_substr_loop (value : CStr) : CStr → Nat → Bool
  | [], m => m == value.length
  | c :: rest, m =>
    if m = value.length then true
    else if char_at value m == c then col_substr_loop value rest (m + 1)
    else col_substr_loop value rest 0

/-- The function `col_substr` on the content of the cell. -/
def col_substr (content : CStr) (value : CStr) : Bool :=
  if value.length > content.length then false
  else col_substr_loop value content 0

/-- The body of the loops of `find_substr_cell`: when cell `(r, c)` matches,
record `(nr, nc)` in `new`. -/
def substr_visit (t : table_t) (str : CStr) (r c nr nc : Int) (new : selection_t) :
    selection_t :=
  if col_substr (get_cell_content t r c) str then { new with row1 := nr, col1 := nc }
  else new

/-- The function `find_substr_cell`: the returned flag, the final `*new`, and
the string `current.str` as `unescape_string` leaves it in place. -/
def find_substr_cell (delim : CStr) (t : table_t) (old current new : selection_t) :
    Bool × selection_t × CStr :=
  let row1 := old.row1 - 1
  let col1 := old.col1 - 1
  let str := unescape_string delim (current.str.getD [])
  let new := { new with type := stype_t.CELL }
  match old.type with
  | stype_t.CELL =>
    if col_substr (get_cell_content t row1 col1) str then
      (true, { new with row1 := old.row1, col1 := old.col1 }, str)
    else (false, new, str)
  | stype_t.ROW =>
    let new := (loop_range 0 (no_cols t)).foldl
      (fun new i => substr_visit t str row1 i old.row1 (i + 1) new) new
    if new.col1 = 0 then (false, new, str) else (true, new, str)
  | stype_t.COL =>
    let new := (loop_range 0 (no_rows t)).foldl
      (fun new i => substr_visit t str i col1 (i + 1) old.col1 new) new
    if new.row1 = 0 then (false, new, str) else (true, new, str)
  | stype_t.BOX =>
    let row2 := if old.row2 = SLASH then no_rows t else old.row2
    let col2 := if old.col2 = SLASH then no_cols t else old.col2
    let new := (loop_range (old.row1 - 1) row2).foldl
      (fun new i => (loop_range (old.col1 - 1) col2).foldl
        (fun new j => substr_visit t str i j (i + 1) (j + 1) new) new) new
    if new.row1 = 0 ∨ new.col1 = 0 then (false, new, str) else (true, new, str)
  | stype_t.TABLE =>
    let new := (loop_range 0 (no_rows t)).foldl
      (fun new i => (loop_range 0 (no_cols t)).foldl
        (fun new j => substr_visit t str i j (i + 1) (j + 1) new) new) new
    if new.row1 = 0 ∨ new.col1 = 0 then (false, new, str) else (true, new, str)
  | _ => (true, new, str)

/-- The second bounds of a BOX as `set_selection`, `swap`, `selection_sum` and
`count` store them into the selection itself: an open marker is overwritten
with the current number of rows or columns. -/
def close_box (t : table_t) (selection : selection_t) : selection_t :=
  { selection with
    row2 := if selection.row2 = SLASH then no_rows t else selection.row2,
    col2 := if selection.col2 = SLASH then no_cols t else selection.col2 }

/-- The function `set_selection`: the table and the selection `*selection`
afterwards. -/
def set_selection (t : table_t) (selection : selection_t) (value : CStr) :
    table_t × selection_t :=
  let stype := selection.type
  let row1 := selection.row1 - 1
  let col1 := selection.col1 - 1
  if stype = stype_t.CELL then (set_cell_value t row1 col1 value, selection)
  else if stype = stype_t.ROW then
    ((loop_range 0 (row_no_cols t row1)).foldl (fun t i => set_cell_value t row1 i value) t,
      selection)
  else if stype = stype_t.COL then
    ((loop_range 0 (no_rows t)).foldl (fun t i => set_cell_value t i col1 value) t, selection)
  else if stype = stype_t.BOX then
    let selection := close_box t selection
    ((loop_range row1 selection.row2).foldl
      (fun t i => (loop_range col1 selection.col2).foldl
        (fun t j => set_cell_value t i j value) t) t, selection)
  else if stype = stype_t.TABLE then
    ((loop_range 0 (no_rows t)).foldl
      (fun t i => (loop_range 0 (row_no_cols t i)).foldl
        (fun t j => set_cell_value t i j value) t) t, selection)
  else (t, selection)

/-- The function `set`; `str` is `cmd.str`. -/
def set (delim : CStr) (t : table_t) (str : CStr) (selection : selection_t) :
    table_t × selection_t :=
  set_selection t selection (unescape_string delim str)

/-- The function `clear`. -/
def clear (t : table_t) (selection : selection_t) : table_t × selection_t :=
  set_selection t selection []

/-- The function `col_swap` on the cells `(r1, c1)` and `(r2, c2)` of the
table: the two cells change contents. -/
def col_swap (t : table_t) (r1 c1 r2 c2 : Int) : table_t :=
  set_cell_value (set_cell_value t r1 c1 (get_cell_content t r2 c2)) r2 c2
    (get_cell_content t r1 c1)

/-- The function `swap`; `arg1`, `arg2` are the fields of the command. -/
def swap (t : table_t) (arg1 arg2 : Int) (selection : selection_t) : table_t × selection_t :=
  let row1 := selection.row1 - 1
  let col1 := selection.col1 - 1
  let row2 := arg1 - 1
  let col2 := arg2 - 1
  let stype := selection.type
  if stype = stype_t.CELL then (col_swap t row1 col1 row2 col2, selection)
  else if stype = stype_t.ROW then
    ((loop_range 0 (row_no_cols t row1)).foldl (fun t i => col_swap t row1 i row2 col2) t,
      selection)
  else if stype = stype_t.COL then
    ((loop_range 0 (no_rows t)).foldl (fun t i => col_swap t i col1 row2 col2) t, selection)
  else if stype = stype_t.BOX then
    let selection := close_box t selection
    ((loop_range row1 selection.row2).foldl
      (fun t i => (loop_range col1 selection.col2).foldl
        (fun t j => col_swap t i j row2 col2) t) t, selection)
  else if stype = stype_t.TABLE then
    ((loop_range 0 (no_rows t)).foldl
      (fun t i => (loop_range 0 (row_no_cols t i)).foldl
        (fun t j => col_swap t i j row2 col2) t) t, selection)
  else (t, selection)

/-- The part of the C library and of the language that works on `double`,
which the repository does not contain: the conversion `strtod`, the constant
`0.0`, the addition, the division by an `int`, the text `sprintf` writes for
`%g`, and the comparisons `<` and `<=`.  The source uses `<` (and `>`, which
is `<` with the operands exchanged); `<=` serves to say what a smallest value
is. -/
structure numeric_lib (α : Type) where
  strtod : CStr → α × CStr
  zero : α
  add : α → α → α
  div_int : α → Int → α
  sprintf_g : α → CStr
  lt : α → α → Bool
  le : α → α → Bool

/-- The body of the loops of `selection_sum` at cell `(r, c)`: the counter
`*no_additions` grows when the cell is numeric, and `current`, which
`get_cell_numeric` has set in either case, is added to `sum`. -/
def sum_visit {α : Type} (L : numeric_lib α) (t : table_t) (r c : Int) (acc : α × Int) :
    α × Int :=
  let g := get_cell_numeric L.strtod t r c
  (L.add acc.1 g.2, if g.1 then acc.2 + 1 else acc.2)

/-- The function `selection_sum`: the returned sum, `*no_additions` and the
selection `*selection` afterwards. -/
def selection_sum {α : Type} (L : numeric_lib α) (t : table_t) (selection : selection_t) :
    α × Int × selection_t :=
  let stype := selection.type
  let row1 := selection.row1 - 1
  let col1 := selection.col1 - 1
  if stype = stype_t.CELL then
    (L.add L.zero (get_cell_numeric L.strtod t row1 col1).2, 1, selection)
  else if stype = stype_t.ROW then
    let r := (loop_range 0 (row_no_cols t row1)).foldl
      (fun acc i => sum_visit L t row1 i acc) (L.zero, 0)
    (r.1, r.2, selection)
  else if stype = stype_t.COL then
    let r := (loop_range 0 (no_rows t)).foldl
      (fun acc i => sum_visit L t i col1 acc) (L.zero, 0)
    (r.1, r.2, selection)
  else if stype = stype_t.BOX then
    let selection := close_box t selection
    let r := (loop_range row1 selection.row2).foldl
      (fun acc i => (loop_range col1 selection.col2).foldl
        (fun acc j => sum_visit L t i j acc) acc) (L.zero, 0)
    (r.1, r.2, selection)
  else if stype = stype_t.TABLE then
    let r := (loop_range 0 (no_rows t)).foldl
      (fun acc i => (loop_range 0 (row_no_cols t i)).foldl
        (fun acc j => sum_visit L t i j acc) acc) (L.zero, 0)
    (r.1, r.2, selection)
  else (L.zero, 0, selection)

/-- The function `sum`. -/
def sum {α : Type} (L : numeric_lib α) (t : table_t) (arg1 arg2 : Int)
    (selection : selection_t) : table_t × selection_t :=
  let r := selection_sum L t selection
  (set_cell_value t (arg1 - 1) (arg2 - 1) (L.sprintf_g r.1), r.2.2)

/-- The function `avg`. -/
def avg {α : Type} (L : numeric_lib α) (t : table_t) (arg1 arg2 : Int)
    (selection : selection_t) : table_t × selection_t :=
  let r := selection_sum L t selection
  (set_cell_value t (arg1 - 1) (arg2 - 1) (L.sprintf_g (L.div_int r.1 r.2.1)), r.2.2)

/-- The test `table->rows[r].cols[c].length != 0` of `count`, as an addend. -/
def non_empty_at (t : table_t) (r c : Int) : Int :=
  if (get_cell_content t r c).length ≠ 0 then 1 else 0

/-- The function `count`. -/
def count (t : table_t) (arg1 arg2 : Int) (selection : selection_t) :
    table_t × selection_t :=
  let store_row := arg1 - 1
  let store_col := arg2 - 1
  let stype := selection.type
  let row1 := selection.row1 - 1
  let col1 := selection.col1 - 1
  let r : Int × selection_t :=
    if stype = stype_t.CELL then (non_empty_at t row1 col1, selection)
    else if stype = stype_t.ROW then
      ((loop_range 0 (row_no_cols t row1)).foldl (fun n i => n + non_empty_at t row1 i) 0,
        selection)
    else if stype = stype_t.COL then
      ((loop_range 0 (no_rows t)).foldl (fun n i => n + non_empty_at t i col1) 0, selection)
    else if stype = stype_t.BOX then
      let selection := close_box t selection
      ((loop_range row1 selection.row2).foldl
        (fun n i => (loop_range col1 selection.col2).foldl
          (fun n j => n + non_empty_at t i j) n) 0, selection)
    else if stype = stype_t.TABLE then
      ((loop_range 0 (no_rows t)).foldl
        (fun n i => (loop_range 0 (row_no_cols t i)).foldl
          (fun n j => n + non_empty_at t i j) n) 0, selection)
    else (0, selection)
  (set_cell_value t store_row store_col (sprintf_d r.1), r.2)

/-- The function `len`. -/
def len (t : table_t) (arg1 arg2 : Int) (selection : selection_t) : table_t × selection_t :=
  let store_row := arg1 - 1
  let store_col := arg2 - 1
  let row1 := selection.row1 - 1
  let col1 := selection.col1 - 1
  let row2 := selection.row2 - 1
  let col2 := selection.col2 - 1
  let stype := selection.type
  let len : Int :=
    if stype = stype_t.CELL then (get_cell_content t row1 col1).length
    else if stype = stype_t.ROW then (get_cell_content t row1 (no_cols t - 1)).length
    else if stype = stype_t.COL then (get_cell_content t (no_rows t - 1) col1).length
    else if stype = stype_t.BOX then (get_cell_content t row2 col2).length
    else if stype = stype_t.TABLE then
      (get_cell_content t (no_rows t - 1) (no_cols t - 1)).length
    else 0
  (set_cell_value t store_row store_col (sprintf_d len), selection)

/-- The function `process_data`: the dispatch on `cmd_num` over
`set, clear, swap, sum, avg, count, len`. -/
def process_data {α : Type} (L : numeric_lib α) (delim : CStr) (t : table_t)
    (cmd : command_t) (selection : selection_t) : table_t × selection_t :=
  if cmd.cmd_num = 0 then set delim t (cmd.str.getD []) selection
  else if cmd.cmd_num = 1 then clear t selection
  else if cmd.cmd_num = 2 then swap t cmd.arg1 cmd.arg2 selection
  else if cmd.cmd_num = 3 then sum L t cmd.arg1 cmd.arg2 selection
  else if cmd.cmd_num = 4 then avg L t cmd.arg1 cmd.arg2 selection
  else if cmd.cmd_num = 5 then count t cmd.arg1 cmd.arg2 selection
  else if cmd.cmd_num = 6 then len t cmd.arg1 cmd.arg2 selection
  else (t, selection)

/-! ## Variables and the execution engine -/

/-- The structure `variables_t`: the ten values and the pointer to the stored
selection. -/
structure variables_t where
  values : List CStr
  selection : sel_ptr
deriving DecidableEq, Repr

/-- The function `variables_ctor`: ten empty values, and the stored selection
points to the first entry of `call->selections`. -/
def variables_ctor : variables_t :=
  { values := List.replicate 10 [], selection := sel_ptr.entry 0 }

/-- What `apply_call` works on: the table, the array `call->selections` and
the variables. -/
structure exec_state where
  table : table_t
  selections : List selection_t
  vars : variables_t
deriving DecidableEq, Repr

/-- The selection a pointer points to, `new` being the local of `apply_call`.
A pointer to `new` that `set_var` has stored outlives the round of the loop in
which it was taken; read in a later round it yields the `new` of that round,
as when the storage is reused (the C standard leaves such a read undefined). -/
def deref (selections : List selection_t) (new : selection_t) : sel_ptr → selection_t
  | sel_ptr.entry k => selections.getD k new_init
  | sel_ptr.local_new => new

/-- The function `get_var_index`: the last character of the name of the
command, as a digit. -/
def get_var_index (cmd : command_t) : Int :=
  ((char_at cmd.cmd_name (cmd.cmd_name.length - 1)).toNat : Int) - 48

/-- The function `variable_store`. -/
def variable_store (vars : variables_t) (index : Int) (value : CStr) : variables_t :=
  if index < 0 then vars else { vars with values := vars.values.set index.toNat value }

/-- The function `def`. -/
def def_var (t : table_t) (cmd : command_t) (selection : selection_t) (vars : variables_t) :
    variables_t :=
  variable_store vars (get_var_index cmd)
    (get_cell_content t (selection.row1 - 1) (selection.col1 - 1))

/-- The function `use`. -/
def use_var (t : table_t) (cmd : command_t) (selection : selection_t) (vars : variables_t) :
    table_t × selection_t :=
  set_selection t selection (vars.values.getD (get_var_index cmd).toNat [])

/-- The function `inc`: `strtol` always sets `endptr`, so the value read is
always incremented, in 32-bit `int` arithmetic. -/
def inc (cmd : command_t) (vars : variables_t) : variables_t :=
  let index := get_var_index cmd
  let ret := to_int (strtol (vars.values.getD index.toNat [])).1
  variable_store vars index (sprintf_d (to_int (ret + 1)))

/-- The function `table_expand`; `selection` is `none` when the pointer of the
command is NULL, else the selection it points to. -/
def table_expand (t : table_t) (command : command_t) (selection : Option selection_t) :
    Except exec_error table_t :=
  let grow (d : Int) (coordinate size : Int) : Int :=
    if coordinate > size ∧ coordinate - size > d then coordinate - size else d
  let diff_r : Int := 0
  let diff_c : Int := 0
  let diff_r := match selection with
    | none => diff_r
    | some s => grow (grow diff_r s.row1 (no_rows t)) s.row2 (no_rows t)
  let diff_c := match selection with
    | none => diff_c
    | some s => grow (grow diff_c s.col1 (no_cols t)) s.col2 (no_cols t)
  let diff_r := grow diff_r command.arg1 (no_rows t)
  let diff_c := grow diff_c command.arg2 (no_cols t)
  match (if diff_r > 0 then table_add_rows t diff_r.toNat else Except.ok t) with
  | Except.error e => Except.error e
  | Except.ok t => Except.ok (if diff_c > 0 then table_add_cols t diff_c.toNat else t)

/-- The body of every loop of `find_max_cell`, as `min_visit` with the
comparison turned round: `num > max` of the source is `max < num`. -/
def max_visit {α : Type} (lt : α → α → Bool) (strtod : CStr → α × CStr) (t : table_t)
    (r c nr nc : Int) (st : Option α × selection_t) : Option α × selection_t :=
  let g := get_cell_numeric strtod t r c
  if g.1 then
    match st.1 with
    | none => (some g.2, { st.2 with row1 := nr, col1 := nc })
    | some m =>
      if lt m g.2 then (some g.2, { st.2 with row1 := nr, col1 := nc }) else st
  else st

/-- The function `find_max_cell`: the returned flag and the final `*new`. -/
def find_max_cell {α : Type} (lt : α → α → Bool) (strtod : CStr → α × CStr)
    (t : table_t) (old : selection_t) (new : selection_t) : Bool × selection_t :=
  let new := { new with type := stype_t.CELL }
  match old.type with
  | stype_t.CELL =>
    if (get_cell_numeric strtod t (old.row1 - 1) (old.col1 - 1)).1 then
      (true, { new with row1 := old.row1, col1 := old.col1 })
    else (false, new)
  | stype_t.ROW =>
    let st := (loop_range 0 (no_cols t)).foldl
      (fun st i => max_visit lt strtod t (old.row1 - 1) i old.row1 (i + 1) st) (none, new)
    if st.2.col1 = 0 then (false, st.2) else (true, st.2)
  | stype_t.COL =>
    let st := (loop_range 0 (no_rows t)).foldl
      (fun st i => max_visit lt strtod t i (old.col1 - 1) (i + 1) old.col1 st) (none, new)
    if st.2.row1 = 0 then (false, st.2) else (true, st.2)
  | stype_t.BOX =>
    let row2 := if old.row2 = SLASH then no_rows t else old.row2
    let col2 := if old.col2 = SLASH then no_cols t else old.col2
    let st := (loop_range (old.row1 - 1) row2).foldl
      (fun st i => (loop_range (old.col1 - 1) col2).foldl
        (fun st j => max_visit lt strtod t i j (i + 1) (j + 1) st) st) (none, new)
    if st.2.row1 = 0 ∨ st.2.col1 = 0 then (false, st.2) else (true, st.2)
  | stype_t.TABLE =>
    let st := (loop_range 0 (no_rows t)).foldl
      (fun st i => (loop_range 0 (no_cols t)).foldl
        (fun st j => max_visit lt strtod t i j (i + 1) (j + 1) st) st) (none, new)
    if st.2.row1 = 0 ∨ st.2.col1 = 0 then (false, st.2) else (true, st.2)
  | _ => (false, new)

/-- The first part of the body of the loop of `apply_call`, up to the call of
`table_expand`: a MIN, MAX or STR selection is replaced by the cell found in
the selection stored one place before it, a TMP_VAR selection by the stored
selection.  The result is the pointer the command holds afterwards, the local
`new`, and the array of selections (in which `find_substr_cell` has rewritten
the pattern); the error is the exit of `no_match_error`. -/
def resolve_selection {α : Type} (L : numeric_lib α) (delim : CStr)
    (st : exec_state) (cmd : command_t) :
    Except exec_error (Option sel_ptr × selection_t × List selection_t) :=
  let new := new_init
  match cmd.selection with
  | none => Except.ok (none, new, st.selections)
  | some p =>
    let selection := deref st.selections new p
    let before : selection_t :=
      match p with
      | sel_ptr.entry k => st.selections.getD (k - 1) new_init
      | sel_ptr.local_new => new_init
    match selection.type with
    | stype_t.MIN =>
      let r := find_min_cell L.lt L.strtod st.table before new
      if r.1 then Except.ok (some sel_ptr.local_new, r.2, st.selections)
      else Except.error exec_error.no_match
    | stype_t.MAX =>
      let r := find_max_cell L.lt L.strtod st.table before new
      if r.1 then Except.ok (some sel_ptr.local_new, r.2, st.selections)
      else Except.error exec_error.no_match
    | stype_t.TMP_VAR => Except.ok (some st.vars.selection, new, st.selections)
    | stype_t.STR =>
      let r := find_substr_cell delim st.table before selection new
      let selections :=
        match p with
        | sel_ptr.entry k => st.selections.set k { selection with str := some r.2.2 }
        | sel_ptr.local_new => st.selections
      if r.1 then Except.ok (some sel_ptr.local_new, r.2.1, selections)
      else Except.error exec_error.no_match
    | _ => Except.ok (some p, new, st.selections)

/-- The selection array after a command has written through its pointer: an
entry of the array takes the new value; the local `new` is not kept. -/
def write_back (selections : List selection_t) (p : Option sel_ptr) (s : selection_t) :
    List selection_t :=
  match p with
  | some (sel_ptr.entry k) => selections.set k s
  | _ => selections

/-- The function `process_var`: the dispatch on `cmd_num` over
`def, use, inc, set_var`; `p` is the pointer `cmd.selection` and `selection`
what it points to. -/
def process_var (st : exec_state) (cmd : command_t) (p : Option sel_ptr)
    (selection : selection_t) : exec_state :=
  if cmd.cmd_num = 0 then { st with vars := def_var st.table cmd selection st.vars }
  else if cmd.cmd_num = 1 then
    let r := use_var st.table cmd selection st.vars
    { st with table := r.1, selections := write_back st.selections p r.2 }
  else if cmd.cmd_num = 2 then { st with vars := inc cmd st.vars }
  else if cmd.cmd_num = 3 then
    match p with
    | some q => { st with vars := { st.vars with selection := q } }
    | none => st
  else st

/-- The body of the loop of `apply_call` for one command: resolution of the
selection, `table_expand`, then the dispatch on the type of the command.  A
command without selection (only `inc` has none) is dispatched with a dummy
selection, which `inc` does not read. -/
def apply_command {α : Type} (L : numeric_lib α) (delim : CStr)
    (st : exec_state) (cmd : command_t) : Except exec_error exec_state :=
  match resolve_selection L delim st cmd with
  | Except.error e => Except.error e
  | Except.ok (p, new, selections) =>
    let target := p.map (deref selections new)
    match table_expand st.table cmd target with
    | Except.error e => Except.error e
    | Except.ok t =>
      let selection := target.getD new_init
      let st : exec_state := { st with table := t, selections := selections }
      match cmd.type with
      | cmd_types_t.MODIFICATION =>
        match process_mods t cmd.cmd_num selection with
        | Except.error e => Except.error e
        | Except.ok t => Except.ok { st with table := t }
      | cmd_types_t.DATA =>
        let r := process_data L delim t cmd selection
        Except.ok { st with table := r.1, selections := write_back selections p r.2 }
      | cmd_types_t.VARIABLE => Except.ok (process_var st cmd p selection)
      | _ => Except.ok st

/-- The function `apply_call`: the commands are applied in order, from the
loaded table, the parsed call and the variables of `variables_ctor`. -/
def apply_call {α : Type} (L : numeric_lib α) (t : table_t) (call : call_t) :
    Except exec_error exec_state :=
  call.commands.foldlM (apply_command L call.delim)
    { table := t, selections := call.selections, vars := variables_ctor }

/-- The loop of `table_trim` with the counter `i + 1` as first argument: when
some row has a non-empty cell in column `i` the loop ends, otherwise the last
column is deleted and the loop goes on with `i - 1`. -/
def table_trim_loop : Nat → table_t → Except exec_error table_t
  | 0, t => Except.ok t
  | i + 1, t =>
    if t.any (fun row => (row.getD i []).length != 0) then Except.ok t
    else
      match table_delete_col t with
      | Except.error e => Except.error e
      | Except.ok t => table_trim_loop i t

/-- The function `table_trim`; the error is the exit `table_delete_col` takes
when it is to delete the only column left. -/
def table_trim (t : table_t) : Except exec_error table_t :=
  if t.length = 0 then Except.ok t else table_trim_loop (no_cols t).toNat t

/-- What stops `main` before it writes the table. -/
inductive run_error where
  | parse (e : parse_error)
  | exec (e : exec_error)
deriving DecidableEq, Repr

/-- The part of `main` between the reading of the arguments and the writing
of the file: the script is parsed, then applied to the loaded table, and the
table is trimmed.  An error means that the process has ended before
`write_table`. -/
def run {α : Type} (L : numeric_lib α) (delim : CStr) (script : CStr)
    (t : table_t) : Except run_error table_t :=
  match cmd_parse script delim with
  | Except.error e => Except.error (run_error.parse e)
  | Except.ok call =>
    match apply_call L t call with
    | Except.error e => Except.error (run_error.exec e)
    | Except.ok st =>
      match table_trim st.table with
      | Except.error e => Except.error (run_error.exec e)
      | Except.ok out => Except.ok out

/-- A sample of the numeric library over the integers: `strtol` for `strtod`,
integer arithmetic and comparison, and `%d` for `%g`. -/
def sample_lib : numeric_lib Int :=
  { strtod := strtod_sample, zero := 0, add := fun a b => a + b,
    div_int := fun a n => a / n, sprintf_g := sprintf_d,
    lt := fun a b => decide (a < b), le := fun a b => decide (a ≤ b) }

/-- A stand-in for `strtod` with a NaN, written `none`: the text `nan`, which
`strtod` converts to a NaN, is converted to it as a whole; every other text is
converted like `strtol`. -/
def strtod_nan (s : CStr) : Option Int × CStr :=
  if s = "nan".toList then (none, []) else (some (strtol s).1, (strtol s).2)

/-- A sample of the numeric library with a NaN: the integers and `none` for
NaN.  An operation on a NaN gives a NaN, and a comparison with a NaN is false,
as for `double`. -/
def nan_lib : numeric_lib (Option Int) :=
  { strtod := strtod_nan, zero := some 0,
    add := fun a b =>
      match a, b with
      | some x, some y => some (x + y)
      | _, _ => none,
    div_int := fun a n =>
      match a with
      | some x => some (x / n)
      | none => none,
    sprintf_g := fun a =>
      match a with
      | some x => sprintf_d x
      | none => "nan".toList,
    lt := fun a b =>
      match a, b with
      | some x, some y => decide (x < y)
      | _, _ => false,
    le := fun a b =>
      match a, b with
      | some x, some y => decide (x ≤ y)
      | _, _ => false }

/-! ## Notions used to state the properties -/

/-- The substring search at the 0-based coordinate `p`, as `substr_visit`. -/
def substr_at (t : table_t) (str : CStr) (new : selection_t) (p : Int × Int) : selection_t :=
  substr_visit t str p.1 p.2 (p.1 + 1) (p.2 + 1) new

/-- The cell `(r, c)` is the last cell, in the order of the list `l`, that
matches the pattern: it stands in `l`, `col_substr` accepts it, and
`col_substr` refuses every cell of `l` after it. -/
def LastMatch (t : table_t) (str : CStr) (l : List (Int × Int)) (r c : Int) : Prop :=
  ∃ k : Nat, l[k]? = some (r, c) ∧ col_substr (get_cell_content t r c) str = true ∧
    ∀ (j : Nat) (q : Int × Int), k < j → l[j]? = some q →
      col_substr (get_cell_content t q.1 q.2) str = false

/-- The loop invariant of the substring search after the cells `pre`. -/
def SubstrInv (t : table_t) (str : CStr) (pre : List (Int × Int)) (new : selection_t) : Prop :=
  (new.row1 = 0 ∧ new.col1 = 0 ∧
      ∀ p ∈ pre, col_substr (get_cell_content t p.1 p.2) str = false) ∨
  (∃ (k : Nat) (p : Int × Int), pre[k]? = some p ∧ new.row1 = p.1 + 1 ∧ new.col1 = p.2 + 1 ∧
      col_substr (get_cell_content t p.1 p.2) str = true ∧
      ∀ (j : Nat) (q : Int × Int), k < j → pre[j]? = some q →
        col_substr (get_cell_content t q.1 q.2) str = false)

/-! ## The reference classifier, as the specification words it -/

/-- A word, read from a position inside (`quoted = true`) or outside quotes:
a run of plain characters, of quote signs, which switch between inside and
outside, and of backslashes each followed by any one character (or ending the
word), in which every blank stands inside quotes and which ends outside
quotes.  This is the single quote-aware token free of blanks: the blank
(the space character) is the only white space meant; a tab or a newline is a
plain character of the word. -/
inductive RefWord : Bool → CStr → Prop where
  | done : RefWord false []
  | escape_last : RefWord false ['\\']
  | escape (q : Bool) (c : Char) (rest : CStr) :
      (c ≠ ' ' ∨ q = true) → RefWord q rest → RefWord q ('\\' :: c :: rest)
  | quote (q : Bool) (rest : CStr) : RefWord (!q) rest → RefWord q ('"' :: rest)
  | plain (q : Bool) (c : Char) (rest : CStr) :
      c ≠ '\\' → c ≠ '"' → (c ≠ ' ' ∨ q = true) → RefWord q rest → RefWord q (c :: rest)

/-- The fragment is `def _N`, `use _N` or `inc _N` for a single digit `N`, or
the literal `[set]`. -/
def RefVariable (cmd : CStr) : Prop :=
  (∃ name ∈ ["def _".toList, "use _".toList, "inc _".toList], ∃ n : Nat, n < 10 ∧
    cmd = name ++ [Nat.digitChar n]) ∨ cmd = "[set]".toList

/-- The fragment equals one of `irow`, `arow`, `drow`, `icol`, `acol`, `dcol`. -/
def RefModification (cmd : CStr) : Prop :=
  cmd ∈ ["irow".toList, "arow".toList, "drow".toList, "icol".toList, "acol".toList,
    "dcol".toList]

/-- The fragment is `set` followed by one word, or `clear`, or a name among
`swap, sum, avg, count, len` followed by a bracketed part with exactly one
comma. -/
def RefData (cmd : CStr) : Prop :=
  (∃ word : CStr, word ≠ [] ∧ RefWord false word ∧ cmd = "set ".toList ++ word) ∨
  cmd = "clear".toList ∨
  (∃ name ∈ ["swap".toList, "sum".toList, "avg".toList, "count".toList, "len".toList],
    ∃ body : CStr, body.count ',' = 1 ∧ cmd = name ++ " [".toList ++ body ++ "]".toList)

/-- The fragment is bracket-delimited and contains 0, 1 or 3 commas. -/
def RefSelection (cmd : CStr) : Prop :=
  ∃ body : CStr, cmd = "[".toList ++ body ++ "]".toList ∧
    (body.count ',' = 0 ∨ body.count ',' = 1 ∨ body.count ',' = 3)

/-- What `single_word` accepts when the character before was a backslash. -/
def RefEscaped (q : Bool) (s : CStr) : Prop :=
  (s = [] ∧ q = false) ∨
  ∃ (c : Char) (rest : CStr), s = c :: rest ∧ (c ≠ ' ' ∨ q = true) ∧ RefWord q rest

/-! ## The fragments of a script -/

/-- The pieces into which the loop of `load_command` cuts the rest of a
script at each `;`, `current` being the piece begun so far. -/
def split_fragments : CStr → CStr → List CStr
  | [], current => [current]
  | c :: rest, current =>
    if c = ';' then current :: split_fragments rest [] else split_fragments rest (current ++ [c])

/-- The fragments of a script: the pieces between its semicolons, the empty
ones included. -/
def fragments (script : CStr) : List CStr := split_fragments script []

/-- The handling of one fragment by `load_command`, with the fragment as a
whole: a fragment of `CHUNK` characters or more does not fit the buffer
`current`, a shorter one is handled by the body `load_fragment`. -/
def load_checked (f : CStr) (st : call_t × Int) : Except parse_error (call_t × Int) :=
  if CHUNK ≤ f.length then Except.error parse_error.fragment_overflow else load_fragment f st

/-- The call at the start of the loop of `load_command` in `cmd_parse`: no
command, and the default selection as the only selection. -/
def call_seed (delim : CStr) : call_t :=
  { commands := [], selections := [default_selection], delim := delim }

/-- The fragment is a selection fragment: not empty, and classified SELECTION. -/
def is_sel_fragment (f : CStr) : Bool :=
  !f.isEmpty && decide (get_command_type f = cmd_types_t.SELECTION)

/-- The fragment is a command fragment: not empty, and classified VARIABLE,
MODIFICATION or DATA. -/
def is_cmd_fragment (f : CStr) : Bool :=
  !f.isEmpty && decide (get_command_type f ≠ cmd_types_t.SELECTION) &&
    decide (get_command_type f ≠ cmd_types_t.INVALID)

/-- The fragment is a two-argument data command one of whose arguments is
read as a negative number, which `load_data_info` refuses. -/
def negative_argument (f : CStr) : Prop :=
  get_command_type f = cmd_types_t.DATA ∧
    load_data_info f (call_ctor []) = Except.error parse_error.invalid_argument

/-- The fragment is one the parser refuses for its form: it is classified
INVALID, or classified SELECTION and loaded as INVALID_S. -/
def malformed (f : CStr) : Prop :=
  get_command_type f = cmd_types_t.INVALID ∨
    (get_command_type f = cmd_types_t.SELECTION ∧
      (load_selection_info f).type = stype_t.INVALID_S)

/-- The pointer the parser gives to the command built from the fragment `f`
when `n` selections are stored: the address of the last stored selection,
except for an `inc` command, which gets the NULL pointer. -/
def bound_pointer (f : CStr) (n : Nat) : Option sel_ptr :=
  if get_command_type f = cmd_types_t.VARIABLE ∧ begins_with f "inc _".toList = true then none
  else some (sel_ptr.entry (n - 1))

/-! ## Cells of the table -/

/-- The 0-based coordinate `(i, j)` names a cell of the table. -/
@[reducible] def in_table (t : table_t) (i j : Int) : Prop :=
  0 ≤ i ∧ i < no_rows t ∧ 0 ≤ j ∧ j < row_no_cols t i

/-- The widths of the rows of a table, row by row. -/
def shape (t : table_t) : List Nat := t.map List.length

/-- The content of the cell with the 0-based coordinate `p`. -/
def cell_at (t : table_t) (p : Int × Int) : CStr := get_cell_content t p.1 p.2

/-! ## The text of an integer -/

/-- The number of rows that covers the `n` rows of the table and the rows a
command names: `row1` and `row2` of the selection it is dispatched with (when
it has one) and its target row `arg1`. -/
def expand_rows (cmd : command_t) (target : Option selection_t) (n : Int) : Int :=
  match target with
  | none => max n cmd.arg1
  | some s => max (max (max n s.row1) s.row2) cmd.arg1

/-- The number of columns that covers the `m` columns of the table and the
columns a command names: `col1` and `col2` of the selection it is dispatched
with (when it has one) and its target column `arg2`. -/
def expand_cols (cmd : command_t) (target : Option selection_t) (m : Int) : Int :=
  match target with
  | none => max m cmd.arg2
  | some s => max (max (max m s.col1) s.col2) cmd.arg2

/-- The selection `apply_call` dispatches the command with in the state `st`:
what the pointer of the command points to once a MIN, MAX, STR or TMP_VAR
selection has been replaced; `none` for the NULL pointer (and when the
replacement finds no match). -/
def dispatched {α : Type} (L : numeric_lib α) (delim : CStr)
    (st : exec_state) (cmd : command_t) : Option selection_t :=
  match resolve_selection L delim st cmd with
  | Except.ok (p, new, selections) => p.map (deref selections new)
  | Except.error _ => none

/-- The selection `cur` is the selection `parsed` as the commands leave it in
the array of selections: the same kind and first coordinates, and the same
second coordinates unless `parsed` has the open marker there, which `set`,
`clear`, `swap`, `sum`, `avg`, `count` and `use` overwrite with the extent of
the table. -/
def stored_as (parsed cur : selection_t) : Prop :=
  cur.type = parsed.type ∧ cur.row1 = parsed.row1 ∧ cur.col1 = parsed.col1 ∧
    (cur.row2 = parsed.row2 ∨ parsed.row2 = SLASH) ∧
    (cur.col2 = parsed.col2 ∨ parsed.col2 = SLASH)

/-- The outcome `d` of a search for the minimum over the reference selection
`ref` (`none` when the search fails, else the selection found): the search
fails exactly when no cell that `ref` covers is numeric; a selection found is
a CELL at a numeric cell that `ref` covers, and at the first one holding the
smallest value when the comparisons order the values of those cells linearly.
With the comparisons turned round it is the outcome of a search for the
maximum. -/
def scanned_min {α : Type} (lt le : α → α → Bool) (strtod : CStr → α × CStr) (t : table_t)
    (ref : selection_t) (d : Option selection_t) : Prop :=
  (d = none ↔ ∀ p ∈ covered t ref, (get_cell_numeric strtod t p.1 p.2).1 = false) ∧
  ∀ c, d = some c →
    c.type = stype_t.CELL ∧ (c.row1 - 1, c.col1 - 1) ∈ covered t ref ∧
    (get_cell_numeric strtod t (c.row1 - 1) (c.col1 - 1)).1 = true ∧
    (ordered_values lt le (numeric_value strtod t (covered t ref)) →
      FirstMinimum lt le strtod t (covered t ref) (c.row1 - 1) (c.col1 - 1))

/-- The outcome `d` of a search for the pattern over the reference selection
`ref`: the search fails exactly when `col_substr` accepts no cell that `ref`
covers; a selection found is a CELL at the last covered cell it accepts. -/
def scanned_str (t : table_t) (ref : selection_t) (pattern : CStr)
    (d : Option selection_t) : Prop :=
  (d = none ↔ ∀ p ∈ covered t ref, col_substr (get_cell_content t p.1 p.2) pattern = false) ∧
  ∀ c, d = some c →
    c.type = stype_t.CELL ∧ LastMatch t pattern (covered t ref) (c.row1 - 1) (c.col1 - 1)

/-- The selection is one `apply_call` has to search the table for: `[min]`,
`[max]` or `[find ...]`. -/
def searched (s : selection_t) : Prop :=
  s.type = stype_t.MIN ∨ s.type = stype_t.MAX ∨ s.type = stype_t.STR

/-! ## Writing and reading a cell of the file -/

/-- The function `print_cell`: the characters it writes to the file.  The
content is put between double quotes when it contains a delimiter, and a
backslash goes before every backslash and every double quote. -/
def print_cell (content delim : CStr) : CStr :=
  let contains_delim := content.any (fun c => is_delim c delim)
  let body := content.flatMap (fun cur => if cur = '\\' ∨ cur = '"' then ['\\', cur] else [cur])
  if contains_delim then '"' :: (body ++ ['"']) else body

/-- The function `valid_delim`. -/
def valid_delim (delim : CStr) : Bool := delim.all (fun c => !(c == '\\' || c == '"'))

/-- The ways `read_one_cell` does not return: the exit after
`Unbalanced quotes`, and `buffer_lost`, the state after the count of
characters has reached `*size`. -/
inductive read_error where
  | unbalanced_quotes
  | buffer_lost
deriving DecidableEq, Repr

/-- The loop of `read_one_cell` over the characters left in the file, with the
flags `quote_open` and `escaped` and the counter `chars_found`.  The result is
the text stored in `content`, the flag `quote_open`, the character `c` read
last (`none` for EOF) and the rest of the file.  When `chars_found` reaches
`*size` the source calls `realloc` on `content`, its own copy of the pointer,
which it has moved forward by one place for every character stored; the
caller keeps the old pointer.  Nothing is defined from there on; the result is
`buffer_lost`. -/
def read_one_cell_loop (delim : CStr) (size : Nat) :
    CStr → Bool → Bool → Nat → Except read_error (CStr × Bool × Option Char × CStr)
  | [], quote_open, _, _ => Except.ok ([], quote_open, none, [])
  | c :: rest, quote_open, escaped, chars_found =>
    if chars_found + 1 ≥ size then Except.error read_error.buffer_lost
    else if c = '\\' then read_one_cell_loop delim size rest quote_open true (chars_found + 1)
    else if c = '"' ∧ escaped = false then
      read_one_cell_loop delim size rest (!quote_open) escaped (chars_found + 1)
    else if quote_open = false ∧ (c = '\n' ∨ (is_delim c delim = true ∧ escaped = false)) then
      Except.ok ([], quote_open, some c, rest)
    else
      match read_one_cell_loop delim size rest quote_open false (chars_found + 1) with
      | Except.error e => Except.error e
      | Except.ok r => Except.ok (c :: r.1, r.2)

/-- The function `read_one_cell` on the characters left in the file: the text
stored in `content`, whether the result is `EOL` (else `SUCCESS`), and the rest
of the file. -/
def read_one_cell (delim : CStr) (size : Nat) (file : CStr) :
    Except read_error (CStr × Bool × CStr) :=
  match read_one_cell_loop delim size file false false 1 with
  | Except.error e => Except.error e
  | Except.ok (content, quote_open, c, rest) =>
    if quote_open then Except.error read_error.unbalanced_quotes
    else Except.ok (content, c == some '\n', rest)

/-! # Theorems -/

example : strtol "12 34".toList = (12, " 34".toList) := by decide
example : strtol " -7x".toList = (-7, "x".toList) := by decide
example : strtol " _".toList = (0, " _".toList) := by decide
example : to_int 4294967297 = 1 := by decide
example : sprintf_d 0 = ['0'] := by decide
example : sprintf_d 12 = ['1', '2'] := by decide
example : (find_min_cell sample_lib.lt strtod_sample [["5".toList], ["2".toList], ["8".toList]]
    { type := stype_t.COL, row1 := 0, col1 := 1, row2 := 0, col2 := 0, str := none } new_init)
    = (true, { type := stype_t.CELL, row1 := 2, col1 := 1, row2 := 0, col2 := 0, str := none }) := by
  decide
example : load_selection_info "[12,3]".toList =
    { type := stype_t.CELL, row1 := 12, col1 := 3, row2 := 0, col2 := 0, str := none } := by decide
example : load_selection_info "[12,_]".toList =
    { type := stype_t.ROW, row1 := 12, col1 := 0, row2 := 0, col2 := 0, str := none } := by decide
example : load_selection_info "[_,7]".toList =
    { type := stype_t.COL, row1 := 0, col1 := 7, row2 := 0, col2 := 0, str := none } := by decide
example : load_selection_info "[1,2,-,-]".toList =
    { type := stype_t.BOX, row1 := 1, col1 := 2, row2 := -1, col2 := -1, str := none } := by decide
example : load_selection_info "[1,2,-,4]".toList =
    { type := stype_t.BOX, row1 := 1, col1 := 2, row2 := -1, col2 := 4, str := none } := by decide
example : load_selection_info "[1,2,3,-]".toList =
    { type := stype_t.BOX, row1 := 1, col1 := 2, row2 := 3, col2 := -1, str := none } := by decide
example : load_selection_info "[find ab]".toList =
    { type := stype_t.STR, row1 := 0, col1 := 0, row2 := 0, col2 := 0, str := some "ab".toList } := by decide
example : load_selection_info "[min]".toList = { new_init with type := stype_t.MIN } := by decide
example : (load_selection_info "[4294967297,1]".toList).row1 = 1 := by decide
example : get_command_type "[set]".toList = cmd_types_t.VARIABLE := by decide
example : get_command_type "def _3".toList = cmd_types_t.VARIABLE := by decide
example : get_command_type "set a\"b c\"".toList = cmd_types_t.DATA := by decide
example : get_command_type "sum [1,2]".toList = cmd_types_t.DATA := by decide
example : get_command_type "[1,2,3]".toList = cmd_types_t.INVALID := by decide
example : (cmd_parse "[1,2];set x;;inc _1".toList " ".toList).toOption.map (fun c => c.commands.map (fun k => k.selection)) =
  some [some (sel_ptr.entry 1), none] := by decide
example : cmd_parse "sum [-1,1]".toList " ".toList = Except.error parse_error.invalid_argument := by decide
example : (cmd_parse "sum [a,b]".toList " ".toList).toOption.map (fun c => c.commands.map (fun k => (k.arg1, k.arg2))) =
  some [(0, 0)] := by decide
example : irow [["a".toList], ["b".toList], ["c".toList]]
    { type := stype_t.ROW, row1 := 2, col1 := 0, row2 := 0, col2 := 0, str := none } =
    Except.ok [["a".toList], [[]], ["b".toList], ["c".toList]] := by decide
example : arow [["a".toList], ["b".toList], ["c".toList]]
    { type := stype_t.TABLE, row1 := 0, col1 := 0, row2 := 0, col2 := 0, str := none } =
    Except.ok [["a".toList], [[]], ["b".toList], [[]], ["c".toList], [[]]] := by decide
example : irow [["a".toList], ["b".toList], ["c".toList]]
    { type := stype_t.BOX, row1 := 2, col1 := 1, row2 := -1, col2 := 1, str := none } =
    Except.ok [["a".toList], [[]], ["b".toList], [[]], ["c".toList]] := by decide
example : drow [["a".toList], ["b".toList], ["c".toList]]
    { type := stype_t.BOX, row1 := 2, col1 := 1, row2 := -1, col2 := 1, str := none } =
    [["a".toList]] := by decide
example : icol [["a".toList, "b".toList], ["c".toList, "d".toList]]
    { type := stype_t.TABLE, row1 := 0, col1 := 0, row2 := 0, col2 := 0, str := none } =
    [[[], "a".toList, [], "b".toList], [[], "c".toList, [], "d".toList]] := by decide
example : irow [["a".toList]]
    { type := stype_t.ROW, row1 := 1, col1 := 0, row2 := 0, col2 := 0, str := none } =
    Except.error exec_error.uninitialised := by decide
example : run sample_lib " ".toList "[2,1];set x;[_,1];[min];set y".toList
    [["5".toList], ["2".toList], ["1".toList]] =
    Except.ok [["5".toList], ["x".toList], ["y".toList]] := by decide
example : run sample_lib " ".toList "[1,1,-,1];clear;count [5,1]".toList
    [["5".toList], ["2".toList], ["1".toList]] =
    Except.ok [[[]], [[]], [[]], [[]], ["0".toList]] := by decide
/-! ## Lemmas on loops -/

theorem mem_loop_range {lo hi i : Int} : i ∈ loop_range lo hi ↔ lo ≤ i ∧ i < hi := by
  unfold loop_range
  simp only [List.mem_map, List.mem_range]
  constructor
  · rintro ⟨k, hk, rfl⟩
    omega
  · intro h
    exact ⟨(i - lo).toNat, by omega, by omega⟩

theorem mem_rect_cells {r0 r1 c0 c1 : Int} {p : Int × Int} :
    p ∈ rect_cells r0 r1 c0 c1 ↔ (r0 ≤ p.1 ∧ p.1 < r1) ∧ (c0 ≤ p.2 ∧ p.2 < c1) := by
  unfold rect_cells
  simp only [List.mem_flatMap, List.mem_map, mem_loop_range]
  constructor
  · rintro ⟨i, hi, j, hj, rfl⟩
    exact ⟨hi, hj⟩
  · intro h
    exact ⟨p.1, h.1, p.2, h.2, rfl⟩

theorem foldl_rect_cells {σ : Type} (f : σ → Int × Int → σ) (r0 r1 c0 c1 : Int) (s : σ) :
    (rect_cells r0 r1 c0 c1).foldl f s =
      (loop_range r0 r1).foldl
        (fun st i => (loop_range c0 c1).foldl (fun st j => f st (i, j)) st) s := by
  unfold rect_cells
  generalize loop_range r0 r1 = rows
  induction rows generalizing s with
  | nil => rfl
  | cons i rest ih =>
    simp only [List.flatMap_cons, List.foldl_append, List.foldl_cons, List.foldl_map]
    exact ih _

theorem loop_range_one (a : Int) : loop_range (a - 1) a = [a - 1] := by
  unfold loop_range
  have : (a - (a - 1)).toNat = 1 := by omega
  rw [this]
  simp [List.range_succ]

/-! ## The minimum search -/

theorem min_at_type {α : Type} (lt : α → α → Bool) (strtod : CStr → α × CStr) (t : table_t)
    (st : Option α × selection_t) (p : Int × Int) :
    (min_at lt strtod t st p).2.type = st.2.type := by
  unfold min_at min_visit
  by_cases hp : (get_cell_numeric strtod t p.1 p.2).1 = true
  · simp only [hp, if_true]
    cases st.1 with
    | none => rfl
    | some m =>
      by_cases hlt : lt (get_cell_numeric strtod t p.1 p.2).2 m = true
      · simp only [hlt, if_true]
      · simp only [hlt, if_false]
        rfl
  · have hp' : (get_cell_numeric strtod t p.1 p.2).1 = false := by simpa using hp
    simp only [hp', Bool.false_eq_true, if_false]

theorem foldl_min_at_type {α : Type} (lt : α → α → Bool) (strtod : CStr → α × CStr)
    (t : table_t) (l : List (Int × Int)) (st : Option α × selection_t) :
    (l.foldl (min_at lt strtod t) st).2.type = st.2.type := by
  induction l generalizing st with
  | nil => rfl
  | cons p rest ih => rw [List.foldl_cons, ih, min_at_type]

theorem ordered_values_mono {α : Type} (lt le : α → α → Bool) (S T : α → Prop)
    (h : ∀ v, T v → S v) (ho : ordered_values lt le S) : ordered_values lt le T :=
  ⟨fun a b ha hb => ho.1 a b (h a ha) (h b hb),
    fun a b c ha hb hc => ho.2.1 a b c (h a ha) (h b hb) (h c hc),
    fun a b ha hb => ho.2.2 a b (h a ha) (h b hb)⟩

theorem ordered_values_flip {α : Type} (lt le : α → α → Bool) (S : α → Prop)
    (ho : ordered_values lt le S) :
    ordered_values (fun a b => lt b a) (fun a b => le b a) S :=
  ⟨fun a b ha hb => (ho.1 a b ha hb).symm,
    fun a b c ha hb hc h1 h2 => ho.2.1 c b a hc hb ha h2 h1,
    fun a b ha hb => ho.2.2 b a hb ha⟩

theorem numeric_value_append {α : Type} (strtod : CStr → α × CStr) (t : table_t)
    (pre : List (Int × Int)) (p : Int × Int) (v : α) (h : numeric_value strtod t pre v) :
    numeric_value strtod t (pre ++ [p]) v := by
  obtain ⟨q, hq, hn, e⟩ := h
  exact ⟨q, List.mem_append_left _ hq, hn, e⟩

theorem numeric_value_of_mem {α : Type} (strtod : CStr → α × CStr) (t : table_t)
    (l : List (Int × Int)) (q : Int × Int) (hq : q ∈ l)
    (hn : (get_cell_numeric strtod t q.1 q.2).1 = true) :
    numeric_value strtod t l (get_cell_numeric strtod t q.1 q.2).2 :=
  ⟨q, hq, hn, rfl⟩

theorem MinInv_step {α : Type} (lt le : α → α → Bool) (strtod : CStr → α × CStr) (t : table_t)
    (pre : List (Int × Int)) (st : Option α × selection_t) (p : Int × Int)
    (h : MinInv lt le strtod t pre st) :
    MinInv lt le strtod t (pre ++ [p]) (min_at lt strtod t st p) := by
  unfold min_at min_visit
  by_cases hp : (get_cell_numeric strtod t p.1 p.2).1 = true
  · simp only [hp, if_true]
    have hSp : numeric_value strtod t (pre ++ [p]) (get_cell_numeric strtod t p.1 p.2).2 :=
      numeric_value_of_mem strtod t _ p (by simp) hp
    rcases h with ⟨h1, -, -, hall⟩ | ⟨k, q, hk, h1, hr, hc, hq, hord⟩
    · rw [h1]
      right
      refine ⟨pre.length, p, by simp, rfl, rfl, rfl, hp, ?_⟩
      intro ho
      constructor
      · intro q hq hqn
        rcases List.mem_append.1 hq with hq | hq
        · rw [hall q hq] at hqn
          exact absurd hqn (by simp)
        · rw [List.mem_singleton.1 hq]
          rcases ho.1 _ _ hSp hSp with h | h <;> exact h
      · intro j q hj hjq hqn
        rw [List.getElem?_append_left hj] at hjq
        rw [hall q (List.getElem?_mem hjq)] at hqn
        exact absurd hqn (by simp)
    · rw [h1]
      have hklt : k < pre.length := by
        by_contra hcon
        rw [List.getElem?_eq_none (by omega)] at hk
        exact absurd hk (by simp)
      have hSq : numeric_value strtod t (pre ++ [p]) (get_cell_numeric strtod t q.1 q.2).2 :=
        numeric_value_of_mem strtod t _ q
          (List.mem_append_left _ (List.getElem?_mem hk)) hq
      by_cases hlt : lt (get_cell_numeric strtod t p.1 p.2).2
          (get_cell_numeric strtod t q.1 q.2).2 = true
      · simp only [hlt, if_true]
        right
        refine ⟨pre.length, p, by simp, rfl, rfl, rfl, hp, ?_⟩
        intro ho
        obtain ⟨hmin, -⟩ := hord (ordered_values_mono lt le _ _
          (fun v hv => numeric_value_append strtod t pre p v hv) ho)
        have hnle : le (get_cell_numeric strtod t q.1 q.2).2
            (get_cell_numeric strtod t p.1 p.2).2 = false := (ho.2.2 _ _ hSp hSq).1 hlt
        have hle : le (get_cell_numeric strtod t p.1 p.2).2
            (get_cell_numeric strtod t q.1 q.2).2 = true := by
          rcases ho.1 _ _ hSp hSq with h | h
          · exact h
          · rw [hnle] at h
            exact absurd h (by simp)
        constructor
        · intro q' hq' hqn
          rcases List.mem_append.1 hq' with hq' | hq'
          · exact ho.2.1 _ _ _ hSp hSq
              (numeric_value_of_mem strtod t _ q' (List.mem_append_left _ hq') hqn)
              hle (hmin q' hq' hqn)
          · rw [List.mem_singleton.1 hq']
            rcases ho.1 _ _ hSp hSp with h | h <;> exact h
        · intro j q' hj hjq hqn
          rw [List.getElem?_append_left hj] at hjq
          have hq'mem : q' ∈ pre := List.getElem?_mem hjq
          have hSq' := numeric_value_of_mem strtod t (pre ++ [p]) q'
            (List.mem_append_left _ hq'mem) hqn
          rw [ho.2.2 _ _ hSp hSq']
          cases hc' : le (get_cell_numeric strtod t q'.1 q'.2).2
              (get_cell_numeric strtod t p.1 p.2).2
          · rfl
          · have := ho.2.1 _ _ _ hSq hSq' hSp (hmin q' hq'mem hqn) hc'
            rw [hnle] at this
            exact absurd this (by simp)
      · simp only [hlt, if_false]
        right
        refine ⟨k, q, ?_, h1, hr, hc, hq, ?_⟩
        · rw [List.getElem?_append_left hklt]
          exact hk
        · intro ho
          obtain ⟨hmin, hfirst⟩ := hord (ordered_values_mono lt le _ _
            (fun v hv => numeric_value_append strtod t pre p v hv) ho)
          constructor
          · intro q' hq' hqn
            rcases List.mem_append.1 hq' with hq' | hq'
            · exact hmin q' hq' hqn
            · rw [List.mem_singleton.1 hq']
              cases hc' : le (get_cell_numeric strtod t q.1 q.2).2
                  (get_cell_numeric strtod t p.1 p.2).2
              · exact absurd ((ho.2.2 _ _ hSp hSq).2 hc') hlt
              · rfl
          · intro j q' hj hjq hqn
            rw [List.getElem?_append_left (by omega)] at hjq
            exact hfirst j q' hj hjq hqn
  · have hp' : (get_cell_numeric strtod t p.1 p.2).1 = false := by simpa using hp
    simp only [hp', Bool.false_eq_true, if_false]
    rcases h with ⟨h1, hr, hc, hall⟩ | ⟨k, q, hk, h1, hr, hc, hq, hord⟩
    · left
      refine ⟨h1, hr, hc, ?_⟩
      intro q hq
      rcases List.mem_append.1 hq with hq | hq
      · exact hall q hq
      · rw [List.mem_singleton.1 hq]
        exact hp'
    · have hklt : k < pre.length := by
        by_contra hcon
        rw [List.getElem?_eq_none (by omega)] at hk
        exact absurd hk (by simp)
      right
      refine ⟨k, q, ?_, h1, hr, hc, hq, ?_⟩
      · rw [List.getElem?_append_left hklt]
        exact hk
      · intro ho
        obtain ⟨hmin, hfirst⟩ := hord (ordered_values_mono lt le _ _
          (fun v hv => numeric_value_append strtod t pre p v hv) ho)
        constructor
        · intro q' hq' hqn
          rcases List.mem_append.1 hq' with hq' | hq'
          · exact hmin q' hq' hqn
          · rw [List.mem_singleton.1 hq', hp'] at hqn
            exact absurd hqn (by simp)
        · intro j q' hj hjq hqn
          rw [List.getElem?_append_left (by omega)] at hjq
          exact hfirst j q' hj hjq hqn

theorem MinInv_foldl {α : Type} (lt le : α → α → Bool) (strtod : CStr → α × CStr)
    (t : table_t) (l pre : List (Int × Int)) (st : Option α × selection_t)
    (h : MinInv lt le strtod t pre st) :
    MinInv lt le strtod t (pre ++ l) (l.foldl (min_at lt strtod t) st) := by
  induction l generalizing pre st with
  | nil => simpa using h
  | cons p rest ih =>
    have := ih (pre ++ [p]) (min_at lt strtod t st p) (MinInv_step lt le strtod t pre st p h)
    simpa using this

theorem min_search_final {α : Type} (lt le : α → α → Bool) (strtod : CStr → α × CStr)
    (t : table_t) (l : List (Int × Int)) (new : selection_t)
    (h0 : new.row1 = 0 ∧ new.col1 = 0) (hpos : ∀ p ∈ l, 0 ≤ p.1 ∧ 0 ≤ p.2) :
    ((l.foldl (min_at lt strtod t) (none, new)).2.row1 = 0 ∧
      (l.foldl (min_at lt strtod t) (none, new)).2.col1 = 0 ∧
      ∀ p ∈ l, (get_cell_numeric strtod t p.1 p.2).1 = false) ∨
    ((l.foldl (min_at lt strtod t) (none, new)).2.row1 ≠ 0 ∧
      (l.foldl (min_at lt strtod t) (none, new)).2.col1 ≠ 0 ∧
      ((l.foldl (min_at lt strtod t) (none, new)).2.row1 - 1,
        (l.foldl (min_at lt strtod t) (none, new)).2.col1 - 1) ∈ l ∧
      (get_cell_numeric strtod t ((l.foldl (min_at lt strtod t) (none, new)).2.row1 - 1)
        ((l.foldl (min_at lt strtod t) (none, new)).2.col1 - 1)).1 = true ∧
      (ordered_values lt le (numeric_value strtod t l) →
        FirstMinimum lt le strtod t l ((l.foldl (min_at lt strtod t) (none, new)).2.row1 - 1)
          ((l.foldl (min_at lt strtod t) (none, new)).2.col1 - 1))) := by
  have hinv := MinInv_foldl lt le strtod t l [] (none, new)
    (Or.inl ⟨rfl, h0.1, h0.2, by simp⟩)
  rw [List.nil_append] at hinv
  rcases hinv with ⟨-, hr, hc, hall⟩ | ⟨k, p, hk, -, hr, hc, hq, hord⟩
  · exact Or.inl ⟨hr, hc, hall⟩
  · right
    have hp := hpos p (List.getElem?_mem hk)
    have e1 : (l.foldl (min_at lt strtod t) (none, new)).2.row1 - 1 = p.1 := by omega
    have e2 : (l.foldl (min_at lt strtod t) (none, new)).2.col1 - 1 = p.2 := by omega
    refine ⟨by omega, by omega, ?_, ?_, ?_⟩
    · rw [e1, e2]
      exact List.getElem?_mem hk
    · rw [e1, e2]
      exact hq
    · intro ho
      rw [e1, e2]
      obtain ⟨hmin, hfirst⟩ := hord ho
      exact ⟨k, hk, hq, hmin, hfirst⟩

theorem ite_pair_snd {β : Type} (c : Prop) [Decidable c] (a b : Bool) (x : β) :
    (if c then (a, x) else (b, x)).2 = x := by
  split <;> rfl

theorem find_min_cell_eq_scan {α : Type} (lt : α → α → Bool) (strtod : CStr → α × CStr)
    (t : table_t) (old : selection_t) (new : selection_t)
    (hty : old.type = stype_t.ROW ∨ old.type = stype_t.COL ∨ old.type = stype_t.BOX ∨
      old.type = stype_t.TABLE) :
    (find_min_cell lt strtod t old new).2 =
      ((covered t old).foldl (min_at lt strtod t) (none, { new with type := stype_t.CELL })).2 := by
  unfold find_min_cell covered
  rcases hty with h | h | h | h <;> rw [h] <;> simp only []
  · rw [foldl_rect_cells, loop_range_one]
    simp only [List.foldl_cons, List.foldl_nil, min_at, sub_add_cancel]
    exact ite_pair_snd _ _ _ _
  · rw [foldl_rect_cells]
    simp only [loop_range_one, List.foldl_cons, List.foldl_nil, min_at, sub_add_cancel]
    exact ite_pair_snd _ _ _ _
  · rw [foldl_rect_cells]
    simp only [min_at]
    exact ite_pair_snd _ _ _ _
  · rw [foldl_rect_cells]
    simp only [min_at]
    exact ite_pair_snd _ _ _ _

theorem ite_pair_fst {β : Type} (c : Prop) [Decidable c] (x y : β) :
    (if c then (false, x) else (true, y)).1 = true ↔ ¬ c := by
  split <;> simp [*]

theorem find_min_cell_flag {α : Type} (lt : α → α → Bool) (strtod : CStr → α × CStr)
    (t : table_t) (old : selection_t) (new : selection_t)
    (hty : old.type = stype_t.ROW ∨ old.type = stype_t.COL ∨ old.type = stype_t.BOX ∨
      old.type = stype_t.TABLE)
    (hz : ((covered t old).foldl (min_at lt strtod t)
        (none, { new with type := stype_t.CELL })).2.row1 = 0 ↔
      ((covered t old).foldl (min_at lt strtod t)
        (none, { new with type := stype_t.CELL })).2.col1 = 0) :
    (find_min_cell lt strtod t old new).1 = true ↔
      ((covered t old).foldl (min_at lt strtod t)
        (none, { new with type := stype_t.CELL })).2.row1 ≠ 0 := by
  revert hz
  unfold find_min_cell covered
  rcases hty with h | h | h | h <;> rw [h] <;> simp only []
  · rw [foldl_rect_cells, loop_range_one]
    simp only [List.foldl_cons, List.foldl_nil, min_at, sub_add_cancel]
    intro hz
    rw [ite_pair_fst]
    exact not_congr hz.symm
  · rw [foldl_rect_cells]
    simp only [loop_range_one, List.foldl_cons, List.foldl_nil, min_at, sub_add_cancel]
    intro hz
    rw [ite_pair_fst]
  · rw [foldl_rect_cells]
    simp only [min_at]
    intro hz
    rw [ite_pair_fst, ← hz, or_self]
  · rw [foldl_rect_cells]
    simp only [min_at]
    intro hz
    rw [ite_pair_fst, ← hz, or_self]

theorem covered_nonneg (t : table_t) (old : selection_t) (hin : inside t old) :
    ∀ p ∈ covered t old, 0 ≤ p.1 ∧ 0 ≤ p.2 := by
  intro p hp
  unfold inside at hin
  unfold covered at hp
  cases h : old.type <;> rw [h] at hin hp <;> simp only [] at hin hp
  · rw [List.mem_singleton.1 hp]
    simp only []
    omega
  · rw [mem_rect_cells] at hp
    omega
  · rw [mem_rect_cells] at hp
    omega
  · rw [mem_rect_cells] at hp
    omega
  · rw [mem_rect_cells] at hp
    omega

theorem find_min_cell_spec {α : Type} (lt le : α → α → Bool) (strtod : CStr → α × CStr)
    (t : table_t) (old : selection_t) (hin : inside t old) :
    ((find_min_cell lt strtod t old new_init).1 = true ↔
        ∃ p ∈ covered t old, (get_cell_numeric strtod t p.1 p.2).1 = true) ∧
    ((find_min_cell lt strtod t old new_init).1 = true →
        (find_min_cell lt strtod t old new_init).2.type = stype_t.CELL ∧
        ((find_min_cell lt strtod t old new_init).2.row1 - 1,
          (find_min_cell lt strtod t old new_init).2.col1 - 1) ∈ covered t old ∧
        (get_cell_numeric strtod t ((find_min_cell lt strtod t old new_init).2.row1 - 1)
          ((find_min_cell lt strtod t old new_init).2.col1 - 1)).1 = true ∧
        (ordered_values lt le (numeric_value strtod t (covered t old)) →
          FirstMinimum lt le strtod t (covered t old)
            ((find_min_cell lt strtod t old new_init).2.row1 - 1)
            ((find_min_cell lt strtod t old new_init).2.col1 - 1))) := by
  by_cases hcell : old.type = stype_t.CELL
  · unfold find_min_cell covered FirstMinimum
    rw [hcell]
    simp only []
    by_cases hn : (get_cell_numeric strtod t (old.row1 - 1) (old.col1 - 1)).1 = true
    · simp only [hn, if_true, List.mem_singleton, exists_eq_left, true_and, forall_true_left]
      intro ho
      refine ⟨0, rfl, ?_, ?_⟩
      · intro q hq _
        rw [hq]
        have hS : numeric_value strtod t [(old.row1 - 1, old.col1 - 1)]
            (get_cell_numeric strtod t (old.row1 - 1) (old.col1 - 1)).2 :=
          ⟨(old.row1 - 1, old.col1 - 1), by simp, hn, rfl⟩
        rcases ho.1 _ _ hS hS with h | h <;> exact h
      · intro j q hj
        omega
    · simp [hn]
  · have hty : old.type = stype_t.ROW ∨ old.type = stype_t.COL ∨ old.type = stype_t.BOX ∨
        old.type = stype_t.TABLE := by
      unfold inside at hin
      cases h : old.type <;> simp_all
    have hfin := min_search_final lt le strtod t (covered t old)
      { new_init with type := stype_t.CELL } ⟨rfl, rfl⟩ (covered_nonneg t old hin)
    have hz : ((covered t old).foldl (min_at lt strtod t)
        (none, { new_init with type := stype_t.CELL })).2.row1 = 0 ↔
        ((covered t old).foldl (min_at lt strtod t)
          (none, { new_init with type := stype_t.CELL })).2.col1 = 0 := by
      rcases hfin with ⟨h1, h2, -⟩ | ⟨h1, h2, -⟩
      · simp [h1, h2]
      · simp [h1, h2]
    rw [find_min_cell_flag lt strtod t old new_init hty hz,
      find_min_cell_eq_scan lt strtod t old new_init hty]
    rcases hfin with ⟨h1, h2, hall⟩ | ⟨h1, h2, hmem, hnum, hfm⟩
    · refine ⟨?_, fun hne => absurd h1 hne⟩
      constructor
      · intro hne
        exact absurd h1 hne
      · rintro ⟨p, hp, hpn⟩
        rw [hall p hp] at hpn
        exact absurd hpn (by simp)
    · refine ⟨?_, fun _ => ⟨?_, hmem, hnum, hfm⟩⟩
      · constructor
        · intro _
          exact ⟨_, hmem, hnum⟩
        · intro _
          exact h1
      · rw [foldl_min_at_type]

theorem find_max_cell_eq_min {α : Type} (lt : α → α → Bool) (strtod : CStr → α × CStr)
    (t : table_t) (old new : selection_t) :
    find_max_cell lt strtod t old new = find_min_cell (fun a b => lt b a) strtod t old new :=
  rfl

theorem sample_lib_ordered (S : Int → Prop) :
    ordered_values sample_lib.lt sample_lib.le S := by
  refine ⟨?_, ?_, ?_⟩
  · intro a b _ _
    simp only [sample_lib, decide_eq_true_eq]
    omega
  · intro a b c _ _ _
    simp only [sample_lib, decide_eq_true_eq]
    omega
  · intro a b _ _
    simp only [sample_lib, decide_eq_true_eq, decide_eq_false_iff_not]
    omega

/-- C1, counterexample: with a conversion that reads the cell `nan` as a NaN
(as `strtod` does), in the column `nan / 1` the cell `nan` is numeric and the
search over the column `[_,1]` succeeds with row 1: every comparison with the
NaN is false, so the `1` of row 2 never replaces it.  Row 1 does not hold the
smallest value; with the NaN in it the column has no smallest value at all. -/
theorem find_min_cell_nan :
    find_min_cell nan_lib.lt nan_lib.strtod [["nan".toList], ["1".toList]]
        { type := stype_t.COL, row1 := 0, col1 := 1, row2 := 0, col2 := 0, str := none }
        new_init =
      (true, { type := stype_t.CELL, row1 := 1, col1 := 1, row2 := 0, col2 := 0,
               str := none }) ∧
    get_cell_numeric nan_lib.strtod [["nan".toList], ["1".toList]] 0 0 = (true, none) ∧
    get_cell_numeric nan_lib.strtod [["nan".toList], ["1".toList]] 1 0 = (true, some 1) ∧
    (∀ r c : Int, ¬ FirstMinimum nan_lib.lt nan_lib.le nan_lib.strtod
      [["nan".toList], ["1".toList]]
      (covered [["nan".toList], ["1".toList]]
        { type := stype_t.COL, row1 := 0, col1 := 1, row2 := 0, col2 := 0, str := none })
      r c) ∧
    run nan_lib " ".toList "[_,1];[min];set x".toList [["nan".toList], ["1".toList]] =
      Except.ok [["x".toList], ["1".toList]] := by
  refine ⟨by decide, by decide, by decide, ?_, by decide⟩
  rintro r c ⟨k, -, -, hmin, -⟩
  have h := hmin (0, 0) (by decide) (by decide)
  have e : (get_cell_numeric nan_lib.strtod [["nan".toList], ["1".toList]] 0 0).2 = none := by
    decide
  simp only [] at h
  rw [e] at h
  revert h
  cases (get_cell_numeric nan_lib.strtod [["nan".toList], ["1".toList]] r c).2 <;>
    simp [nan_lib]

/-- C1, amended: for a rectangular table and a reference selection of shape
Cell, Row, Col, Box or Table lying inside it, `find_min_cell` succeeds exactly
when some covered cell is numeric; on success the result is a CELL whose
coordinate is a covered numeric cell, and, when the comparisons order the
values of the covered numeric cells linearly (none of them is a NaN), it is
the first covered numeric cell, in row-major order, holding the smallest
value. -/
theorem find_min_cell_first_minimum {α : Type} (L : numeric_lib α)
    (t : table_t) (m : Nat) (old : selection_t)
    (_hrect : rectangular t m) (hin : inside t old) :
    ((find_min_cell L.lt L.strtod t old new_init).1 = true ↔
        ∃ p ∈ covered t old, (get_cell_numeric L.strtod t p.1 p.2).1 = true) ∧
    ((find_min_cell L.lt L.strtod t old new_init).1 = true →
        (find_min_cell L.lt L.strtod t old new_init).2.type = stype_t.CELL ∧
        ((find_min_cell L.lt L.strtod t old new_init).2.row1 - 1,
          (find_min_cell L.lt L.strtod t old new_init).2.col1 - 1) ∈ covered t old ∧
        (get_cell_numeric L.strtod t ((find_min_cell L.lt L.strtod t old new_init).2.row1 - 1)
          ((find_min_cell L.lt L.strtod t old new_init).2.col1 - 1)).1 = true ∧
        (ordered_values L.lt L.le (numeric_value L.strtod t (covered t old)) →
          FirstMinimum L.lt L.le L.strtod t (covered t old)
            ((find_min_cell L.lt L.strtod t old new_init).2.row1 - 1)
            ((find_min_cell L.lt L.strtod t old new_init).2.col1 - 1))) :=
  find_min_cell_spec L.lt L.le L.strtod t old hin

/-- C1, witness of the amended claim: in the column `[_,1]` holding 5, 2, 8
the search succeeds and returns the cell of row 2, column 1, the first minimum
of the column. -/
theorem find_min_cell_first_minimum_witness :
    find_min_cell sample_lib.lt sample_lib.strtod [["5".toList], ["2".toList], ["8".toList]]
        { type := stype_t.COL, row1 := 0, col1 := 1, row2 := 0, col2 := 0, str := none } new_init =
      (true, { type := stype_t.CELL, row1 := 2, col1 := 1, row2 := 0, col2 := 0, str := none }) ∧
    FirstMinimum sample_lib.lt sample_lib.le sample_lib.strtod
      [["5".toList], ["2".toList], ["8".toList]]
      (covered [["5".toList], ["2".toList], ["8".toList]]
        { type := stype_t.COL, row1 := 0, col1 := 1, row2 := 0, col2 := 0, str := none })
      (2 - 1) (1 - 1) :=
  ⟨by decide,
    ((find_min_cell_first_minimum sample_lib [["5".toList], ["2".toList], ["8".toList]] 1
      { type := stype_t.COL, row1 := 0, col1 := 1, row2 := 0, col2 := 0, str := none }
      (by unfold rectangular; decide) (by unfold inside; decide)).2 (by decide)).2.2.2
      (sample_lib_ordered _)⟩

/-! ## The substring test -/

theorem col_substr_loop_infix (value : CStr) (rest pre : CStr) (m : Nat)
    (hm : m ≤ value.length) (hpre : value.take m <:+ pre)
    (h : col_substr_loop value rest m = true) : value <:+: pre ++ rest := by
  induction rest generalizing pre m with
  | nil =>
    simp only [col_substr_loop, beq_iff_eq] at h
    rw [h, List.take_length] at hpre
    rw [List.append_nil]
    exact hpre.isInfix
  | cons c rest ih =>
    rw [col_substr_loop] at h
    by_cases hml : m = value.length
    · rw [hml, List.take_length] at hpre
      exact List.IsInfix.trans hpre.isInfix (List.infix_append' [] pre (c :: rest))
    · rw [if_neg hml] at h
      have hlt : m < value.length := lt_of_le_of_ne hm hml
      by_cases hc : (char_at value m == c) = true
      · rw [if_pos hc] at h
        have hc' : value[m] = c := by
          have := beq_iff_eq.1 hc
          unfold char_at at this
          rw [List.getD_eq_getElem _ _ hlt] at this
          exact this
        have hnew : value.take (m + 1) <:+ pre ++ [c] := by
          rw [List.take_succ, List.getElem?_eq_getElem hlt, hc']
          obtain ⟨u, hu⟩ := hpre
          exact ⟨u, by simp [← hu]⟩
        have := ih (pre ++ [c]) (m + 1) hlt hnew h
        simpa using this
      · rw [if_neg hc] at h
        have := ih (pre ++ [c]) 0 (Nat.zero_le _) (by simp) h
        simpa using this

theorem col_substr_loop_of_suffix (value tail : CStr) (k : Nat) :
    ∀ m, m + k = value.length → col_substr_loop value (value.drop m ++ tail) m = true := by
  induction k with
  | zero =>
    intro m hm
    have hm' : m = value.length := by omega
    rw [hm', List.drop_length, List.nil_append]
    cases tail with
    | nil => simp [col_substr_loop]
    | cons c rest => simp [col_substr_loop]
  | succ k ih =>
    intro m hm
    have hlt : m < value.length := by omega
    rw [List.drop_eq_getElem_cons hlt, List.cons_append, col_substr_loop,
      if_neg (by omega)]
    have hc : (char_at value m == value[m]) = true := by
      unfold char_at
      rw [List.getD_eq_getElem _ _ hlt]
      exact beq_self_eq_true _
    rw [if_pos hc]
    exact ih (m + 1) (by omega)

/-- C2, counterexample: `ab` is an order-preserving subsequence of `axb`, yet
`col_substr` refuses it. -/
theorem col_substr_not_subsequence :
    List.Sublist "ab".toList "axb".toList ∧ col_substr "axb".toList "ab".toList = false := by
  decide

/-- C2, amended: `col_substr` accepts a pattern only if the pattern stands in
the cell as a contiguous substring, and it accepts every pattern the cell
content begins with. -/
theorem col_substr_contiguous (content value : CStr) :
    (col_substr content value = true → value <:+: content) ∧
    (value <+: content → col_substr content value = true) := by
  constructor
  · intro h
    unfold col_substr at h
    split at h
    · exact absurd h (by simp)
    · have := col_substr_loop_infix value content [] 0 (Nat.zero_le _) (by simp) h
      simpa using this
  · rintro ⟨tail, rfl⟩
    unfold col_substr
    rw [if_neg (by simp)]
    have := col_substr_loop_of_suffix value tail value.length 0 (by simp)
    simpa using this

/-- C2, witness of the amended claim: `ab` is found in `xab` and stands there
contiguously; `abx` begins with `ab` and `ab` is found in it. -/
theorem col_substr_contiguous_witness :
    "ab".toList <:+: "xab".toList ∧ col_substr "abx".toList "ab".toList = true :=
  ⟨(col_substr_contiguous "xab".toList "ab".toList).1 (by decide),
    (col_substr_contiguous "abx".toList "ab".toList).2 ⟨"x".toList, rfl⟩⟩

/-! ## The substring search -/

theorem substr_at_type (t : table_t) (str : CStr) (new : selection_t) (p : Int × Int) :
    (substr_at t str new p).type = new.type := by
  unfold substr_at substr_visit
  split <;> rfl

theorem foldl_substr_at_type (t : table_t) (str : CStr) (l : List (Int × Int))
    (new : selection_t) : (l.foldl (substr_at t str) new).type = new.type := by
  induction l generalizing new with
  | nil => rfl
  | cons p rest ih => rw [List.foldl_cons, ih, substr_at_type]

theorem SubstrInv_step (t : table_t) (str : CStr) (pre : List (Int × Int))
    (new : selection_t) (p : Int × Int) (h : SubstrInv t str pre new) :
    SubstrInv t str (pre ++ [p]) (substr_at t str new p) := by
  unfold substr_at substr_visit
  by_cases hp : col_substr (get_cell_content t p.1 p.2) str = true
  · rw [if_pos hp]
    right
    refine ⟨pre.length, p, by simp, rfl, rfl, hp, ?_⟩
    intro j q hj hjq
    rw [List.getElem?_eq_none (by simp; omega)] at hjq
    exact absurd hjq (by simp)
  · rw [if_neg hp]
    have hp' : col_substr (get_cell_content t p.1 p.2) str = false := by simpa using hp
    rcases h with ⟨hr, hc, hall⟩ | ⟨k, q, hk, hr, hc, hq, hlast⟩
    · left
      refine ⟨hr, hc, ?_⟩
      intro q hq
      rcases List.mem_append.1 hq with hq | hq
      · exact hall q hq
      · rw [List.mem_singleton.1 hq]
        exact hp'
    · have hklt : k < pre.length := by
        by_contra hcon
        rw [List.getElem?_eq_none (by omega)] at hk
        exact absurd hk (by simp)
      right
      refine ⟨k, q, ?_, hr, hc, hq, ?_⟩
      · rw [List.getElem?_append_left hklt]
        exact hk
      · intro j q' hj hjq
        by_cases hjl : j < pre.length
        · rw [List.getElem?_append_left hjl] at hjq
          exact hlast j q' hj hjq
        · have hmem := List.getElem?_mem hjq
          rcases List.mem_append.1 hmem with hm | hm
          · obtain ⟨i, hi⟩ := List.getElem?_of_mem hm
            by_cases hij : i = j
            · subst hij
              have : i < pre.length := by
                by_contra hcon
                rw [List.getElem?_eq_none (by omega)] at hi
                exact absurd hi (by simp)
              exact absurd this hjl
            · have hjeq : j = pre.length := by
                by_contra hne
                rw [List.getElem?_eq_none (by simp; omega)] at hjq
                exact absurd hjq (by simp)
              rw [hjeq, List.getElem?_append_right (le_refl _)] at hjq
              simp at hjq
              rw [← hjq]
              exact hp'
          · rw [List.mem_singleton.1 hm]
            exact hp'

theorem SubstrInv_foldl (t : table_t) (str : CStr) (l pre : List (Int × Int))
    (new : selection_t) (h : SubstrInv t str pre new) :
    SubstrInv t str (pre ++ l) (l.foldl (substr_at t str) new) := by
  induction l generalizing pre new with
  | nil => simpa using h
  | cons p rest ih =>
    have := ih (pre ++ [p]) (substr_at t str new p) (SubstrInv_step t str pre new p h)
    simpa using this

theorem substr_search_final (t : table_t) (str : CStr) (l : List (Int × Int))
    (new : selection_t) (h0 : new.row1 = 0 ∧ new.col1 = 0)
    (hpos : ∀ p ∈ l, 0 ≤ p.1 ∧ 0 ≤ p.2) :
    ((l.foldl (substr_at t str) new).row1 = 0 ∧ (l.foldl (substr_at t str) new).col1 = 0 ∧
      ∀ p ∈ l, col_substr (get_cell_content t p.1 p.2) str = false) ∨
    ((l.foldl (substr_at t str) new).row1 ≠ 0 ∧ (l.foldl (substr_at t str) new).col1 ≠ 0 ∧
      LastMatch t str l ((l.foldl (substr_at t str) new).row1 - 1)
        ((l.foldl (substr_at t str) new).col1 - 1)) := by
  have hinv := SubstrInv_foldl t str l [] new (Or.inl ⟨h0.1, h0.2, by simp⟩)
  rw [List.nil_append] at hinv
  rcases hinv with ⟨hr, hc, hall⟩ | ⟨k, p, hk, hr, hc, hq, hlast⟩
  · exact Or.inl ⟨hr, hc, hall⟩
  · right
    have hp := hpos p (List.getElem?_mem hk)
    have e1 : (l.foldl (substr_at t str) new).row1 - 1 = p.1 := by omega
    have e2 : (l.foldl (substr_at t str) new).col1 - 1 = p.2 := by omega
    refine ⟨by omega, by omega, ?_⟩
    rw [e1, e2]
    exact ⟨k, hk, hq, hlast⟩

theorem find_substr_cell_eq_scan (delim : CStr) (t : table_t) (old current new : selection_t)
    (hty : old.type = stype_t.ROW ∨ old.type = stype_t.COL ∨ old.type = stype_t.BOX ∨
      old.type = stype_t.TABLE) :
    (find_substr_cell delim t old current new).2 =
      ((covered t old).foldl (substr_at t (unescape_string delim (current.str.getD [])))
        { new with type := stype_t.CELL }, unescape_string delim (current.str.getD [])) := by
  unfold find_substr_cell covered
  rcases hty with h | h | h | h <;> rw [h] <;> simp only []
  · rw [foldl_rect_cells, loop_range_one]
    simp only [List.foldl_cons, List.foldl_nil, substr_at, sub_add_cancel]
    exact ite_pair_snd _ _ _ _
  · rw [foldl_rect_cells]
    simp only [loop_range_one, List.foldl_cons, List.foldl_nil, substr_at, sub_add_cancel]
    exact ite_pair_snd _ _ _ _
  · rw [foldl_rect_cells]
    simp only [substr_at]
    exact ite_pair_snd _ _ _ _
  · rw [foldl_rect_cells]
    simp only [substr_at]
    exact ite_pair_snd _ _ _ _

theorem find_substr_cell_flag (delim : CStr) (t : table_t) (old current new : selection_t)
    (hty : old.type = stype_t.ROW ∨ old.type = stype_t.COL ∨ old.type = stype_t.BOX ∨
      old.type = stype_t.TABLE)
    (hz : ((covered t old).foldl (substr_at t (unescape_string delim (current.str.getD [])))
        { new with type := stype_t.CELL }).row1 = 0 ↔
      ((covered t old).foldl (substr_at t (unescape_string delim (current.str.getD [])))
        { new with type := stype_t.CELL }).col1 = 0) :
    (find_substr_cell delim t old current new).1 = true ↔
      ((covered t old).foldl (substr_at t (unescape_string delim (current.str.getD [])))
        { new with type := stype_t.CELL }).row1 ≠ 0 := by
  revert hz
  unfold find_substr_cell covered
  rcases hty with h | h | h | h <;> rw [h] <;> simp only []
  · rw [foldl_rect_cells, loop_range_one]
    simp only [List.foldl_cons, List.foldl_nil, substr_at, sub_add_cancel]
    intro hz
    rw [ite_pair_fst]
    exact not_congr hz.symm
  · rw [foldl_rect_cells]
    simp only [loop_range_one, List.foldl_cons, List.foldl_nil, substr_at, sub_add_cancel]
    intro hz
    rw [ite_pair_fst]
  · rw [foldl_rect_cells]
    simp only [substr_at]
    intro hz
    rw [ite_pair_fst, ← hz, or_self]
  · rw [foldl_rect_cells]
    simp only [substr_at]
    intro hz
    rw [ite_pair_fst, ← hz, or_self]

theorem find_substr_cell_spec (delim : CStr) (t : table_t) (old current : selection_t)
    (hin : inside t old) :
    ((find_substr_cell delim t old current new_init).1 = true ↔
        ∃ p ∈ covered t old,
          col_substr (get_cell_content t p.1 p.2)
            (unescape_string delim (current.str.getD [])) = true) ∧
    ((find_substr_cell delim t old current new_init).1 = true →
        (find_substr_cell delim t old current new_init).2.1.type = stype_t.CELL ∧
        LastMatch t (unescape_string delim (current.str.getD [])) (covered t old)
          ((find_substr_cell delim t old current new_init).2.1.row1 - 1)
          ((find_substr_cell delim t old current new_init).2.1.col1 - 1)) := by
  by_cases hcell : old.type = stype_t.CELL
  · unfold find_substr_cell covered LastMatch
    rw [hcell]
    simp only []
    by_cases hn : col_substr (get_cell_content t (old.row1 - 1) (old.col1 - 1))
        (unescape_string delim (current.str.getD [])) = true
    · simp only [hn, if_true, List.mem_singleton, exists_eq_left, true_and, forall_true_left]
      refine ⟨0, rfl, ?_⟩
      intro j q hj hjq
      rw [List.getElem?_eq_none (by simp; omega)] at hjq
      exact absurd hjq (by simp)
    · simp [hn]
  · have hty : old.type = stype_t.ROW ∨ old.type = stype_t.COL ∨ old.type = stype_t.BOX ∨
        old.type = stype_t.TABLE := by
      unfold inside at hin
      cases h : old.type <;> simp_all
    have hfin := substr_search_final t (unescape_string delim (current.str.getD []))
      (covered t old) { new_init with type := stype_t.CELL } ⟨rfl, rfl⟩
      (covered_nonneg t old hin)
    have hz : ((covered t old).foldl (substr_at t (unescape_string delim (current.str.getD [])))
        { new_init with type := stype_t.CELL }).row1 = 0 ↔
        ((covered t old).foldl (substr_at t (unescape_string delim (current.str.getD [])))
          { new_init with type := stype_t.CELL }).col1 = 0 := by
      rcases hfin with ⟨h1, h2, -⟩ | ⟨h1, h2, -⟩
      · simp [h1, h2]
      · simp [h1, h2]
    rw [find_substr_cell_flag delim t old current new_init hty hz,
      find_substr_cell_eq_scan delim t old current new_init hty]
    simp only []
    rcases hfin with ⟨h1, h2, hall⟩ | ⟨h1, h2, hfm⟩
    · refine ⟨?_, fun hne => absurd h1 hne⟩
      constructor
      · intro hne
        exact absurd h1 hne
      · rintro ⟨p, hp, hpn⟩
        rw [hall p hp] at hpn
        exact absurd hpn (by simp)
    · refine ⟨?_, fun _ => ⟨?_, hfm⟩⟩
      · constructor
        · intro _
          obtain ⟨k, hk, hq, -⟩ := hfm
          exact ⟨_, List.getElem?_mem hk, hq⟩
        · intro _
          exact h1
      · rw [foldl_substr_at_type]

/-- C3: for a rectangular table and a reference selection lying inside it,
`find_substr_cell` succeeds exactly when `col_substr` accepts some covered
cell, and on success the result is the CELL of the last covered cell, in
row-major order, that `col_substr` accepts; when no covered cell matches, the
command bound to the `[find ...]` selection ends `apply_call` with the
no-match error. -/
theorem find_substr_cell_last_match {α : Type} (L : numeric_lib α)
    (delim : CStr) (t : table_t) (m : Nat) (old current : selection_t)
    (_hrect : rectangular t m) (hin : inside t old) (hcur : current.type = stype_t.STR) :
    ((find_substr_cell delim t old current new_init).1 = true ↔
        ∃ p ∈ covered t old,
          col_substr (get_cell_content t p.1 p.2)
            (unescape_string delim (current.str.getD [])) = true) ∧
    ((find_substr_cell delim t old current new_init).1 = true →
        (find_substr_cell delim t old current new_init).2.1.type = stype_t.CELL ∧
        LastMatch t (unescape_string delim (current.str.getD [])) (covered t old)
          ((find_substr_cell delim t old current new_init).2.1.row1 - 1)
          ((find_substr_cell delim t old current new_init).2.1.col1 - 1)) ∧
    (∀ (st : exec_state) (cmd : command_t) (k : Nat), st.table = t →
        cmd.selection = some (sel_ptr.entry k) → st.selections[k]? = some current →
        st.selections.getD (k - 1) new_init = old →
        (∀ p ∈ covered t old, col_substr (get_cell_content t p.1 p.2)
            (unescape_string delim (current.str.getD [])) = false) →
        apply_command L delim st cmd = Except.error exec_error.no_match) := by
  have hspec := find_substr_cell_spec delim t old current hin
  refine ⟨hspec.1, hspec.2, ?_⟩
  intro st cmd k ht hsel hk hold hnone
  have hflag : (find_substr_cell delim t old current new_init).1 = false := by
    cases hf : (find_substr_cell delim t old current new_init).1
    · rfl
    · obtain ⟨p, hp, hpm⟩ := hspec.1.1 hf
      rw [hnone p hp] at hpm
      exact absurd hpm (by simp)
  have hd : st.selections.getD k new_init = current := by
    rw [List.getD_eq_getElem?_getD, hk]
    rfl
  unfold apply_command resolve_selection
  simp only [hsel, deref, hd, hcur, hold, ht, hflag]
  rfl

/-- C3, witness: in the column `[_,1]` holding `ab`, `b`, `c` the pattern `b`
is found last in row 2; the pattern `z` is found nowhere and the command ends
with the no-match error. -/
theorem find_substr_cell_last_match_witness :
    LastMatch [["ab".toList], ["b".toList], ["c".toList]] "b".toList
      (covered [["ab".toList], ["b".toList], ["c".toList]]
        { type := stype_t.COL, row1 := 0, col1 := 1, row2 := 0, col2 := 0, str := none })
      (2 - 1) (1 - 1) ∧
    apply_command sample_lib " ".toList
      { table := [["ab".toList], ["b".toList], ["c".toList]],
        selections := [default_selection,
          { type := stype_t.COL, row1 := 0, col1 := 1, row2 := 0, col2 := 0, str := none },
          { type := stype_t.STR, row1 := 0, col1 := 0, row2 := 0, col2 := 0,
            str := some "z".toList }],
        vars := variables_ctor }
      { type := cmd_types_t.DATA, cmd_name := "clear".toList, cmd_num := 1, arg1 := 0,
        arg2 := 0, str := none, selection := some (sel_ptr.entry 2) } =
      Except.error exec_error.no_match :=
  ⟨((find_substr_cell_last_match sample_lib " ".toList
      [["ab".toList], ["b".toList], ["c".toList]] 1
      { type := stype_t.COL, row1 := 0, col1 := 1, row2 := 0, col2 := 0, str := none }
      { type := stype_t.STR, row1 := 0, col1 := 0, row2 := 0, col2 := 0, str := some "b".toList }
      (by unfold rectangular; decide) (by unfold inside; decide) rfl).2.1 (by decide)).2,
    (find_substr_cell_last_match sample_lib " ".toList
      [["ab".toList], ["b".toList], ["c".toList]] 1
      { type := stype_t.COL, row1 := 0, col1 := 1, row2 := 0, col2 := 0, str := none }
      { type := stype_t.STR, row1 := 0, col1 := 0, row2 := 0, col2 := 0, str := some "z".toList }
      (by unfold rectangular; decide) (by unfold inside; decide) rfl).2.2 _ _ 2 rfl rfl rfl rfl
      (by decide)⟩

/-! ## Facts about the model of `strtol` -/

theorem takeWhile_digits_append (ds rest : CStr) (hds : ∀ c ∈ ds, c.isDigit = true)
    (hrest : no_digit_ahead rest) : (ds ++ rest).takeWhile Char.isDigit = ds := by
  induction ds with
  | nil =>
    cases rest with
    | nil => rfl
    | cons c r =>
      have : c.isDigit = false := hrest c (by simp)
      simp [List.takeWhile, this]
  | cons d ds ih =>
    have hd : d.isDigit = true := hds d (by simp)
    simp only [List.cons_append, List.takeWhile_cons, hd, if_true]
    rw [ih (fun c hc => hds c (List.mem_cons_of_mem _ hc))]

theorem dropWhile_digits_append (ds rest : CStr) (hds : ∀ c ∈ ds, c.isDigit = true)
    (hrest : no_digit_ahead rest) : (ds ++ rest).dropWhile Char.isDigit = rest := by
  induction ds with
  | nil =>
    cases rest with
    | nil => rfl
    | cons c r =>
      have : c.isDigit = false := hrest c (by simp)
      simp [List.dropWhile, this]
  | cons d ds ih =>
    have hd : d.isDigit = true := hds d (by simp)
    simp only [List.cons_append, List.dropWhile_cons, hd, if_true]
    rw [ih (fun c hc => hds c (List.mem_cons_of_mem _ hc))]

theorem digit_not_space (c : Char) (h : c.isDigit = true) : isspace c = false := by
  by_contra hs
  have hs' : isspace c = true := by simpa using hs
  simp only [isspace, Bool.or_eq_true, beq_iff_eq] at hs'
  rcases hs' with ((((hs' | hs') | hs') | hs') | hs') | hs' <;>
    (rw [hs'] at h; exact absurd h (by decide))

theorem digit_ne (c d : Char) (h : c.isDigit = true) (hd : d.isDigit = false) : c ≠ d := by
  intro e
  rw [e, hd] at h
  exact absurd h (by simp)

/-- The conversion of a leading run of digits, optionally after one blank. -/
theorem strtol_digits (ds rest : CStr) (hne : ds ≠ []) (hds : ∀ c ∈ ds, c.isDigit = true)
    (hrest : no_digit_ahead rest) :
    strtol (ds ++ rest) = (max LONG_MIN (min LONG_MAX (digits_value ds : Int)), rest) ∧
    strtol (' ' :: (ds ++ rest)) =
      (max LONG_MIN (min LONG_MAX (digits_value ds : Int)), rest) := by
  obtain ⟨d, ds', rfl⟩ := List.exists_cons_of_ne_nil hne
  have hd : d.isDigit = true := hds d (by simp)
  have hsp : isspace d = false := digit_not_space d hd
  have hm : d ≠ '-' := digit_ne d '-' hd (by decide)
  have hp : d ≠ '+' := digit_ne d '+' hd (by decide)
  have htw := takeWhile_digits_append (d :: ds') rest hds hrest
  have hdw := dropWhile_digits_append (d :: ds') rest hds hrest
  have hdrop : ((d :: ds') ++ rest).dropWhile isspace = (d :: ds') ++ rest := by
    simp [List.dropWhile, hsp]
  have hdrop2 : (' ' :: ((d :: ds') ++ rest)).dropWhile isspace = (d :: ds') ++ rest := by
    have : isspace ' ' = true := by decide
    rw [List.dropWhile_cons, this, if_pos rfl, hdrop]
  have hhead : ((d :: ds') ++ rest).head? = some d := rfl
  have hneg : (some d == some '-') = false := by simpa using hm
  have hpos : (some d == some '+') = false := by simpa using hp
  constructor
  · unfold strtol
    simp only [hdrop, hhead, hneg, hpos, Bool.or_false, Bool.false_eq_true, if_false, htw, hdw,
      List.isEmpty_cons]
  · unfold strtol
    simp only [hdrop2, hhead, hneg, hpos, Bool.or_false, Bool.false_eq_true, if_false, htw, hdw,
      List.isEmpty_cons]

/-- No conversion: the string is empty, or begins, optionally after one blank,
with a character that is neither white space, nor a sign, nor a digit. -/
theorem strtol_none (c : Char) (rest : CStr) (hs : isspace c = false) (hd : c.isDigit = false)
    (hm : c ≠ '-') (hp : c ≠ '+') :
    strtol [] = (0, []) ∧ strtol (c :: rest) = (0, c :: rest) ∧
    strtol (' ' :: c :: rest) = (0, ' ' :: c :: rest) := by
  have hneg : (some c == some '-') = false := by simpa using hm
  have hpos : (some c == some '+') = false := by simpa using hp
  have hsp : isspace ' ' = true := by decide
  refine ⟨by decide, ?_, ?_⟩
  · unfold strtol
    simp [List.dropWhile, List.takeWhile, hs, hd, hneg, hpos]
  · unfold strtol
    simp [List.dropWhile, List.takeWhile, hs, hd, hneg, hpos, hsp]

theorem to_int_clamp (n : Nat) (h : (n : Int) ≤ 2147483647) :
    to_int (max LONG_MIN (min LONG_MAX (n : Int))) = n := by
  unfold to_int LONG_MIN LONG_MAX
  omega

theorem clamp_small (n : Nat) (h : (n : Int) ≤ 2147483647) :
    max LONG_MIN (min LONG_MAX (n : Int)) = n := by
  unfold LONG_MIN LONG_MAX
  omega

theorem to_int_small (n : Nat) (h : (n : Int) ≤ 2147483647) : to_int (n : Int) = n := by
  unfold to_int
  omega

/-! ## The selection parser on well-formed selections -/

theorem digits_count_comma (ds : CStr) (hds : ∀ c ∈ ds, c.isDigit = true) :
    ds.count ',' = 0 := by
  rw [List.count_eq_zero]
  intro hmem
  exact absurd (hds _ hmem) (by decide)

theorem digits_map_comma (ds : CStr) (hds : ∀ c ∈ ds, c.isDigit = true) :
    ds.map (fun c => if c = ',' then ' ' else c) = ds := by
  induction ds with
  | nil => rfl
  | cons d ds ih =>
    have hd : d ≠ ',' := digit_ne d ',' (hds d (by simp)) (by decide)
    simp only [List.map_cons, if_neg hd]
    rw [ih (fun c hc => hds c (List.mem_cons_of_mem _ hc))]

theorem prepare_selection_brackets (body : CStr) :
    prepare_selection ('[' :: (body ++ [']'])) =
      body.map (fun c => if c = ',' then ' ' else c) := by
  unfold prepare_selection
  simp

theorem no_digit_ahead_nil : no_digit_ahead [] := by
  intro c hc
  simp at hc

theorem no_digit_ahead_cons (c : Char) (rest : CStr) (h : c.isDigit = false) :
    no_digit_ahead (c :: rest) := by
  intro d hd
  simp at hd
  rw [← hd]
  exact h

theorem is_box_selection_closed (cmd e1 e2 e3 e4 : CStr) (v1 v2 v3 v4 : Int)
    (sel : selection_t) (h1 : strtol cmd = (v1, e1)) (h2 : strtol e1 = (v2, e2))
    (hn2 : char_at e2 1 ≠ '-') (h3 : strtol e2 = (v3, e3)) (hn3 : char_at e3 1 ≠ '-')
    (h4 : strtol e3 = (v4, e4)) :
    is_box_selection cmd sel =
      if to_int v1 = 0 ∨ to_int v2 = 0 ∨ to_int v3 = 0 ∨ to_int v4 = 0 then (false, sel, cmd)
      else
        (true,
          { sel with row1 := to_int v1, col1 := to_int v2, row2 := to_int v3, col2 := to_int v4 },
          cmd) := by
  have hb2 : (char_at e2 1 == '-') = false := by simpa using hn2
  have hb3 : (char_at e3 1 == '-') = false := by simpa using hn3
  unfold is_box_selection
  simp only [h1, h2, h3, h4, hb2, hb3, Bool.false_eq_true, if_false, false_and]

theorem is_box_selection_open_col (cmd e1 e2 e3 : CStr) (v1 v2 v3 : Int)
    (sel : selection_t) (h1 : strtol cmd = (v1, e1)) (h2 : strtol e1 = (v2, e2))
    (hn2 : char_at e2 1 ≠ '-') (h3 : strtol e2 = (v3, e3)) (hn3 : char_at e3 1 = '-') :
    is_box_selection cmd sel =
      if to_int v1 = 0 ∨ to_int v2 = 0 ∨ to_int v3 = 0 ∨ SLASH = 0 then (false, sel, cmd)
      else
        (true,
          { sel with row1 := to_int v1, col1 := to_int v2, row2 := to_int v3, col2 := SLASH },
          cmd) := by
  have hb2 : (char_at e2 1 == '-') = false := by simpa using hn2
  have hb3 : (char_at e3 1 == '-') = true := by simpa using hn3
  unfold is_box_selection
  simp only [h1, h2, h3, hb2, hb3, Bool.false_eq_true, if_false, false_and, if_true]

theorem is_box_selection_open_row (cmd e1 e2 e4 : CStr) (v1 v2 v4 : Int)
    (sel : selection_t) (h1 : strtol cmd = (v1, e1)) (h2 : strtol e1 = (v2, e2))
    (hn2 : char_at e2 1 = '-') (hlen : e2.length ≠ 2) (hn3 : char_at (e2.drop 2) 1 ≠ '-')
    (h4 : strtol (e2.drop 2) = (v4, e4)) :
    is_box_selection cmd sel =
      if to_int v1 = 0 ∨ to_int v2 = 0 ∨ SLASH = 0 ∨ to_int v4 = 0 then
        (false, sel, cmd.take (cmd.length - e2.length) ++ e2.drop 2)
      else
        (true,
          { sel with row1 := to_int v1, col1 := to_int v2, row2 := SLASH, col2 := to_int v4 },
          cmd.take (cmd.length - e2.length) ++ e2.drop 2) := by
  have hb2 : (char_at e2 1 == '-') = true := by simpa using hn2
  have hb3 : (char_at (e2.drop 2) 1 == '-') = false := by simpa using hn3
  unfold is_box_selection
  simp only [h1, h2, h4, hb2, hb3, hlen, Bool.false_eq_true, if_false, and_false, if_true]

theorem is_box_selection_open_both (cmd e1 e2 : CStr) (v1 v2 : Int)
    (sel : selection_t) (h1 : strtol cmd = (v1, e1)) (h2 : strtol e1 = (v2, e2))
    (hn2 : char_at e2 1 = '-') (hlen : e2.length ≠ 2) (hn3 : char_at (e2.drop 2) 1 = '-') :
    is_box_selection cmd sel =
      if to_int v1 = 0 ∨ to_int v2 = 0 ∨ SLASH = 0 ∨ SLASH = 0 then
        (false, sel, cmd.take (cmd.length - e2.length) ++ e2.drop 2)
      else
        (true,
          { sel with row1 := to_int v1, col1 := to_int v2, row2 := SLASH, col2 := SLASH },
          cmd.take (cmd.length - e2.length) ++ e2.drop 2) := by
  have hb2 : (char_at e2 1 == '-') = true := by simpa using hn2
  have hb3 : (char_at (e2.drop 2) 1 == '-') = true := by simpa using hn3
  unfold is_box_selection
  simp only [h1, h2, hb2, hb3, hlen, Bool.false_eq_true, if_false, and_false, if_true]

theorem load_cell (dr dc : CStr) (R C : Nat) (hR : is_decimal dr R) (hC : is_decimal dc C)
    (hR0 : 0 < R) (hRm : R ≤ 2147483647) (hC0 : 0 < C) (hCm : C ≤ 2147483647) :
    load_selection_info ('[' :: (dr ++ (',' :: (dc ++ [']'])))) =
      { type := stype_t.CELL, row1 := R, col1 := C, row2 := 0, col2 := 0, str := none } := by
  obtain ⟨hrne, hrd, hrv⟩ := hR
  obtain ⟨hcne, hcd, hcv⟩ := hC
  obtain ⟨r0, dr', rfl⟩ := List.exists_cons_of_ne_nil hrne
  have hr0 : r0.isDigit = true := hrd r0 (by simp)
  have h1 : ('[' :: (r0 :: dr' ++ (',' :: (dc ++ [']'])))) ≠ "[_]".toList := by
    intro h
    simp at h
    exact absurd hr0 (by rw [h.1]; decide)
  have h2 : ('[' :: (r0 :: dr' ++ (',' :: (dc ++ [']'])))) ≠ "[_,_]".toList := by
    intro h
    simp at h
    exact absurd hr0 (by rw [h.1]; decide)
  have h3 : get_no_commas ('[' :: (r0 :: dr' ++ (',' :: (dc ++ [']'])))) = 1 := by
    unfold get_no_commas
    rw [List.count_cons, List.count_append, digits_count_comma (r0 :: dr') hrd,
      List.count_cons, List.count_append, digits_count_comma dc hcd]
    decide
  have hmr := digits_map_comma (r0 :: dr') hrd
  have hmc := digits_map_comma dc hcd
  have h4 : prepare_selection ('[' :: (r0 :: dr' ++ (',' :: (dc ++ [']'])))) =
      (r0 :: dr') ++ (' ' :: dc) := by
    have := prepare_selection_brackets ((r0 :: dr') ++ (',' :: dc))
    rw [List.map_append, hmr, List.map_cons, hmc, if_pos rfl] at this
    rw [← this]
    simp
  have h5 : first_underslash ((r0 :: dr') ++ (' ' :: dc)) = false := by
    unfold first_underslash char_at
    simp only [List.cons_append, List.getD_cons_zero, beq_eq_false_iff_ne, ne_eq]
    exact digit_ne r0 '_' hr0 (by decide)
  have h6 := (strtol_digits (r0 :: dr') (' ' :: dc) hrne hrd
    (no_digit_ahead_cons ' ' dc (by decide))).1
  have h7 := (strtol_digits dc [] hcne hcd no_digit_ahead_nil).2
  rw [List.append_nil] at h7
  have h8 : strtol [] = (0, []) := by decide
  rw [hrv, clamp_small R (by omega)] at h6
  rw [hcv, clamp_small C (by omega)] at h7
  have hbox := fun sel => is_box_selection_closed ((r0 :: dr') ++ (' ' :: dc)) (' ' :: dc) [] [] []
    R C 0 0 sel h6 h7 (by decide) h8 (by decide) h8
  have hz : to_int 0 = 0 := by decide
  unfold load_selection_info
  simp only [h1, h2, h3, h4, h5, h6, h7, hbox, hz, if_false, Bool.false_eq_true,
    to_int_small R (by omega), to_int_small C (by omega), or_true, if_true, false_and]
  have hR' : (0 : Int) < R := by omega
  have hC' : (0 : Int) < C := by omega
  simp [hR', hC', new_init]

theorem second_underslash_row (dr : CStr) (hrne : dr ≠ []) :
    second_underslash (dr ++ [' ', '_']) = true := by
  unfold second_underslash
  rw [List.any_eq_true]
  refine ⟨(dr.length : Int), ?_, ?_⟩
  · rw [mem_loop_range]
    have : 0 < dr.length := List.length_pos.2 hrne
    simp only [List.length_append, List.length_cons, List.length_nil]
    omega
  · have e1 : (dr ++ [' ', '_'])[dr.length]? = some ' ' := by
      rw [List.getElem?_append_right (le_refl _)]
      simp
    have e2 : (dr ++ [' ', '_'])[dr.length + 1]? = some '_' := by
      rw [List.getElem?_append_right (by omega)]
      simp
    unfold char_at
    simp [List.getD_eq_getElem?_getD, e1, e2]

theorem load_row (dr : CStr) (R : Nat) (hR : is_decimal dr R)
    (hR0 : 0 < R) (hRm : R ≤ 2147483647) :
    load_selection_info ('[' :: (dr ++ [',', '_', ']'])) =
      { type := stype_t.ROW, row1 := R, col1 := 0, row2 := 0, col2 := 0, str := none } := by
  obtain ⟨hrne, hrd, hrv⟩ := hR
  obtain ⟨r0, dr', rfl⟩ := List.exists_cons_of_ne_nil hrne
  have hr0 : r0.isDigit = true := hrd r0 (by simp)
  have h1 : ('[' :: (r0 :: dr' ++ [',', '_', ']'])) ≠ "[_]".toList := by
    intro h
    simp at h
    exact absurd hr0 (by rw [h.1]; decide)
  have h2 : ('[' :: (r0 :: dr' ++ [',', '_', ']'])) ≠ "[_,_]".toList := by
    intro h
    simp at h
    exact absurd hr0 (by rw [h.1]; decide)
  have h3 : get_no_commas ('[' :: (r0 :: dr' ++ [',', '_', ']'])) = 1 := by
    unfold get_no_commas
    rw [List.count_cons, List.count_append, digits_count_comma (r0 :: dr') hrd]
    decide
  have hmr := digits_map_comma (r0 :: dr') hrd
  have h4 : prepare_selection ('[' :: (r0 :: dr' ++ [',', '_', ']'])) =
      (r0 :: dr') ++ [' ', '_'] := by
    have e : '[' :: (r0 :: dr' ++ [',', '_', ']']) =
        '[' :: (((r0 :: dr') ++ [',', '_']) ++ [']']) := by simp
    rw [e, prepare_selection_brackets, List.map_append, hmr]
    simp
  have h5 : first_underslash ((r0 :: dr') ++ [' ', '_']) = false := by
    unfold first_underslash char_at
    simp only [List.cons_append, List.getD_cons_zero, beq_eq_false_iff_ne, ne_eq]
    exact digit_ne r0 '_' hr0 (by decide)
  have h6 := (strtol_digits (r0 :: dr') [' ', '_'] hrne hrd
    (no_digit_ahead_cons ' ' _ (by decide))).1
  have h7 : strtol [' ', '_'] = (0, [' ', '_']) := by decide
  rw [hrv, clamp_small R (by omega)] at h6
  have hbox := fun sel => is_box_selection_closed ((r0 :: dr') ++ [' ', '_']) [' ', '_']
    [' ', '_'] [' ', '_'] [' ', '_'] R 0 0 0 sel h6 h7 (by decide) h7 (by decide) h7
  have hz : to_int 0 = 0 := by decide
  have hsu := second_underslash_row (r0 :: dr') hrne
  unfold load_selection_info
  simp only [h1, h2, h3, h4, h5, h6, h7, hbox, hz, hsu, if_false, Bool.false_eq_true,
    to_int_small R (by omega), or_true, if_true, false_and]
  have hR' : (0 : Int) < R := by omega
  simp [hR', new_init]

theorem load_col (dc : CStr) (C : Nat) (hC : is_decimal dc C)
    (hC0 : 0 < C) (hCm : C ≤ 2147483647) :
    load_selection_info ('[' :: '_' :: ',' :: (dc ++ [']'])) =
      { type := stype_t.COL, row1 := 0, col1 := C, row2 := 0, col2 := 0, str := none } := by
  obtain ⟨hcne, hcd, hcv⟩ := hC
  have h1 : ('[' :: '_' :: ',' :: (dc ++ [']'])) ≠ "[_]".toList := by
    intro h
    simp at h
  have h2 : ('[' :: '_' :: ',' :: (dc ++ [']'])) ≠ "[_,_]".toList := by
    intro h
    simp at h
    have : dc = ['_'] := by
      cases dc with
      | nil => simp at h
      | cons c r =>
        cases r with
        | nil => simp at h; rw [h]
        | cons c' r' => simp at h
    rw [this] at hcd
    exact absurd (hcd '_' (by simp)) (by decide)
  have h3 : get_no_commas ('[' :: '_' :: ',' :: (dc ++ [']'])) = 1 := by
    unfold get_no_commas
    rw [List.count_cons, List.count_cons, List.count_cons, List.count_append,
      digits_count_comma dc hcd]
    decide
  have hmc := digits_map_comma dc hcd
  have h4 : prepare_selection ('[' :: '_' :: ',' :: (dc ++ [']'])) = '_' :: ' ' :: dc := by
    have e : '[' :: '_' :: ',' :: (dc ++ [']']) = '[' :: (('_' :: ',' :: dc) ++ [']']) := by
      simp
    rw [e, prepare_selection_brackets, List.map_cons, List.map_cons, hmc]
    simp
  have h5 : first_underslash ('_' :: ' ' :: dc) = true := by
    unfold first_underslash char_at
    simp
  have h6 : strtol ('0' :: ' ' :: dc) = (0, ' ' :: dc) := by
    have := (strtol_digits ['0'] (' ' :: dc) (by simp) (by decide)
      (no_digit_ahead_cons ' ' _ (by decide))).1
    simpa [digits_value, LONG_MIN, LONG_MAX] using this
  have h7 := (strtol_digits dc [] hcne hcd no_digit_ahead_nil).2
  rw [List.append_nil] at h7
  have h8 : strtol [] = (0, []) := by decide
  rw [hcv, clamp_small C (by omega)] at h7
  have hbox := fun sel => is_box_selection_closed ('0' :: ' ' :: dc) (' ' :: dc) [] [] []
    0 C 0 0 sel h6 h7 (by decide) h8 (by decide) h8
  have hz : to_int 0 = 0 := by decide
  unfold load_selection_info
  simp only [h1, h2, h3, h4, h5, h6, h7, hbox, hz, if_false, Bool.false_eq_true,
    to_int_small C (by omega), or_true, if_true, false_and, true_or, List.tail_cons]
  have hC' : (0 : Int) < C := by omega
  simp [hC', new_init]

/-- C5, counterexample: `4294967297` is a positive integer written in decimal,
yet `[4294967297,1]` is loaded as the cell of row 1, since `row1` is an `int`. -/
theorem load_selection_info_overflow :
    is_decimal "4294967297".toList 4294967297 ∧ is_decimal "1".toList 1 ∧
    load_selection_info "[4294967297,1]".toList =
      { type := stype_t.CELL, row1 := 1, col1 := 1, row2 := 0, col2 := 0, str := none } := by
  refine ⟨?_, ?_, ?_⟩
  · unfold is_decimal
    decide
  · unfold is_decimal
    decide
  · decide

/-- C5, amended: for integers `R` and `C` from 1 to 2147483647 written in
decimal, `load_selection_info` maps `[R,C]` to the CELL of row `R` and column
`C`, `[R,_]` to the ROW `R`, `[_,C]` to the COL `C`, `[_,_]` to TABLE and `[_]`
to TMP_VAR. -/
theorem load_selection_info_shapes (dr dc : CStr) (R C : Nat)
    (hR : is_decimal dr R) (hC : is_decimal dc C)
    (hR0 : 1 ≤ R) (hRm : R ≤ 2147483647) (hC0 : 1 ≤ C) (hCm : C ≤ 2147483647) :
    load_selection_info ("[".toList ++ dr ++ ",".toList ++ dc ++ "]".toList) =
      { type := stype_t.CELL, row1 := R, col1 := C, row2 := 0, col2 := 0, str := none } ∧
    load_selection_info ("[".toList ++ dr ++ ",_]".toList) =
      { type := stype_t.ROW, row1 := R, col1 := 0, row2 := 0, col2 := 0, str := none } ∧
    load_selection_info ("[_,".toList ++ dc ++ "]".toList) =
      { type := stype_t.COL, row1 := 0, col1 := C, row2 := 0, col2 := 0, str := none } ∧
    load_selection_info "[_,_]".toList =
      { type := stype_t.TABLE, row1 := 0, col1 := 0, row2 := 0, col2 := 0, str := none } ∧
    load_selection_info "[_]".toList =
      { type := stype_t.TMP_VAR, row1 := 0, col1 := 0, row2 := 0, col2 := 0, str := none } := by
  refine ⟨?_, ?_, ?_, by decide, by decide⟩
  · have := load_cell dr dc R C hR hC hR0 hRm hC0 hCm
    simpa using this
  · have := load_row dr R hR hR0 hRm
    simpa using this
  · have := load_col dc C hC hC0 hCm
    simpa using this

/-- C5, witness of the amended claim, with `R` written `12` and `C` written `3`. -/
theorem load_selection_info_shapes_witness :
    load_selection_info "[12,3]".toList =
      { type := stype_t.CELL, row1 := 12, col1 := 3, row2 := 0, col2 := 0, str := none } ∧
    load_selection_info "[12,_]".toList =
      { type := stype_t.ROW, row1 := 12, col1 := 0, row2 := 0, col2 := 0, str := none } ∧
    load_selection_info "[_,3]".toList =
      { type := stype_t.COL, row1 := 0, col1 := 3, row2 := 0, col2 := 0, str := none } :=
  have h := load_selection_info_shapes "12".toList "3".toList 12 3
    (by unfold is_decimal; decide) (by unfold is_decimal; decide)
    (by decide) (by decide) (by decide) (by decide)
  ⟨h.1, h.2.1, h.2.2.1⟩

/-! ## BOX selections -/

theorem load_selection_info_box (S P P2 e1 e2 : CStr) (v1 v2 r c : Int) (sel2 : selection_t)
    (h1 : S ≠ "[_]".toList) (h2 : S ≠ "[_,_]".toList) (h3 : get_no_commas S = 3)
    (h4 : prepare_selection S = P) (h5 : first_underslash P = false)
    (h6 : strtol P = (v1, e1)) (h7 : strtol e1 = (v2, e2))
    (hr : to_int v1 = r) (hc : to_int v2 = c)
    (hb : is_box_selection P { new_init with row1 := r, col1 := c } = (true, sel2, P2)) :
    load_selection_info S = { sel2 with type := stype_t.BOX } := by
  unfold load_selection_info
  simp only [h1, h2, h3, h4, h5, h6, h7, hr, hc, hb, if_false, Bool.false_eq_true, and_self,
    if_true]

theorem char_at_one_digits (c : Char) (ds rest : CStr) (hne : ds ≠ [])
    (hds : ∀ d ∈ ds, d.isDigit = true) : char_at (c :: (ds ++ rest)) 1 ≠ '-' := by
  obtain ⟨d, ds', rfl⟩ := List.exists_cons_of_ne_nil hne
  unfold char_at
  simp only [List.cons_append, List.getD_cons_succ, List.getD_cons_zero]
  exact digit_ne d '-' (hds d (by simp)) (by decide)

theorem box_not_special (d1 rest : CStr) (hne : d1 ≠ []) (hds : ∀ d ∈ d1, d.isDigit = true) :
    ('[' :: (d1 ++ rest)) ≠ "[_]".toList ∧ ('[' :: (d1 ++ rest)) ≠ "[_,_]".toList := by
  obtain ⟨d, ds', rfl⟩ := List.exists_cons_of_ne_nil hne
  have hd : d.isDigit = true := hds d (by simp)
  constructor
  · intro h
    simp at h
    exact absurd hd (by rw [h.1]; decide)
  · intro h
    simp at h
    exact absurd hd (by rw [h.1]; decide)

theorem load_box_closed (d1 d2 d3 d4 : CStr) (R1 C1 R2 C2 : Nat)
    (h1 : is_decimal d1 R1) (h2 : is_decimal d2 C1) (h3 : is_decimal d3 R2)
    (h4 : is_decimal d4 C2) (p1 : 1 ≤ R1) (m1 : R1 ≤ 2147483647) (p2 : 1 ≤ C1)
    (m2 : C1 ≤ 2147483647) (p3 : 1 ≤ R2) (m3 : R2 ≤ 2147483647) (p4 : 1 ≤ C2)
    (m4 : C2 ≤ 2147483647) :
    load_selection_info ('[' :: (d1 ++ (',' :: (d2 ++ (',' :: (d3 ++ (',' :: (d4 ++ [']'])))))))) =
      { type := stype_t.BOX, row1 := R1, col1 := C1, row2 := R2, col2 := C2, str := none } := by
  obtain ⟨n1, g1, w1⟩ := h1
  obtain ⟨n2, g2, w2⟩ := h2
  obtain ⟨n3, g3, w3⟩ := h3
  obtain ⟨n4, g4, w4⟩ := h4
  have hs := box_not_special d1 (',' :: (d2 ++ (',' :: (d3 ++ (',' :: (d4 ++ [']'])))))) n1 g1
  have hcnt : get_no_commas
      ('[' :: (d1 ++ (',' :: (d2 ++ (',' :: (d3 ++ (',' :: (d4 ++ [']'])))))))) = 3 := by
    unfold get_no_commas
    rw [List.count_cons, List.count_append, digits_count_comma d1 g1, List.count_cons,
      List.count_append, digits_count_comma d2 g2, List.count_cons, List.count_append,
      digits_count_comma d3 g3, List.count_cons, List.count_append, digits_count_comma d4 g4]
    decide
  have hprep : prepare_selection
      ('[' :: (d1 ++ (',' :: (d2 ++ (',' :: (d3 ++ (',' :: (d4 ++ [']'])))))))) =
      d1 ++ (' ' :: (d2 ++ (' ' :: (d3 ++ (' ' :: d4))))) := by
    have e : '[' :: (d1 ++ (',' :: (d2 ++ (',' :: (d3 ++ (',' :: (d4 ++ [']']))))))) =
        '[' :: ((d1 ++ (',' :: (d2 ++ (',' :: (d3 ++ (',' :: d4)))))) ++ [']']) := by simp
    rw [e, prepare_selection_brackets]
    simp only [List.map_append, List.map_cons, digits_map_comma d1 g1, digits_map_comma d2 g2,
      digits_map_comma d3 g3, digits_map_comma d4 g4, if_true]
  have hfu : first_underslash (d1 ++ (' ' :: (d2 ++ (' ' :: (d3 ++ (' ' :: d4)))))) = false := by
    obtain ⟨d, ds', rfl⟩ := List.exists_cons_of_ne_nil n1
    unfold first_underslash char_at
    simp only [List.cons_append, List.getD_cons_zero, beq_eq_false_iff_ne, ne_eq]
    exact digit_ne d '_' (g1 d (by simp)) (by decide)
  have s1 := (strtol_digits d1 (' ' :: (d2 ++ (' ' :: (d3 ++ (' ' :: d4))))) n1 g1
    (no_digit_ahead_cons ' ' _ (by decide))).1
  have s2 := (strtol_digits d2 (' ' :: (d3 ++ (' ' :: d4))) n2 g2
    (no_digit_ahead_cons ' ' _ (by decide))).2
  have s3 := (strtol_digits d3 (' ' :: d4) n3 g3 (no_digit_ahead_cons ' ' _ (by decide))).2
  have s4 := (strtol_digits d4 [] n4 g4 no_digit_ahead_nil).2
  rw [List.append_nil] at s4
  rw [w1, clamp_small R1 (by omega)] at s1
  rw [w2, clamp_small C1 (by omega)] at s2
  rw [w3, clamp_small R2 (by omega)] at s3
  rw [w4, clamp_small C2 (by omega)] at s4
  have hbox := is_box_selection_closed _ _ _ _ _ _ _ _ _
    { new_init with row1 := (R1 : Int), col1 := (C1 : Int) } s1 s2
    (char_at_one_digits ' ' d3 (' ' :: d4) n3 g3) s3
    (by have := char_at_one_digits ' ' d4 [] n4 g4; rwa [List.append_nil] at this) s4
  rw [to_int_small R1 (by omega), to_int_small C1 (by omega), to_int_small R2 (by omega),
    to_int_small C2 (by omega)] at hbox
  have hnz : ¬ ((R1 : Int) = 0 ∨ (C1 : Int) = 0 ∨ (R2 : Int) = 0 ∨ (C2 : Int) = 0) := by omega
  rw [if_neg hnz] at hbox
  rw [load_selection_info_box _ _ _ _ _ _ _ _ _ _ hs.1 hs.2 hcnt hprep hfu s1 s2
    (to_int_small R1 (by omega)) (to_int_small C1 (by omega)) hbox]
  rfl

theorem load_box_open_row (d1 d2 d4 : CStr) (R1 C1 C2 : Nat)
    (h1 : is_decimal d1 R1) (h2 : is_decimal d2 C1) (h4 : is_decimal d4 C2)
    (p1 : 1 ≤ R1) (m1 : R1 ≤ 2147483647) (p2 : 1 ≤ C1) (m2 : C1 ≤ 2147483647)
    (p4 : 1 ≤ C2) (m4 : C2 ≤ 2147483647) :
    load_selection_info ('[' :: (d1 ++ (',' :: (d2 ++ (',' :: '-' :: ',' :: (d4 ++ [']'])))))) =
      { type := stype_t.BOX, row1 := R1, col1 := C1, row2 := SLASH, col2 := C2, str := none } := by
  obtain ⟨n1, g1, w1⟩ := h1
  obtain ⟨n2, g2, w2⟩ := h2
  obtain ⟨n4, g4, w4⟩ := h4
  have hs := box_not_special d1 (',' :: (d2 ++ (',' :: '-' :: ',' :: (d4 ++ [']'])))) n1 g1
  have hcnt : get_no_commas
      ('[' :: (d1 ++ (',' :: (d2 ++ (',' :: '-' :: ',' :: (d4 ++ [']'])))))) = 3 := by
    unfold get_no_commas
    rw [List.count_cons, List.count_append, digits_count_comma d1 g1, List.count_cons,
      List.count_append, digits_count_comma d2 g2, List.count_cons, List.count_cons,
      List.count_cons, List.count_append, digits_count_comma d4 g4]
    decide
  have hprep : prepare_selection
      ('[' :: (d1 ++ (',' :: (d2 ++ (',' :: '-' :: ',' :: (d4 ++ [']'])))))) =
      d1 ++ (' ' :: (d2 ++ (' ' :: '-' :: ' ' :: d4))) := by
    have e : '[' :: (d1 ++ (',' :: (d2 ++ (',' :: '-' :: ',' :: (d4 ++ [']']))))) =
        '[' :: ((d1 ++ (',' :: (d2 ++ (',' :: '-' :: ',' :: d4)))) ++ [']']) := by simp
    rw [e, prepare_selection_brackets]
    simp [List.map_append, List.map_cons, digits_map_comma d1 g1, digits_map_comma d2 g2,
      digits_map_comma d4 g4]
  have hfu : first_underslash (d1 ++ (' ' :: (d2 ++ (' ' :: '-' :: ' ' :: d4)))) = false := by
    obtain ⟨d, ds', rfl⟩ := List.exists_cons_of_ne_nil n1
    unfold first_underslash char_at
    simp only [List.cons_append, List.getD_cons_zero, beq_eq_false_iff_ne, ne_eq]
    exact digit_ne d '_' (g1 d (by simp)) (by decide)
  have s1 := (strtol_digits d1 (' ' :: (d2 ++ (' ' :: '-' :: ' ' :: d4))) n1 g1
    (no_digit_ahead_cons ' ' _ (by decide))).1
  have s2 := (strtol_digits d2 (' ' :: '-' :: ' ' :: d4) n2 g2
    (no_digit_ahead_cons ' ' _ (by decide))).2
  have s4 := (strtol_digits d4 [] n4 g4 no_digit_ahead_nil).2
  rw [List.append_nil] at s4
  rw [w1, clamp_small R1 (by omega)] at s1
  rw [w2, clamp_small C1 (by omega)] at s2
  rw [w4, clamp_small C2 (by omega)] at s4
  have hbox := is_box_selection_open_row _ _ (' ' :: '-' :: ' ' :: d4) _ _ _ _
    { new_init with row1 := (R1 : Int), col1 := (C1 : Int) } s1 s2 (by rfl)
    (by simp) (by have := char_at_one_digits ' ' d4 [] n4 g4; simpa using this)
    (by simpa using s4)
  rw [to_int_small R1 (by omega), to_int_small C1 (by omega), to_int_small C2 (by omega)] at hbox
  have hnz : ¬ ((R1 : Int) = 0 ∨ (C1 : Int) = 0 ∨ SLASH = 0 ∨ (C2 : Int) = 0) := by
    unfold SLASH
    omega
  rw [if_neg hnz] at hbox
  rw [load_selection_info_box _ _ _ _ _ _ _ _ _ _ hs.1 hs.2 hcnt hprep hfu s1 s2
    (to_int_small R1 (by omega)) (to_int_small C1 (by omega)) hbox]
  rfl

theorem load_box_open_col (d1 d2 d3 : CStr) (R1 C1 R2 : Nat)
    (h1 : is_decimal d1 R1) (h2 : is_decimal d2 C1) (h3 : is_decimal d3 R2)
    (p1 : 1 ≤ R1) (m1 : R1 ≤ 2147483647) (p2 : 1 ≤ C1) (m2 : C1 ≤ 2147483647)
    (p3 : 1 ≤ R2) (m3 : R2 ≤ 2147483647) :
    load_selection_info ('[' :: (d1 ++ (',' :: (d2 ++ (',' :: (d3 ++ [',', '-', ']'])))))) =
      { type := stype_t.BOX, row1 := R1, col1 := C1, row2 := R2, col2 := SLASH, str := none } := by
  obtain ⟨n1, g1, w1⟩ := h1
  obtain ⟨n2, g2, w2⟩ := h2
  obtain ⟨n3, g3, w3⟩ := h3
  have hs := box_not_special d1 (',' :: (d2 ++ (',' :: (d3 ++ [',', '-', ']'])))) n1 g1
  have hcnt : get_no_commas
      ('[' :: (d1 ++ (',' :: (d2 ++ (',' :: (d3 ++ [',', '-', ']'])))))) = 3 := by
    unfold get_no_commas
    rw [List.count_cons, List.count_append, digits_count_comma d1 g1, List.count_cons,
      List.count_append, digits_count_comma d2 g2, List.count_cons, List.count_append,
      digits_count_comma d3 g3]
    decide
  have hprep : prepare_selection
      ('[' :: (d1 ++ (',' :: (d2 ++ (',' :: (d3 ++ [',', '-', ']'])))))) =
      d1 ++ (' ' :: (d2 ++ (' ' :: (d3 ++ [' ', '-'])))) := by
    have e : '[' :: (d1 ++ (',' :: (d2 ++ (',' :: (d3 ++ [',', '-', ']']))))) =
        '[' :: ((d1 ++ (',' :: (d2 ++ (',' :: (d3 ++ [',', '-']))))) ++ [']']) := by simp
    rw [e, prepare_selection_brackets]
    simp [List.map_append, List.map_cons, digits_map_comma d1 g1, digits_map_comma d2 g2,
      digits_map_comma d3 g3]
  have hfu : first_underslash (d1 ++ (' ' :: (d2 ++ (' ' :: (d3 ++ [' ', '-']))))) = false := by
    obtain ⟨d, ds', rfl⟩ := List.exists_cons_of_ne_nil n1
    unfold first_underslash char_at
    simp only [List.cons_append, List.getD_cons_zero, beq_eq_false_iff_ne, ne_eq]
    exact digit_ne d '_' (g1 d (by simp)) (by decide)
  have s1 := (strtol_digits d1 (' ' :: (d2 ++ (' ' :: (d3 ++ [' ', '-'])))) n1 g1
    (no_digit_ahead_cons ' ' _ (by decide))).1
  have s2 := (strtol_digits d2 (' ' :: (d3 ++ [' ', '-'])) n2 g2
    (no_digit_ahead_cons ' ' _ (by decide))).2
  have s3 := (strtol_digits d3 [' ', '-'] n3 g3 (no_digit_ahead_cons ' ' _ (by decide))).2
  rw [w1, clamp_small R1 (by omega)] at s1
  rw [w2, clamp_small C1 (by omega)] at s2
  rw [w3, clamp_small R2 (by omega)] at s3
  have hbox := is_box_selection_open_col _ _ _ _ _ _ _
    { new_init with row1 := (R1 : Int), col1 := (C1 : Int) } s1 s2
    (char_at_one_digits ' ' d3 [' ', '-'] n3 g3) s3 (by rfl)
  rw [to_int_small R1 (by omega), to_int_small C1 (by omega), to_int_small R2 (by omega)] at hbox
  have hnz : ¬ ((R1 : Int) = 0 ∨ (C1 : Int) = 0 ∨ (R2 : Int) = 0 ∨ SLASH = 0) := by
    unfold SLASH
    omega
  rw [if_neg hnz] at hbox
  rw [load_selection_info_box _ _ _ _ _ _ _ _ _ _ hs.1 hs.2 hcnt hprep hfu s1 s2
    (to_int_small R1 (by omega)) (to_int_small C1 (by omega)) hbox]
  rfl

theorem load_box_open_both (d1 d2 : CStr) (R1 C1 : Nat)
    (h1 : is_decimal d1 R1) (h2 : is_decimal d2 C1)
    (p1 : 1 ≤ R1) (m1 : R1 ≤ 2147483647) (p2 : 1 ≤ C1) (m2 : C1 ≤ 2147483647) :
    load_selection_info ('[' :: (d1 ++ (',' :: (d2 ++ [',', '-', ',', '-', ']'])))) =
      { type := stype_t.BOX, row1 := R1, col1 := C1, row2 := SLASH, col2 := SLASH,
        str := none } := by
  obtain ⟨n1, g1, w1⟩ := h1
  obtain ⟨n2, g2, w2⟩ := h2
  have hs := box_not_special d1 (',' :: (d2 ++ [',', '-', ',', '-', ']'])) n1 g1
  have hcnt : get_no_commas ('[' :: (d1 ++ (',' :: (d2 ++ [',', '-', ',', '-', ']'])))) = 3 := by
    unfold get_no_commas
    rw [List.count_cons, List.count_append, digits_count_comma d1 g1, List.count_cons,
      List.count_append, digits_count_comma d2 g2]
    decide
  have hprep : prepare_selection ('[' :: (d1 ++ (',' :: (d2 ++ [',', '-', ',', '-', ']'])))) =
      d1 ++ (' ' :: (d2 ++ [' ', '-', ' ', '-'])) := by
    have e : '[' :: (d1 ++ (',' :: (d2 ++ [',', '-', ',', '-', ']']))) =
        '[' :: ((d1 ++ (',' :: (d2 ++ [',', '-', ',', '-']))) ++ [']']) := by simp
    rw [e, prepare_selection_brackets]
    simp [List.map_append, List.map_cons, digits_map_comma d1 g1, digits_map_comma d2 g2]
  have hfu : first_underslash (d1 ++ (' ' :: (d2 ++ [' ', '-', ' ', '-']))) = false := by
    obtain ⟨d, ds', rfl⟩ := List.exists_cons_of_ne_nil n1
    unfold first_underslash char_at
    simp only [List.cons_append, List.getD_cons_zero, beq_eq_false_iff_ne, ne_eq]
    exact digit_ne d '_' (g1 d (by simp)) (by decide)
  have s1 := (strtol_digits d1 (' ' :: (d2 ++ [' ', '-', ' ', '-'])) n1 g1
    (no_digit_ahead_cons ' ' _ (by decide))).1
  have s2 := (strtol_digits d2 [' ', '-', ' ', '-'] n2 g2
    (no_digit_ahead_cons ' ' _ (by decide))).2
  rw [w1, clamp_small R1 (by omega)] at s1
  rw [w2, clamp_small C1 (by omega)] at s2
  have hbox := is_box_selection_open_both _ _ [' ', '-', ' ', '-'] _ _
    { new_init with row1 := (R1 : Int), col1 := (C1 : Int) } s1 s2 (by rfl) (by decide) (by rfl)
  rw [to_int_small R1 (by omega), to_int_small C1 (by omega)] at hbox
  have hnz : ¬ ((R1 : Int) = 0 ∨ (C1 : Int) = 0 ∨ SLASH = 0 ∨ SLASH = 0) := by
    unfold SLASH
    omega
  rw [if_neg hnz] at hbox
  rw [load_selection_info_box _ _ _ _ _ _ _ _ _ _ hs.1 hs.2 hcnt hprep hfu s1 s2
    (to_int_small R1 (by omega)) (to_int_small C1 (by omega)) hbox]
  rfl

/-- C6, counterexample: `[1,1,4294967297,1]` is a box written with four
positive integers in decimal, yet its `row2` is loaded as 1. -/
theorem load_box_overflow :
    is_decimal "4294967297".toList 4294967297 ∧
    load_selection_info "[1,1,4294967297,1]".toList =
      { type := stype_t.BOX, row1 := 1, col1 := 1, row2 := 1, col2 := 1, str := none } := by
  refine ⟨?_, ?_⟩
  · unfold is_decimal
    decide
  · decide

/-- C6, amended: for integers `R1`, `C1`, `R2`, `C2` from 1 to 2147483647
written in decimal, `load_selection_info` maps `[R1,C1,R2,C2]` to the BOX with
these four fields, and when `R2`, `C2` or both are written `-` the field
holds the open marker while the other fields hold the numbers written. -/
theorem load_selection_info_box_fields (d1 d2 d3 d4 : CStr) (R1 C1 R2 C2 : Nat)
    (h1 : is_decimal d1 R1) (h2 : is_decimal d2 C1) (h3 : is_decimal d3 R2)
    (h4 : is_decimal d4 C2) (p1 : 1 ≤ R1) (m1 : R1 ≤ 2147483647) (p2 : 1 ≤ C1)
    (m2 : C1 ≤ 2147483647) (p3 : 1 ≤ R2) (m3 : R2 ≤ 2147483647) (p4 : 1 ≤ C2)
    (m4 : C2 ≤ 2147483647) :
    load_selection_info
        ("[".toList ++ d1 ++ ",".toList ++ d2 ++ ",".toList ++ d3 ++ ",".toList ++ d4 ++
          "]".toList) =
      { type := stype_t.BOX, row1 := R1, col1 := C1, row2 := R2, col2 := C2, str := none } ∧
    load_selection_info
        ("[".toList ++ d1 ++ ",".toList ++ d2 ++ ",-,".toList ++ d4 ++ "]".toList) =
      { type := stype_t.BOX, row1 := R1, col1 := C1, row2 := SLASH, col2 := C2, str := none } ∧
    load_selection_info
        ("[".toList ++ d1 ++ ",".toList ++ d2 ++ ",".toList ++ d3 ++ ",-]".toList) =
      { type := stype_t.BOX, row1 := R1, col1 := C1, row2 := R2, col2 := SLASH, str := none } ∧
    load_selection_info ("[".toList ++ d1 ++ ",".toList ++ d2 ++ ",-,-]".toList) =
      { type := stype_t.BOX, row1 := R1, col1 := C1, row2 := SLASH, col2 := SLASH,
        str := none } := by
  refine ⟨?_, ?_, ?_, ?_⟩
  · have := load_box_closed d1 d2 d3 d4 R1 C1 R2 C2 h1 h2 h3 h4 p1 m1 p2 m2 p3 m3 p4 m4
    simpa using this
  · have := load_box_open_row d1 d2 d4 R1 C1 C2 h1 h2 h4 p1 m1 p2 m2 p4 m4
    simpa using this
  · have := load_box_open_col d1 d2 d3 R1 C1 R2 h1 h2 h3 p1 m1 p2 m2 p3 m3
    simpa using this
  · have := load_box_open_both d1 d2 R1 C1 h1 h2 p1 m1 p2 m2
    simpa using this

/-- C6, witness of the amended claim, with the numbers written `1`, `2`, `30`, `4`. -/
theorem load_selection_info_box_fields_witness :
    load_selection_info "[1,2,30,4]".toList =
      { type := stype_t.BOX, row1 := 1, col1 := 2, row2 := 30, col2 := 4, str := none } ∧
    load_selection_info "[1,2,-,4]".toList =
      { type := stype_t.BOX, row1 := 1, col1 := 2, row2 := SLASH, col2 := 4, str := none } ∧
    load_selection_info "[1,2,30,-]".toList =
      { type := stype_t.BOX, row1 := 1, col1 := 2, row2 := 30, col2 := SLASH, str := none } ∧
    load_selection_info "[1,2,-,-]".toList =
      { type := stype_t.BOX, row1 := 1, col1 := 2, row2 := SLASH, col2 := SLASH, str := none } :=
  load_selection_info_box_fields "1".toList "2".toList "30".toList "4".toList 1 2 30 4
    (by unfold is_decimal; decide) (by unfold is_decimal; decide)
    (by unfold is_decimal; decide) (by unfold is_decimal; decide)
    (by decide) (by decide) (by decide) (by decide) (by decide) (by decide) (by decide)
    (by decide)

/-! ## The classifier against its reference -/

theorem begins_with_iff (haystack needle : CStr) :
    begins_with haystack needle = true ↔ ∃ rest, haystack = needle ++ rest := by
  unfold begins_with
  constructor
  · intro h
    split at h
    · exact absurd h (by simp)
    · rename_i hlen
      rw [List.all_eq_true] at h
      refine ⟨haystack.drop needle.length, ?_⟩
      have htake : haystack.take needle.length = needle := by
        apply List.ext_getElem
        · simp
          omega
        · intro i h1 h2
          have := h i (List.mem_range.2 h2)
          unfold char_at at this
          rw [List.getD_eq_getElem _ _ (by omega), List.getD_eq_getElem _ _ h2] at this
          rw [List.getElem_take]
          exact beq_iff_eq.1 this
      conv_lhs => rw [← List.take_append_drop needle.length haystack, htake]
  · rintro ⟨rest, rfl⟩
    rw [if_neg (by simp)]
    rw [List.all_eq_true]
    intro i hi
    have hi' := List.mem_range.1 hi
    unfold char_at
    rw [List.getD_eq_getElem _ _ (by simp; omega), List.getD_eq_getElem _ _ hi',
      List.getElem_append_left hi']
    exact beq_self_eq_true _

theorem RefWord_nil (q : Bool) : RefWord q [] ↔ q = false := by
  constructor
  · intro h
    cases h
    rfl
  · intro h
    rw [h]
    exact RefWord.done

theorem RefWord_backslash (q : Bool) (s : CStr) :
    RefWord q ('\\' :: s) ↔ RefEscaped q s := by
  constructor
  · intro h
    cases h with
    | escape_last => exact Or.inl ⟨rfl, rfl⟩
    | escape _ c rest hc hr => exact Or.inr ⟨c, rest, rfl, hc, hr⟩
    | plain _ _ _ h1 => exact absurd rfl h1
  · rintro (⟨rfl, rfl⟩ | ⟨c, rest, rfl, hc, hr⟩)
    · exact RefWord.escape_last
    · exact RefWord.escape q c rest hc hr

theorem RefWord_quote (q : Bool) (s : CStr) : RefWord q ('"' :: s) ↔ RefWord (!q) s := by
  constructor
  · intro h
    cases h with
    | quote _ _ hr => exact hr
    | plain _ _ _ _ h2 => exact absurd rfl h2
  · intro h
    exact RefWord.quote q s h

theorem RefWord_plain (q : Bool) (c : Char) (s : CStr) (h1 : c ≠ '\\') (h2 : c ≠ '"') :
    RefWord q (c :: s) ↔ (c ≠ ' ' ∨ q = true) ∧ RefWord q s := by
  constructor
  · intro h
    cases h with
    | escape_last => exact absurd rfl h1
    | escape => exact absurd rfl h1
    | quote => exact absurd rfl h2
    | plain _ _ _ _ _ hc hr => exact ⟨hc, hr⟩
  · rintro ⟨hc, hr⟩
    exact RefWord.plain q c s h1 h2 hc hr

theorem single_word_loop_iff (s : CStr) :
    ∀ q : Bool, (single_word_loop s q false = true ↔ RefWord q s) ∧
      (single_word_loop s q true = true ↔ RefEscaped q s) := by
  induction s with
  | nil =>
    intro q
    constructor
    · rw [RefWord_nil]
      cases q <;> simp [single_word_loop]
    · unfold RefEscaped
      cases q <;> simp [single_word_loop]
  | cons c rest ih =>
    intro q
    have hesc : single_word_loop (c :: rest) q true = true ↔ RefEscaped q (c :: rest) := by
      unfold RefEscaped
      rw [single_word_loop]
      simp only [Bool.true_eq_false, and_false, if_false, List.cons.injEq, reduceCtorEq,
        false_and, false_or]
      by_cases hc : c = ' ' ∧ q = false
      · rw [if_pos hc]
        constructor
        · intro h
          exact absurd h (by simp)
        · rintro ⟨c', rest', ⟨rfl, rfl⟩, hcq, -⟩
          rcases hcq with hcq | hcq
          · exact absurd hc.1 hcq
          · rw [hc.2] at hcq
            exact absurd hcq (by simp)
      · rw [if_neg hc, (ih q).1]
        constructor
        · intro h
          refine ⟨c, rest, ⟨rfl, rfl⟩, ?_, h⟩
          by_cases hsp : c = ' '
          · right
            cases q
            · exact absurd ⟨hsp, rfl⟩ hc
            · rfl
          · exact Or.inl hsp
        · rintro ⟨c', rest', ⟨rfl, rfl⟩, -, hr⟩
          exact hr
    refine ⟨?_, hesc⟩
    rw [single_word_loop]
    by_cases hb : c = '\\'
    · subst hb
      simp only [true_and, if_true]
      rw [(ih q).2, RefWord_backslash]
    · simp only [hb, false_and, if_false]
      by_cases hq : c = '"'
      · subst hq
        simp only [true_and, if_true]
        have : ¬ (('"' : Char) = ' ' ∧ (!q) = false) := by
          intro h
          exact absurd h.1 (by decide)
        rw [if_neg this, (ih (!q)).1, RefWord_quote]
      · simp only [hq, false_and, if_false]
        rw [RefWord_plain q c rest hb hq]
        by_cases hc : c = ' ' ∧ q = false
        · rw [if_pos hc]
          constructor
          · intro h
            exact absurd h (by simp)
          · rintro ⟨hcq, -⟩
            rcases hcq with hcq | hcq
            · exact absurd hc.1 hcq
            · rw [hc.2] at hcq
              exact absurd hcq (by simp)
        · rw [if_neg hc, (ih q).1]
          constructor
          · intro h
            refine ⟨?_, h⟩
            by_cases hsp : c = ' '
            · right
              cases q
              · exact absurd ⟨hsp, rfl⟩ hc
              · rfl
            · exact Or.inl hsp
          · rintro ⟨-, hr⟩
            exact hr

theorem sprintf_d_digit (j : Nat) (hj : j < 10) : sprintf_d (j : Int) = [Nat.digitChar j] := by
  interval_cases j <;> decide

theorem is_var_iff (cmd : CStr) : is_var cmd = true ↔ RefVariable cmd := by
  unfold is_var RefVariable
  have hnames : var_list.take 3 = ["def _".toList, "use _".toList, "inc _".toList] := by decide
  rw [hnames]
  constructor
  · intro h
    split at h
    · rename_i h1
      rw [List.any_eq_true] at h1
      obtain ⟨name, hname, h2⟩ := h1
      rw [List.any_eq_true] at h2
      obtain ⟨j, hj, h3⟩ := h2
      have hj' := List.mem_range.1 hj
      left
      refine ⟨name, hname, j, hj', ?_⟩
      rw [← sprintf_d_digit j hj']
      exact (beq_iff_eq.1 h3).symm
    · split at h
      · rename_i h1
        right
        exact (beq_iff_eq.1 h1).symm
      · exact absurd h (by simp)
  · rintro (⟨name, hname, n, hn, rfl⟩ | rfl)
    · have : (["def _".toList, "use _".toList, "inc _".toList].any fun name' =>
          (List.range 10).any fun j => name' ++ sprintf_d (j : Int) == name ++ [Nat.digitChar n])
          = true := by
        rw [List.any_eq_true]
        refine ⟨name, hname, ?_⟩
        rw [List.any_eq_true]
        refine ⟨n, List.mem_range.2 hn, ?_⟩
        rw [sprintf_d_digit n hn]
        exact beq_self_eq_true _
      rw [if_pos this]
    · decide

theorem is_modification_iff (cmd : CStr) : is_modification cmd = true ↔ RefModification cmd := by
  unfold is_modification RefModification
  rw [List.any_eq_true]
  constructor
  · rintro ⟨name, hname, h⟩
    rw [beq_iff_eq.1 h]
    exact hname
  · intro h
    exact ⟨cmd, h, beq_self_eq_true _⟩

theorem last_char (cmd : CStr) (x : Char) (hx : x ≠ NUL)
    (h : char_at cmd (cmd.length - 1) = x) : ∃ front, cmd = front ++ [x] := by
  rcases List.eq_nil_or_concat cmd with rfl | ⟨front, y, rfl⟩
  · exact absurd h.symm hx
  · refine ⟨front, ?_⟩
    unfold char_at at h
    simp [List.getD_eq_getElem?_getD] at h
    rw [h]
    simp

theorem char_at_last (front : CStr) (x : Char) :
    char_at (front ++ [x]) ((front ++ [x]).length - 1) = x := by
  unfold char_at
  simp [List.getD_eq_getElem?_getD]

theorem is_selection_iff (cmd : CStr) : is_selection cmd = true ↔ RefSelection cmd := by
  unfold is_selection RefSelection get_no_commas
  constructor
  · intro h
    simp only [] at h
    split at h
    · rename_i hc
      simp only [Bool.and_eq_true, beq_iff_eq] at h
      obtain ⟨front, hfront⟩ := last_char cmd ']' (by decide) h.2
      cases front with
      | nil =>
        rw [hfront] at h
        exact absurd h.1 (by decide)
      | cons c body =>
        rw [hfront] at h hc
        have hc0 : c = '[' := by
          have := h.1
          unfold char_at at this
          simpa using this
        subst hc0
        refine ⟨body, by simpa using hfront, ?_⟩
        simpa [List.count_cons, List.count_append] using hc
    · exact absurd h (by simp)
  · rintro ⟨body, rfl, hc⟩
    have hcount : ("[".toList ++ body ++ "]".toList).count ',' = body.count ',' := by
      simp [List.count_cons, List.count_append]
    simp only []
    rw [hcount, if_pos hc]
    simp only [Bool.and_eq_true, beq_iff_eq]
    constructor
    · rfl
    · have := char_at_last ('[' :: body) ']'
      simpa using this

theorem is_set_str_iff (cmd : CStr) :
    is_set_str cmd = true ↔
      ∃ word : CStr, word ≠ [] ∧ RefWord false word ∧ cmd = "set ".toList ++ word := by
  unfold is_set_str single_word SET_LEN
  constructor
  · intro h
    split at h
    · exact absurd h (by simp)
    · rename_i hlen
      split at h
      · exact absurd h (by simp)
      · rename_i hbw
        split at h
        · exact absurd h (by simp)
        · rename_i hsw
          simp only [Bool.not_eq_true, Bool.not_eq_false', Bool.not_eq_eq_eq_not,
            Bool.not_true, Bool.not_false] at hbw hsw
          have hbw' : begins_with cmd "set ".toList = true := by simpa using hbw
          obtain ⟨rest, rfl⟩ := (begins_with_iff cmd "set ".toList).1 hbw'
          refine ⟨rest, ?_, ?_, rfl⟩
          · intro hr
            rw [hr] at hlen
            exact hlen (by decide)
          · have : single_word_loop rest false false = true := by simpa using hsw
            exact ((single_word_loop_iff rest false).1).1 this
  · rintro ⟨word, hne, hw, rfl⟩
    have hlen : ¬ ("set ".toList ++ word).length < 5 := by
      have : 0 < word.length := List.length_pos.2 hne
      simp
      omega
    have hbw : begins_with ("set ".toList ++ word) "set ".toList = true :=
      (begins_with_iff _ _).2 ⟨word, rfl⟩
    have hsw : single_word_loop (("set ".toList ++ word).drop (5 - 1)) false false = true := by
      have : ("set ".toList ++ word).drop (5 - 1) = word := by simp
      rw [this]
      exact ((single_word_loop_iff word false).1).2 hw
    rw [if_neg hlen, hbw, hsw]
    rfl

theorem begins_with_false (haystack needle : CStr)
    (h : ∀ rest, haystack ≠ needle ++ rest) : begins_with haystack needle = false := by
  cases hb : begins_with haystack needle
  · rfl
  · obtain ⟨rest, hr⟩ := (begins_with_iff haystack needle).1 hb
    exact absurd hr (h rest)

theorem two_arg_match_eq (cmd : CStr) :
    two_arg_match cmd =
      if begins_with cmd "len ".toList then some "len ".toList
      else if begins_with cmd "count ".toList then some "count ".toList
      else if begins_with cmd "avg ".toList then some "avg ".toList
      else if begins_with cmd "sum ".toList then some "sum ".toList
      else if begins_with cmd "swap ".toList then some "swap ".toList
      else none := by
  unfold two_arg_match
  have : data_list.drop 2 =
      ["swap ".toList, "sum ".toList, "avg ".toList, "count ".toList, "len ".toList] := by
    decide
  rw [this]
  simp only [List.foldl_cons, List.foldl_nil]

theorem two_arg_match_of (name rest : CStr)
    (hname : name ∈ ["swap".toList, "sum".toList, "avg".toList, "count".toList, "len".toList]) :
    two_arg_match (name ++ ' ' :: rest) = some (name ++ [' ']) := by
  rw [two_arg_match_eq]
  simp only [List.mem_cons, List.mem_singleton, List.not_mem_nil, or_false] at hname
  rcases hname with rfl | rfl | rfl | rfl | rfl
  · rw [begins_with_false _ "len ".toList (by intro r; simp),
      begins_with_false _ "count ".toList (by intro r; simp),
      begins_with_false _ "avg ".toList (by intro r; simp),
      begins_with_false _ "sum ".toList (by intro r; simp),
      (begins_with_iff _ "swap ".toList).2 ⟨rest, by simp⟩]
    rfl
  · rw [begins_with_false _ "len ".toList (by intro r; simp),
      begins_with_false _ "count ".toList (by intro r; simp),
      begins_with_false _ "avg ".toList (by intro r; simp),
      (begins_with_iff _ "sum ".toList).2 ⟨rest, by simp⟩]
    rfl
  · rw [begins_with_false _ "len ".toList (by intro r; simp),
      begins_with_false _ "count ".toList (by intro r; simp),
      (begins_with_iff _ "avg ".toList).2 ⟨rest, by simp⟩]
    rfl
  · rw [begins_with_false _ "len ".toList (by intro r; simp),
      (begins_with_iff _ "count ".toList).2 ⟨rest, by simp⟩]
    rfl
  · rw [(begins_with_iff _ "len ".toList).2 ⟨rest, by simp⟩]
    rfl

theorem two_arg_match_some (cmd nm : CStr) (h : two_arg_match cmd = some nm) :
    ∃ name ∈ ["swap".toList, "sum".toList, "avg".toList, "count".toList, "len".toList],
      ∃ rest, nm = name ++ [' '] ∧ cmd = name ++ ' ' :: rest := by
  rw [two_arg_match_eq] at h
  split at h
  · rename_i hb
    obtain ⟨rest, hr⟩ := (begins_with_iff _ _).1 hb
    simp only [Option.some.injEq] at h
    exact ⟨"len".toList, by simp, rest, by rw [← h]; rfl, by rw [hr]; rfl⟩
  · split at h
    · rename_i hb
      obtain ⟨rest, hr⟩ := (begins_with_iff _ _).1 hb
      simp only [Option.some.injEq] at h
      exact ⟨"count".toList, by simp, rest, by rw [← h]; rfl, by rw [hr]; rfl⟩
    · split at h
      · rename_i hb
        obtain ⟨rest, hr⟩ := (begins_with_iff _ _).1 hb
        simp only [Option.some.injEq] at h
        exact ⟨"avg".toList, by simp, rest, by rw [← h]; rfl, by rw [hr]; rfl⟩
      · split at h
        · rename_i hb
          obtain ⟨rest, hr⟩ := (begins_with_iff _ _).1 hb
          simp only [Option.some.injEq] at h
          exact ⟨"sum".toList, by simp, rest, by rw [← h]; rfl, by rw [hr]; rfl⟩
        · split at h
          · rename_i hb
            obtain ⟨rest, hr⟩ := (begins_with_iff _ _).1 hb
            simp only [Option.some.injEq] at h
            exact ⟨"swap".toList, by simp, rest, by rw [← h]; rfl, by rw [hr]; rfl⟩
          · exact absurd h (by simp)

theorem names_no_comma (name : CStr)
    (hname : name ∈ ["swap".toList, "sum".toList, "avg".toList, "count".toList, "len".toList]) :
    name.count ',' = 0 := by
  simp only [List.mem_cons, List.mem_singleton, List.not_mem_nil, or_false] at hname
  rcases hname with rfl | rfl | rfl | rfl | rfl <;> decide

theorem char_at_append_right (a b : CStr) (i : Nat) :
    char_at (a ++ b) (a.length + i) = char_at b i := by
  unfold char_at
  rw [List.getD_eq_getElem?_getD, List.getD_eq_getElem?_getD,
    List.getElem?_append_right (by omega)]
  simp

theorem is_two_arg_data_iff (cmd : CStr) :
    is_two_arg_data cmd = true ↔
      ∃ name ∈ ["swap".toList, "sum".toList, "avg".toList, "count".toList, "len".toList],
        ∃ body : CStr, body.count ',' = 1 ∧
          cmd = name ++ " [".toList ++ body ++ "]".toList := by
  unfold is_two_arg_data get_no_commas
  constructor
  · intro h
    split at h
    · exact absurd h (by simp)
    · rename_i nm hm
      obtain ⟨name, hname, rest, rfl, rfl⟩ := two_arg_match_some cmd nm hm
      simp only [Bool.and_eq_true, beq_iff_eq] at h
      obtain ⟨⟨hc, hopen⟩, hclose⟩ := h
      have hopen' : char_at rest 0 = '[' := by
        have e : name ++ ' ' :: rest = (name ++ [' ']) ++ rest := by simp
        rw [e] at hopen
        have := char_at_append_right (name ++ [' ']) rest 0
        rw [Nat.add_zero] at this
        rw [this] at hopen
        exact hopen
      cases rest with
      | nil => exact absurd hopen' (by decide)
      | cons c rest' =>
        have hc0 : c = '[' := by
          unfold char_at at hopen'
          simpa using hopen'
        subst hc0
        obtain ⟨front, hfront⟩ := last_char _ ']' (by decide) hclose
        rcases List.eq_nil_or_concat rest' with rfl | ⟨body, y, rfl⟩
        · have e : name ++ ' ' :: ['['] = (name ++ [' ']) ++ ['['] := by simp
          rw [e] at hfront
          have := List.append_inj_right' hfront rfl
          exact absurd this (by decide)
        · have hy : y = ']' := by
            have e : name ++ ' ' :: '[' :: body.concat y = (name ++ ' ' :: '[' :: body) ++ [y] := by
              simp [List.concat_eq_append]
            rw [e] at hfront
            have := List.append_inj_right' hfront rfl
            simpa using this
          subst hy
          refine ⟨name, hname, body, ?_, by simp [List.concat_eq_append]⟩
          have hn := names_no_comma name hname
          simp [List.concat_eq_append, List.count_append, List.count_cons, hn] at hc
          exact hc
  · rintro ⟨name, hname, body, hb, rfl⟩
    have e : name ++ " [".toList ++ body ++ "]".toList = name ++ ' ' :: ('[' :: (body ++ [']'])) := by
      simp
    rw [e, two_arg_match_of name _ hname]
    simp only [Bool.and_eq_true, beq_iff_eq]
    refine ⟨⟨?_, ?_⟩, ?_⟩
    · have hn := names_no_comma name hname
      simp [List.count_append, List.count_cons, hn, hb]
    · have e2 : name ++ ' ' :: ('[' :: (body ++ [']'])) =
          (name ++ [' ']) ++ ('[' :: (body ++ [']'])) := by simp
      rw [e2]
      have := char_at_append_right (name ++ [' ']) ('[' :: (body ++ [']'])) 0
      rw [Nat.add_zero] at this
      rw [this]
      rfl
    · have e3 : name ++ ' ' :: ('[' :: (body ++ [']'])) =
          (name ++ ' ' :: '[' :: body) ++ [']'] := by simp
      rw [e3]
      exact char_at_last _ _

theorem is_data_iff (cmd : CStr) : is_data cmd = true ↔ RefData cmd := by
  unfold is_data RefData
  rw [← is_set_str_iff, ← is_two_arg_data_iff]
  by_cases h1 : is_set_str cmd = true
  · simp [h1]
  · by_cases h2 : cmd = "clear".toList
    · simp [h2]
    · by_cases h3 : is_two_arg_data cmd = true
      · simp [h3]
      · simp [h1, h2, h3]

/-- C8, counterexample: the token of `set a<TAB>b` has no quote sign and
holds a tab, which is white space (`isspace`), yet the fragment is classified
DATA: of the white space only the blank ends the token of `set`. -/
theorem get_command_type_tab :
    get_command_type "set a\tb".toList = cmd_types_t.DATA ∧
    '"' ∉ "a\tb".toList ∧ (∃ c ∈ "a\tb".toList, isspace c = true) ∧
    get_command_type "set a b".toList = cmd_types_t.INVALID := by
  decide

theorem get_command_type_priority (cmd : CStr) :
    (RefVariable cmd → get_command_type cmd = cmd_types_t.VARIABLE) ∧
    (¬ RefVariable cmd → RefModification cmd →
      get_command_type cmd = cmd_types_t.MODIFICATION) ∧
    (¬ RefVariable cmd → ¬ RefModification cmd → RefData cmd →
      get_command_type cmd = cmd_types_t.DATA) ∧
    (¬ RefVariable cmd → ¬ RefModification cmd → ¬ RefData cmd → RefSelection cmd →
      get_command_type cmd = cmd_types_t.SELECTION) ∧
    (¬ RefVariable cmd → ¬ RefModification cmd → ¬ RefData cmd → ¬ RefSelection cmd →
      get_command_type cmd = cmd_types_t.INVALID) ∧
    get_command_type "[set]".toList = cmd_types_t.VARIABLE := by
  rw [← is_var_iff, ← is_modification_iff, ← is_data_iff, ← is_selection_iff]
  unfold get_command_type
  refine ⟨?_, ?_, ?_, ?_, ?_, by decide⟩
  · intro h1
    rw [if_pos h1]
  · intro h1 h2
    rw [if_neg h1, if_pos h2]
  · intro h1 h2 h3
    rw [if_neg h1, if_neg h2, if_pos h3]
  · intro h1 h2 h3 h4
    rw [if_neg h1, if_neg h2, if_neg h3, if_pos h4]
  · intro h1 h2 h3 h4
    rw [if_neg h1, if_neg h2, if_neg h3, if_neg h4]

/-- C8, amended: `get_command_type` is the priority-ordered reference
classifier: VARIABLE for `def _N`, `use _N`, `inc _N` and `[set]`; otherwise
MODIFICATION for the six structural names; otherwise DATA for `set` with one
quote-aware word free of blanks (the space character, the only white space
that counts), `clear`, or a two-argument data name with a bracketed part of
one comma; otherwise SELECTION for a bracket-delimited fragment with 0, 1 or 3
commas; otherwise INVALID.  In particular `[set]` is VARIABLE. -/
theorem get_command_type_reference (cmd : CStr) :
    (RefVariable cmd → get_command_type cmd = cmd_types_t.VARIABLE) ∧
    (¬ RefVariable cmd → RefModification cmd →
      get_command_type cmd = cmd_types_t.MODIFICATION) ∧
    (¬ RefVariable cmd → ¬ RefModification cmd → RefData cmd →
      get_command_type cmd = cmd_types_t.DATA) ∧
    (¬ RefVariable cmd → ¬ RefModification cmd → ¬ RefData cmd → RefSelection cmd →
      get_command_type cmd = cmd_types_t.SELECTION) ∧
    (¬ RefVariable cmd → ¬ RefModification cmd → ¬ RefData cmd → ¬ RefSelection cmd →
      get_command_type cmd = cmd_types_t.INVALID) ∧
    get_command_type "[set]".toList = cmd_types_t.VARIABLE :=
  get_command_type_priority cmd

/-- C8, witness of the amended claim: `def _3` is a variable command by the reference and is
classified VARIABLE; `[1,2]` is by the reference no variable, structural or
data command but a selection, and is classified SELECTION. -/
theorem get_command_type_reference_witness :
    get_command_type "def _3".toList = cmd_types_t.VARIABLE ∧
    get_command_type "[1,2]".toList = cmd_types_t.SELECTION :=
  ⟨(get_command_type_reference "def _3".toList).1
      (Or.inl ⟨"def _".toList, by simp, 3, by decide, by decide⟩),
    (get_command_type_reference "[1,2]".toList).2.2.2.1
      (fun h => absurd ((is_var_iff _).2 h) (by decide))
      (fun h => absurd ((is_modification_iff _).2 h) (by decide))
      (fun h => absurd ((is_data_iff _).2 h) (by decide))
      ⟨"1,2".toList, by decide, Or.inr (Or.inl (by decide))⟩⟩

/-! ## The structure of the parsed call -/

theorem split_fragments_head (rest current : CStr) :
    ∃ f fs, split_fragments rest current = f :: fs ∧ current.length ≤ f.length := by
  induction rest generalizing current with
  | nil => exact ⟨current, [], rfl, le_refl _⟩
  | cons c rest ih =>
    rw [split_fragments]
    by_cases hc : c = ';'
    · rw [if_pos hc]
      exact ⟨current, _, rfl, le_refl _⟩
    · rw [if_neg hc]
      obtain ⟨f, fs, e, hl⟩ := ih (current ++ [c])
      refine ⟨f, fs, e, ?_⟩
      rw [List.length_append] at hl
      omega

theorem load_command_loop_eq (rest current : CStr) (st : call_t × Int) :
    load_command_loop rest current st =
      (split_fragments rest current).foldlM (fun st f => load_checked f st) st := by
  induction rest generalizing current st with
  | nil =>
    simp only [load_command_loop, split_fragments, List.foldlM_cons, List.foldlM_nil,
      load_checked]
    split_ifs
    · rfl
    · cases load_fragment current st <;> rfl
  | cons c rest ih =>
    rw [load_command_loop, split_fragments]
    by_cases hlen : CHUNK ≤ current.length
    · rw [if_pos hlen]
      by_cases hc : c = ';'
      · rw [if_pos hc, List.foldlM_cons]
        unfold load_checked
        rw [if_pos hlen]
        rfl
      · rw [if_neg hc]
        obtain ⟨f, fs, e, hl⟩ := split_fragments_head rest (current ++ [c])
        rw [e, List.foldlM_cons]
        unfold load_checked
        rw [List.length_append] at hl
        rw [if_pos (by omega)]
        rfl
    · rw [if_neg hlen]
      by_cases hc : c = ';'
      · rw [if_pos hc, if_pos hc, List.foldlM_cons]
        unfold load_checked
        rw [if_neg hlen]
        cases h : load_fragment current st with
        | error e => rfl
        | ok st' =>
          simp only []
          rw [ih]
          rfl
      · rw [if_neg hc, if_neg hc, ih]

theorem foldlM_checked_eq (frs : List CStr) (hshort : ∀ f ∈ frs, f.length < CHUNK) :
    ∀ st : call_t × Int, frs.foldlM (fun st f => load_checked f st) st =
      frs.foldlM (fun st f => load_fragment f st) st := by
  induction frs with
  | nil => intro st; rfl
  | cons g frs ih =>
    intro st
    have hg : ¬ CHUNK ≤ g.length := by
      have := hshort g (List.mem_cons_self _ _)
      omega
    rw [List.foldlM_cons, List.foldlM_cons]
    unfold load_checked
    rw [if_neg hg]
    cases load_fragment g st with
    | error e => rfl
    | ok st1 => exact ih (fun f hf => hshort f (List.mem_cons_of_mem _ hf)) st1

theorem foldlM_checked_ok (frs : List CStr) :
    ∀ st r : call_t × Int, frs.foldlM (fun st f => load_checked f st) st = Except.ok r →
      frs.foldlM (fun st f => load_fragment f st) st = Except.ok r ∧
      ∀ f ∈ frs, f.length < CHUNK := by
  induction frs with
  | nil =>
    intro st r h
    exact ⟨h, by simp⟩
  | cons g frs ih =>
    intro st r h
    rw [List.foldlM_cons] at h
    by_cases hg : CHUNK ≤ g.length
    · unfold load_checked at h
      rw [if_pos hg] at h
      exact absurd h (by simp [bind, Except.bind])
    · have e : load_checked g st = load_fragment g st := by
        unfold load_checked
        rw [if_neg hg]
      rw [e] at h
      rw [List.foldlM_cons]
      cases hl : load_fragment g st with
      | error e =>
        rw [hl] at h
        exact absurd h (by simp [bind, Except.bind])
      | ok st1 =>
        rw [hl] at h
        obtain ⟨h1, h2⟩ := ih st1 r h
        refine ⟨h1, ?_⟩
        intro f hf
        rcases List.mem_cons.1 hf with rfl | hf
        · omega
        · exact h2 f hf

theorem load_data_info_cases (f : CStr) (call : call_t) :
    load_data_info f call =
      if (data_name f).1 ≠ "set".toList ∧ (data_name f).1 ≠ "clear".toList then
        if (data_args f (data_name f).1).1 < 0 ∨ (data_args f (data_name f).1).2 < 0 then
          Except.error parse_error.invalid_argument
        else
          Except.ok
            { type := cmd_types_t.DATA, cmd_name := (data_name f).1, cmd_num := (data_name f).2,
              arg1 := (data_args f (data_name f).1).1, arg2 := (data_args f (data_name f).1).2,
              str := none, selection := last_selection call }
      else if (data_name f).1 = "set".toList then
        Except.ok
          { type := cmd_types_t.DATA, cmd_name := (data_name f).1, cmd_num := (data_name f).2,
            arg1 := 0, arg2 := 0, str := some (f.drop ((data_name f).1.length + 1)),
            selection := last_selection call }
      else
        Except.ok
          { type := cmd_types_t.DATA, cmd_name := (data_name f).1, cmd_num := (data_name f).2,
            arg1 := 0, arg2 := 0, str := none, selection := last_selection call } := by
  unfold load_data_info
  simp only []
  by_cases hname : (data_name f).1 ≠ "set".toList ∧ (data_name f).1 ≠ "clear".toList
  · rw [if_pos hname, if_pos hname]
    by_cases hneg : (data_args f (data_name f).1).1 < 0 ∨ (data_args f (data_name f).1).2 < 0
    · rw [if_pos hneg]
    · rw [if_neg hneg]
      simp only []
      rw [if_neg hname.1]
  · rw [if_neg hname, if_neg hname]

theorem load_data_info_error (f : CStr) (call : call_t) (e : parse_error)
    (h : load_data_info f call = Except.error e) :
    e = parse_error.invalid_argument ∧
      ∀ call', load_data_info f call' = Except.error parse_error.invalid_argument := by
  rw [load_data_info_cases] at h
  split at h
  · rename_i hname
    split at h
    · rename_i hneg
      simp only [Except.error.injEq] at h
      refine ⟨h.symm, ?_⟩
      intro call'
      rw [load_data_info_cases, if_pos hname, if_pos hneg]
    · exact absurd h (by simp)
  · split at h <;> exact absurd h (by simp)

theorem load_fragment_nil (st : call_t × Int) : load_fragment [] st = Except.ok st := by
  unfold load_fragment
  simp

theorem load_fragment_invalid (f : CStr) (st : call_t × Int) (hne : f ≠ [])
    (h : get_command_type f = cmd_types_t.INVALID) :
    load_fragment f st = Except.error parse_error.unknown_command := by
  unfold load_fragment
  have : ¬ f.length = 0 := by
    intro h0
    exact hne (List.length_eq_zero.1 h0)
  simp only [this, if_false, h, if_true]

theorem call_add_selection_room (call : call_t) (new : selection_t)
    (h : call.selections.length < CHUNK) :
    call_add_selection call new =
      Except.ok { call with selections := call.selections ++ [new] } := by
  unfold call_add_selection
  rw [if_neg (Nat.ne_of_lt h)]

theorem call_add_selection_ok (call call1 : call_t) (new : selection_t)
    (h : call_add_selection call new = Except.ok call1) :
    call1 = { call with selections := call.selections ++ [new] } := by
  unfold call_add_selection at h
  split at h
  · exact absurd h (by simp)
  · simp only [Except.ok.injEq] at h
    exact h.symm

theorem load_fragment_selection (f : CStr) (st : call_t × Int) (hne : f ≠ [])
    (h : get_command_type f = cmd_types_t.SELECTION) :
    load_fragment f st =
      if (load_selection_info f).type = stype_t.INVALID_S then
        Except.error parse_error.unknown_command
      else
        match call_add_selection st.1 (load_selection_info f) with
        | Except.error e => Except.error e
        | Except.ok call => Except.ok (call, st.2 + 1) := by
  unfold load_fragment
  have : ¬ f.length = 0 := by
    intro h0
    exact hne (List.length_eq_zero.1 h0)
  simp only [this, if_false, h, reduceCtorEq]
  try rfl

theorem load_fragment_modification (f : CStr) (st : call_t × Int) (hne : f ≠ [])
    (h : get_command_type f = cmd_types_t.MODIFICATION) :
    load_fragment f st =
      Except.ok (call_add_cmd st.1 (load_modification_info f st.1), st.2 + 1) := by
  unfold load_fragment
  have : ¬ f.length = 0 := by
    intro h0
    exact hne (List.length_eq_zero.1 h0)
  simp only [this, if_false, h, reduceCtorEq]

theorem load_fragment_variable (f : CStr) (st : call_t × Int) (hne : f ≠ [])
    (h : get_command_type f = cmd_types_t.VARIABLE) :
    load_fragment f st = Except.ok (call_add_cmd st.1 (load_var_info f st.1), st.2 + 1) := by
  unfold load_fragment
  have : ¬ f.length = 0 := by
    intro h0
    exact hne (List.length_eq_zero.1 h0)
  simp only [this, if_false, h, reduceCtorEq]

theorem load_fragment_data (f : CStr) (st : call_t × Int) (hne : f ≠ [])
    (h : get_command_type f = cmd_types_t.DATA) :
    load_fragment f st =
      match load_data_info f st.1 with
      | Except.error e => Except.error e
      | Except.ok ccurrent => Except.ok (call_add_cmd st.1 ccurrent, st.2 + 1) := by
  unfold load_fragment
  have : ¬ f.length = 0 := by
    intro h0
    exact hne (List.length_eq_zero.1 h0)
  simp only [this, if_false, h, reduceCtorEq]
  try rfl

theorem load_fragment_error_iff (f : CStr) (st : call_t × Int) (hne : f ≠ [])
    (hcap : get_command_type f = cmd_types_t.SELECTION → st.1.selections.length < CHUNK) :
    (∃ e, load_fragment f st = Except.error e) ↔ malformed f ∨ negative_argument f := by
  unfold malformed negative_argument
  cases hty : get_command_type f with
  | VARIABLE =>
    rw [load_fragment_variable f st hne hty]
    simp
  | MODIFICATION =>
    rw [load_fragment_modification f st hne hty]
    simp
  | DATA =>
    rw [load_fragment_data f st hne hty]
    simp only [reduceCtorEq, false_and, or_self, false_or, true_and]
    constructor
    · rintro ⟨e, he⟩
      cases hd : load_data_info f st.1 with
      | error e' => exact (load_data_info_error f st.1 e' hd).2 _
      | ok c =>
        rw [hd] at he
        exact absurd he (by simp)
    · intro h
      have := (load_data_info_error f (call_ctor []) _ h).2 st.1
      rw [this]
      exact ⟨_, rfl⟩
  | SELECTION =>
    rw [load_fragment_selection f st hne hty]
    simp only [reduceCtorEq, false_and, or_false, false_or, true_and]
    by_cases hs : (load_selection_info f).type = stype_t.INVALID_S
    · rw [if_pos hs]
      simp [hs]
    · rw [if_neg hs, call_add_selection_room _ _ (hcap hty)]
      simp [hs]
  | INVALID =>
    rw [load_fragment_invalid f st hne hty]
    simp

theorem foldlM_load_cons_error (g : CStr) (frs : List CStr) (st : call_t × Int)
    (e : parse_error) (h : load_fragment g st = Except.error e) :
    (g :: frs).foldlM (fun st f => load_fragment f st) st = Except.error e := by
  rw [List.foldlM_cons, h]
  rfl

theorem foldlM_load_cons_ok (g : CStr) (frs : List CStr) (st st1 : call_t × Int)
    (h : load_fragment g st = Except.ok st1) :
    (g :: frs).foldlM (fun st f => load_fragment f st) st =
      frs.foldlM (fun st f => load_fragment f st) st1 := by
  rw [List.foldlM_cons, h]
  rfl

theorem load_fragment_room (f : CStr) (st st1 : call_t × Int)
    (h : load_fragment f st = Except.ok st1) :
    st1.1.selections.length =
      st.1.selections.length + (if is_sel_fragment f = true then 1 else 0) := by
  by_cases hne : f = []
  · subst hne
    rw [load_fragment_nil] at h
    simp only [Except.ok.injEq] at h
    rw [← h]
    rfl
  · have hemp : f.isEmpty = false := by
      cases f with
      | nil => exact absurd rfl hne
      | cons c r => rfl
    unfold is_sel_fragment
    cases hty : get_command_type f with
    | VARIABLE =>
      rw [load_fragment_variable f st hne hty] at h
      simp only [Except.ok.injEq] at h
      rw [← h]
      simp [call_add_cmd]
    | MODIFICATION =>
      rw [load_fragment_modification f st hne hty] at h
      simp only [Except.ok.injEq] at h
      rw [← h]
      simp [call_add_cmd]
    | DATA =>
      rw [load_fragment_data f st hne hty] at h
      split at h
      · exact absurd h (by simp)
      · simp only [Except.ok.injEq] at h
        rw [← h]
        simp [call_add_cmd]
    | SELECTION =>
      rw [load_fragment_selection f st hne hty] at h
      split at h
      · exact absurd h (by simp)
      · split at h
        · exact absurd h (by simp)
        · rename_i call1 hadd
          simp only [Except.ok.injEq] at h
          rw [← h, call_add_selection_ok _ _ _ hadd]
          simp [hemp]
    | INVALID =>
      rw [load_fragment_invalid f st hne hty] at h
      exact absurd h (by simp)

theorem foldlM_load_error_iff (frs : List CStr) :
    ∀ st : call_t × Int,
      st.1.selections.length + (frs.filter is_sel_fragment).length ≤ CHUNK →
      ((∃ e, frs.foldlM (fun st f => load_fragment f st) st = Except.error e) ↔
        ∃ f ∈ frs, f ≠ [] ∧ (malformed f ∨ negative_argument f)) := by
  induction frs with
  | nil =>
    intro st _
    simp [List.foldlM_nil, pure, Except.pure]
  | cons g frs ih =>
    intro st hroom
    by_cases hg : g = []
    · subst hg
      have hs0 : is_sel_fragment [] = false := by decide
      rw [List.filter_cons, hs0] at hroom
      rw [foldlM_load_cons_ok [] frs st st (load_fragment_nil st), ih st hroom]
      simp
    · by_cases hsel : is_sel_fragment g = true
      · rw [List.filter_cons, if_pos hsel, List.length_cons] at hroom
        have hcap : get_command_type g = cmd_types_t.SELECTION →
            st.1.selections.length < CHUNK := fun _ => by omega
        cases hl : load_fragment g st with
        | error e =>
          rw [foldlM_load_cons_error g frs st e hl]
          have hbad := (load_fragment_error_iff g st hg hcap).1 ⟨e, hl⟩
          constructor
          · intro _
            exact ⟨g, by simp, hg, hbad⟩
          · intro _
            exact ⟨e, rfl⟩
        | ok st1 =>
          have hlen := load_fragment_room g st st1 hl
          rw [if_pos hsel] at hlen
          rw [foldlM_load_cons_ok g frs st st1 hl, ih st1 (by omega)]
          have hgood : ¬ (malformed g ∨ negative_argument g) := by
            intro hbad
            obtain ⟨e, he⟩ := (load_fragment_error_iff g st hg hcap).2 hbad
            rw [hl] at he
            exact absurd he (by simp)
          constructor
          · rintro ⟨f, hf, hne, hbad⟩
            exact ⟨f, List.mem_cons_of_mem _ hf, hne, hbad⟩
          · rintro ⟨f, hf, hne, hbad⟩
            rcases List.mem_cons.1 hf with rfl | hf
            · exact absurd hbad hgood
            · exact ⟨f, hf, hne, hbad⟩
      · rw [List.filter_cons, if_neg hsel] at hroom
        have hty : get_command_type g ≠ cmd_types_t.SELECTION := by
          intro hc
          apply hsel
          unfold is_sel_fragment
          cases g with
          | nil => exact absurd rfl hg
          | cons c r => simp [hc]
        have herr := load_fragment_error_iff g st hg (fun hc => absurd hc hty)
        cases hl : load_fragment g st with
        | error e =>
          rw [foldlM_load_cons_error g frs st e hl]
          have hbad := herr.1 ⟨e, hl⟩
          constructor
          · intro _
            exact ⟨g, by simp, hg, hbad⟩
          · intro _
            exact ⟨e, rfl⟩
        | ok st1 =>
          have hlen := load_fragment_room g st st1 hl
          rw [if_neg hsel] at hlen
          rw [foldlM_load_cons_ok g frs st st1 hl, ih st1 (by omega)]
          have hgood : ¬ (malformed g ∨ negative_argument g) := by
            intro hbad
            obtain ⟨e, he⟩ := herr.2 hbad
            rw [hl] at he
            exact absurd he (by simp)
          constructor
          · rintro ⟨f, hf, hne, hbad⟩
            exact ⟨f, List.mem_cons_of_mem _ hf, hne, hbad⟩
          · rintro ⟨f, hf, hne, hbad⟩
            rcases List.mem_cons.1 hf with rfl | hf
            · exact absurd hbad hgood
            · exact ⟨f, hf, hne, hbad⟩

theorem load_fragment_count (f : CStr) (st st1 : call_t × Int) (hne : f ≠ [])
    (h : load_fragment f st = Except.ok st1) : st1.2 = st.2 + 1 := by
  cases hty : get_command_type f with
  | VARIABLE =>
    rw [load_fragment_variable f st hne hty] at h
    simp only [Except.ok.injEq] at h
    rw [← h]
  | MODIFICATION =>
    rw [load_fragment_modification f st hne hty] at h
    simp only [Except.ok.injEq] at h
    rw [← h]
  | DATA =>
    rw [load_fragment_data f st hne hty] at h
    split at h
    · exact absurd h (by simp)
    · simp only [Except.ok.injEq] at h
      rw [← h]
  | SELECTION =>
    rw [load_fragment_selection f st hne hty] at h
    split at h
    · exact absurd h (by simp)
    · split at h
      · exact absurd h (by simp)
      · simp only [Except.ok.injEq] at h
        rw [← h]
  | INVALID =>
    rw [load_fragment_invalid f st hne hty] at h
    exact absurd h (by simp)

theorem foldlM_load_count (frs : List CStr) :
    ∀ st st1 : call_t × Int, frs.foldlM (fun st f => load_fragment f st) st = Except.ok st1 →
      st1.2 = st.2 + ((frs.filter (fun f => !f.isEmpty)).length : Int) := by
  induction frs with
  | nil =>
    intro st st1 h
    simp only [List.foldlM_nil, pure, Except.pure, Except.ok.injEq] at h
    rw [← h]
    simp
  | cons g frs ih =>
    intro st st1 h
    by_cases hg : g = []
    · subst hg
      rw [foldlM_load_cons_ok [] frs st st (load_fragment_nil st)] at h
      rw [ih st st1 h]
      simp
    · cases hl : load_fragment g st with
      | error e =>
        rw [foldlM_load_cons_error g frs st e hl] at h
        exact absurd h (by simp)
      | ok st2 =>
        rw [foldlM_load_cons_ok g frs st st2 hl] at h
        rw [ih st2 st1 h, load_fragment_count g st st2 hg hl]
        have : (g.isEmpty) = false := by
          cases g with
          | nil => exact absurd rfl hg
          | cons c r => rfl
        simp [List.filter_cons, this]
        omega

theorem cmd_parse_eq (script delim : CStr) :
    cmd_parse script delim =
      match (fragments script).foldlM (fun st f => load_checked f st) (call_seed delim, 0) with
      | Except.error e => Except.error e
      | Except.ok r =>
        if r.2 < 1 then Except.error parse_error.not_enough_commands else Except.ok r.1 := by
  unfold cmd_parse load_command fragments
  have h : call_add_selection (call_ctor delim) default_selection =
      Except.ok (call_seed delim) := rfl
  rw [h]
  simp only []
  rw [load_command_loop_eq]
  try rfl

/-- C9, counterexample: the only fragment of the script `sum [-1,1]` is not
empty and is neither classified INVALID nor an INVALID_S selection, yet the
script is refused. -/
theorem cmd_parse_negative_argument :
    (∀ f ∈ fragments "sum [-1,1]".toList, f ≠ [] → ¬ malformed f) ∧
    (∃ f ∈ fragments "sum [-1,1]".toList, f ≠ []) ∧
    cmd_parse "sum [-1,1]".toList " ".toList =
      Except.error parse_error.invalid_argument := by
  have hfr : fragments "sum [-1,1]".toList = ["sum [-1,1]".toList] := by decide
  rw [hfr]
  refine ⟨?_, ⟨_, List.mem_singleton.2 rfl, by decide⟩, by decide⟩
  intro f hf _
  rw [List.mem_singleton.1 hf]
  unfold malformed
  decide

/-- C9, amended: for a script with fewer than `CHUNK` selection fragments (so
that the array of selections, which holds the default selection too, never
fills up) and with every fragment shorter than `CHUNK` characters (so that
it fits the buffer of `load_command`): if some non-empty fragment of the
script is classified INVALID, or classified SELECTION and loaded as
INVALID_S, parsing fails and `main` ends before any command is applied;
conversely, if no non-empty fragment is of that kind, none is a data command
with a negative argument, and at least one non-empty fragment exists, parsing
succeeds. -/
theorem cmd_parse_all_or_nothing {α : Type} (L : numeric_lib α)
    (delim script : CStr) (t : table_t)
    (hroom : ((fragments script).filter is_sel_fragment).length < CHUNK)
    (hshort : ∀ f ∈ fragments script, f.length < CHUNK) :
    ((∃ f ∈ fragments script, f ≠ [] ∧ malformed f) →
      ∃ e, cmd_parse script delim = Except.error e ∧
        run L delim script t = Except.error (run_error.parse e)) ∧
    ((∀ f ∈ fragments script, f ≠ [] → ¬ malformed f ∧ ¬ negative_argument f) →
      (∃ f ∈ fragments script, f ≠ []) →
      ∃ call, cmd_parse script delim = Except.ok call) := by
  have hseed : (call_seed delim, (0 : Int)).1.selections.length +
      ((fragments script).filter is_sel_fragment).length ≤ CHUNK := by
    simp only [call_seed, List.length_singleton]
    omega
  constructor
  · rintro ⟨f, hf, hne, hbad⟩
    obtain ⟨e, he⟩ := (foldlM_load_error_iff (fragments script) (call_seed delim, 0) hseed).2
      ⟨f, hf, hne, Or.inl hbad⟩
    have hp : cmd_parse script delim = Except.error e := by
      rw [cmd_parse_eq, foldlM_checked_eq _ hshort, he]
    refine ⟨e, hp, ?_⟩
    unfold run
    rw [hp]
  · intro hall hex
    cases hfold : (fragments script).foldlM (fun st f => load_fragment f st)
        (call_seed delim, 0) with
    | error e =>
      obtain ⟨f, hf, hne, hbad⟩ :=
        (foldlM_load_error_iff (fragments script) _ hseed).1 ⟨e, hfold⟩
      have := hall f hf hne
      rcases hbad with hbad | hbad
      · exact absurd hbad this.1
      · exact absurd hbad this.2
    | ok r =>
      have hcount := foldlM_load_count (fragments script) _ r hfold
      obtain ⟨f, hf, hne⟩ := hex
      have hpos : 0 < ((fragments script).filter (fun f => !f.isEmpty)).length := by
        apply List.length_pos.2
        intro hnil
        have hmem : f ∈ (fragments script).filter (fun f => !f.isEmpty) := by
          rw [List.mem_filter]
          refine ⟨hf, ?_⟩
          cases f with
          | nil => exact absurd rfl hne
          | cons c r => rfl
        rw [hnil] at hmem
        exact absurd hmem (by simp)
      refine ⟨r.1, ?_⟩
      rw [cmd_parse_eq, foldlM_checked_eq _ hshort, hfold]
      simp only []
      have hr : ¬ r.2 < 1 := by
        rw [hcount]
        omega
      rw [if_neg hr]

/-- C9, witness of the amended claim: the script `[1,1];bad` has the INVALID
fragment `bad` and is refused; every fragment of `[1,1];clear` is valid and
the script is parsed. -/
theorem cmd_parse_all_or_nothing_witness :
    (∃ e, cmd_parse "[1,1];bad".toList " ".toList = Except.error e ∧
      run sample_lib " ".toList "[1,1];bad".toList [["a".toList]] =
        Except.error (run_error.parse e)) ∧
    (∃ call, cmd_parse "[1,1];clear".toList " ".toList = Except.ok call) :=
  ⟨(cmd_parse_all_or_nothing sample_lib " ".toList "[1,1];bad".toList [["a".toList]]
      (by decide) (by decide)).1
      ⟨"bad".toList, by decide, by decide, Or.inl (by decide)⟩,
    (cmd_parse_all_or_nothing sample_lib " ".toList "[1,1];clear".toList [["a".toList]]
      (by decide) (by decide)).2
      (by
        have hfr : fragments "[1,1];clear".toList = ["[1,1]".toList, "clear".toList] := by
          decide
        rw [hfr]
        intro f hf _
        simp only [List.mem_cons, List.mem_singleton, List.not_mem_nil, or_false] at hf
        rcases hf with rfl | rfl
        · unfold malformed negative_argument
          decide
        · unfold malformed negative_argument
          decide)
      ⟨"clear".toList, by decide, by decide⟩⟩

theorem load_var_info_selection (f : CStr) (call : call_t)
    (h : get_command_type f = cmd_types_t.VARIABLE) :
    (load_var_info f call).type = cmd_types_t.VARIABLE ∧
    (load_var_info f call).selection = bound_pointer f call.selections.length := by
  have hv : is_var f = true := by
    unfold get_command_type at h
    by_cases hv : is_var f = true
    · exact hv
    · rw [if_neg hv] at h
      split at h
      · exact absurd h (by simp)
      · split at h
        · exact absurd h (by simp)
        · split at h <;> exact absurd h (by simp)
  unfold bound_pointer
  rw [h]
  simp only [true_and]
  rcases (is_var_iff f).1 hv with ⟨name, hname, n, -, rfl⟩ | rfl
  · simp only [List.mem_cons, List.mem_singleton, List.not_mem_nil, or_false] at hname
    rcases hname with rfl | rfl | rfl
    · have h1 : begins_with ("def _".toList ++ [Nat.digitChar n]) "def _".toList = true :=
        (begins_with_iff _ _).2 ⟨_, rfl⟩
      have h3 : begins_with ("def _".toList ++ [Nat.digitChar n]) "inc _".toList = false :=
        begins_with_false _ _ (by intro r; simp)
      have h4 : ¬ ("def _".toList ++ [Nat.digitChar n] = "[set]".toList) := by simp
      unfold load_var_info
      simp only [h1, h3, h4, if_true, if_false, Bool.false_eq_true]
      exact ⟨trivial, rfl⟩
    · have h1 : begins_with ("use _".toList ++ [Nat.digitChar n]) "def _".toList = false :=
        begins_with_false _ _ (by intro r; simp)
      have h2 : begins_with ("use _".toList ++ [Nat.digitChar n]) "use _".toList = true :=
        (begins_with_iff _ _).2 ⟨_, rfl⟩
      have h3 : begins_with ("use _".toList ++ [Nat.digitChar n]) "inc _".toList = false :=
        begins_with_false _ _ (by intro r; simp)
      have h4 : ¬ ("use _".toList ++ [Nat.digitChar n] = "[set]".toList) := by simp
      unfold load_var_info
      simp only [h1, h2, h3, h4, if_true, if_false, Bool.false_eq_true]
      exact ⟨trivial, rfl⟩
    · have h1 : begins_with ("inc _".toList ++ [Nat.digitChar n]) "def _".toList = false :=
        begins_with_false _ _ (by intro r; simp)
      have h2 : begins_with ("inc _".toList ++ [Nat.digitChar n]) "use _".toList = false :=
        begins_with_false _ _ (by intro r; simp)
      have h3 : begins_with ("inc _".toList ++ [Nat.digitChar n]) "inc _".toList = true :=
        (begins_with_iff _ _).2 ⟨_, rfl⟩
      have h4 : ¬ ("inc _".toList ++ [Nat.digitChar n] = "[set]".toList) := by simp
      unfold load_var_info
      simp only [h1, h2, h3, h4, if_true, if_false, Bool.false_eq_true]
      exact ⟨trivial, trivial⟩
  · have h1 : begins_with "[set]".toList "def _".toList = false := by decide
    have h2 : begins_with "[set]".toList "use _".toList = false := by decide
    have h3 : begins_with "[set]".toList "inc _".toList = false := by decide
    unfold load_var_info
    simp only [h1, h2, h3, if_true, if_false, Bool.false_eq_true]
    exact ⟨trivial, rfl⟩

theorem get_command_type_data_not_inc (f : CStr) (h : get_command_type f ≠ cmd_types_t.VARIABLE) :
    bound_pointer f = fun n => some (sel_ptr.entry (n - 1)) := by
  funext n
  unfold bound_pointer
  rw [if_neg (fun hc => h hc.1)]

theorem load_fragment_shape (f : CStr) (st st1 : call_t × Int) (hne : f ≠ [])
    (h : load_fragment f st = Except.ok st1) :
    (is_sel_fragment f = true ∧ is_cmd_fragment f = false ∧
      st1.1.selections = st.1.selections ++ [load_selection_info f] ∧
      st1.1.commands = st.1.commands) ∨
    (is_sel_fragment f = false ∧ is_cmd_fragment f = true ∧
      st1.1.selections = st.1.selections ∧
      ∃ cmd, st1.1.commands = st.1.commands ++ [cmd] ∧ cmd.type = get_command_type f ∧
        cmd.selection = bound_pointer f st.1.selections.length) := by
  have hemp : f.isEmpty = false := by
    cases f with
    | nil => exact absurd rfl hne
    | cons c r => rfl
  unfold is_sel_fragment is_cmd_fragment
  cases hty : get_command_type f with
  | VARIABLE =>
    rw [load_fragment_variable f st hne hty] at h
    simp only [Except.ok.injEq] at h
    right
    rw [← h]
    refine ⟨by simp [hemp], by simp [hemp], rfl, load_var_info f st.1, rfl, ?_, ?_⟩
    · exact (load_var_info_selection f st.1 hty).1
    · exact (load_var_info_selection f st.1 hty).2
  | MODIFICATION =>
    rw [load_fragment_modification f st hne hty] at h
    simp only [Except.ok.injEq] at h
    right
    rw [← h]
    refine ⟨by simp [hemp], by simp [hemp], rfl, load_modification_info f st.1, rfl, rfl, ?_⟩
    rw [get_command_type_data_not_inc f (by rw [hty]; simp)]
    rfl
  | DATA =>
    rw [load_fragment_data f st hne hty] at h
    split at h
    · exact absurd h (by simp)
    · rename_i c hc
      simp only [Except.ok.injEq] at h
      right
      rw [← h]
      refine ⟨by simp [hemp], by simp [hemp], rfl, c, rfl, ?_, ?_⟩
      · rw [load_data_info_cases] at hc
        split at hc
        · split at hc
          · exact absurd hc (by simp)
          · simp only [Except.ok.injEq] at hc
            rw [← hc]
        · split at hc
          · simp only [Except.ok.injEq] at hc
            rw [← hc]
          · simp only [Except.ok.injEq] at hc
            rw [← hc]
      · rw [get_command_type_data_not_inc f (by rw [hty]; simp)]
        rw [load_data_info_cases] at hc
        split at hc
        · split at hc
          · exact absurd hc (by simp)
          · simp only [Except.ok.injEq] at hc
            rw [← hc]
            rfl
        · split at hc
          · simp only [Except.ok.injEq] at hc
            rw [← hc]
            rfl
          · simp only [Except.ok.injEq] at hc
            rw [← hc]
            rfl
  | SELECTION =>
    rw [load_fragment_selection f st hne hty] at h
    split at h
    · exact absurd h (by simp)
    · split at h
      · exact absurd h (by simp)
      · rename_i call1 hadd
        simp only [Except.ok.injEq] at h
        left
        rw [← h, call_add_selection_ok _ _ _ hadd]
        exact ⟨by simp [hemp], by simp [hemp], rfl, rfl⟩
  | INVALID =>
    rw [load_fragment_invalid f st hne hty] at h
    exact absurd h (by simp)

theorem foldlM_load_shape (frs : List CStr) :
    ∀ st st1 : call_t × Int, frs.foldlM (fun st f => load_fragment f st) st = Except.ok st1 →
      st1.1.selections =
        st.1.selections ++ (frs.filter is_sel_fragment).map load_selection_info ∧
      ∃ added : List command_t, st1.1.commands = st.1.commands ++ added ∧
        ∀ (pre : List CStr) (f : CStr) (post : List CStr), frs = pre ++ f :: post →
          is_cmd_fragment f = true →
          ∃ cmd, added[(pre.filter is_cmd_fragment).length]? = some cmd ∧
            cmd.type = get_command_type f ∧
            cmd.selection =
              bound_pointer f (st.1.selections.length + (pre.filter is_sel_fragment).length) := by
  induction frs with
  | nil =>
    intro st st1 h
    simp only [List.foldlM_nil, pure, Except.pure, Except.ok.injEq] at h
    rw [← h]
    refine ⟨by simp, [], by simp, ?_⟩
    intro pre f post hsplit
    exact absurd hsplit (by simp)
  | cons g frs ih =>
    intro st st1 h
    by_cases hg : g = []
    · subst hg
      rw [foldlM_load_cons_ok [] frs st st (load_fragment_nil st)] at h
      obtain ⟨hsel, added, hadd, hsplit⟩ := ih st st1 h
      have hs0 : is_sel_fragment [] = false := by decide
      have hc0 : is_cmd_fragment [] = false := by decide
      refine ⟨by rw [hsel, List.filter_cons, hs0]; rfl, added, hadd, ?_⟩
      intro pre f post hfr hcmd
      cases pre with
      | nil =>
        simp only [List.nil_append, List.cons.injEq] at hfr
        rw [← hfr.1, hc0] at hcmd
        exact absurd hcmd (by simp)
      | cons p pre' =>
        simp only [List.cons_append, List.cons.injEq] at hfr
        obtain ⟨cmd, h1, h2, h3⟩ := hsplit pre' f post hfr.2 hcmd
        rw [← hfr.1]
        simp only [List.filter_cons, hs0, hc0, Bool.false_eq_true, if_false]
        exact ⟨cmd, h1, h2, h3⟩
    · cases hl : load_fragment g st with
      | error e =>
        rw [foldlM_load_cons_error g frs st e hl] at h
        exact absurd h (by simp)
      | ok st2 =>
        rw [foldlM_load_cons_ok g frs st st2 hl] at h
        obtain ⟨hsel, added, hadd, hsplit⟩ := ih st2 st1 h
        rcases load_fragment_shape g st st2 hg hl with
          ⟨hs, hc, hsel2, hcmd2⟩ | ⟨hs, hc, hsel2, cmd0, hcmd2, hty0, hptr0⟩
        · refine ⟨?_, added, by rw [hadd, hcmd2], ?_⟩
          · rw [hsel, hsel2, List.filter_cons, hs]
            simp
          · intro pre f post hfr hcmd
            cases pre with
            | nil =>
              simp only [List.nil_append, List.cons.injEq] at hfr
              rw [← hfr.1, hc] at hcmd
              exact absurd hcmd (by simp)
            | cons p pre' =>
              simp only [List.cons_append, List.cons.injEq] at hfr
              obtain ⟨cmd, h1, h2, h3⟩ := hsplit pre' f post hfr.2 hcmd
              rw [← hfr.1]
              simp only [List.filter_cons, hs, hc, Bool.false_eq_true, if_false, if_true,
                List.length_cons]
              refine ⟨cmd, h1, h2, ?_⟩
              rw [h3, hsel2]
              simp only [List.length_append, List.length_singleton]
              rw [Nat.add_assoc, Nat.add_comm 1]
        · refine ⟨?_, cmd0 :: added, by rw [hadd, hcmd2]; simp, ?_⟩
          · rw [hsel, hsel2, List.filter_cons, hs]
            simp
          · intro pre f post hfr hcmd
            cases pre with
            | nil =>
              simp only [List.nil_append, List.cons.injEq] at hfr
              rw [← hfr.1]
              exact ⟨cmd0, by simp, hty0, by simpa using hptr0⟩
            | cons p pre' =>
              simp only [List.cons_append, List.cons.injEq] at hfr
              obtain ⟨cmd, h1, h2, h3⟩ := hsplit pre' f post hfr.2 hcmd
              rw [← hfr.1]
              simp only [List.filter_cons, hs, hc, Bool.false_eq_true, if_false, if_true,
                List.length_cons]
              refine ⟨cmd, by simpa using h1, h2, ?_⟩
              rw [h3, hsel2]

set_option maxRecDepth 100000 in
/-- The array of selections holds `CHUNK` entries, the default selection
included: a script with 127 selection fragments is parsed, and the 128th
selection fragment finds the array full. -/
theorem selections_overflow :
    (cmd_parse ((List.replicate 127 "[1,1];".toList).flatten ++ "clear".toList)
      " ".toList).toBool = true ∧
    cmd_parse ((List.replicate 128 "[1,1];".toList).flatten ++ "clear".toList) " ".toList =
      Except.error parse_error.selections_lost := by
  decide

set_option maxRecDepth 100000 in
/-- The buffer `current` of `load_command` holds `CHUNK` bytes: the fragment
`set xxx...` of 127 characters is parsed, and the one of 128 characters, a
valid data command as well, does not fit the buffer with its terminator. -/
theorem fragment_overflow_limit :
    cmd_parse ("set ".toList ++ List.replicate 123 'x') " ".toList =
      Except.ok
        { commands := [{ type := cmd_types_t.DATA, cmd_name := "set".toList, cmd_num := 0,
                         arg1 := 0, arg2 := 0, str := some (List.replicate 123 'x'),
                         selection := some (sel_ptr.entry 0) }],
          selections := [default_selection], delim := " ".toList } ∧
    cmd_parse ("set ".toList ++ List.replicate 124 'x') " ".toList =
      Except.error parse_error.fragment_overflow ∧
    (∀ f ∈ fragments ("set ".toList ++ List.replicate 124 'x'), f ≠ [] →
      get_command_type f = cmd_types_t.DATA) := by
  refine ⟨by decide, by decide, by decide⟩

/-! ## The selection bound to a command -/

theorem cmd_parse_ok (script delim : CStr) (call : call_t)
    (h : cmd_parse script delim = Except.ok call) :
    ∃ n : Int, (fragments script).foldlM (fun st f => load_fragment f st)
      (call_seed delim, 0) = Except.ok (call, n) := by
  rw [cmd_parse_eq] at h
  split at h
  · exact absurd h (by simp)
  · rename_i r hr
    split at h
    · exact absurd h (by simp)
    · simp only [Except.ok.injEq] at h
      exact ⟨r.2, by rw [(foldlM_checked_ok _ _ _ hr).1, ← h]⟩

theorem latest_selection_lookup (pre rest : List CStr) :
    (default_selection :: (pre ++ rest).map load_selection_info)[pre.length]? =
      some (match pre.getLast? with
        | none => default_selection
        | some g => load_selection_info g) := by
  rcases List.eq_nil_or_concat pre with rfl | ⟨front, g, rfl⟩
  · simp
  · have hlast : (front.concat g).getLast? = some g := by
      simp [List.concat_eq_append]
    rw [hlast]
    simp only [List.concat_eq_append, List.length_append, List.length_singleton]
    rw [List.getElem?_cons_succ, List.map_append, List.map_append,
      List.append_assoc, List.getElem?_append_right (by simp)]
    simp

/-- C7, counterexample: in the script `[2,2];inc _0` the command `inc _0`
follows the selection `[2,2]`, yet it carries the NULL pointer, not a
selection. -/
theorem inc_carries_no_selection :
    cmd_parse "[2,2];inc _0".toList " ".toList =
      Except.ok
        { commands := [{ type := cmd_types_t.VARIABLE, cmd_name := "inc _0".toList, cmd_num := 2,
                         arg1 := 0, arg2 := 0, str := none, selection := none }],
          selections := [default_selection,
            { type := stype_t.CELL, row1 := 2, col1 := 2, row2 := 0, col2 := 0, str := none }],
          delim := " ".toList } := by
  decide

/-- C7, amended: for every script accepted by the parser, the stored
selections are the seeded default `Cell(1,1)` followed by the selection
fragments in script order, and the command built from a command fragment
points to the selection fragment most recently preceding it, or to the seeded
default when none precedes it, unless the command is `inc`, which carries the
NULL pointer. -/
theorem bound_selection_latest (script delim : CStr) (call : call_t)
    (h : cmd_parse script delim = Except.ok call) :
    call.selections =
      default_selection ::
        ((fragments script).filter is_sel_fragment).map load_selection_info ∧
    ∀ (pre : List CStr) (f : CStr) (post : List CStr), fragments script = pre ++ f :: post →
      is_cmd_fragment f = true →
      ∃ cmd, call.commands[(pre.filter is_cmd_fragment).length]? = some cmd ∧
        cmd.type = get_command_type f ∧
        cmd.selection =
          (if get_command_type f = cmd_types_t.VARIABLE ∧
              begins_with f "inc _".toList = true then none
            else some (sel_ptr.entry (pre.filter is_sel_fragment).length)) ∧
        call.selections[(pre.filter is_sel_fragment).length]? =
          some (match (pre.filter is_sel_fragment).getLast? with
            | none => default_selection
            | some g => load_selection_info g) := by
  obtain ⟨n, hfold⟩ := cmd_parse_ok script delim call h
  obtain ⟨hsel, added, hadd, hsplit⟩ := foldlM_load_shape (fragments script) _ _ hfold
  have hsel' : call.selections =
      default_selection ::
        ((fragments script).filter is_sel_fragment).map load_selection_info := by
    simpa [call_seed] using hsel
  refine ⟨hsel', ?_⟩
  intro pre f post hfr hcmd
  obtain ⟨cmd, h1, h2, h3⟩ := hsplit pre f post hfr hcmd
  have hcmds : call.commands = added := by
    simpa [call_seed] using hadd
  refine ⟨cmd, by rw [hcmds]; exact h1, h2, ?_, ?_⟩
  · rw [h3]
    unfold bound_pointer
    simp [call_seed]
  · rw [hsel', hfr, List.filter_append]
    exact latest_selection_lookup _ _

/-- C7, witness of the amended claim on the script `[2,2];clear;inc _0`:
`clear` points to the selection `[2,2]`, stored at index 1. -/
theorem bound_selection_latest_witness :
    ∃ call, cmd_parse "[2,2];clear;inc _0".toList " ".toList = Except.ok call ∧
      ∃ cmd, call.commands[0]? = some cmd ∧ cmd.type = cmd_types_t.DATA ∧
        cmd.selection = some (sel_ptr.entry 1) ∧
        call.selections[1]? = some (load_selection_info "[2,2]".toList) := by
  have hp : ∃ call, cmd_parse "[2,2];clear;inc _0".toList " ".toList = Except.ok call := by
    cases hc : cmd_parse "[2,2];clear;inc _0".toList " ".toList with
    | error e =>
      have : (cmd_parse "[2,2];clear;inc _0".toList " ".toList).toBool = true := by decide
      rw [hc] at this
      exact absurd this (by simp [Except.toBool])
    | ok call => exact ⟨call, rfl⟩
  obtain ⟨call, hcall⟩ := hp
  have hfr : fragments "[2,2];clear;inc _0".toList =
      ["[2,2]".toList] ++ "clear".toList :: ["inc _0".toList] := by decide
  obtain ⟨cmd, h1, h2, h3, h4⟩ :=
    (bound_selection_latest "[2,2];clear;inc _0".toList " ".toList call hcall).2
      ["[2,2]".toList] "clear".toList ["inc _0".toList] hfr (by decide)
  have e1 : (["[2,2]".toList].filter is_cmd_fragment).length = 0 := by decide
  have e2 : (["[2,2]".toList].filter is_sel_fragment) = ["[2,2]".toList] := by decide
  rw [e1] at h1
  rw [e2] at h3 h4
  refine ⟨call, hcall, cmd, h1, ?_, ?_, ?_⟩
  · rw [h2]
    decide
  · rw [h3]
    decide
  · exact h4

/-! ## The arguments of the two-argument data commands -/

theorem strtol_neg_digits (ds rest : CStr) (hne : ds ≠ []) (hds : ∀ c ∈ ds, c.isDigit = true)
    (hrest : no_digit_ahead rest) :
    strtol ('-' :: (ds ++ rest)) =
      (max LONG_MIN (min LONG_MAX (-(digits_value ds : Int))), rest) ∧
    strtol (' ' :: '-' :: (ds ++ rest)) =
      (max LONG_MIN (min LONG_MAX (-(digits_value ds : Int))), rest) := by
  obtain ⟨d, ds', rfl⟩ := List.exists_cons_of_ne_nil hne
  have htw := takeWhile_digits_append (d :: ds') rest hds hrest
  have hdw := dropWhile_digits_append (d :: ds') rest hds hrest
  have hs1 : isspace '-' = false := by decide
  have hs2 : isspace ' ' = true := by decide
  have hdrop : ('-' :: ((d :: ds') ++ rest)).dropWhile isspace = '-' :: ((d :: ds') ++ rest) := by
    rw [List.dropWhile_cons, hs1]
    rfl
  have hdrop2 : (' ' :: '-' :: ((d :: ds') ++ rest)).dropWhile isspace =
      '-' :: ((d :: ds') ++ rest) := by
    rw [List.dropWhile_cons, hs2, if_pos rfl, hdrop]
  constructor
  · unfold strtol
    simp only [hdrop, List.head?_cons, beq_self_eq_true, Bool.true_or, if_true, List.tail_cons,
      htw, hdw, List.isEmpty_cons, Bool.false_eq_true, if_false]
  · unfold strtol
    simp only [hdrop2, List.head?_cons, beq_self_eq_true, Bool.true_or, if_true, List.tail_cons,
      htw, hdw, List.isEmpty_cons, Bool.false_eq_true, if_false]

theorem data_name_eq (cmd : CStr) :
    data_name cmd =
      if begins_with cmd "len ".toList then ("len ".toList, 6)
      else if begins_with cmd "count ".toList then ("count ".toList, 5)
      else if begins_with cmd "avg ".toList then ("avg ".toList, 4)
      else if begins_with cmd "sum ".toList then ("sum ".toList, 3)
      else if begins_with cmd "swap ".toList then ("swap ".toList, 2)
      else if begins_with cmd "clear".toList then ("clear".toList, 1)
      else if begins_with cmd "set".toList then ("set".toList, 0)
      else ([], 0) := by
  unfold data_name
  have hr : List.range 7 = [0, 1, 2, 3, 4, 5, 6] := by decide
  have e0 : data_list.getD 0 [] = "set".toList := by decide
  have e1 : data_list.getD 1 [] = "clear".toList := by decide
  have e2 : data_list.getD 2 [] = "swap ".toList := by decide
  have e3 : data_list.getD 3 [] = "sum ".toList := by decide
  have e4 : data_list.getD 4 [] = "avg ".toList := by decide
  have e5 : data_list.getD 5 [] = "count ".toList := by decide
  have e6 : data_list.getD 6 [] = "len ".toList := by decide
  rw [hr]
  simp only [List.foldl_cons, List.foldl_nil, e0, e1, e2, e3, e4, e5, e6]
  rfl

theorem data_name_of (name rest : CStr)
    (hname : name ∈ ["swap".toList, "sum".toList, "avg".toList, "count".toList, "len".toList]) :
    (data_name (name ++ ' ' :: rest)).1 = name ++ [' '] := by
  rw [data_name_eq]
  simp only [List.mem_cons, List.mem_singleton, List.not_mem_nil, or_false] at hname
  rcases hname with rfl | rfl | rfl | rfl | rfl
  · rw [begins_with_false _ "len ".toList (by intro r; simp),
      begins_with_false _ "count ".toList (by intro r; simp),
      begins_with_false _ "avg ".toList (by intro r; simp),
      begins_with_false _ "sum ".toList (by intro r; simp),
      (begins_with_iff _ "swap ".toList).2 ⟨rest, by simp⟩]
    rfl
  · rw [begins_with_false _ "len ".toList (by intro r; simp),
      begins_with_false _ "count ".toList (by intro r; simp),
      begins_with_false _ "avg ".toList (by intro r; simp),
      (begins_with_iff _ "sum ".toList).2 ⟨rest, by simp⟩]
    rfl
  · rw [begins_with_false _ "len ".toList (by intro r; simp),
      begins_with_false _ "count ".toList (by intro r; simp),
      (begins_with_iff _ "avg ".toList).2 ⟨rest, by simp⟩]
    rfl
  · rw [begins_with_false _ "len ".toList (by intro r; simp),
      (begins_with_iff _ "count ".toList).2 ⟨rest, by simp⟩]
    rfl
  · rw [(begins_with_iff _ "len ".toList).2 ⟨rest, by simp⟩]
    rfl

theorem map_comma_free (s : CStr) (h : ∀ c ∈ s, c ≠ ',') :
    s.map (fun c => if c = ',' then ' ' else c) = s := by
  induction s with
  | nil => rfl
  | cons d ds ih =>
    have hd : d ≠ ',' := h d (by simp)
    simp only [List.map_cons, if_neg hd]
    rw [ih (fun c hc => h c (List.mem_cons_of_mem _ hc))]

theorem count_comma_free (s : CStr) (h : ∀ c ∈ s, c ≠ ',') : s.count ',' = 0 := by
  rw [List.count_eq_zero]
  intro hmem
  exact absurd rfl (h _ hmem)

theorem two_arg_fragment_type (name sx sy : CStr)
    (hname : name ∈ ["swap".toList, "sum".toList, "avg".toList, "count".toList, "len".toList])
    (hx : ∀ c ∈ sx, c ≠ ',') (hy : ∀ c ∈ sy, c ≠ ',') :
    get_command_type (name ++ ' ' :: '[' :: (sx ++ ',' :: (sy ++ [']']))) =
      cmd_types_t.DATA := by
  apply (get_command_type_priority _).2.2.1
  · intro h
    simp only [List.mem_cons, List.mem_singleton, List.not_mem_nil, or_false] at hname
    rcases h with ⟨nm, hnm, n, -, he⟩ | he
    · simp only [List.mem_cons, List.mem_singleton, List.not_mem_nil, or_false] at hnm
      rcases hname with rfl | rfl | rfl | rfl | rfl <;> rcases hnm with rfl | rfl | rfl <;>
        simp at he
    · rcases hname with rfl | rfl | rfl | rfl | rfl <;> simp at he
  · intro h
    unfold RefModification at h
    simp only [List.mem_cons, List.mem_singleton, List.not_mem_nil, or_false] at hname h
    rcases hname with rfl | rfl | rfl | rfl | rfl <;>
      rcases h with h | h | h | h | h | h <;> simp at h
  · right
    right
    refine ⟨name, hname, sx ++ ',' :: sy, ?_, by simp⟩
    rw [List.count_append, List.count_cons, count_comma_free sx hx, count_comma_free sy hy]
    decide

theorem two_arg_fragment_load (name sx sy : CStr) (st : call_t × Int)
    (hname : name ∈ ["swap".toList, "sum".toList, "avg".toList, "count".toList, "len".toList])
    (hx : ∀ c ∈ sx, c ≠ ',') (hy : ∀ c ∈ sy, c ≠ ',') :
    load_fragment (name ++ ' ' :: '[' :: (sx ++ ',' :: (sy ++ [']']))) st =
      if to_int (strtol (sx ++ ' ' :: sy)).1 < 0 ∨
          to_int (strtol (strtol (sx ++ ' ' :: sy)).2).1 < 0 then
        Except.error parse_error.invalid_argument
      else
        Except.ok (call_add_cmd st.1
          { type := cmd_types_t.DATA,
            cmd_name := (data_name (name ++ ' ' :: '[' :: (sx ++ ',' :: (sy ++ [']'])))).1,
            cmd_num := (data_name (name ++ ' ' :: '[' :: (sx ++ ',' :: (sy ++ [']'])))).2,
            arg1 := to_int (strtol (sx ++ ' ' :: sy)).1,
            arg2 := to_int (strtol (strtol (sx ++ ' ' :: sy)).2).1,
            str := none, selection := last_selection st.1 }, st.2 + 1) := by
  have hne : name ++ ' ' :: '[' :: (sx ++ ',' :: (sy ++ [']'])) ≠ [] := by simp
  have hdn := data_name_of name ('[' :: (sx ++ ',' :: (sy ++ [']']))) hname
  have hnot : (name ++ [' ']) ≠ "set".toList ∧ (name ++ [' ']) ≠ "clear".toList := by
    simp only [List.mem_cons, List.mem_singleton, List.not_mem_nil, or_false] at hname
    rcases hname with rfl | rfl | rfl | rfl | rfl <;> decide
  have hargs : data_args (name ++ ' ' :: '[' :: (sx ++ ',' :: (sy ++ [']']))) (name ++ [' ']) =
      (to_int (strtol (sx ++ ' ' :: sy)).1, to_int (strtol (strtol (sx ++ ' ' :: sy)).2).1) := by
    unfold data_args
    have hdrop : (name ++ ' ' :: '[' :: (sx ++ ',' :: (sy ++ [']']))).drop (name ++ [' ']).length =
        '[' :: ((sx ++ ',' :: sy) ++ [']']) := by
      have e : name ++ ' ' :: '[' :: (sx ++ ',' :: (sy ++ [']'])) =
          (name ++ [' ']) ++ ('[' :: ((sx ++ ',' :: sy) ++ [']'])) := by simp
      rw [e, List.drop_left]
    rw [hdrop, prepare_selection_brackets, List.map_append, List.map_cons, map_comma_free sx hx,
      map_comma_free sy hy, if_pos rfl]
  rw [load_fragment_data _ st hne (two_arg_fragment_type name sx sy hname hx hy),
    load_data_info_cases, hdn, if_pos hnot, hargs]
  simp only []
  by_cases hneg : to_int (strtol (sx ++ ' ' :: sy)).1 < 0 ∨
      to_int (strtol (strtol (sx ++ ' ' :: sy)).2).1 < 0
  · rw [if_pos hneg, if_pos hneg]
  · rw [if_neg hneg, if_neg hneg]

/-- C10, at the failing input: in `sum [1,2x]` the second argument is no
integer, yet the fragment is accepted, with the target `arg1 = 1`, `arg2 = 2`
that `strtol` reads from the front of each argument; and in `sum [a,b]`
neither argument is an integer, yet the fragment is accepted, with both
targets 0. -/
theorem load_fragment_non_integer :
    get_command_type "sum [1,2x]".toList = cmd_types_t.DATA ∧
    load_fragment "sum [1,2x]".toList (call_seed " ".toList, 0) =
      Except.ok (call_add_cmd (call_seed " ".toList)
        { type := cmd_types_t.DATA, cmd_name := "sum ".toList, cmd_num := 3, arg1 := 1, arg2 := 2,
          str := none, selection := some (sel_ptr.entry 0) }, 1) ∧
    load_fragment "sum [a,b]".toList (call_seed " ".toList, 0) =
      Except.ok (call_add_cmd (call_seed " ".toList)
        { type := cmd_types_t.DATA, cmd_name := "sum ".toList, cmd_num := 3, arg1 := 0, arg2 := 0,
          str := none, selection := some (sel_ptr.entry 0) }, 1) ∧
    run sample_lib " ".toList "sum [1,2x]".toList
        [["1".toList, "5".toList], ["2".toList, "6".toList]] =
      Except.ok [["1".toList, "1".toList], ["2".toList, "6".toList]] := by
  decide

/-- What holds of the arguments that are integers.  For a fragment `<name> [X,Y]` with a name
among `swap, sum, avg, count, len`: when `X` and `Y` are integers from 0 to 2147483647 written
in decimal the fragment is accepted and the command has `arg1 = X` and
`arg2 = Y`; when `X` is written with a minus sign and `1 ≤ X`, or `Y` is and
`1 ≤ Y`, parsing ends with the invalid-argument error. -/
theorem load_two_arg_data (name dx dy : CStr) (X Y : Nat) (st : call_t × Int)
    (hname : name ∈ ["swap".toList, "sum".toList, "avg".toList, "count".toList, "len".toList])
    (hX : is_decimal dx X) (hY : is_decimal dy Y)
    (mX : X ≤ 2147483647) (mY : Y ≤ 2147483647) :
    (∃ cmd, load_fragment (name ++ " [".toList ++ dx ++ ",".toList ++ dy ++ "]".toList) st =
        Except.ok (call_add_cmd st.1 cmd, st.2 + 1) ∧
      cmd.type = cmd_types_t.DATA ∧ cmd.arg1 = X ∧ cmd.arg2 = Y) ∧
    (1 ≤ X →
      load_fragment (name ++ " [-".toList ++ dx ++ ",".toList ++ dy ++ "]".toList) st =
        Except.error parse_error.invalid_argument) ∧
    (1 ≤ Y →
      load_fragment (name ++ " [".toList ++ dx ++ ",-".toList ++ dy ++ "]".toList) st =
        Except.error parse_error.invalid_argument) := by
  obtain ⟨nx, gx, wx⟩ := hX
  obtain ⟨ny, gy, wy⟩ := hY
  have cx : ∀ c ∈ dx, c ≠ ',' := fun c hc => digit_ne c ',' (gx c hc) (by decide)
  have cy : ∀ c ∈ dy, c ≠ ',' := fun c hc => digit_ne c ',' (gy c hc) (by decide)
  have cx' : ∀ c ∈ '-' :: dx, c ≠ ',' := by
    intro c hc
    rcases List.mem_cons.1 hc with rfl | hc
    · decide
    · exact cx c hc
  have cy' : ∀ c ∈ '-' :: dy, c ≠ ',' := by
    intro c hc
    rcases List.mem_cons.1 hc with rfl | hc
    · decide
    · exact cy c hc
  have sx := (strtol_digits dx (' ' :: dy) nx gx (no_digit_ahead_cons ' ' _ (by decide))).1
  have sy := (strtol_digits dy [] ny gy no_digit_ahead_nil).2
  rw [List.append_nil] at sy
  rw [wx, clamp_small X (by omega)] at sx
  rw [wy, clamp_small Y (by omega)] at sy
  refine ⟨?_, ?_, ?_⟩
  · have e : name ++ " [".toList ++ dx ++ ",".toList ++ dy ++ "]".toList =
        name ++ ' ' :: '[' :: (dx ++ ',' :: (dy ++ [']'])) := by simp
    rw [e, two_arg_fragment_load name dx dy st hname cx cy]
    simp only [sx, sy, to_int_small X (by omega), to_int_small Y (by omega)]
    rw [if_neg (by omega)]
    exact ⟨_, rfl, rfl, rfl, rfl⟩
  · intro pX
    have e : name ++ " [-".toList ++ dx ++ ",".toList ++ dy ++ "]".toList =
        name ++ ' ' :: '[' :: (('-' :: dx) ++ ',' :: (dy ++ [']'])) := by simp
    have sn := (strtol_neg_digits dx (' ' :: dy) nx gx
      (no_digit_ahead_cons ' ' _ (by decide))).1
    rw [wx] at sn
    rw [e, two_arg_fragment_load name ('-' :: dx) dy st hname cx' cy]
    have hneg : to_int (strtol ('-' :: dx ++ ' ' :: dy)).1 < 0 := by
      rw [List.cons_append, sn]
      unfold to_int LONG_MIN LONG_MAX
      omega
    rw [if_pos (Or.inl hneg)]
  · intro pY
    have e : name ++ " [".toList ++ dx ++ ",-".toList ++ dy ++ "]".toList =
        name ++ ' ' :: '[' :: (dx ++ ',' :: (('-' :: dy) ++ [']'])) := by simp
    have sx2 := (strtol_digits dx (' ' :: '-' :: dy) nx gx
      (no_digit_ahead_cons ' ' _ (by decide))).1
    have sn := (strtol_neg_digits dy [] ny gy no_digit_ahead_nil).2
    rw [List.append_nil, wy] at sn
    rw [e, two_arg_fragment_load name dx ('-' :: dy) st hname cx cy']
    have hneg : to_int (strtol (strtol (dx ++ ' ' :: '-' :: dy)).2).1 < 0 := by
      rw [sx2, sn]
      unfold to_int LONG_MIN LONG_MAX
      simp only []
      omega
    rw [if_pos (Or.inr hneg)]

/-- An instance of `load_two_arg_data`: `swap [2,3]` is accepted with the
target row 2, column 3, and `swap [-2,3]` is refused. -/
theorem load_two_arg_data_witness :
    (∃ cmd, load_fragment "swap [2,3]".toList (call_ctor [], 0) =
        Except.ok (call_add_cmd (call_ctor []) cmd, 0 + 1) ∧
      cmd.type = cmd_types_t.DATA ∧ cmd.arg1 = 2 ∧ cmd.arg2 = 3) ∧
    load_fragment "swap [-2,3]".toList (call_ctor [], 0) =
      Except.error parse_error.invalid_argument :=
  have h := load_two_arg_data "swap".toList "2".toList "3".toList 2 3 (call_ctor [], 0)
    (by simp) (by unfold is_decimal; decide) (by unfold is_decimal; decide)
    (by decide) (by decide)
  ⟨h.1, h.2.1 (by decide)⟩

/-! ## The new rows of `table_add_rows` -/

/-- C11, at the failing input: on the table of the single row `a`, `irow` with
the Row selection `[1,_]` reads the width of the new row from `rows[1]`, which
is the new row itself, never initialised.  On a table of three rows the claim
holds: `irow` with `[2,_]` puts an empty row before the second row, and `drow`
with the same selection restores the table. -/
theorem irow_single_row :
    irow [["a".toList]]
        { type := stype_t.ROW, row1 := 1, col1 := 0, row2 := 0, col2 := 0, str := none } =
      Except.error exec_error.uninitialised ∧
    irow [["a".toList], ["b".toList], ["c".toList]]
        { type := stype_t.ROW, row1 := 2, col1 := 0, row2 := 0, col2 := 0, str := none } =
      Except.ok [["a".toList], [[]], ["b".toList], ["c".toList]] ∧
    drow [["a".toList], [[]], ["b".toList], ["c".toList]]
        { type := stype_t.ROW, row1 := 2, col1 := 0, row2 := 0, col2 := 0, str := none } =
      [["a".toList], ["b".toList], ["c".toList]] := by
  decide

/-- C12, at the failing input: on the table of the single row `a`, `arow` and
`irow` with the Table selection use the width of a row that was never
initialised.  On a table of two rows both interleave empty rows as claimed. -/
theorem arow_single_row :
    arow [["a".toList]]
        { type := stype_t.TABLE, row1 := 0, col1 := 0, row2 := 0, col2 := 0, str := none } =
      Except.error exec_error.uninitialised ∧
    irow [["a".toList]]
        { type := stype_t.TABLE, row1 := 0, col1 := 0, row2 := 0, col2 := 0, str := none } =
      Except.error exec_error.uninitialised ∧
    arow [["a".toList], ["b".toList]]
        { type := stype_t.TABLE, row1 := 0, col1 := 0, row2 := 0, col2 := 0, str := none } =
      Except.ok [["a".toList], [[]], ["b".toList], [[]]] ∧
    irow [["a".toList], ["b".toList]]
        { type := stype_t.COL, row1 := 0, col1 := 1, row2 := 0, col2 := 0, str := none } =
      Except.ok [[[]], ["a".toList], [[]], ["b".toList]] := by
  decide

/-- C13, at the failing input: on the table of the single row `a`, `irow` with
the Box selection `[1,1,1,1]` uses the width of a row that was never
initialised.  On a table of three rows `irow` with `[2,1,-,1]` puts one empty
row before each of the rows 2 and 3, and `icol` with `[1,1,1,2]` one empty
column before each of the columns 1 and 2. -/
theorem irow_box_single_row :
    irow [["a".toList]]
        { type := stype_t.BOX, row1 := 1, col1 := 1, row2 := 1, col2 := 1, str := none } =
      Except.error exec_error.uninitialised ∧
    irow [["a".toList], ["b".toList], ["c".toList]]
        { type := stype_t.BOX, row1 := 2, col1 := 1, row2 := -1, col2 := 1, str := none } =
      Except.ok [["a".toList], [[]], ["b".toList], [[]], ["c".toList]] ∧
    icol [["a".toList, "b".toList, "c".toList]]
        { type := stype_t.BOX, row1 := 1, col1 := 1, row2 := 1, col2 := 2, str := none } =
      [[[], "a".toList, [], "b".toList, "c".toList]] := by
  decide

/-- C15, at the failing input: in the script
`[1,1,-,1];set x;count [5,1];set y` on a table of two rows, `set x` overwrites
the open bound of the selection with 2; `count [5,1]` makes the table five
rows long; `set y` then covers the rows 1 and 2 only, not the rows up to the
last one. -/
theorem open_bound_frozen :
    run sample_lib " ".toList "[1,1,-,1];set x;count [5,1];set y".toList
        [["a".toList], ["b".toList]] =
      Except.ok [["y".toList], ["y".toList], [[]], [[]], ["2".toList]] := by
  decide

/-- C16, at the failing input: on the table of the single row `a`,
`table_expand` for a command with the target row 2 adds a row whose width was
never initialised.  On a table of two rows the expansion to three rows and two
columns keeps the old cells and adds empty ones. -/
theorem table_expand_single_row :
    table_expand [["a".toList]]
        { type := cmd_types_t.DATA, cmd_name := "count ".toList, cmd_num := 5, arg1 := 2,
          arg2 := 1, str := none, selection := some (sel_ptr.entry 0) }
        (some default_selection) =
      Except.error exec_error.uninitialised ∧
    table_expand [["a".toList], ["b".toList]]
        { type := cmd_types_t.DATA, cmd_name := "count ".toList, cmd_num := 5, arg1 := 3,
          arg2 := 2, str := none, selection := some (sel_ptr.entry 0) }
        (some default_selection) =
      Except.ok [["a".toList, []], ["b".toList, []], [[], []]] := by
  decide

/-- C19, at the failing input: on the table of the single row `a`, the script
`[1,1];clear;count [2,1]` ends in `table_expand`, which must add a row for the
target and uses a width that was never initialised.  On a table of two rows
the same script leaves `0` in the target cell. -/
theorem clear_count_single_row :
    run sample_lib " ".toList "[1,1];clear;count [2,1]".toList [["a".toList]] =
      Except.error (run_error.exec exec_error.uninitialised) ∧
    run sample_lib " ".toList "[1,1];clear;count [2,1]".toList
        [["a".toList], ["b".toList]] =
      Except.ok [[[]], ["0".toList]] := by
  decide

/-! ## Reading and writing cells -/

theorem shape_set_cell_value (t : table_t) (r c : Int) (v : CStr) :
    shape (set_cell_value t r c v) = shape t := by
  unfold set_cell_value shape
  split
  · rfl
  · apply List.ext_getElem?
    intro n
    simp only [List.getElem?_map, List.getElem?_set]
    by_cases hn : r.toNat = n
    · subst hn
      by_cases hlt : r.toNat < t.length
      · simp [hlt, List.getD_eq_getElem?_getD, List.getElem?_eq_getElem hlt]
      · simp [hlt, List.getElem?_eq_none (Nat.le_of_not_lt hlt)]
    · simp [hn]

theorem no_rows_of_shape (t t' : table_t) (h : shape t' = shape t) : no_rows t' = no_rows t := by
  unfold no_rows
  have := congrArg List.length h
  unfold shape at this
  simp only [List.length_map] at this
  rw [this]

theorem row_no_cols_of_shape (t t' : table_t) (h : shape t' = shape t) (i : Int) :
    row_no_cols t' i = row_no_cols t i := by
  unfold row_no_cols
  split
  · rfl
  · have h1 : (shape t')[i.toNat]? = (shape t)[i.toNat]? := by rw [h]
    unfold shape at h1
    simp only [List.getElem?_map] at h1
    rw [List.getD_eq_getElem?_getD, List.getD_eq_getElem?_getD]
    cases h2 : t'[i.toNat]? <;> cases h3 : t[i.toNat]? <;> simp_all

theorem no_cols_of_shape (t t' : table_t) (h : shape t' = shape t) : no_cols t' = no_cols t := by
  have := row_no_cols_of_shape t t' h 0
  unfold row_no_cols at this
  unfold no_cols
  simp only [lt_self_iff_false, if_false, Int.toNat_zero] at this
  cases t <;> cases t' <;> simp_all [List.getD]

theorem in_table_of_shape (t t' : table_t) (h : shape t' = shape t) (i j : Int) :
    in_table t' i j ↔ in_table t i j := by
  unfold in_table
  rw [no_rows_of_shape t t' h, row_no_cols_of_shape t t' h]

theorem getD_set_gen {α : Type} (l : List α) (d : α) (r i : Nat) (x : α) :
    (l.set r x).getD i d = if i = r ∧ r < l.length then x else l.getD i d := by
  rw [List.getD_eq_getElem?_getD, List.getD_eq_getElem?_getD, List.getElem?_set]
  by_cases h : r = i
  · subst h
    by_cases hl : r < l.length
    · simp [hl]
    · simp [hl, List.getElem?_eq_none (Nat.le_of_not_lt hl)]
  · have : ¬ (i = r ∧ r < l.length) := fun hh => h hh.1.symm
    simp [h, this]

theorem getD_set_row (t : table_t) (r i : Nat) (row : row_t) :
    (t.set r row).getD i [] = if i = r ∧ r < t.length then row else t.getD i [] :=
  getD_set_gen t [] r i row

theorem getD_set_cell (row : row_t) (c j : Nat) (v : CStr) :
    (row.set c v).getD j [] = if j = c ∧ c < row.length then v else row.getD j [] :=
  getD_set_gen row [] c j v

theorem get_set_cell (t : table_t) (r c i j : Int) (v : CStr) :
    get_cell_content (set_cell_value t r c v) i j =
      if i = r ∧ j = c ∧ in_table t r c then v else get_cell_content t i j := by
  unfold get_cell_content set_cell_value in_table no_rows row_no_cols
  by_cases hneg : r < 0 ∨ c < 0
  · rw [if_pos hneg]
    have : ¬ (i = r ∧ j = c ∧ 0 ≤ r ∧ r < (t.length : Int) ∧ 0 ≤ c ∧
        c < (if r < 0 then 0 else ((t.getD r.toNat []).length : Int))) := by
      intro h
      omega
    rw [if_neg this]
  · rw [if_neg hneg]
    have hr : 0 ≤ r := by omega
    have hc : 0 ≤ c := by omega
    have hr' : ¬ r < 0 := by omega
    simp only [hr', if_false, hr, hc, true_and]
    by_cases hij : i < 0 ∨ j < 0
    · rw [if_pos hij, if_pos hij]
      have : ¬ (i = r ∧ j = c ∧ r < (t.length : Int) ∧ c < ((t.getD r.toNat []).length : Int)) := by
        intro h
        omega
      rw [if_neg this]
    · rw [if_neg hij, if_neg hij, getD_set_row]
      by_cases h1 : i.toNat = r.toNat ∧ r.toNat < t.length
      · rw [if_pos h1, getD_set_cell]
        have hir : i = r := by omega
        subst hir
        by_cases h2 : j.toNat = c.toNat ∧ c.toNat < (t.getD i.toNat []).length
        · rw [if_pos h2, if_pos]
          exact ⟨rfl, by omega, by omega, by omega⟩
        · rw [if_neg h2, if_neg]
          intro h
          apply h2
          omega
      · rw [if_neg h1]
        by_cases hir : i = r
        · subst hir
          rw [if_neg]
          intro h
          apply h1
          omega
        · rw [if_neg]
          intro h
          exact hir h.1

/-! ## The loops of the data commands as scans of the covered cells -/

theorem shape_foldl (f : table_t → Int × Int → table_t)
    (hf : ∀ t p, shape (f t p) = shape t) (l : List (Int × Int)) (t : table_t) :
    shape (l.foldl f t) = shape t := by
  induction l generalizing t with
  | nil => rfl
  | cons p rest ih => rw [List.foldl_cons, ih, hf]

theorem foldl_table_loops (f : table_t → Int × Int → table_t)
    (hf : ∀ t p, shape (f t p) = shape t) (m : Int) (rows : List Int) (t : table_t)
    (h : ∀ i ∈ rows, row_no_cols t i = m) :
    rows.foldl (fun t i => (loop_range 0 (row_no_cols t i)).foldl (fun t j => f t (i, j)) t) t =
      rows.foldl (fun t i => (loop_range 0 m).foldl (fun t j => f t (i, j)) t) t := by
  induction rows generalizing t with
  | nil => rfl
  | cons i rest ih =>
    simp only [List.foldl_cons]
    rw [h i (List.mem_cons_self _ _)]
    apply ih
    intro k hk
    have e : (loop_range 0 m).foldl (fun t j => f t (i, j)) t =
        ((loop_range 0 m).map (fun j => (i, j))).foldl f t := by
      rw [List.foldl_map]
    rw [e, row_no_cols_of_shape _ _ (shape_foldl f hf _ t)]
    exact h k (List.mem_cons_of_mem _ hk)

theorem row_no_cols_rect (t : table_t) (m : Nat) (hrect : rectangular t m) (i : Int)
    (h0 : 0 ≤ i) (h1 : i < no_rows t) : row_no_cols t i = m := by
  unfold row_no_cols
  unfold no_rows at h1
  have hn : ¬ i < 0 := by omega
  rw [if_neg hn]
  have hlt : i.toNat < t.length := by omega
  rw [List.getD_eq_getElem?_getD, List.getElem?_eq_getElem hlt]
  simp only [Option.getD_some]
  rw [hrect _ (List.getElem_mem hlt)]

theorem no_cols_rect (t : table_t) (m : Nat) (hrect : rectangular t m) (h : 0 < no_rows t) :
    no_cols t = m := by
  have := row_no_cols_rect t m hrect 0 (le_refl 0) h
  unfold row_no_cols at this
  unfold no_cols
  cases t with
  | nil => simp [no_rows] at h
  | cons r rest => simpa using this

theorem no_rows_nonneg (t : table_t) : 0 ≤ no_rows t := by
  unfold no_rows
  omega

theorem loops_eq_covered (f : table_t → Int × Int → table_t)
    (hf : ∀ t p, shape (f t p) = shape t) (t : table_t) (m : Nat) (sel : selection_t)
    (hrect : rectangular t m) (hin : inside t sel) :
    (covered t sel).foldl f t =
      (if sel.type = stype_t.CELL then f t (sel.row1 - 1, sel.col1 - 1)
      else if sel.type = stype_t.ROW then
        (loop_range 0 (row_no_cols t (sel.row1 - 1))).foldl (fun t i => f t (sel.row1 - 1, i)) t
      else if sel.type = stype_t.COL then
        (loop_range 0 (no_rows t)).foldl (fun t i => f t (i, sel.col1 - 1)) t
      else if sel.type = stype_t.BOX then
        (loop_range (sel.row1 - 1) (close_box t sel).row2).foldl
          (fun acc i => (loop_range (sel.col1 - 1) (close_box t sel).col2).foldl
            (fun acc j => f acc (i, j)) acc) t
      else if sel.type = stype_t.TABLE then
        (loop_range 0 (no_rows t)).foldl
          (fun t i => (loop_range 0 (row_no_cols t i)).foldl (fun t j => f t (i, j)) t) t
      else t) := by
  unfold inside at hin
  unfold covered
  cases h : sel.type <;> rw [h] at hin <;> simp only [] at hin ⊢
  · simp
  · simp only [reduceCtorEq, if_false, if_true]
    rw [foldl_rect_cells, loop_range_one, row_no_cols_rect t m hrect _ (by omega) (by omega),
      no_cols_rect t m hrect (by omega)]
    rfl
  · simp only [reduceCtorEq, if_false, if_true]
    rw [foldl_rect_cells, loop_range_one]
    rfl
  · simp only [reduceCtorEq, if_false, if_true]
    rw [foldl_rect_cells]
    simp only [close_box]
  · simp only [reduceCtorEq, if_false, if_true]
    rw [foldl_rect_cells]
    by_cases hn : 0 < no_rows t
    · rw [no_cols_rect t m hrect hn]
      symm
      apply foldl_table_loops f hf
      intro i hi
      rw [mem_loop_range] at hi
      exact row_no_cols_rect t m hrect i hi.1 hi.2
    · have : no_rows t = 0 := le_antisymm (not_lt.1 hn) (no_rows_nonneg t)
      rw [this]
      rfl

theorem set_selection_eq_fold (t : table_t) (m : Nat) (sel : selection_t) (v : CStr)
    (hrect : rectangular t m) (hin : inside t sel) :
    (set_selection t sel v).1 =
      (covered t sel).foldl (fun t p => set_cell_value t p.1 p.2 v) t := by
  rw [loops_eq_covered (fun t p => set_cell_value t p.1 p.2 v)
    (fun t p => shape_set_cell_value t p.1 p.2 v) t m sel hrect hin]
  unfold set_selection
  simp only []
  split_ifs <;> rfl

theorem covered_in_table (t : table_t) (m : Nat) (sel : selection_t)
    (hrect : rectangular t m) (hin : inside t sel) :
    ∀ p ∈ covered t sel, in_table t p.1 p.2 := by
  intro p hp
  have key : ∀ i j : Int, 0 ≤ i → i < no_rows t → 0 ≤ j → j < no_cols t → in_table t i j := by
    intro i j h1 h2 h3 h4
    refine ⟨h1, h2, h3, ?_⟩
    rw [row_no_cols_rect t m hrect i h1 h2, ← no_cols_rect t m hrect (by omega)]
    exact h4
  unfold inside at hin
  unfold covered at hp
  cases h : sel.type <;> rw [h] at hin hp <;> simp only [] at hin hp
  · have e := List.mem_singleton.1 hp
    subst e
    exact key _ _ (by omega) (by omega) (by omega) (by omega)
  · rw [mem_rect_cells] at hp
    exact key _ _ (by omega) (by omega) (by omega) (by omega)
  · rw [mem_rect_cells] at hp
    exact key _ _ (by omega) (by omega) (by omega) (by omega)
  · rw [mem_rect_cells] at hp
    obtain ⟨h1, h2, h3, h4⟩ := hin
    obtain ⟨⟨p1, p2⟩, p3, p4⟩ := hp
    refine key _ _ (by omega) ?_ (by omega) ?_
    · rcases h3 with h3 | h3
      · rw [if_pos h3] at p2
        exact p2
      · have : sel.row2 ≠ SLASH := by
          unfold SLASH
          omega
        rw [if_neg this] at p2
        omega
    · rcases h4 with h4 | h4
      · rw [if_pos h4] at p4
        exact p4
      · have : sel.col2 ≠ SLASH := by
          unfold SLASH
          omega
        rw [if_neg this] at p4
        omega
  · rw [mem_rect_cells] at hp
    exact key _ _ (by omega) (by omega) (by omega) (by omega)

theorem foldl_set_get (v : CStr) (l : List (Int × Int)) (t : table_t) (i j : Int) :
    get_cell_content (l.foldl (fun t p => set_cell_value t p.1 p.2 v) t) i j =
      if (i, j) ∈ l ∧ in_table t i j then v else get_cell_content t i j := by
  induction l generalizing t with
  | nil => simp
  | cons p rest ih =>
    rw [List.foldl_cons, ih, get_set_cell]
    simp only [in_table_of_shape _ _ (shape_set_cell_value t p.1 p.2 v)]
    by_cases h1 : (i, j) ∈ rest ∧ in_table t i j
    · rw [if_pos h1, if_pos ⟨List.mem_cons_of_mem _ h1.1, h1.2⟩]
    · rw [if_neg h1]
      by_cases h2 : i = p.1 ∧ j = p.2 ∧ in_table t p.1 p.2
      · rw [if_pos h2, if_pos]
        obtain ⟨a, b, c⟩ := h2
        subst a
        subst b
        exact ⟨List.mem_cons_self _ _, c⟩
      · rw [if_neg h2, if_neg]
        rintro ⟨hm, hi⟩
        rcases List.mem_cons.1 hm with e | e
        · apply h2
          rw [← e]
          exact ⟨rfl, rfl, hi⟩
        · exact h1 ⟨e, hi⟩

theorem rectangular_of_shape (t t' : table_t) (m : Nat) (h : shape t' = shape t)
    (hrect : rectangular t m) : rectangular t' m := by
  intro row hrow
  have h1 : row.length ∈ shape t' := List.mem_map_of_mem _ hrow
  rw [h] at h1
  obtain ⟨r, hr, e⟩ := List.mem_map.1 h1
  rw [← e]
  exact hrect r hr

/-- C18: on a rectangular table and a concrete selection (CELL, ROW, COL, BOX
or TABLE) lying inside it, `set` with the text `text` leaves every covered
cell holding `unescape_string delim text` and every other cell as it was; the
table keeps its number of rows and stays rectangular with the same number of
columns. -/
theorem set_writes_covered (delim : CStr) (t : table_t) (m : Nat) (text : CStr)
    (sel : selection_t) (hrect : rectangular t m) (hin : inside t sel) :
    (∀ i j : Int, get_cell_content (set delim t text sel).1 i j =
      if (i, j) ∈ covered t sel then unescape_string delim text else get_cell_content t i j) ∧
    no_rows (set delim t text sel).1 = no_rows t ∧ rectangular (set delim t text sel).1 m := by
  unfold set
  rw [set_selection_eq_fold t m sel _ hrect hin]
  have hs : shape ((covered t sel).foldl
      (fun t p => set_cell_value t p.1 p.2 (unescape_string delim text)) t) = shape t :=
    shape_foldl _ (fun t p => shape_set_cell_value t p.1 p.2 _) _ t
  refine ⟨?_, no_rows_of_shape _ _ hs, rectangular_of_shape _ _ m hs hrect⟩
  intro i j
  rw [foldl_set_get]
  by_cases hm : (i, j) ∈ covered t sel
  · rw [if_pos hm, if_pos ⟨hm, covered_in_table t m sel hrect hin (i, j) hm⟩]
  · rw [if_neg hm, if_neg (fun h => hm h.1)]

theorem set_writes_covered_witness :
    rectangular [["a".toList, "b".toList], ["c".toList, "d".toList]] 2 ∧
    inside [["a".toList, "b".toList], ["c".toList, "d".toList]]
      { type := stype_t.COL, row1 := 0, col1 := 2, row2 := 0, col2 := 0, str := none } ∧
    (set " ".toList [["a".toList, "b".toList], ["c".toList, "d".toList]] "x\\y".toList
      { type := stype_t.COL, row1 := 0, col1 := 2, row2 := 0, col2 := 0, str := none }).1 =
      [["a".toList, "xy".toList], ["c".toList, "xy".toList]] ∧
    ((∀ i j : Int, get_cell_content
        (set " ".toList [["a".toList, "b".toList], ["c".toList, "d".toList]] "x\\y".toList
          { type := stype_t.COL, row1 := 0, col1 := 2, row2 := 0, col2 := 0, str := none }).1 i j =
      if (i, j) ∈ covered [["a".toList, "b".toList], ["c".toList, "d".toList]]
          { type := stype_t.COL, row1 := 0, col1 := 2, row2 := 0, col2 := 0, str := none }
        then unescape_string " ".toList "x\\y".toList
        else get_cell_content [["a".toList, "b".toList], ["c".toList, "d".toList]] i j) ∧
    no_rows (set " ".toList [["a".toList, "b".toList], ["c".toList, "d".toList]] "x\\y".toList
      { type := stype_t.COL, row1 := 0, col1 := 2, row2 := 0, col2 := 0, str := none }).1 =
      no_rows [["a".toList, "b".toList], ["c".toList, "d".toList]] ∧
    rectangular (set " ".toList [["a".toList, "b".toList], ["c".toList, "d".toList]] "x\\y".toList
      { type := stype_t.COL, row1 := 0, col1 := 2, row2 := 0, col2 := 0, str := none }).1 2) :=
  ⟨by unfold rectangular; decide, by unfold inside; decide, by decide,
    set_writes_covered " ".toList [["a".toList, "b".toList], ["c".toList, "d".toList]] 2
      "x\\y".toList { type := stype_t.COL, row1 := 0, col1 := 2, row2 := 0, col2 := 0, str := none }
      (by unfold rectangular; decide) (by unfold inside; decide)⟩

/-! ## The exchange of cells by `swap` -/

theorem shape_col_swap (t : table_t) (r1 c1 r2 c2 : Int) :
    shape (col_swap t r1 c1 r2 c2) = shape t := by
  unfold col_swap
  rw [shape_set_cell_value, shape_set_cell_value]

theorem cell_at_col_swap (t : table_t) (p T q : Int × Int) (hp : in_table t p.1 p.2)
    (hT : in_table t T.1 T.2) (hne : p ≠ T) :
    cell_at (col_swap t p.1 p.2 T.1 T.2) q =
      if q = T then cell_at t p else if q = p then cell_at t T else cell_at t q := by
  unfold cell_at col_swap
  rw [get_set_cell, get_set_cell]
  simp only [in_table_of_shape _ _ (shape_set_cell_value t p.1 p.2 _)]
  by_cases h1 : q = T
  · subst h1
    rw [if_pos ⟨rfl, rfl, hT⟩, if_pos rfl]
  · have h1' : ¬ (q.1 = T.1 ∧ q.2 = T.2 ∧ in_table t T.1 T.2) := fun h =>
      h1 (Prod.ext h.1 h.2.1)
    rw [if_neg h1', if_neg h1]
    by_cases h2 : q = p
    · subst h2
      rw [if_pos ⟨rfl, rfl, hp⟩, if_pos rfl]
    · have h2' : ¬ (q.1 = p.1 ∧ q.2 = p.2 ∧ in_table t p.1 p.2) := fun h =>
        h2 (Prod.ext h.1 h.2.1)
      rw [if_neg h2', if_neg h2]

theorem foldl_swap_rotate (T : Int × Int) (l : List (Int × Int)) (t : table_t)
    (hnd : l.Nodup) (hT : T ∉ l) (hin : ∀ p ∈ l, in_table t p.1 p.2)
    (hTin : in_table t T.1 T.2) :
    cell_at (l.foldl (fun t p => col_swap t p.1 p.2 T.1 T.2) t) T =
        cell_at t (l.getLast?.getD T) ∧
    (∀ k : Nat, k < l.length →
      cell_at (l.foldl (fun t p => col_swap t p.1 p.2 T.1 T.2) t) (l.getD k T) =
        if k = 0 then cell_at t T else cell_at t (l.getD (k - 1) T)) ∧
    (∀ q : Int × Int, q ∉ l → q ≠ T →
      cell_at (l.foldl (fun t p => col_swap t p.1 p.2 T.1 T.2) t) q = cell_at t q) := by
  induction l generalizing t with
  | nil =>
    refine ⟨rfl, ?_, fun q _ _ => rfl⟩
    intro k hk
    simp at hk
  | cons p rest ih =>
    have hpT : p ≠ T := fun e => hT (e ▸ List.mem_cons_self _ _)
    have hp : in_table t p.1 p.2 := hin p (List.mem_cons_self _ _)
    have hprest : p ∉ rest := (List.nodup_cons.1 hnd).1
    have hs := shape_col_swap t p.1 p.2 T.1 T.2
    obtain ⟨iha, ihb, ihc⟩ := ih (col_swap t p.1 p.2 T.1 T.2) (List.nodup_cons.1 hnd).2
      (fun h => hT (List.mem_cons_of_mem _ h))
      (fun q hq => (in_table_of_shape _ _ hs q.1 q.2).2 (hin q (List.mem_cons_of_mem _ hq)))
      ((in_table_of_shape _ _ hs T.1 T.2).2 hTin)
    have hrest : ∀ x ∈ rest, cell_at (col_swap t p.1 p.2 T.1 T.2) x = cell_at t x := by
      intro x hx
      rw [cell_at_col_swap t p T x hp hTin hpT]
      have h1 : x ≠ T := fun e => hT (e ▸ List.mem_cons_of_mem _ hx)
      have h2 : x ≠ p := fun e => hprest (e ▸ hx)
      rw [if_neg h1, if_neg h2]
    simp only [List.foldl_cons]
    refine ⟨?_, ?_, ?_⟩
    · rw [iha]
      cases rest with
      | nil =>
        simp only [List.getLast?_nil, Option.getD_none, List.getLast?_singleton,
          Option.getD_some]
        rw [cell_at_col_swap t p T T hp hTin hpT, if_pos rfl]
      | cons r rs =>
        rw [List.getLast?_cons_cons]
        have hm : (r :: rs).getLast?.getD T ∈ r :: rs := by
          rw [List.getLast?_eq_getLast _ (List.cons_ne_nil _ _)]
          exact List.getLast_mem _
        exact hrest _ hm
    · intro k hk
      cases k with
      | zero =>
        simp only [List.getD_cons_zero, if_true]
        rw [ihc p hprest hpT, cell_at_col_swap t p T p hp hTin hpT, if_neg hpT, if_pos rfl]
      | succ k =>
        have hk' : k < rest.length := by simpa using hk
        simp only [List.getD_cons_succ, Nat.succ_ne_zero, if_false, Nat.add_sub_cancel]
        rw [ihb k hk']
        cases k with
        | zero =>
          simp only [if_true, List.getD_cons_zero]
          rw [cell_at_col_swap t p T T hp hTin hpT, if_pos rfl]
        | succ j =>
          simp only [Nat.succ_ne_zero, if_false, Nat.add_sub_cancel, List.getD_cons_succ]
          apply hrest
          have hj : j < rest.length := by omega
          rw [List.getD_eq_getElem _ _ hj]
          exact List.getElem_mem _
    · intro q hq hqT
      have h1 : q ∉ rest := fun h => hq (List.mem_cons_of_mem _ h)
      have h2 : q ≠ p := fun e => hq (e ▸ List.mem_cons_self _ _)
      rw [ihc q h1 hqT, cell_at_col_swap t p T q hp hTin hpT, if_neg hqT, if_neg h2]

theorem loop_range_nodup (lo hi : Int) : (loop_range lo hi).Nodup := by
  unfold loop_range
  apply List.Nodup.map _ (List.nodup_range _)
  intro a b h
  simp only at h
  omega

theorem rect_cells_nodup (r0 r1 c0 c1 : Int) : (rect_cells r0 r1 c0 c1).Nodup := by
  unfold rect_cells
  rw [List.nodup_flatMap]
  constructor
  · intro x _
    apply List.Nodup.map _ (loop_range_nodup _ _)
    intro a b h
    simp only [Prod.mk.injEq, true_and] at h
    exact h
  · apply List.Pairwise.imp _ (loop_range_nodup r0 r1)
    intro a b hab
    simp only [Function.onFun]
    rw [List.disjoint_left]
    intro q h1 h2
    obtain ⟨x, _, ex⟩ := List.mem_map.1 h1
    obtain ⟨y, _, ey⟩ := List.mem_map.1 h2
    apply hab
    rw [← ex] at ey
    simp only [Prod.mk.injEq] at ey
    exact ey.1.symm

theorem covered_nodup (t : table_t) (sel : selection_t) : (covered t sel).Nodup := by
  unfold covered
  cases sel.type <;> simp only [] <;>
    first
    | exact rect_cells_nodup _ _ _ _
    | exact List.nodup_singleton _
    | exact List.nodup_nil

theorem swap_eq_fold (t : table_t) (m : Nat) (sel : selection_t) (arg1 arg2 : Int)
    (hrect : rectangular t m) (hin : inside t sel) :
    (swap t arg1 arg2 sel).1 =
      (covered t sel).foldl (fun t p => col_swap t p.1 p.2 (arg1 - 1) (arg2 - 1)) t := by
  rw [loops_eq_covered (fun t p => col_swap t p.1 p.2 (arg1 - 1) (arg2 - 1))
    (fun t p => shape_col_swap t p.1 p.2 _ _) t m sel hrect hin]
  unfold swap
  simp only []
  split_ifs <;> rfl

/-- C20, the claim as worded fails: on the one-row table `a b t` the command
`swap [1,3]` over the selection `[1,1,1,2]`, which covers the two cells
`(1,1)` and `(1,2)` and not the target, leaves `t a b`: the last covered cell
holds the original content of the cell before it, not that of the target. -/
theorem swap_not_pairwise :
    covered [["a".toList, "b".toList, "t".toList]]
        { type := stype_t.BOX, row1 := 1, col1 := 1, row2 := 1, col2 := 2, str := none } =
      [(0, 0), (0, 1)] ∧
    (swap [["a".toList, "b".toList, "t".toList]] 1 3
        { type := stype_t.BOX, row1 := 1, col1 := 1, row2 := 1, col2 := 2, str := none }).1 =
      [["t".toList, "a".toList, "b".toList]] ∧
    get_cell_content (swap [["a".toList, "b".toList, "t".toList]] 1 3
        { type := stype_t.BOX, row1 := 1, col1 := 1, row2 := 1, col2 := 2, str := none }).1 0 1 ≠
      get_cell_content [["a".toList, "b".toList, "t".toList]] 0 2 := by
  decide

/-- C20, amended: on a rectangular table, for a concrete selection lying
inside it and a target cell `[R,C]` of the table that the selection does not
cover, `swap [R,C]` moves the contents one place along the covered cells in
row-major order, through the target: the target holds the original content of
the last covered cell, the first covered cell holds the original content of
the target, every other covered cell holds the original content of the covered
cell before it, and every other cell of the table is unchanged. -/
theorem swap_rotates (t : table_t) (m : Nat) (sel : selection_t) (R C : Int)
    (hrect : rectangular t m) (hin : inside t sel) (htarget : in_table t (R - 1) (C - 1))
    (hout : (R - 1, C - 1) ∉ covered t sel) :
    cell_at (swap t R C sel).1 (R - 1, C - 1) =
        cell_at t ((covered t sel).getLast?.getD (R - 1, C - 1)) ∧
    (∀ k : Nat, k < (covered t sel).length →
      cell_at (swap t R C sel).1 ((covered t sel).getD k (R - 1, C - 1)) =
        if k = 0 then cell_at t (R - 1, C - 1)
        else cell_at t ((covered t sel).getD (k - 1) (R - 1, C - 1))) ∧
    (∀ q : Int × Int, q ∉ covered t sel → q ≠ (R - 1, C - 1) →
      cell_at (swap t R C sel).1 q = cell_at t q) := by
  rw [swap_eq_fold t m sel R C hrect hin]
  exact foldl_swap_rotate (R - 1, C - 1) (covered t sel) t (covered_nodup t sel) hout
    (covered_in_table t m sel hrect hin) htarget

/-- C20, witness: on the one-row table `a b t`, `swap [1,3]` over `[1,1,1,2]`
gives `t a b`. -/
theorem swap_rotates_witness :
    rectangular [["a".toList, "b".toList, "t".toList]] 3 ∧
    inside [["a".toList, "b".toList, "t".toList]]
      { type := stype_t.BOX, row1 := 1, col1 := 1, row2 := 1, col2 := 2, str := none } ∧
    in_table [["a".toList, "b".toList, "t".toList]] (1 - 1) (3 - 1) ∧
    ((1 : Int) - 1, (3 : Int) - 1) ∉ covered [["a".toList, "b".toList, "t".toList]]
      { type := stype_t.BOX, row1 := 1, col1 := 1, row2 := 1, col2 := 2, str := none } ∧
    (cell_at (swap [["a".toList, "b".toList, "t".toList]] 1 3
        { type := stype_t.BOX, row1 := 1, col1 := 1, row2 := 1, col2 := 2, str := none }).1
        (1 - 1, 3 - 1) =
      cell_at [["a".toList, "b".toList, "t".toList]]
        ((covered [["a".toList, "b".toList, "t".toList]]
          { type := stype_t.BOX, row1 := 1, col1 := 1, row2 := 1, col2 := 2,
            str := none }).getLast?.getD (1 - 1, 3 - 1)) ∧
    (∀ k : Nat, k < (covered [["a".toList, "b".toList, "t".toList]]
        { type := stype_t.BOX, row1 := 1, col1 := 1, row2 := 1, col2 := 2,
          str := none }).length →
      cell_at (swap [["a".toList, "b".toList, "t".toList]] 1 3
          { type := stype_t.BOX, row1 := 1, col1 := 1, row2 := 1, col2 := 2, str := none }).1
          ((covered [["a".toList, "b".toList, "t".toList]]
            { type := stype_t.BOX, row1 := 1, col1 := 1, row2 := 1, col2 := 2,
              str := none }).getD k (1 - 1, 3 - 1)) =
        if k = 0 then cell_at [["a".toList, "b".toList, "t".toList]] (1 - 1, 3 - 1)
        else cell_at [["a".toList, "b".toList, "t".toList]]
          ((covered [["a".toList, "b".toList, "t".toList]]
            { type := stype_t.BOX, row1 := 1, col1 := 1, row2 := 1, col2 := 2,
              str := none }).getD (k - 1) (1 - 1, 3 - 1))) ∧
    (∀ q : Int × Int, q ∉ covered [["a".toList, "b".toList, "t".toList]]
        { type := stype_t.BOX, row1 := 1, col1 := 1, row2 := 1, col2 := 2, str := none } →
      q ≠ (1 - 1, 3 - 1) →
      cell_at (swap [["a".toList, "b".toList, "t".toList]] 1 3
          { type := stype_t.BOX, row1 := 1, col1 := 1, row2 := 1, col2 := 2, str := none }).1 q =
        cell_at [["a".toList, "b".toList, "t".toList]] q)) :=
  ⟨by unfold rectangular; decide, by unfold inside; decide, by decide, by decide,
    swap_rotates [["a".toList, "b".toList, "t".toList]] 3
      { type := stype_t.BOX, row1 := 1, col1 := 1, row2 := 1, col2 := 2, str := none } 1 3
      (by unfold rectangular; decide) (by unfold inside; decide) (by decide) (by decide)⟩

/-! ## Moving and deleting rows and columns -/

theorem list_swap_adjacent {β : Type} (d : β) (A : List β) (x y : β) (R : List β) :
    list_swap d (A ++ x :: y :: R) A.length (A.length + 1) = A ++ y :: x :: R := by
  induction A with
  | nil => simp [list_swap]
  | cons a A ih =>
    unfold list_swap at ih ⊢
    simp only [List.cons_append, List.length_cons, List.getD_cons_succ, List.set_cons_succ]
    rw [ih]

theorem move_up_spec {β : Type} (d : β) (x : β) (B A C : List β) :
    move_up d B.length A.length (A ++ x :: (B ++ C)) = A ++ (B ++ x :: C) := by
  induction B generalizing A with
  | nil => rfl
  | cons b B ih =>
    simp only [List.length_cons, move_up, List.cons_append]
    rw [list_swap_adjacent]
    have := ih (A ++ [b])
    simp only [List.length_append, List.length_singleton, List.append_assoc,
      List.singleton_append] at this
    exact this

theorem delete_elem_spec {β : Type} (d : β) (A : List β) (x : β) (R : List β) :
    (move_elem d (A ++ x :: R) A.length ((A ++ x :: R).length - 1)).dropLast = A ++ R := by
  unfold move_elem
  have hlen : (A ++ x :: R).length - 1 = A.length + R.length := by
    simp only [List.length_append, List.length_cons]
    omega
  rw [hlen, if_neg (by omega)]
  have e : A.length + R.length - A.length = R.length := by omega
  rw [e]
  have := move_up_spec d x R A []
  simp only [List.append_nil] at this
  rw [this, ← List.append_assoc, List.dropLast_concat]

theorem delete_row_spec (A : table_t) (x : row_t) (R : table_t) :
    delete_row (A ++ x :: R) A.length = A ++ R := by
  unfold delete_row table_delete_row move_row
  exact delete_elem_spec [] A x R

theorem foldl_delete_row (l : List Int) (A B C : table_t) (h : l.length = B.length) :
    l.foldl (fun t _ => delete_row t A.length) (A ++ (B ++ C)) = A ++ C := by
  induction B generalizing l with
  | nil =>
    have : l = [] := List.length_eq_zero.1 h
    subst this
    rfl
  | cons b B ih =>
    cases l with
    | nil => simp at h
    | cons i l =>
      simp only [List.foldl_cons, List.cons_append]
      rw [delete_row_spec]
      exact ih l (by simpa using h)

theorem loop_range_length (lo hi : Int) : (loop_range lo hi).length = (hi - lo).toNat := by
  unfold loop_range
  simp

theorem drow_box (t : table_t) (sel : selection_t) (hty : sel.type = stype_t.BOX)
    (h1 : 1 ≤ sel.row1)
    (h2 : sel.row1 ≤ (if sel.row2 = SLASH then no_rows t else sel.row2))
    (h3 : (if sel.row2 = SLASH then no_rows t else sel.row2) ≤ no_rows t) :
    drow t sel = t.take (sel.row1 - 1).toNat ++
      t.drop (if sel.row2 = SLASH then no_rows t else sel.row2).toNat := by
  unfold drow
  simp only [hty, reduceCtorEq, or_self, if_false, if_true]
  generalize hb : (if sel.row2 = SLASH then no_rows t else sel.row2) = b at h2 h3
  have hend : box_end sel.row2 (no_rows t) = b - 1 := by
    unfold box_end
    rw [← hb]
    split <;> rfl
  rw [hend]
  unfold no_rows at h3
  have hsplit : t = t.take (sel.row1 - 1).toNat ++
      ((t.drop (sel.row1 - 1).toNat).take (b.toNat - (sel.row1 - 1).toNat) ++ t.drop b.toNat) := by
    have hle : (sel.row1 - 1).toNat ≤ b.toNat := by omega
    have e1 : t.take (sel.row1 - 1).toNat = (t.take b.toNat).take (sel.row1 - 1).toNat := by
      rw [List.take_take, min_eq_left hle]
    rw [← List.drop_take, ← List.append_assoc, e1, List.take_append_drop,
      List.take_append_drop]
  have hA : (t.take (sel.row1 - 1).toNat).length = (sel.row1 - 1).toNat := by
    rw [List.length_take]
    omega
  have key := foldl_delete_row (loop_range (sel.row1 - 1) (sel.row1 - 1 + (b - 1) - (sel.row1 - 1) + 1))
    (t.take (sel.row1 - 1).toNat)
    ((t.drop (sel.row1 - 1).toNat).take (b.toNat - (sel.row1 - 1).toNat)) (t.drop b.toNat)
    (by
      rw [loop_range_length, List.length_take, List.length_drop]
      omega)
  rw [hA, ← hsplit] at key
  exact key

theorem delete_elem_take_drop {β : Type} (d : β) (row : List β) (c : Nat) (h : c < row.length) :
    (move_elem d row c (row.length - 1)).dropLast = row.take c ++ row.drop (c + 1) := by
  have hsplit : row = row.take c ++ row[c] :: row.drop (c + 1) := by
    rw [List.getElem_cons_drop row c h, List.take_append_drop]
  have hA : (row.take c).length = c := by
    rw [List.length_take]
    omega
  have key := delete_elem_spec d (row.take c) row[c] (row.drop (c + 1))
  rw [hA, ← hsplit] at key
  exact key

theorem table_delete_col_ok (t : table_t) (h : ∀ row ∈ t, 2 ≤ row.length) :
    table_delete_col t = Except.ok (t.map (fun row => row.dropLast)) := by
  induction t with
  | nil => rfl
  | cons r rest ih =>
    have hr : ¬ r.length ≤ 1 := by
      have := h r (List.mem_cons_self _ _)
      omega
    rw [table_delete_col, row_delete_col, if_neg hr]
    simp only []
    rw [ih (fun row hrow => h row (List.mem_cons_of_mem _ hrow))]
    rfl

theorem table_delete_col_fail (r : row_t) (rest : table_t) (h : r.length ≤ 1) :
    table_delete_col (r :: rest) = Except.error exec_error.alloc_fail := by
  rw [table_delete_col, row_delete_col, if_pos h]

theorem delete_col_rect (t : table_t) (m : Nat) (c : Nat) (hrect : rectangular t m)
    (hc : c < m) (hm : 2 ≤ m) :
    delete_col t c = Except.ok (t.map (fun row => row.take c ++ row.drop (c + 1))) := by
  cases t with
  | nil => rfl
  | cons r rest =>
    have hcols : (no_cols (r :: rest)).toNat = m := by
      rw [no_cols_rect (r :: rest) m hrect (by unfold no_rows; simp)]
      rfl
    have hrow : ∀ row ∈ r :: rest,
        (move_elem [] row c (m - 1)).dropLast = row.take c ++ row.drop (c + 1) := by
      intro row hrow
      have hl := hrect row hrow
      rw [← hl]
      exact delete_elem_take_drop [] row c (by omega)
    unfold delete_col move_col
    rw [hcols, table_delete_col_ok]
    · rw [List.map_map]
      congr 1
      apply List.map_congr_left
      intro row hr
      exact hrow row hr
    · intro x hx
      obtain ⟨row, hr, e⟩ := List.mem_map.1 hx
      have h1 := congrArg List.length (hrow row hr)
      rw [List.length_dropLast, List.length_append, List.length_take, List.length_drop,
        hrect row hr] at h1
      rw [← e]
      omega

theorem foldlM_delete_col (l : List Int) (c : Nat) (t : table_t) (m : Nat)
    (hrect : rectangular t m) (h : c + l.length ≤ m) (hsome : l.length < m) :
    l.foldlM (fun t _ => delete_col t c) t =
      Except.ok (t.map (fun row => row.take c ++ row.drop (c + l.length))) := by
  induction l generalizing t m with
  | nil =>
    simp only [List.foldlM_nil, List.length_nil, Nat.add_zero, List.take_append_drop]
    rw [List.map_id']
    rfl
  | cons i l ih =>
    simp only [List.length_cons] at h hsome
    rw [List.foldlM_cons, delete_col_rect t m c hrect (by omega) (by omega)]
    have hrect1 : rectangular (t.map (fun row => row.take c ++ row.drop (c + 1))) (m - 1) := by
      intro row hrow
      obtain ⟨r, hr, e⟩ := List.mem_map.1 hrow
      rw [← e, List.length_append, List.length_take, List.length_drop, hrect r hr]
      omega
    have key := ih _ (m - 1) hrect1 (by omega) (by omega)
    show (List.foldlM (fun t _ => delete_col t c)
      (t.map (fun row => row.take c ++ row.drop (c + 1))) l) = _
    rw [key, List.map_map]
    congr 1
    apply List.map_congr_left
    intro row hrow
    have hl := hrect row hrow
    simp only [Function.comp, List.length_cons]
    have hA : (row.take c).length = c := by
      rw [List.length_take]
      omega
    rw [List.take_append_eq_append_take, hA, Nat.sub_self, List.take_zero, List.append_nil,
      List.take_take, min_self, List.drop_append_eq_append_drop, hA, List.drop_drop]
    have hd : List.drop (c + l.length) (List.take c row) = [] := by
      apply List.drop_eq_nil_of_le
      rw [hA]
      omega
    rw [hd, List.nil_append]
    have e : c + 1 + (c + l.length - c) = c + (l.length + 1) := by omega
    rw [e]

theorem dcol_box (t : table_t) (m : Nat) (sel : selection_t) (hrect : rectangular t m)
    (hrows : t ≠ []) (hty : sel.type = stype_t.BOX) (h1 : 1 ≤ sel.col1)
    (h2 : sel.col1 ≤ (if sel.col2 = SLASH then no_cols t else sel.col2))
    (h3 : (if sel.col2 = SLASH then no_cols t else sel.col2) ≤ no_cols t)
    (hsome : (if sel.col2 = SLASH then no_cols t else sel.col2) - (sel.col1 - 1) < no_cols t) :
    dcol t sel = Except.ok (t.map (fun row => row.take (sel.col1 - 1).toNat ++
      row.drop (if sel.col2 = SLASH then no_cols t else sel.col2).toNat)) := by
  unfold dcol
  simp only [hty, reduceCtorEq, or_self, if_false, if_true]
  generalize hb : (if sel.col2 = SLASH then no_cols t else sel.col2) = b at h2 h3 hsome
  have hend : box_end sel.col2 (no_cols t) = b - 1 := by
    unfold box_end
    rw [← hb]
    split <;> rfl
  rw [hend]
  have hm : no_cols t = m :=
    no_cols_rect t m hrect (by
      unfold no_rows
      have := List.length_pos.2 hrows
      omega)
  rw [hm] at h3 hsome
  rw [foldlM_delete_col _ (sel.col1 - 1).toNat t m hrect
    (by rw [loop_range_length]; omega) (by rw [loop_range_length]; omega), loop_range_length]
  have e : (sel.col1 - 1).toNat + (sel.col1 - 1 + (b - 1) - (sel.col1 - 1) + 1 -
      (sel.col1 - 1)).toNat = b.toNat := by omega
  rw [e]

/-- What holds of the deletion over a range.  On a rectangular table, for a BOX selection
with `1 ≤ row1 ≤ row2 ≤ no_rows` (an open `row2` standing for `no_rows`),
`drow` leaves the rows before `row1` followed by the rows after `row2`, in
their order; and with `1 ≤ col1 ≤ col2 ≤ no_cols` (an open `col2` standing for
`no_cols`), when the table has a row and the columns `col1..col2` are not all
the columns, `dcol` leaves in every row the cells before `col1` followed by
the cells after `col2`, in their order. -/
theorem drow_dcol_box_part (t : table_t) (m : Nat) (sel : selection_t)
    (hrect : rectangular t m) (hty : sel.type = stype_t.BOX) :
    (1 ≤ sel.row1 → sel.row1 ≤ (if sel.row2 = SLASH then no_rows t else sel.row2) →
      (if sel.row2 = SLASH then no_rows t else sel.row2) ≤ no_rows t →
      drow t sel = t.take (sel.row1 - 1).toNat ++
        t.drop (if sel.row2 = SLASH then no_rows t else sel.row2).toNat) ∧
    (t ≠ [] → 1 ≤ sel.col1 → sel.col1 ≤ (if sel.col2 = SLASH then no_cols t else sel.col2) →
      (if sel.col2 = SLASH then no_cols t else sel.col2) ≤ no_cols t →
      (if sel.col2 = SLASH then no_cols t else sel.col2) - (sel.col1 - 1) < no_cols t →
      dcol t sel = Except.ok (t.map (fun row => row.take (sel.col1 - 1).toNat ++
        row.drop (if sel.col2 = SLASH then no_cols t else sel.col2).toNat))) :=
  ⟨fun h1 h2 h3 => drow_box t sel hty h1 h2 h3,
    fun hrows h1 h2 h3 h4 => dcol_box t m sel hrect hrows hty h1 h2 h3 h4⟩

/-- C14, at the failing input: on the table `a b / c d` the selection
`[1,1,2,2]` covers both columns; `dcol` deletes the first, and when it deletes
the second `row_delete_col` calls `realloc` with size zero, takes the NULL it
gets for a failed allocation and exits.  `drow` with the same selection, which
covers both rows, leaves the table without rows: `table_delete_row` exempts
the size zero. -/
theorem dcol_all_columns :
    dcol [["a".toList, "b".toList], ["c".toList, "d".toList]]
        { type := stype_t.BOX, row1 := 1, col1 := 1, row2 := 2, col2 := 2, str := none } =
      Except.error exec_error.alloc_fail ∧
    drow [["a".toList, "b".toList], ["c".toList, "d".toList]]
        { type := stype_t.BOX, row1 := 1, col1 := 1, row2 := 2, col2 := 2, str := none } = [] ∧
    dcol [["a".toList, "b".toList], ["c".toList, "d".toList]]
        { type := stype_t.BOX, row1 := 1, col1 := 1, row2 := 1, col2 := 1, str := none } =
      Except.ok [["b".toList], ["d".toList]] ∧
    run sample_lib " ".toList "[1,1,2,2];dcol".toList
        [["a".toList, "b".toList], ["c".toList, "d".toList]] =
      Except.error (run_error.exec exec_error.alloc_fail) := by
  decide

/-! ## The insertion of a row -/

theorem list_swap_adjacent_down {β : Type} (d : β) (A : List β) (x y : β) (R : List β) :
    list_swap d (A ++ x :: y :: R) (A.length + 1) A.length = A ++ y :: x :: R := by
  induction A with
  | nil => simp [list_swap]
  | cons a A ih =>
    unfold list_swap at ih ⊢
    simp only [List.cons_append, List.length_cons, List.getD_cons_succ, List.set_cons_succ]
    rw [ih]

theorem move_down_spec {β : Type} (d : β) (x : β) (B : List β) :
    ∀ A C : List β,
      move_down d B.length (A.length + B.length) (A ++ (B ++ x :: C)) = A ++ x :: (B ++ C) := by
  induction B using List.reverseRecOn with
  | nil =>
    intro A C
    rfl
  | append_singleton B b ih =>
    intro A C
    simp only [List.length_append, List.length_singleton, move_down]
    have e1 : A.length + (B.length + 1) - 1 = (A ++ B).length := by
      simp only [List.length_append]
      omega
    have e2 : A.length + (B.length + 1) = (A ++ B).length + 1 := by
      simp only [List.length_append]
      omega
    have e3 : A ++ (B ++ [b] ++ x :: C) = (A ++ B) ++ b :: x :: C := by simp
    rw [e1, e2, e3, list_swap_adjacent_down]
    have := ih A (b :: C)
    simp only [List.length_append, List.append_assoc] at this ⊢
    rw [this]
    simp

theorem insert_elem_spec {β : Type} (d : β) (x : β) (A B : List β) :
    move_elem d (A ++ B ++ [x]) ((A ++ B ++ [x]).length - 1) A.length = A ++ x :: B := by
  unfold move_elem
  have hlen : (A ++ B ++ [x]).length - 1 = A.length + B.length := by
    simp only [List.length_append, List.length_singleton]
    omega
  rw [hlen]
  by_cases hB : B = []
  · subst hB
    simp [move_up]
  · have hpos : 0 < B.length := List.length_pos.2 hB
    rw [if_pos (by omega)]
    have e : A.length + B.length - A.length = B.length := by omega
    rw [e, List.append_assoc]
    have := move_down_spec d x B A []
    simp only [List.append_nil] at this
    exact this

/-- On a table with at least two rows, `add_row_before` is the insertion of an
empty row, as wide as the second row, at the given index. -/
theorem add_row_before_spec (r0 r1 : row_t) (rest : table_t) (r : Nat)
    (hr : r ≤ (r0 :: r1 :: rest).length) :
    add_row_before (r0 :: r1 :: rest) r =
      Except.ok ((r0 :: r1 :: rest).take r ++
        List.replicate r1.length [] :: (r0 :: r1 :: rest).drop r) := by
  unfold add_row_before table_add_rows move_row
  simp only [Nat.one_ne_zero, if_false, List.replicate_one]
  have hA : ((r0 :: r1 :: rest).take r).length = r := by
    rw [List.length_take]
    omega
  have key := insert_elem_spec ([] : row_t) (List.replicate r1.length [])
    ((r0 :: r1 :: rest).take r) ((r0 :: r1 :: rest).drop r)
  rw [List.take_append_drop, hA] at key
  rw [key]
/-! ## The trimming of the table -/

theorem getD_take_lt (row : row_t) (i k : Nat) (h : i < k) :
    (row.take k).getD i [] = row.getD i [] := by
  rw [List.getD_eq_getElem?_getD, List.getD_eq_getElem?_getD, List.getElem?_take_of_lt h]

theorem table_trim_loop_spec (t : table_t) (m : Nat) (hrect : rectangular t m) (hrows : t ≠ [])
    (i : Nat) (hi : i ≤ m) (hempty : ∀ row ∈ t, ∀ j : Nat, i ≤ j → row.getD j [] = []) :
    (∃ k : Nat, 1 ≤ k ∧ k ≤ i ∧
      table_trim_loop i (t.map (List.take i)) = Except.ok (t.map (List.take k)) ∧
      (∀ row ∈ t, ∀ j : Nat, k ≤ j → row.getD j [] = []) ∧
      ∃ row ∈ t, row.getD (k - 1) [] ≠ []) ∨
    (i = 0 ∧ table_trim_loop i (t.map (List.take i)) = Except.ok (t.map (List.take 0))) ∨
    (1 ≤ i ∧ (∀ row ∈ t, ∀ j : Nat, row.getD j [] = []) ∧
      table_trim_loop i (t.map (List.take i)) = Except.error exec_error.alloc_fail) := by
  induction i with
  | zero => exact Or.inr (Or.inl ⟨rfl, rfl⟩)
  | succ i ih =>
    unfold table_trim_loop
    by_cases hany : (t.map (List.take (i + 1))).any (fun row => (row.getD i []).length != 0) = true
    · rw [if_pos hany]
      left
      refine ⟨i + 1, by omega, le_refl _, rfl, hempty, ?_⟩
      rw [List.any_eq_true] at hany
      obtain ⟨x, hx, hne⟩ := hany
      obtain ⟨row, hrow, e⟩ := List.mem_map.1 hx
      refine ⟨row, hrow, ?_⟩
      rw [← e, getD_take_lt row i (i + 1) (Nat.lt_succ_self i)] at hne
      simp only [Nat.add_sub_cancel]
      intro h0
      rw [h0] at hne
      simp at hne
    · rw [if_neg hany]
      have hempty1 : ∀ row ∈ t, ∀ j : Nat, i ≤ j → row.getD j [] = [] := by
        intro row hrow j hj
        by_cases hji : j = i
        · subst hji
          by_contra hne
          apply hany
          rw [List.any_eq_true]
          refine ⟨row.take (j + 1), List.mem_map_of_mem _ hrow, ?_⟩
          rw [getD_take_lt row j (j + 1) (Nat.lt_succ_self j)]
          simp only [bne_iff_ne, ne_eq, List.length_eq_zero]
          exact hne
        · exact hempty row hrow j (by omega)
      cases i with
      | zero =>
        right
        right
        refine ⟨by omega, fun row hrow j => hempty1 row hrow j (Nat.zero_le _), ?_⟩
        obtain ⟨r, rest, e⟩ := List.exists_cons_of_ne_nil hrows
        subst e
        rw [List.map_cons, table_delete_col_fail _ _ (by
          rw [List.length_take]
          omega)]
      | succ i =>
        have hdel : table_delete_col (t.map (List.take (i + 1 + 1))) =
            Except.ok (t.map (List.take (i + 1))) := by
          rw [table_delete_col_ok]
          · rw [List.map_map]
            congr 1
            apply List.map_congr_left
            intro row hrow
            simp only [Function.comp]
            rw [List.dropLast_eq_take, List.take_take, List.length_take, hrect row hrow]
            congr 1
            omega
          · intro x hx
            obtain ⟨row, hrow, e⟩ := List.mem_map.1 hx
            rw [← e, List.length_take, hrect row hrow]
            omega
        rw [hdel]
        simp only []
        rcases ih (by omega) hempty1 with ⟨k, hk1, hk2, hk3, hk4, hk5⟩ | ⟨h0, -⟩ | ⟨h1, h2, h3⟩
        · exact Or.inl ⟨k, hk1, by omega, hk3, hk4, hk5⟩
        · omega
        · exact Or.inr (Or.inr ⟨by omega, h2, h3⟩)

theorem table_trim_cut (t : table_t) (m : Nat) (hrect : rectangular t m) (hrows : t ≠ []) :
    (∃ k : Nat, 1 ≤ k ∧ k ≤ m ∧ table_trim t = Except.ok (t.map (List.take k)) ∧
      (∀ row ∈ t, ∀ j : Nat, k ≤ j → row.getD j [] = []) ∧
      ∃ row ∈ t, row.getD (k - 1) [] ≠ []) ∨
    (m = 0 ∧ table_trim t = Except.ok t) ∨
    (1 ≤ m ∧ (∀ row ∈ t, ∀ j : Nat, row.getD j [] = []) ∧
      table_trim t = Except.error exec_error.alloc_fail) := by
  unfold table_trim
  have hlen : ¬ t.length = 0 := fun h => hrows (List.length_eq_zero.1 h)
  rw [if_neg hlen]
  have hm : (no_cols t).toNat = m := by
    rw [no_cols_rect t m hrect (by unfold no_rows; omega)]
    rfl
  rw [hm]
  have hid : t = t.map (List.take m) := by
    conv_lhs => rw [← List.map_id t]
    apply List.map_congr_left
    intro row hrow
    rw [List.take_of_length_le (le_of_eq (hrect row hrow))]
    rfl
  have key := table_trim_loop_spec t m hrect hrows m (le_refl m) (by
    intro row hrow j hj
    rw [List.getD_eq_getElem?_getD, List.getElem?_eq_none (by rw [hrect row hrow]; exact hj)]
    rfl)
  rw [← hid] at key
  rcases key with h | ⟨h0, h1⟩ | h
  · exact Or.inl h
  · refine Or.inr (Or.inl ⟨h0, ?_⟩)
    rw [h1]
    subst h0
    rw [← hid]
  · exact Or.inr (Or.inr h)

/-- What holds of the trimming.  On a rectangular table with at least one row
and some non-empty cell, `table_trim` keeps every row and cuts each to its
first `k` cells, which it leaves as they were, where `k ≥ 1`, all cells in the
columns from `k` on were empty and some row holds a non-empty cell in column
`k - 1`. -/
theorem table_trim_part (t : table_t) (m : Nat) (hrect : rectangular t m)
    (hcell : ∃ row ∈ t, ∃ j : Nat, row.getD j [] ≠ []) :
    ∃ k : Nat, 1 ≤ k ∧ k ≤ m ∧ table_trim t = Except.ok (t.map (List.take k)) ∧
      (∀ row ∈ t, ∀ j : Nat, k ≤ j → row.getD j [] = []) ∧
      ∃ row ∈ t, row.getD (k - 1) [] ≠ [] := by
  obtain ⟨row, hrow, j, hj⟩ := hcell
  have hrows : t ≠ [] := by
    intro h
    rw [h] at hrow
    exact absurd hrow (by simp)
  rcases table_trim_cut t m hrect hrows with h | ⟨h0, -⟩ | ⟨-, h, -⟩
  · exact h
  · exfalso
    apply hj
    rw [List.getD_eq_getElem?_getD, List.getElem?_eq_none (by rw [hrect row hrow]; omega)]
    rfl
  · exact absurd (h row hrow j) hj

/-- C17, at the failing input: on the table `"" "" / "" ""`, in which every
cell is empty, `table_trim` deletes the second column and, when it is to
delete the first, `row_delete_col` calls `realloc` with size zero, takes the
NULL it gets for a failed allocation and exits: no table of two rows without
columns is left.  The run `[_,_];clear` on `a / b` ends so before the output.
With one non-empty cell the table is cut as claimed. -/
theorem table_trim_all_empty :
    table_trim [[[], []], [[], []]] = Except.error exec_error.alloc_fail ∧
    run sample_lib " ".toList "[_,_];clear".toList [["a".toList], ["b".toList]] =
      Except.error (run_error.exec exec_error.alloc_fail) ∧
    table_trim [["a".toList, [], []], [[], "b".toList, []]] =
      Except.ok [["a".toList, []], [[], "b".toList]] := by
  decide

/-! ## The sum, the length and the numeric test at sample cells -/

/-- C21, at the failing input: in the row `3x 2` the cell `3x` is not numeric
(`get_cell_numeric` is false, and stores 3 in `current`), yet `selection_sum`
adds its 3: the sum is 5 with one numeric cell counted, and `sum [1,3]` on the
row `3x 2 ""` writes 5, not 2. -/
theorem selection_sum_adds_non_numeric :
    get_cell_numeric strtod_sample [["3x".toList, "2".toList]] 0 0 = (false, 3) ∧
    selection_sum sample_lib [["3x".toList, "2".toList]]
        { type := stype_t.ROW, row1 := 1, col1 := 0, row2 := 0, col2 := 0, str := none } =
      (5, 1, { type := stype_t.ROW, row1 := 1, col1 := 0, row2 := 0, col2 := 0, str := none }) ∧
    (sum sample_lib [["3x".toList, "2".toList, []]] 1 3
        { type := stype_t.ROW, row1 := 1, col1 := 0, row2 := 0, col2 := 0, str := none }).1 =
      [["3x".toList, "2".toList, "5".toList]] := by
  decide

/-- C23, at the failing input: on the column `ab / cde`, `len [1,1]` with the
Box selection `[1,1,-,1]` takes the open marker `-1` as the row, reads at row
index `-2`, outside the table, and writes 0; with the closed selection
`[1,1,2,1]` it writes 3, the length of the second corner `cde`. -/
theorem len_open_box :
    (len [["ab".toList], ["cde".toList]] 1 1
        { type := stype_t.BOX, row1 := 1, col1 := 1, row2 := SLASH, col2 := 1, str := none }).1 =
      [["0".toList], ["cde".toList]] ∧
    run sample_lib " ".toList "[1,1,-,1];len [1,1]".toList [["ab".toList], ["cde".toList]] =
      Except.ok [["0".toList], ["cde".toList]] ∧
    (len [["ab".toList], ["cde".toList]] 1 1
        { type := stype_t.BOX, row1 := 1, col1 := 1, row2 := 2, col2 := 1, str := none }).1 =
      [["3".toList], ["cde".toList]] := by
  decide

/-- C25, at the failing input: on the column `2 / 1` the script
`[_,_];[min];set x` writes `x` into the cell of the minimum, row 2.  In
`[_,_];[min];[set];[_];set x` the command `[set]` is bound to the same
resolved cell, but what it stores is the address of the local `new` of its
round of the loop; in the round of `set x` that local is a fresh INVALID_S
selection, and `set x` changes nothing. -/
theorem set_var_dangling :
    run sample_lib " ".toList "[_,_];[min];set x".toList [["2".toList], ["1".toList]] =
      Except.ok [["2".toList], ["x".toList]] ∧
    run sample_lib " ".toList "[_,_];[min];[set];[_];set x".toList
        [["2".toList], ["1".toList]] =
      Except.ok [["2".toList], ["1".toList]] := by
  decide

/-- C27, at the failing input: for the content `a\b`, `print_cell` writes
`a\\b`, and `read_one_cell` skips both backslashes and returns `ab`.  A content
with a delimiter and a double quote, `a b"c`, is read back as it was. -/
theorem read_one_cell_backslash :
    valid_delim " ".toList = true ∧
    print_cell "a\\b".toList " ".toList = "a\\\\b".toList ∧
    read_one_cell " ".toList CHUNK (print_cell "a\\b".toList " ".toList ++ "\n".toList) =
      Except.ok ("ab".toList, true, []) ∧
    read_one_cell " ".toList CHUNK (print_cell "a b\"c".toList " ".toList ++ " x".toList) =
      Except.ok ("a b\"c".toList, false, "x".toList) := by
  decide

/-- C28, at the failing input: `get_cell_numeric` is true exactly when the
content is not empty and `strtod` leaves nothing unconverted; for `12 `, a
number followed by a space, it is false, for `12` it is true. -/
theorem get_cell_numeric_trailing_space :
    (∀ (α : Type) (strtod : CStr → α × CStr) (t : table_t) (r c : Int),
      (get_cell_numeric strtod t r c).1 = true ↔
        get_cell_content t r c ≠ [] ∧ (strtod (get_cell_content t r c)).2 = []) ∧
    get_cell_numeric strtod_sample [["12 ".toList]] 0 0 = (false, 12) ∧
    get_cell_numeric strtod_sample [["12".toList]] 0 0 = (true, 12) := by
  refine ⟨?_, by decide, by decide⟩
  intro α strtod t r c
  unfold get_cell_numeric
  simp only []
  by_cases h0 : (get_cell_content t r c).length = 0
  · rw [if_pos h0]
    simp [List.length_eq_zero.1 h0]
  · rw [if_neg h0]
    have hne : get_cell_content t r c ≠ [] := fun h => h0 (by rw [h]; rfl)
    by_cases h1 : (strtod (get_cell_content t r c)).2.any (fun c => c != ' ') = true
    · rw [if_pos h1]
      have : (strtod (get_cell_content t r c)).2 ≠ [] := by
        intro h
        rw [h] at h1
        simp at h1
      simp [this]
    · rw [if_neg h1]
      by_cases h2 : (strtod (get_cell_content t r c)).2.length = 0
      · rw [if_pos h2]
        simp [hne, List.length_eq_zero.1 h2]
      · rw [if_neg h2]
        have : (strtod (get_cell_content t r c)).2 ≠ [] := fun h => h2 (by rw [h]; rfl)
        simp [this]

/-- C29, at the failing input: on the table of the single row `a`,
`add_row_before` at index 0 takes the width of the new row from `rows[1]`,
never initialised.  On two rows it inserts an empty row at index 1, and
`delete_row` at index 1 of three rows removes the middle row. -/
theorem add_row_before_single_row :
    add_row_before [["a".toList]] 0 = Except.error exec_error.uninitialised ∧
    add_row_before [["a".toList], ["b".toList]] 1 =
      Except.ok [["a".toList], [[]], ["b".toList]] ∧
    delete_row [["a".toList], ["b".toList], ["c".toList]] 1 =
      [["a".toList], ["c".toList]] := by
  decide

/-- C30, at the failing input: on the table of the single row `a`, the step of
`apply_call` for the command `irow`, bound to the default selection `[1,1]`,
adds a row whose width was never initialised; no table results. -/
theorem apply_call_single_row :
    cmd_parse "irow".toList " ".toList =
      Except.ok
        { commands := [{ type := cmd_types_t.MODIFICATION, cmd_name := "irow".toList,
                         cmd_num := 0, arg1 := 0, arg2 := 0, str := none,
                         selection := some (sel_ptr.entry 0) }],
          selections := [default_selection], delim := " ".toList } ∧
    apply_call sample_lib [["a".toList]]
        { commands := [{ type := cmd_types_t.MODIFICATION, cmd_name := "irow".toList,
                         cmd_num := 0, arg1 := 0, arg2 := 0, str := none,
                         selection := some (sel_ptr.entry 0) }],
          selections := [default_selection], delim := " ".toList } =
      Except.error exec_error.uninitialised := by
  decide

/-! ## The count of the non-empty cells -/

theorem foldl_congr_mem {σ β : Type} (g h : σ → β → σ) (l : List β) (s : σ)
    (hgh : ∀ s, ∀ i ∈ l, g s i = h s i) : l.foldl g s = l.foldl h s := by
  induction l generalizing s with
  | nil => rfl
  | cons i rest ih =>
    simp only [List.foldl_cons]
    rw [hgh s i (List.mem_cons_self _ _)]
    exact ih _ (fun s j hj => hgh s j (List.mem_cons_of_mem _ hj))

theorem scan_eq_covered {σ : Type} (f : σ → Int × Int → σ) (t : table_t) (m : Nat)
    (sel : selection_t) (hrect : rectangular t m) (hin : inside t sel) (s0 : σ) :
    (covered t sel).foldl f s0 =
      (if sel.type = stype_t.CELL then f s0 (sel.row1 - 1, sel.col1 - 1)
      else if sel.type = stype_t.ROW then
        (loop_range 0 (row_no_cols t (sel.row1 - 1))).foldl (fun s i => f s (sel.row1 - 1, i)) s0
      else if sel.type = stype_t.COL then
        (loop_range 0 (no_rows t)).foldl (fun s i => f s (i, sel.col1 - 1)) s0
      else if sel.type = stype_t.BOX then
        (loop_range (sel.row1 - 1) (close_box t sel).row2).foldl
          (fun s i => (loop_range (sel.col1 - 1) (close_box t sel).col2).foldl
            (fun s j => f s (i, j)) s) s0
      else if sel.type = stype_t.TABLE then
        (loop_range 0 (no_rows t)).foldl
          (fun s i => (loop_range 0 (row_no_cols t i)).foldl (fun s j => f s (i, j)) s) s0
      else s0) := by
  unfold inside at hin
  unfold covered
  cases h : sel.type <;> rw [h] at hin <;> simp only [] at hin ⊢
  · simp
  · simp only [reduceCtorEq, if_false, if_true]
    rw [foldl_rect_cells, loop_range_one, row_no_cols_rect t m hrect _ (by omega) (by omega),
      no_cols_rect t m hrect (by omega)]
    rfl
  · simp only [reduceCtorEq, if_false, if_true]
    rw [foldl_rect_cells, loop_range_one]
    rfl
  · simp only [reduceCtorEq, if_false, if_true]
    rw [foldl_rect_cells]
    simp only [close_box]
  · simp only [reduceCtorEq, if_false, if_true]
    rw [foldl_rect_cells]
    by_cases hn : 0 < no_rows t
    · rw [no_cols_rect t m hrect hn]
      apply foldl_congr_mem
      intro s i hi
      rw [mem_loop_range] at hi
      rw [row_no_cols_rect t m hrect i hi.1 hi.2]
    · have : no_rows t = 0 := le_antisymm (not_lt.1 hn) (no_rows_nonneg t)
      rw [this]
      rfl

theorem foldl_non_empty (t : table_t) (l : List (Int × Int)) (n : Int) :
    l.foldl (fun n p => n + non_empty_at t p.1 p.2) n =
      n + ((l.filter (fun p => decide (cell_at t p ≠ []))).length : Int) := by
  induction l generalizing n with
  | nil => simp
  | cons p rest ih =>
    rw [List.foldl_cons, ih, List.filter_cons]
    unfold non_empty_at cell_at
    by_cases h : get_cell_content t p.1 p.2 = []
    · simp [h]
    · have h' : (get_cell_content t p.1 p.2).length ≠ 0 := fun h0 => h (List.length_eq_zero.1 h0)
      simp only [h', h, ne_eq, not_false_eq_true, if_true, decide_True, List.length_cons]
      push_cast
      ring

theorem count_eq (t : table_t) (m : Nat) (sel : selection_t) (R C : Int)
    (hrect : rectangular t m) (hin : inside t sel) :
    (count t R C sel).1 = set_cell_value t (R - 1) (C - 1)
      (sprintf_d (((covered t sel).filter (fun p => decide (cell_at t p ≠ []))).length : Int)) := by
  have key := scan_eq_covered (fun n p => n + non_empty_at t p.1 p.2) t m sel hrect hin 0
  rw [foldl_non_empty, zero_add] at key
  rw [key]
  unfold count
  simp only []
  split_ifs <;> simp

/-- C22: on a rectangular table, for a concrete selection lying inside it and
a target `[R,C]` that names a cell of the table, `count [R,C]` leaves in the
target cell the decimal text of the number of covered cells that were not
empty before the command, and leaves every other cell as it was. -/
theorem count_writes_target (t : table_t) (m : Nat) (sel : selection_t) (R C : Int)
    (hrect : rectangular t m) (hin : inside t sel) (htarget : in_table t (R - 1) (C - 1)) :
    cell_at (count t R C sel).1 (R - 1, C - 1) =
      sprintf_d (((covered t sel).filter (fun p => decide (cell_at t p ≠ []))).length : Int) ∧
    (∀ q : Int × Int, q ≠ (R - 1, C - 1) → cell_at (count t R C sel).1 q = cell_at t q) ∧
    shape (count t R C sel).1 = shape t := by
  rw [count_eq t m sel R C hrect hin]
  refine ⟨?_, ?_, shape_set_cell_value _ _ _ _⟩
  · unfold cell_at
    rw [get_set_cell, if_pos ⟨rfl, rfl, htarget⟩]
  · intro q hq
    unfold cell_at
    rw [get_set_cell, if_neg]
    intro h
    exact hq (Prod.ext h.1 h.2.1)

/-- C22, witness: on the table `a "" / b c` the command `count [1,2]` over the
first column writes 2 into the cell of row 1, column 2. -/
theorem count_writes_target_witness :
    (count [["a".toList, []], ["b".toList, "c".toList]] 1 2
        { type := stype_t.COL, row1 := 0, col1 := 1, row2 := 0, col2 := 0, str := none }).1 =
      [["a".toList, "2".toList], ["b".toList, "c".toList]] ∧
    (cell_at (count [["a".toList, []], ["b".toList, "c".toList]] 1 2
        { type := stype_t.COL, row1 := 0, col1 := 1, row2 := 0, col2 := 0, str := none }).1
        (1 - 1, 2 - 1) =
      sprintf_d (((covered [["a".toList, []], ["b".toList, "c".toList]]
        { type := stype_t.COL, row1 := 0, col1 := 1, row2 := 0, col2 := 0,
          str := none }).filter
        (fun p => decide (cell_at [["a".toList, []], ["b".toList, "c".toList]] p ≠ []))).length :
          Int) ∧
    (∀ q : Int × Int, q ≠ (1 - 1, 2 - 1) →
      cell_at (count [["a".toList, []], ["b".toList, "c".toList]] 1 2
        { type := stype_t.COL, row1 := 0, col1 := 1, row2 := 0, col2 := 0, str := none }).1 q =
      cell_at [["a".toList, []], ["b".toList, "c".toList]] q) ∧
    shape (count [["a".toList, []], ["b".toList, "c".toList]] 1 2
        { type := stype_t.COL, row1 := 0, col1 := 1, row2 := 0, col2 := 0, str := none }).1 =
      shape [["a".toList, []], ["b".toList, "c".toList]]) :=
  ⟨by decide,
    count_writes_target [["a".toList, []], ["b".toList, "c".toList]] 2
      { type := stype_t.COL, row1 := 0, col1 := 1, row2 := 0, col2 := 0, str := none } 1 2
      (by unfold rectangular; decide) (by unfold inside; decide) (by decide)⟩

/-! ## The command `inc` -/

theorem foldl_inv {σ β : Type} (P : σ → Prop) (f : σ → β → σ) (l : List β) (s : σ) (hs : P s)
    (hf : ∀ s i, P s → P (f s i)) : P (l.foldl f s) := by
  induction l generalizing s with
  | nil => exact hs
  | cons i rest ih => exact ih _ (hf s i hs)

theorem shape_loops (f : table_t → Int × Int → table_t)
    (hf : ∀ t p, shape (f t p) = shape t) (t : table_t) (sel : selection_t) (sel2 : selection_t) :
    shape
      (if sel.type = stype_t.CELL then f t (sel.row1 - 1, sel.col1 - 1)
      else if sel.type = stype_t.ROW then
        (loop_range 0 (row_no_cols t (sel.row1 - 1))).foldl (fun t i => f t (sel.row1 - 1, i)) t
      else if sel.type = stype_t.COL then
        (loop_range 0 (no_rows t)).foldl (fun t i => f t (i, sel.col1 - 1)) t
      else if sel.type = stype_t.BOX then
        (loop_range (sel.row1 - 1) sel2.row2).foldl
          (fun acc i => (loop_range (sel.col1 - 1) sel2.col2).foldl
            (fun acc j => f acc (i, j)) acc) t
      else if sel.type = stype_t.TABLE then
        (loop_range 0 (no_rows t)).foldl
          (fun t i => (loop_range 0 (row_no_cols t i)).foldl (fun t j => f t (i, j)) t) t
      else t) = shape t := by
  split_ifs
  · exact hf _ _
  · exact foldl_inv (fun acc => shape acc = shape t) _ _ _ rfl
      (fun s i hs => (hf _ _).trans hs)
  · exact foldl_inv (fun acc => shape acc = shape t) _ _ _ rfl
      (fun s i hs => (hf _ _).trans hs)
  · exact foldl_inv (fun acc => shape acc = shape t) _ _ _ rfl
      (fun s i hs => foldl_inv (fun acc => shape acc = shape t) _ _ _ hs
        (fun s j hs => (hf _ _).trans hs))
  · exact foldl_inv (fun acc => shape acc = shape t) _ _ _ rfl
      (fun s i hs => foldl_inv (fun acc => shape acc = shape t) _ _ _ hs
        (fun s j hs => (hf _ _).trans hs))
  · rfl

theorem shape_set_selection (t : table_t) (sel : selection_t) (v : CStr) :
    shape (set_selection t sel v).1 = shape t := by
  have key := shape_loops (fun t p => set_cell_value t p.1 p.2 v)
    (fun t p => shape_set_cell_value t p.1 p.2 v) t sel (close_box t sel)
  unfold set_selection
  simp only []
  split_ifs at key ⊢ <;> exact key

theorem shape_swap (t : table_t) (sel : selection_t) (a1 a2 : Int) :
    shape (swap t a1 a2 sel).1 = shape t := by
  have key := shape_loops (fun t p => col_swap t p.1 p.2 (a1 - 1) (a2 - 1))
    (fun t p => shape_col_swap t p.1 p.2 _ _) t sel (close_box t sel)
  unfold swap
  simp only []
  split_ifs at key ⊢ <;> exact key

theorem shape_process_data {α : Type} (L : numeric_lib α) (delim : CStr) (t : table_t)
    (cmd : command_t) (sel : selection_t) :
    shape (process_data L delim t cmd sel).1 = shape t := by
  unfold process_data
  split_ifs
  · exact shape_set_selection _ _ _
  · exact shape_set_selection _ _ _
  · exact shape_swap _ _ _ _
  · exact shape_set_cell_value _ _ _ _
  · exact shape_set_cell_value _ _ _ _
  · exact shape_set_cell_value _ _ _ _
  · exact shape_set_cell_value _ _ _ _
  · rfl

theorem shape_process_var (st : exec_state) (cmd : command_t) (p : Option sel_ptr)
    (sel : selection_t) : shape (process_var st cmd p sel).table = shape st.table := by
  unfold process_var
  split_ifs
  · rfl
  · exact shape_set_selection _ _ _
  · rfl
  · cases p <;> rfl
  · rfl

theorem table_expand_eq (t : table_t) (cmd : command_t) (target : Option selection_t) :
    table_expand t cmd target =
      match (if expand_rows cmd target (no_rows t) - no_rows t > 0 then
          table_add_rows t (expand_rows cmd target (no_rows t) - no_rows t).toNat
        else Except.ok t) with
      | Except.error e => Except.error e
      | Except.ok t1 =>
        Except.ok (if expand_cols cmd target (no_cols t) - no_cols t > 0 then
          table_add_cols t1 (expand_cols cmd target (no_cols t) - no_cols t).toNat else t1) := by
  have aux : ∀ x y x1 y1 : Int, x = x1 → y = y1 →
      (match (if x > 0 then table_add_rows t x.toNat else Except.ok t) with
        | Except.error e => Except.error e
        | Except.ok t1 => Except.ok (if y > 0 then table_add_cols t1 y.toNat else t1)) =
      (match (if x1 > 0 then table_add_rows t x1.toNat else Except.ok t) with
        | Except.error e => Except.error e
        | Except.ok t1 =>
          (Except.ok (if y1 > 0 then table_add_cols t1 y1.toNat else t1) :
            Except exec_error table_t)) := by
    intro x y x1 y1 hx hy
    subst hx
    subst hy
    rfl
  unfold table_expand expand_rows expand_cols
  cases target with
  | none =>
    simp only []
    refine aux _ _ _ _ ?_ ?_
    · split_ifs <;> omega
    · split_ifs <;> omega
  | some s =>
    simp only []
    refine aux _ _ _ _ ?_ ?_
    · split_ifs <;> omega
    · split_ifs <;> omega

theorem close_box_type (t : table_t) (s : selection_t) : (close_box t s).type = s.type := rfl

theorem set_selection_type (t : table_t) (s : selection_t) (v : CStr) :
    (set_selection t s v).2.type = s.type := by
  unfold set_selection
  simp only []
  split_ifs <;> rfl

theorem process_data_type {α : Type} (L : numeric_lib α) (delim : CStr) (t : table_t)
    (cmd : command_t) (s : selection_t) : (process_data L delim t cmd s).2.type = s.type := by
  unfold process_data
  split_ifs
  · exact set_selection_type _ _ _
  · exact set_selection_type _ _ _
  · unfold swap
    simp only []
    split_ifs <;> rfl
  · unfold sum selection_sum
    simp only []
    split_ifs <;> rfl
  · unfold avg selection_sum
    simp only []
    split_ifs <;> rfl
  · unfold count
    simp only []
    split_ifs <;> rfl
  · rfl
  · rfl

theorem deref_not_searched (sels : List selection_t) (p : sel_ptr)
    (hs : ∀ s ∈ sels, ¬ searched s) : ¬ searched (deref sels new_init p) := by
  cases p with
  | entry k =>
    show ¬ searched (sels.getD k new_init)
    rw [List.getD_eq_getElem?_getD]
    cases hk : sels[k]? with
    | none =>
      unfold searched new_init
      simp
    | some s => exact hs s (List.getElem?_mem hk)
  | local_new =>
    show ¬ searched new_init
    unfold searched new_init
    simp

theorem resolve_selection_static {α : Type} (L : numeric_lib α) (delim : CStr)
    (st : exec_state) (cmd : command_t) (hs : ∀ s ∈ st.selections, ¬ searched s) :
    ∃ p : Option sel_ptr,
      resolve_selection L delim st cmd = Except.ok (p, new_init, st.selections) := by
  unfold resolve_selection
  cases hp : cmd.selection with
  | none => exact ⟨none, rfl⟩
  | some p =>
    simp only []
    have hns := deref_not_searched st.selections p hs
    unfold searched at hns
    cases hty : (deref st.selections new_init p).type <;>
      first
      | exact absurd (Or.inl hty) hns
      | exact absurd (Or.inr (Or.inl hty)) hns
      | exact absurd (Or.inr (Or.inr hty)) hns
      | exact ⟨_, rfl⟩

theorem write_back_static (sels : List selection_t) (p : Option sel_ptr) (s : selection_t)
    (hs : ∀ x ∈ sels, ¬ searched x) (h : ¬ searched s) :
    ∀ x ∈ write_back sels p s, ¬ searched x := by
  intro x hx
  unfold write_back at hx
  split at hx
  · rcases List.mem_or_eq_of_mem_set hx with h1 | h1
    · exact hs x h1
    · rw [h1]
      exact h
  · exact hs x hx

theorem table_expand_ok (t : table_t) (cmd : command_t) (target : Option selection_t)
    (h2 : 2 ≤ no_rows t) :
    ∃ t1, table_expand t cmd target = Except.ok t1 ∧ 2 ≤ no_rows t1 := by
  rw [table_expand_eq]
  obtain ⟨r0, r1, rest, rfl⟩ : ∃ r0 r1 rest, t = r0 :: r1 :: rest := by
    cases t with
    | nil => simp [no_rows] at h2
    | cons r0 t =>
      cases t with
      | nil => simp [no_rows] at h2
      | cons r1 rest => exact ⟨r0, r1, rest, rfl⟩
  have hadd : ∀ count : Nat, ∃ t2, table_add_rows (r0 :: r1 :: rest) count = Except.ok t2 ∧
      2 ≤ no_rows t2 := by
    intro count
    unfold table_add_rows
    by_cases hc : count = 0
    · rw [if_pos hc]
      exact ⟨_, rfl, h2⟩
    · rw [if_neg hc]
      refine ⟨_, rfl, ?_⟩
      simp only [no_rows, List.length_append, List.length_cons, List.length_replicate] at h2 ⊢
      omega
  have hrows : ∃ t2, (if expand_rows cmd target (no_rows (r0 :: r1 :: rest)) -
        no_rows (r0 :: r1 :: rest) > 0 then
      table_add_rows (r0 :: r1 :: rest)
        (expand_rows cmd target (no_rows (r0 :: r1 :: rest)) -
          no_rows (r0 :: r1 :: rest)).toNat
      else Except.ok (r0 :: r1 :: rest)) = Except.ok t2 ∧ 2 ≤ no_rows t2 := by
    split
    · exact hadd _
    · exact ⟨_, rfl, h2⟩
  obtain ⟨t2, ht2, hr2⟩ := hrows
  rw [ht2]
  simp only []
  refine ⟨_, rfl, ?_⟩
  split
  · unfold table_add_cols
    simpa [no_rows] using hr2
  · exact hr2

theorem apply_command_ok {α : Type} (L : numeric_lib α) (delim : CStr)
    (st : exec_state) (cmd : command_t) (hty : cmd.type ≠ cmd_types_t.MODIFICATION)
    (hs : ∀ s ∈ st.selections, ¬ searched s) (h2 : 2 ≤ no_rows st.table) :
    ∃ st1, apply_command L delim st cmd = Except.ok st1 ∧
      (∀ s ∈ st1.selections, ¬ searched s) ∧ 2 ≤ no_rows st1.table := by
  obtain ⟨p, hres⟩ := resolve_selection_static L delim st cmd hs
  obtain ⟨t1, hexp, hr1⟩ := table_expand_ok st.table cmd (p.map (deref st.selections new_init)) h2
  unfold apply_command
  rw [hres]
  simp only []
  rw [hexp]
  simp only []
  have hsel : ¬ searched ((p.map (deref st.selections new_init)).getD new_init) := by
    cases p with
    | none =>
      unfold searched new_init
      simp
    | some q => exact deref_not_searched st.selections q hs
  cases hc : cmd.type with
  | MODIFICATION => exact absurd hc hty
  | DATA =>
    refine ⟨_, rfl, ?_, ?_⟩
    · apply write_back_static _ _ _ hs
      unfold searched at hsel ⊢
      rw [process_data_type]
      exact hsel
    · have := no_rows_of_shape _ _ (shape_process_data L delim t1 cmd
        ((p.map (deref st.selections new_init)).getD new_init))
      simp only []
      omega
  | VARIABLE =>
    refine ⟨_, rfl, ?_, ?_⟩
    · unfold process_var
      split_ifs
      · exact hs
      · apply write_back_static _ _ _ hs
        unfold use_var
        unfold searched at hsel ⊢
        rw [set_selection_type]
        exact hsel
      · exact hs
      · cases p <;> exact hs
      · exact hs
    · have := no_rows_of_shape _ _ (shape_process_var
        { st with table := t1, selections := st.selections } cmd p
        ((p.map (deref st.selections new_init)).getD new_init))
      simp only [] at this
      omega
  | SELECTION => exact ⟨_, rfl, hs, hr1⟩
  | INVALID => exact ⟨_, rfl, hs, hr1⟩

theorem apply_commands_ok {α : Type} (L : numeric_lib α) (delim : CStr)
    (cmds : List command_t) :
    ∀ st : exec_state, (∀ c ∈ cmds, c.type ≠ cmd_types_t.MODIFICATION) →
      (∀ s ∈ st.selections, ¬ searched s) → 2 ≤ no_rows st.table →
      ∃ st1, cmds.foldlM (apply_command L delim) st = Except.ok st1 := by
  induction cmds with
  | nil =>
    intro st _ _ _
    exact ⟨st, rfl⟩
  | cons cmd rest ih =>
    intro st hty hs h2
    obtain ⟨st1, hstep, hs1, h21⟩ := apply_command_ok L delim st cmd
      (hty cmd (List.mem_cons_self _ _)) hs h2
    obtain ⟨st2, hrest⟩ := ih st1 (fun c hc => hty c (List.mem_cons_of_mem _ hc)) hs1 h21
    refine ⟨st2, ?_⟩
    rw [List.foldlM_cons, hstep]
    exact hrest

/-- C31, at the failing input: in `[_,_];[min];[set];[_];set x` on the column
`2 / 1`, the command `[set]` stores the address of the local `new`; the
command `set x`, bound to `[_]`, is then dispatched with what that address
holds in its own round, an INVALID_S selection, not one of CELL, ROW, COL,
BOX, TABLE. -/
theorem dispatch_stale_pointer :
    apply_command sample_lib " ".toList
        { table := [["2".toList], ["1".toList]],
          selections := [default_selection,
            { type := stype_t.TABLE, row1 := 0, col1 := 0, row2 := 0, col2 := 0, str := none },
            { type := stype_t.MIN, row1 := 0, col1 := 0, row2 := 0, col2 := 0, str := none },
            { type := stype_t.TMP_VAR, row1 := 0, col1 := 0, row2 := 0, col2 := 0,
              str := none }],
          vars := variables_ctor }
        { type := cmd_types_t.VARIABLE, cmd_name := "[set]".toList, cmd_num := 3, arg1 := 0,
          arg2 := 0, str := none, selection := some (sel_ptr.entry 2) } =
      Except.ok
        { table := [["2".toList], ["1".toList]],
          selections := [default_selection,
            { type := stype_t.TABLE, row1 := 0, col1 := 0, row2 := 0, col2 := 0, str := none },
            { type := stype_t.MIN, row1 := 0, col1 := 0, row2 := 0, col2 := 0, str := none },
            { type := stype_t.TMP_VAR, row1 := 0, col1 := 0, row2 := 0, col2 := 0,
              str := none }],
          vars := { values := List.replicate 10 [], selection := sel_ptr.local_new } } ∧
    dispatched sample_lib " ".toList
        { table := [["2".toList], ["1".toList]],
          selections := [default_selection,
            { type := stype_t.TABLE, row1 := 0, col1 := 0, row2 := 0, col2 := 0, str := none },
            { type := stype_t.MIN, row1 := 0, col1 := 0, row2 := 0, col2 := 0, str := none },
            { type := stype_t.TMP_VAR, row1 := 0, col1 := 0, row2 := 0, col2 := 0,
              str := none }],
          vars := { values := List.replicate 10 [], selection := sel_ptr.local_new } }
        { type := cmd_types_t.DATA, cmd_name := "set".toList, cmd_num := 0, arg1 := 0,
          arg2 := 0, str := some "x".toList, selection := some (sel_ptr.entry 3) } =
      some { type := stype_t.INVALID_S, row1 := 0, col1 := 0, row2 := 0, col2 := 0,
             str := none } := by
  decide

/-- C32, at the failing input: the fragment `[-5,1,2,2]` is a selection and is
loaded as a BOX with `row1 = -5`, and `[1,1, -5,2]` as a BOX with `row2 = -5`;
a zero is refused in a BOX, and a negative number in a CELL. -/
theorem load_box_negative :
    get_command_type "[-5,1,2,2]".toList = cmd_types_t.SELECTION ∧
    load_selection_info "[-5,1,2,2]".toList =
      { type := stype_t.BOX, row1 := -5, col1 := 1, row2 := 2, col2 := 2, str := none } ∧
    load_selection_info "[1,1, -5,2]".toList =
      { type := stype_t.BOX, row1 := 1, col1 := 1, row2 := -5, col2 := 2, str := none } ∧
    (load_selection_info "[0,1,2,2]".toList).type = stype_t.INVALID_S ∧
    (load_selection_info "[-5,1]".toList).type = stype_t.INVALID_S := by
  decide

/-- C33, at the failing input: `ab` stands in `aab` as a contiguous substring,
yet `col_substr` refuses it: after the mismatch at the second `a` the counter
goes back to 0 and that `a` is not tried as the start of the pattern. -/
theorem col_substr_misses_restart :
    "ab".toList <:+: "aab".toList ∧ col_substr "aab".toList "ab".toList = false ∧
    col_substr "xab".toList "ab".toList = true := by
  refine ⟨⟨"a".toList, [], rfl⟩, by decide, by decide⟩

/-- C34, at the failing input: with a reference selection of type TMP_VAR
(the fragment `[_]` before `[find a]`), `find_substr_cell` reports success
with the cell `(0, 0)`, which the reference does not cover and which is no
1-based coordinate; `find_min_cell` reports failure there.  In the script
`[_];[find a];set x` the command `set x` is dispatched with that cell. -/
theorem find_substr_cell_dynamic_reference :
    find_substr_cell " ".toList [["a".toList], ["b".toList]]
        { type := stype_t.TMP_VAR, row1 := 0, col1 := 0, row2 := 0, col2 := 0, str := none }
        { type := stype_t.STR, row1 := 0, col1 := 0, row2 := 0, col2 := 0,
          str := some "a".toList } new_init =
      (true, { type := stype_t.CELL, row1 := 0, col1 := 0, row2 := 0, col2 := 0, str := none },
        "a".toList) ∧
    find_min_cell sample_lib.lt strtod_sample [["a".toList], ["b".toList]]
        { type := stype_t.TMP_VAR, row1 := 0, col1 := 0, row2 := 0, col2 := 0, str := none }
        new_init =
      (false, { type := stype_t.CELL, row1 := 0, col1 := 0, row2 := 0, col2 := 0,
                str := none }) ∧
    cmd_parse "[_];[find a];set x".toList " ".toList =
      Except.ok
        { commands := [{ type := cmd_types_t.DATA, cmd_name := "set".toList, cmd_num := 0,
                         arg1 := 0, arg2 := 0, str := some "x".toList,
                         selection := some (sel_ptr.entry 2) }],
          selections := [default_selection,
            { type := stype_t.TMP_VAR, row1 := 0, col1 := 0, row2 := 0, col2 := 0, str := none },
            { type := stype_t.STR, row1 := 0, col1 := 0, row2 := 0, col2 := 0,
              str := some "a".toList }],
          delim := " ".toList } ∧
    dispatched sample_lib " ".toList
        { table := [["a".toList], ["b".toList]],
          selections := [default_selection,
            { type := stype_t.TMP_VAR, row1 := 0, col1 := 0, row2 := 0, col2 := 0, str := none },
            { type := stype_t.STR, row1 := 0, col1 := 0, row2 := 0, col2 := 0,
              str := some "a".toList }],
          vars := variables_ctor }
        { type := cmd_types_t.DATA, cmd_name := "set".toList, cmd_num := 0, arg1 := 0,
          arg2 := 0, str := some "x".toList, selection := some (sel_ptr.entry 2) } =
      some { type := stype_t.CELL, row1 := 0, col1 := 0, row2 := 0, col2 := 0, str := none } := by
  decide

/-- C38, at the failing input: the parser accepts `sum [0,0]`, with the target
`arg1 = 0`, `arg2 = 0`; on the column `1 / 2` the table needs no expansion, and
`sum` writes at the index `(arg1 - 1, arg2 - 1) = (-1, -1)`, which names no
cell of the table. -/
theorem sum_target_zero :
    cmd_parse "sum [0,0]".toList " ".toList =
      Except.ok
        { commands := [{ type := cmd_types_t.DATA, cmd_name := "sum ".toList, cmd_num := 3,
                         arg1 := 0, arg2 := 0, str := none,
                         selection := some (sel_ptr.entry 0) }],
          selections := [default_selection], delim := " ".toList } ∧
    table_expand [["1".toList], ["2".toList]]
        { type := cmd_types_t.DATA, cmd_name := "sum ".toList, cmd_num := 3, arg1 := 0,
          arg2 := 0, str := none, selection := some (sel_ptr.entry 0) }
        (some default_selection) =
      Except.ok [["1".toList], ["2".toList]] ∧
    ¬ in_table [["1".toList], ["2".toList]] (0 - 1) (0 - 1) ∧
    sum sample_lib [["1".toList], ["2".toList]] 0 0 default_selection =
      (set_cell_value [["1".toList], ["2".toList]] (0 - 1) (0 - 1) "1".toList,
        default_selection) := by
  decide

/-- C39, at the failing input: in `[5,1];[min];set x` on the column `1 / 2` the
selection `[min]` is resolved over the reference `[5,1]`, before any expansion
of the table: `find_min_cell` reads the cell of row index 4, which the table
of two rows does not have (it reads as empty here, and the run ends with the
no-match exit). -/
theorem resolve_reads_outside :
    cmd_parse "[5,1];[min];set x".toList " ".toList =
      Except.ok
        { commands := [{ type := cmd_types_t.DATA, cmd_name := "set".toList, cmd_num := 0,
                         arg1 := 0, arg2 := 0, str := some "x".toList,
                         selection := some (sel_ptr.entry 2) }],
          selections := [default_selection,
            { type := stype_t.CELL, row1 := 5, col1 := 1, row2 := 0, col2 := 0, str := none },
            { type := stype_t.MIN, row1 := 0, col1 := 0, row2 := 0, col2 := 0, str := none }],
          delim := " ".toList } ∧
    ¬ in_table [["1".toList], ["2".toList]] (5 - 1) (1 - 1) ∧
    find_min_cell sample_lib.lt strtod_sample [["1".toList], ["2".toList]]
        { type := stype_t.CELL, row1 := 5, col1 := 1, row2 := 0, col2 := 0, str := none }
        new_init =
      ((get_cell_numeric strtod_sample [["1".toList], ["2".toList]] (5 - 1) (1 - 1)).1,
        { type := stype_t.CELL, row1 := 0, col1 := 0, row2 := 0, col2 := 0, str := none }) ∧
    run sample_lib " ".toList "[5,1];[min];set x".toList [["1".toList], ["2".toList]] =
      Except.error (run_error.exec exec_error.no_match) := by
  decide

/-- C40, at the failing input: on the column `a\b / ab`, the pattern of
`[find a\\b]` is unescaped in place at every resolution.  In
`[_,_];[find a\\b];set x` it is `a\b` and `set x` goes to row 1.  In
`[_,_];[find a\\b];def _0;set x` the command `def _0` changes no cell, and for
`set x` the pattern, unescaped a second time, is `ab`: `set x` goes to row 2. -/
theorem find_pattern_unescaped_twice :
    run sample_lib " ".toList "[_,_];[find a\\\\b];set x".toList
        [["a\\b".toList], ["ab".toList]] =
      Except.ok [["x".toList], ["ab".toList]] ∧
    run sample_lib " ".toList "[_,_];[find a\\\\b];def _0;set x".toList
        [["a\\b".toList], ["ab".toList]] =
      Except.ok [["a\\b".toList], ["x".toList]] ∧
    unescape_string " ".toList "a\\\\b".toList = "a\\b".toList ∧
    unescape_string " ".toList "a\\b".toList = "ab".toList := by
  decide

/-! ## Unescaping the text of `print_cell` -/

theorem unescape_loop_escaped (delim : CStr) (c : Char) (rest : CStr) (q : Bool)
    (hc : c = '\\' ∨ c = '"') :
    unescape_loop delim ('\\' :: c :: rest) q false = c :: unescape_loop delim rest q false := by
  have hn : c ≠ '\n' := by
    rcases hc with rfl | rfl <;> decide
  rw [unescape_loop, if_pos ⟨rfl, rfl⟩, unescape_loop]
  have h1 : ¬ (c = '\\' ∧ true = false) := by simp
  have h2 : ¬ (c = '"' ∧ true = false) := by simp
  have h3 : ¬ (q = false ∧ (c = '\n' ∨ (is_delim c delim = true ∧ true = false))) := by
    simp [hn]
  rw [if_neg h1, if_neg h2, if_neg h3]

theorem unescape_loop_quoted (delim : CStr) (s rest : CStr) :
    unescape_loop delim
        (s.flatMap (fun cur => if cur = '\\' ∨ cur = '"' then ['\\', cur] else [cur]) ++ rest)
        true false =
      s ++ unescape_loop delim rest true false := by
  induction s with
  | nil => rfl
  | cons c s ih =>
    simp only [List.flatMap_cons, List.append_assoc]
    by_cases hc : c = '\\' ∨ c = '"'
    · rw [if_pos hc]
      simp only [List.cons_append, List.nil_append]
      rw [unescape_loop_escaped delim c _ true hc, ih]
    · rw [if_neg hc]
      simp only [List.cons_append, List.nil_append]
      rw [unescape_loop]
      have h1 : ¬ (c = '\\' ∧ false = false) := fun h => hc (Or.inl h.1)
      have h2 : ¬ (c = '"' ∧ false = false) := fun h => hc (Or.inr h.1)
      have h3 : ¬ (true = false ∧ (c = '\n' ∨ (is_delim c delim = true ∧ false = false))) := by
        simp
      rw [if_neg h1, if_neg h2, if_neg h3, ih]

theorem unescape_loop_plain (delim : CStr) (s rest : CStr)
    (hs : ∀ c ∈ s, c ≠ '\n' ∧ is_delim c delim = false) :
    unescape_loop delim
        (s.flatMap (fun cur => if cur = '\\' ∨ cur = '"' then ['\\', cur] else [cur]) ++ rest)
        false false =
      s ++ unescape_loop delim rest false false := by
  induction s with
  | nil => rfl
  | cons c s ih =>
    have ih' := ih (fun x hx => hs x (List.mem_cons_of_mem _ hx))
    obtain ⟨hn, hd⟩ := hs c (List.mem_cons_self _ _)
    simp only [List.flatMap_cons, List.append_assoc]
    by_cases hc : c = '\\' ∨ c = '"'
    · rw [if_pos hc]
      simp only [List.cons_append, List.nil_append]
      rw [unescape_loop_escaped delim c _ false hc, ih']
    · rw [if_neg hc]
      simp only [List.cons_append, List.nil_append]
      rw [unescape_loop]
      have h1 : ¬ (c = '\\' ∧ false = false) := fun h => hc (Or.inl h.1)
      have h2 : ¬ (c = '"' ∧ false = false) := fun h => hc (Or.inr h.1)
      have h3 : ¬ (false = false ∧ (c = '\n' ∨ (is_delim c delim = true ∧ false = false))) := by
        simp [hn, hd]
      rw [if_neg h1, if_neg h2, if_neg h3, ih']

/-- C35: for every delimiter (so for every one `valid_delim` accepts) and
every string `s` that contains no newline or contains a delimiter character,
`unescape_string` applied to the text `print_cell` writes for `s` gives `s`. -/
theorem unescape_print_cell (delim s : CStr)
    (hs : '\n' ∉ s ∨ ∃ c ∈ s, is_delim c delim = true) :
    unescape_string delim (print_cell s delim) = s := by
  unfold unescape_string print_cell
  simp only []
  by_cases hany : s.any (fun c => is_delim c delim) = true
  · rw [if_pos hany, unescape_loop]
    have h1 : ¬ ('"' = '\\' ∧ false = false) := by decide
    rw [if_neg h1, if_pos ⟨rfl, rfl⟩]
    have := unescape_loop_quoted delim s ['"']
    simp only [Bool.not_false]
    rw [this, unescape_loop, if_neg (by decide), if_pos ⟨rfl, rfl⟩]
    simp [unescape_loop]
  · rw [if_neg hany]
    have hnone : ∀ c ∈ s, is_delim c delim = false := by
      intro c hc
      by_contra hd
      apply hany
      rw [List.any_eq_true]
      exact ⟨c, hc, by simpa using hd⟩
    have hnl : '\n' ∉ s := by
      rcases hs with h | ⟨c, hc, hd⟩
      · exact h
      · rw [hnone c hc] at hd
        exact absurd hd (by simp)
    have := unescape_loop_plain delim s [] (fun c hc =>
      ⟨fun e => hnl (e ▸ hc), hnone c hc⟩)
    simp only [List.append_nil] at this
    rw [this]
    simp [unescape_loop]

/-- C35, witness: the content `a b"c\d`, which holds the delimiter, a double
quote and a backslash, is written as `"a b\"c\\d"` and unescaped to itself. -/
theorem unescape_print_cell_witness :
    valid_delim " ".toList = true ∧
    print_cell "a b\"c\\d".toList " ".toList = "\"a b\\\"c\\\\d\"".toList ∧
    unescape_string " ".toList (print_cell "a b\"c\\d".toList " ".toList) =
      "a b\"c\\d".toList :=
  ⟨by decide, by decide,
    unescape_print_cell " ".toList "a b\"c\\d".toList (Or.inl (by decide))⟩

/-! ## The stored selection before the first `[set]` -/

theorem set_selection_cell (t : table_t) (s : selection_t) (v : CStr)
    (h : s.type = stype_t.CELL) : (set_selection t s v).2 = s := by
  unfold set_selection
  simp [h]

theorem process_data_cell {α : Type} (L : numeric_lib α) (delim : CStr) (t : table_t)
    (cmd : command_t) (s : selection_t) (h : s.type = stype_t.CELL) :
    (process_data L delim t cmd s).2 = s := by
  unfold process_data
  split_ifs
  · exact set_selection_cell _ _ _ h
  · exact set_selection_cell _ _ _ h
  · unfold swap
    simp [h]
  · unfold sum selection_sum
    simp [h]
  · unfold avg selection_sum
    simp [h]
  · unfold count
    simp [h]
  · rfl
  · rfl

theorem variable_store_selection (vars : variables_t) (index : Int) (value : CStr) :
    (variable_store vars index value).selection = vars.selection := by
  unfold variable_store
  split_ifs <;> rfl

theorem write_back_seed (sels : List selection_t) (p : Option sel_ptr) (s : selection_t)
    (h0 : sels.getD 0 new_init = default_selection)
    (hs : ∀ k, p = some (sel_ptr.entry k) →
      s.type = (sels.getD k new_init).type ∧ (k = 0 → s = default_selection)) :
    (write_back sels p s).getD 0 new_init = default_selection ∧
    ∀ j, ((write_back sels p s).getD j new_init).type = (sels.getD j new_init).type := by
  unfold write_back
  split
  · rename_i k
    obtain ⟨h1, h2⟩ := hs k rfl
    constructor
    · rw [getD_set_gen]
      split_ifs with hc
      · exact h2 hc.1.symm
      · exact h0
    · intro j
      rw [getD_set_gen]
      split_ifs with hc
      · rw [h1, hc.1]
      · rfl
  · exact ⟨h0, fun _ => rfl⟩

theorem resolve_selection_seed {α : Type} (L : numeric_lib α) (delim : CStr)
    (st : exec_state) (cmd : command_t) (p : Option sel_ptr) (new : selection_t)
    (sels : List selection_t)
    (h0 : st.selections.getD 0 new_init = default_selection)
    (hv : st.vars.selection = sel_ptr.entry 0)
    (hres : resolve_selection L delim st cmd = Except.ok (p, new, sels)) :
    sels.getD 0 new_init = default_selection ∧
    (∀ j, (sels.getD j new_init).type = (st.selections.getD j new_init).type) ∧
    ∀ k, p = some (sel_ptr.entry k) →
      k = 0 ∨ (cmd.selection = some (sel_ptr.entry k) ∧ sels = st.selections) := by
  unfold resolve_selection at hres
  cases hp : cmd.selection with
  | none =>
    rw [hp] at hres
    simp only [Except.ok.injEq, Prod.mk.injEq] at hres
    obtain ⟨e1, -, e3⟩ := hres
    subst e3
    refine ⟨h0, fun _ => rfl, ?_⟩
    intro k hk
    rw [← e1] at hk
    exact absurd hk (by simp)
  | some q =>
    rw [hp] at hres
    simp only [] at hres
    split at hres
    · split_ifs at hres
      simp only [Except.ok.injEq, Prod.mk.injEq] at hres
      obtain ⟨e1, -, e3⟩ := hres
      subst e3
      refine ⟨h0, fun _ => rfl, ?_⟩
      intro k hk
      rw [← e1] at hk
      exact absurd hk (by simp)
    · split_ifs at hres
      simp only [Except.ok.injEq, Prod.mk.injEq] at hres
      obtain ⟨e1, -, e3⟩ := hres
      subst e3
      refine ⟨h0, fun _ => rfl, ?_⟩
      intro k hk
      rw [← e1] at hk
      exact absurd hk (by simp)
    · simp only [Except.ok.injEq, Prod.mk.injEq] at hres
      obtain ⟨e1, -, e3⟩ := hres
      subst e3
      refine ⟨h0, fun _ => rfl, ?_⟩
      intro k hk
      rw [← e1, hv] at hk
      simp only [Option.some.injEq, sel_ptr.entry.injEq] at hk
      exact Or.inl hk.symm
    · rename_i hty
      split_ifs at hres
      simp only [Except.ok.injEq, Prod.mk.injEq] at hres
      obtain ⟨e1, -, e3⟩ := hres
      subst e3
      cases q with
      | local_new =>
        refine ⟨h0, fun _ => rfl, ?_⟩
        intro k hk
        rw [← e1] at hk
        exact absurd hk (by simp)
      | entry i =>
        have hi : i ≠ 0 := by
          intro hi0
          subst hi0
          have hd : deref st.selections new_init (sel_ptr.entry 0) = default_selection := h0
          rw [hd] at hty
          exact absurd hty (by decide)
        refine ⟨?_, ?_, ?_⟩
        · show (st.selections.set i _).getD 0 new_init = default_selection
          rw [getD_set_gen, if_neg (fun hc => hi hc.1.symm)]
          exact h0
        · intro j
          show ((st.selections.set i _).getD j new_init).type = _
          rw [getD_set_gen]
          split_ifs with hc
          · rw [hc.1]
            rfl
          · rfl
        · intro k hk
          rw [← e1] at hk
          exact absurd hk (by simp)
    · simp only [Except.ok.injEq, Prod.mk.injEq] at hres
      obtain ⟨e1, -, e3⟩ := hres
      subst e3
      refine ⟨h0, fun _ => rfl, ?_⟩
      intro k hk
      rw [← e1] at hk
      exact Or.inr ⟨hk, rfl⟩

theorem apply_command_seed {α : Type} (L : numeric_lib α) (delim : CStr)
    (st st1 : exec_state) (cmd : command_t)
    (h0 : st.selections.getD 0 new_init = default_selection)
    (hv : st.vars.selection = sel_ptr.entry 0)
    (hnot : ¬ (cmd.type = cmd_types_t.VARIABLE ∧ cmd.cmd_num = 3))
    (hstep : apply_command L delim st cmd = Except.ok st1) :
    st1.selections.getD 0 new_init = default_selection ∧
    st1.vars.selection = sel_ptr.entry 0 ∧
    ∀ j, (st1.selections.getD j new_init).type = (st.selections.getD j new_init).type := by
  unfold apply_command at hstep
  cases hres : resolve_selection L delim st cmd with
  | error e =>
    rw [hres] at hstep
    exact absurd hstep (by simp)
  | ok r =>
    obtain ⟨p, new, sels⟩ := r
    rw [hres] at hstep
    simp only [] at hstep
    obtain ⟨s0, sty, sp⟩ := resolve_selection_seed L delim st cmd p new sels h0 hv hres
    cases hexp : table_expand st.table cmd (p.map (deref sels new)) with
    | error e =>
      rw [hexp] at hstep
      exact absurd hstep (by simp)
    | ok t1 =>
      rw [hexp] at hstep
      simp only [] at hstep
      have hwb : ∀ s : selection_t,
          s.type = ((p.map (deref sels new)).getD new_init).type →
          (((p.map (deref sels new)).getD new_init).type = stype_t.CELL →
            s = (p.map (deref sels new)).getD new_init) →
          (write_back sels p s).getD 0 new_init = default_selection ∧
          ∀ j, ((write_back sels p s).getD j new_init).type =
            (st.selections.getD j new_init).type := by
        intro s hs1 hs2
        have key := write_back_seed sels p s s0 (by
          intro k hk
          subst hk
          have hd : (Option.map (deref sels new) (some (sel_ptr.entry k))).getD new_init =
              sels.getD k new_init := rfl
          rw [hd] at hs1 hs2
          refine ⟨hs1, ?_⟩
          intro hk0
          subst hk0
          rw [s0] at hs2
          exact hs2 rfl)
        exact ⟨key.1, fun j => (key.2 j).trans (sty j)⟩
      cases hc : cmd.type with
      | MODIFICATION =>
        rw [hc] at hstep
        simp only [] at hstep
        split at hstep
        · exact absurd hstep (by simp)
        · simp only [Except.ok.injEq] at hstep
          rw [← hstep]
          exact ⟨s0, hv, sty⟩
      | DATA =>
        rw [hc] at hstep
        simp only [Except.ok.injEq] at hstep
        rw [← hstep]
        obtain ⟨k1, k2⟩ := hwb
          (process_data L delim t1 cmd ((p.map (deref sels new)).getD new_init)).2
          (process_data_type _ _ _ _ _) (process_data_cell _ _ _ _ _)
        exact ⟨k1, hv, k2⟩
      | VARIABLE =>
        rw [hc] at hstep
        simp only [Except.ok.injEq] at hstep
        rw [← hstep]
        unfold process_var
        split_ifs with c0 c1 c2 c3
        · exact ⟨s0, (variable_store_selection _ _ _).trans hv, sty⟩
        · obtain ⟨k1, k2⟩ := hwb
            (use_var t1 cmd ((p.map (deref sels new)).getD new_init) st.vars).2
            (set_selection_type _ _ _) (set_selection_cell _ _ _)
          exact ⟨k1, hv, k2⟩
        · exact ⟨s0, (variable_store_selection _ _ _).trans hv, sty⟩
        · exact absurd ⟨hc, c3⟩ hnot
        · exact ⟨s0, hv, sty⟩
      | SELECTION =>
        rw [hc] at hstep
        simp only [Except.ok.injEq] at hstep
        rw [← hstep]
        exact ⟨s0, hv, sty⟩
      | INVALID =>
        rw [hc] at hstep
        simp only [Except.ok.injEq] at hstep
        rw [← hstep]
        exact ⟨s0, hv, sty⟩

theorem apply_commands_seed {α : Type} (L : numeric_lib α) (delim : CStr)
    (cmds : List command_t) :
    ∀ st st1 : exec_state, st.selections.getD 0 new_init = default_selection →
      st.vars.selection = sel_ptr.entry 0 →
      (∀ c ∈ cmds, ¬ (c.type = cmd_types_t.VARIABLE ∧ c.cmd_num = 3)) →
      cmds.foldlM (apply_command L delim) st = Except.ok st1 →
      st1.selections.getD 0 new_init = default_selection ∧
      st1.vars.selection = sel_ptr.entry 0 ∧
      ∀ j, (st1.selections.getD j new_init).type = (st.selections.getD j new_init).type := by
  induction cmds with
  | nil =>
    intro st st1 h0 hv _ h
    simp only [List.foldlM_nil, pure, Except.pure, Except.ok.injEq] at h
    rw [← h]
    exact ⟨h0, hv, fun _ => rfl⟩
  | cons cmd rest ih =>
    intro st st1 h0 hv hnot h
    rw [List.foldlM_cons] at h
    cases hstep : apply_command L delim st cmd with
    | error e =>
      rw [hstep] at h
      exact absurd h (by simp [bind, Except.bind])
    | ok st2 =>
      rw [hstep] at h
      obtain ⟨a0, av, aty⟩ := apply_command_seed L delim st st2 cmd h0 hv
        (hnot cmd (List.mem_cons_self _ _)) hstep
      obtain ⟨b0, bv, bty⟩ := ih st2 st1 a0 av
        (fun c hc => hnot c (List.mem_cons_of_mem _ hc)) h
      exact ⟨b0, bv, fun j => (bty j).trans (aty j)⟩

/-- C36: in a script the parser accepts, take a command bound to a selection
the parser stored as `[_]`, and suppose that no command before it is `[set]`
(the VARIABLE command with `cmd_num` 3) and that the commands before it have
been applied.  Then the stored selection of the variables still points to the
first entry of the selections, that entry is the default selection `[1,1]` of
`load_command`, and the command is dispatched with it. -/
theorem tmp_var_dispatch_default {α : Type} (L : numeric_lib α)
    (delim script : CStr) (t : table_t) (call : call_t) (before after : List command_t)
    (cmd : command_t) (k : Nat) (st : exec_state)
    (hparse : cmd_parse script delim = Except.ok call)
    (hsplit : call.commands = before ++ cmd :: after)
    (hnoset : ∀ c ∈ before, ¬ (c.type = cmd_types_t.VARIABLE ∧ c.cmd_num = 3))
    (hptr : cmd.selection = some (sel_ptr.entry k))
    (htmp : (call.selections.getD k new_init).type = stype_t.TMP_VAR)
    (hrun : before.foldlM (apply_command L call.delim)
      { table := t, selections := call.selections, vars := variables_ctor } = Except.ok st) :
    st.vars.selection = sel_ptr.entry 0 ∧
    st.selections.getD 0 new_init = default_selection ∧
    dispatched L call.delim st cmd = some default_selection ∧
    default_selection =
      { type := stype_t.CELL, row1 := 1, col1 := 1, row2 := 0, col2 := 0, str := none } := by
  have _ := hsplit
  obtain ⟨n, hfold⟩ := cmd_parse_ok script delim call hparse
  obtain ⟨hsel, -⟩ := foldlM_load_shape (fragments script) _ _ hfold
  have h0 : call.selections.getD 0 new_init = default_selection := by
    rw [hsel]
    rfl
  obtain ⟨a0, av, aty⟩ := apply_commands_seed L call.delim before
    { table := t, selections := call.selections, vars := variables_ctor } st h0 rfl hnoset hrun
  refine ⟨av, a0, ?_, rfl⟩
  have hty : (deref st.selections new_init (sel_ptr.entry k)).type = stype_t.TMP_VAR := by
    show (st.selections.getD k new_init).type = stype_t.TMP_VAR
    rw [aty k]
    exact htmp
  unfold dispatched resolve_selection
  rw [hptr]
  simp only []
  rw [hty]
  simp only [Option.map_some']
  rw [av]
  show some (st.selections.getD 0 new_init) = some default_selection
  rw [a0]

/-- C36, witness: in the script `[2,1];set y;[_];set x` on the column `a / b`
the command `set x` is bound to `[_]`; after `set y` it is dispatched with the
default selection `[1,1]`, and the run gives `x / y`. -/
theorem tmp_var_dispatch_default_witness :
    run sample_lib " ".toList "[2,1];set y;[_];set x".toList [["a".toList], ["b".toList]] =
      Except.ok [["x".toList], ["y".toList]] ∧
    dispatched sample_lib " ".toList
      { table := [["a".toList], ["y".toList]],
        selections := [default_selection,
          { type := stype_t.CELL, row1 := 2, col1 := 1, row2 := 0, col2 := 0, str := none },
          { type := stype_t.TMP_VAR, row1 := 0, col1 := 0, row2 := 0, col2 := 0, str := none }],
        vars := variables_ctor }
      { type := cmd_types_t.DATA, cmd_name := "set".toList, cmd_num := 0, arg1 := 0, arg2 := 0,
        str := some "x".toList, selection := some (sel_ptr.entry 2) } =
      some default_selection :=
  ⟨by decide,
    (tmp_var_dispatch_default sample_lib " ".toList "[2,1];set y;[_];set x".toList
      [["a".toList], ["b".toList]]
      { commands := [
          { type := cmd_types_t.DATA, cmd_name := "set".toList, cmd_num := 0, arg1 := 0,
            arg2 := 0, str := some "y".toList, selection := some (sel_ptr.entry 1) },
          { type := cmd_types_t.DATA, cmd_name := "set".toList, cmd_num := 0, arg1 := 0,
            arg2 := 0, str := some "x".toList, selection := some (sel_ptr.entry 2) }],
        selections := [default_selection,
          { type := stype_t.CELL, row1 := 2, col1 := 1, row2 := 0, col2 := 0, str := none },
          { type := stype_t.TMP_VAR, row1 := 0, col1 := 0, row2 := 0, col2 := 0, str := none }],
        delim := " ".toList }
      [{ type := cmd_types_t.DATA, cmd_name := "set".toList, cmd_num := 0, arg1 := 0,
         arg2 := 0, str := some "y".toList, selection := some (sel_ptr.entry 1) }]
      []
      { type := cmd_types_t.DATA, cmd_name := "set".toList, cmd_num := 0, arg1 := 0, arg2 := 0,
        str := some "x".toList, selection := some (sel_ptr.entry 2) }
      2
      { table := [["a".toList], ["y".toList]],
        selections := [default_selection,
          { type := stype_t.CELL, row1 := 2, col1 := 1, row2 := 0, col2 := 0, str := none },
          { type := stype_t.TMP_VAR, row1 := 0, col1 := 0, row2 := 0, col2 := 0, str := none }],
        vars := variables_ctor }
      (by decide) (by decide) (by decide) (by decide) (by decide) (by decide)).2.2.1⟩

/-! ## The rotation of a row by `swap` -/

theorem covered_row (t : table_t) (m : Nat) (sel : selection_t) (hty : sel.type = stype_t.ROW)
    (hm : no_cols t = m) :
    covered t sel = (List.range m).map (fun (k : Nat) => (sel.row1 - 1, (k : Int))) := by
  unfold covered rect_cells
  rw [hty]
  simp only []
  rw [loop_range_one, hm]
  unfold loop_range
  simp [List.map_map, Function.comp]

/-- C37: on a rectangular table with `m` columns, for a ROW selection of the
row `r` of the table and a target cell `(R, C)` of the table in another row,
`swap [R,C]` leaves in cell `(r, 1)` the original content of the target, in
cell `(r, j)` the original content of cell `(r, j - 1)` for `2 ≤ j ≤ m`, in
the target the original content of cell `(r, m)`, and every cell outside row
`r` other than the target as it was. -/
theorem swap_row_rotates (t : table_t) (m : Nat) (sel : selection_t) (R C : Int)
    (hrect : rectangular t m) (hty : sel.type = stype_t.ROW) (hr1 : 1 ≤ sel.row1)
    (hr2 : sel.row1 ≤ no_rows t) (htarget : in_table t (R - 1) (C - 1))
    (hne : R ≠ sel.row1) :
    get_cell_content (swap t R C sel).1 (sel.row1 - 1) (1 - 1) =
      get_cell_content t (R - 1) (C - 1) ∧
    (∀ j : Int, 2 ≤ j → j ≤ m →
      get_cell_content (swap t R C sel).1 (sel.row1 - 1) (j - 1) =
        get_cell_content t (sel.row1 - 1) (j - 1 - 1)) ∧
    get_cell_content (swap t R C sel).1 (R - 1) (C - 1) =
      get_cell_content t (sel.row1 - 1) (m - 1) ∧
    (∀ i j : Int, i ≠ sel.row1 - 1 → (i, j) ≠ (R - 1, C - 1) →
      get_cell_content (swap t R C sel).1 i j = get_cell_content t i j) := by
  have hin : inside t sel := by
    unfold inside
    rw [hty]
    exact ⟨hr1, hr2⟩
  have hcols : no_cols t = m := no_cols_rect t m hrect (by omega)
  have hcov := covered_row t m sel hty hcols
  have hmpos : 0 < m := by
    have h4 := htarget.2.2.2
    rw [row_no_cols_rect t m hrect (R - 1) htarget.1 htarget.2.1] at h4
    have h3 := htarget.2.2.1
    omega
  have hout : (R - 1, C - 1) ∉ covered t sel := by
    rw [hcov]
    intro h
    obtain ⟨k, _, e⟩ := List.mem_map.1 h
    simp only [Prod.mk.injEq] at e
    omega
  obtain ⟨ha, hb, hc⟩ := foldl_swap_rotate (R - 1, C - 1) (covered t sel) t
    (covered_nodup t sel) hout (covered_in_table t m sel hrect hin) htarget
  rw [← swap_eq_fold t m sel R C hrect hin] at ha hb hc
  have hlen : (covered t sel).length = m := by
    rw [hcov]
    simp
  have hget : ∀ k : Nat, k < m →
      (covered t sel).getD k (R - 1, C - 1) = (sel.row1 - 1, (k : Int)) := by
    intro k hk
    rw [hcov, List.getD_eq_getElem _ _ (by simpa using hk)]
    simp
  refine ⟨?_, ?_, ?_, ?_⟩
  · have := hb 0 (by omega)
    rw [hget 0 hmpos] at this
    simpa [cell_at] using this
  · intro j hj2 hjm
    have hk : (j - 1).toNat < m := by omega
    have := hb (j - 1).toNat (by omega)
    rw [hget _ hk, if_neg (by omega), hget _ (by omega)] at this
    have e1 : (((j - 1).toNat : Nat) : Int) = j - 1 := by omega
    have e2 : ((((j - 1).toNat - 1 : Nat)) : Int) = j - 1 - 1 := by omega
    rw [e1, e2] at this
    exact this
  · have hlast : (covered t sel).getLast?.getD (R - 1, C - 1) =
        (sel.row1 - 1, (m : Int) - 1) := by
      rw [List.getLast?_eq_getElem?, hlen, ← List.getD_eq_getElem?_getD, hget (m - 1) (by omega)]
      have : (((m - 1 : Nat)) : Int) = (m : Int) - 1 := by omega
      rw [this]
    rw [hlast] at ha
    exact ha
  · intro i j hi hq
    apply hc (i, j) _ hq
    rw [hcov]
    intro h
    obtain ⟨k, _, e⟩ := List.mem_map.1 h
    simp only [Prod.mk.injEq] at e
    exact hi e.1.symm

/-- C37, witness: on the table `a b c / d e f`, `swap [2,2]` over the row 1
gives `e a b / d c f`. -/
theorem swap_row_rotates_witness :
    (swap [["a".toList, "b".toList, "c".toList], ["d".toList, "e".toList, "f".toList]] 2 2
        { type := stype_t.ROW, row1 := 1, col1 := 0, row2 := 0, col2 := 0, str := none }).1 =
      [["e".toList, "a".toList, "b".toList], ["d".toList, "c".toList, "f".toList]] ∧
    (get_cell_content
        (swap [["a".toList, "b".toList, "c".toList], ["d".toList, "e".toList, "f".toList]] 2 2
          { type := stype_t.ROW, row1 := 1, col1 := 0, row2 := 0, col2 := 0, str := none }).1
        (1 - 1) (1 - 1) =
      get_cell_content
        [["a".toList, "b".toList, "c".toList], ["d".toList, "e".toList, "f".toList]]
        (2 - 1) (2 - 1) ∧
    (∀ j : Int, 2 ≤ j → j ≤ ((3 : Nat) : Int) →
      get_cell_content
          (swap [["a".toList, "b".toList, "c".toList], ["d".toList, "e".toList, "f".toList]]
            2 2
            { type := stype_t.ROW, row1 := 1, col1 := 0, row2 := 0, col2 := 0, str := none }).1
          (1 - 1) (j - 1) =
        get_cell_content
          [["a".toList, "b".toList, "c".toList], ["d".toList, "e".toList, "f".toList]]
          (1 - 1) (j - 1 - 1)) ∧
    get_cell_content
        (swap [["a".toList, "b".toList, "c".toList], ["d".toList, "e".toList, "f".toList]] 2 2
          { type := stype_t.ROW, row1 := 1, col1 := 0, row2 := 0, col2 := 0, str := none }).1
        (2 - 1) (2 - 1) =
      get_cell_content
        [["a".toList, "b".toList, "c".toList], ["d".toList, "e".toList, "f".toList]]
        (1 - 1) (((3 : Nat) : Int) - 1) ∧
    (∀ i j : Int, i ≠ 1 - 1 → (i, j) ≠ ((2 : Int) - 1, (2 : Int) - 1) →
      get_cell_content
          (swap [["a".toList, "b".toList, "c".toList], ["d".toList, "e".toList, "f".toList]]
            2 2
            { type := stype_t.ROW, row1 := 1, col1 := 0, row2 := 0, col2 := 0, str := none }).1
          i j =
        get_cell_content
          [["a".toList, "b".toList, "c".toList], ["d".toList, "e".toList, "f".toList]] i j)) :=
  ⟨by decide,
    swap_row_rotates
      [["a".toList, "b".toList, "c".toList], ["d".toList, "e".toList, "f".toList]] 3
      { type := stype_t.ROW, row1 := 1, col1 := 0, row2 := 0, col2 := 0, str := none } 2 2
      (by unfold rectangular; decide) rfl (by decide) (by decide) (by decide) (by decide)⟩

/-! ## The reference of a dynamic selection -/

theorem stored_as_refl (s : selection_t) : stored_as s s :=
  ⟨rfl, rfl, rfl, Or.inl rfl, Or.inl rfl⟩

theorem stored_as_trans (a b c : selection_t) (h1 : stored_as a b) (h2 : stored_as b c) :
    stored_as a c := by
  obtain ⟨a1, a2, a3, a4, a5⟩ := h1
  obtain ⟨b1, b2, b3, b4, b5⟩ := h2
  refine ⟨b1.trans a1, b2.trans a2, b3.trans a3, ?_, ?_⟩
  · rcases b4 with h | h
    · rcases a4 with h' | h'
      · exact Or.inl (h.trans h')
      · exact Or.inr h'
    · rcases a4 with h' | h'
      · exact Or.inr (h'.symm.trans h)
      · exact Or.inr h'
  · rcases b5 with h | h
    · rcases a5 with h' | h'
      · exact Or.inl (h.trans h')
      · exact Or.inr h'
    · rcases a5 with h' | h'
      · exact Or.inr (h'.symm.trans h)
      · exact Or.inr h'

theorem close_box_stored (t : table_t) (s : selection_t) : stored_as s (close_box t s) := by
  unfold stored_as close_box
  refine ⟨rfl, rfl, rfl, ?_, ?_⟩
  · by_cases h : s.row2 = SLASH
    · exact Or.inr h
    · simp [h]
  · by_cases h : s.col2 = SLASH
    · exact Or.inr h
    · simp [h]

theorem set_selection_stored (t : table_t) (s : selection_t) (v : CStr) :
    stored_as s (set_selection t s v).2 := by
  unfold set_selection
  simp only []
  split_ifs
  · exact stored_as_refl s
  · exact stored_as_refl s
  · exact stored_as_refl s
  · exact close_box_stored t s
  · exact stored_as_refl s
  · exact stored_as_refl s

theorem process_data_stored {α : Type} (L : numeric_lib α) (delim : CStr) (t : table_t)
    (cmd : command_t) (s : selection_t) : stored_as s (process_data L delim t cmd s).2 := by
  unfold process_data
  split_ifs
  · exact set_selection_stored _ _ _
  · exact set_selection_stored _ _ _
  · unfold swap
    simp only []
    split_ifs
    · exact stored_as_refl s
    · exact stored_as_refl s
    · exact stored_as_refl s
    · exact close_box_stored t s
    · exact stored_as_refl s
    · exact stored_as_refl s
  · unfold sum selection_sum
    simp only []
    split_ifs
    · exact stored_as_refl s
    · exact stored_as_refl s
    · exact stored_as_refl s
    · exact close_box_stored t s
    · exact stored_as_refl s
    · exact stored_as_refl s
  · unfold avg selection_sum
    simp only []
    split_ifs
    · exact stored_as_refl s
    · exact stored_as_refl s
    · exact stored_as_refl s
    · exact close_box_stored t s
    · exact stored_as_refl s
    · exact stored_as_refl s
  · unfold count
    simp only []
    split_ifs
    · exact stored_as_refl s
    · exact stored_as_refl s
    · exact stored_as_refl s
    · exact close_box_stored t s
    · exact stored_as_refl s
    · exact stored_as_refl s
  · exact stored_as_refl s
  · exact stored_as_refl s

theorem write_back_stored (sels : List selection_t) (p : Option sel_ptr) (s : selection_t)
    (hs : ∀ k, p = some (sel_ptr.entry k) → stored_as (sels.getD k new_init) s) :
    ∀ j, stored_as (sels.getD j new_init) ((write_back sels p s).getD j new_init) := by
  intro j
  unfold write_back
  split
  · rename_i k
    rw [getD_set_gen]
    split_ifs with hc
    · rw [hc.1]
      exact hs k rfl
    · exact stored_as_refl _
  · exact stored_as_refl _

theorem resolve_selection_stored {α : Type} (L : numeric_lib α) (delim : CStr)
    (st : exec_state) (cmd : command_t) (p : Option sel_ptr) (new : selection_t)
    (sels : List selection_t)
    (hres : resolve_selection L delim st cmd = Except.ok (p, new, sels)) :
    ∀ j, stored_as (st.selections.getD j new_init) (sels.getD j new_init) := by
  unfold resolve_selection at hres
  cases hp : cmd.selection with
  | none =>
    rw [hp] at hres
    simp only [Except.ok.injEq, Prod.mk.injEq] at hres
    rw [← hres.2.2]
    exact fun j => stored_as_refl _
  | some q =>
    rw [hp] at hres
    simp only [] at hres
    split at hres
    · split_ifs at hres
      simp only [Except.ok.injEq, Prod.mk.injEq] at hres
      rw [← hres.2.2]
      exact fun j => stored_as_refl _
    · split_ifs at hres
      simp only [Except.ok.injEq, Prod.mk.injEq] at hres
      rw [← hres.2.2]
      exact fun j => stored_as_refl _
    · simp only [Except.ok.injEq, Prod.mk.injEq] at hres
      rw [← hres.2.2]
      exact fun j => stored_as_refl _
    · split_ifs at hres
      simp only [Except.ok.injEq, Prod.mk.injEq] at hres
      rw [← hres.2.2]
      cases q with
      | local_new => exact fun j => stored_as_refl _
      | entry i =>
        intro j
        show stored_as _ ((st.selections.set i _).getD j new_init)
        rw [getD_set_gen]
        split_ifs with hc
        · rw [hc.1]
          exact ⟨rfl, rfl, rfl, Or.inl rfl, Or.inl rfl⟩
        · exact stored_as_refl _
    · simp only [Except.ok.injEq, Prod.mk.injEq] at hres
      rw [← hres.2.2]
      exact fun j => stored_as_refl _

theorem apply_command_stored {α : Type} (L : numeric_lib α) (delim : CStr)
    (st st1 : exec_state) (cmd : command_t)
    (hstep : apply_command L delim st cmd = Except.ok st1) :
    ∀ j, stored_as (st.selections.getD j new_init) (st1.selections.getD j new_init) := by
  unfold apply_command at hstep
  cases hres : resolve_selection L delim st cmd with
  | error e =>
    rw [hres] at hstep
    exact absurd hstep (by simp)
  | ok r =>
    obtain ⟨p, new, sels⟩ := r
    rw [hres] at hstep
    simp only [] at hstep
    have hsels := resolve_selection_stored L delim st cmd p new sels hres
    cases hexp : table_expand st.table cmd (p.map (deref sels new)) with
    | error e =>
      rw [hexp] at hstep
      exact absurd hstep (by simp)
    | ok t1 =>
      rw [hexp] at hstep
      simp only [] at hstep
      have hwb : ∀ s : selection_t,
          stored_as ((p.map (deref sels new)).getD new_init) s →
          ∀ j, stored_as (st.selections.getD j new_init)
            ((write_back sels p s).getD j new_init) := by
        intro s hs j
        apply stored_as_trans _ _ _ (hsels j)
        apply write_back_stored
        intro k hk
        subst hk
        exact hs
      cases hc : cmd.type with
      | MODIFICATION =>
        rw [hc] at hstep
        simp only [] at hstep
        split at hstep
        · exact absurd hstep (by simp)
        · simp only [Except.ok.injEq] at hstep
          rw [← hstep]
          exact hsels
      | DATA =>
        rw [hc] at hstep
        simp only [Except.ok.injEq] at hstep
        rw [← hstep]
        exact hwb _ (process_data_stored _ _ _ _ _)
      | VARIABLE =>
        rw [hc] at hstep
        simp only [Except.ok.injEq] at hstep
        rw [← hstep]
        unfold process_var
        split_ifs
        · exact hsels
        · exact hwb _ (set_selection_stored _ _ _)
        · exact hsels
        · cases p <;> exact hsels
        · exact hsels
      | SELECTION =>
        rw [hc] at hstep
        simp only [Except.ok.injEq] at hstep
        rw [← hstep]
        exact hsels
      | INVALID =>
        rw [hc] at hstep
        simp only [Except.ok.injEq] at hstep
        rw [← hstep]
        exact hsels

theorem apply_commands_stored {α : Type} (L : numeric_lib α) (delim : CStr)
    (cmds : List command_t) :
    ∀ st st1 : exec_state, cmds.foldlM (apply_command L delim) st = Except.ok st1 →
      ∀ j, stored_as (st.selections.getD j new_init) (st1.selections.getD j new_init) := by
  induction cmds with
  | nil =>
    intro st st1 h
    simp only [List.foldlM_nil, pure, Except.pure, Except.ok.injEq] at h
    rw [← h]
    exact fun j => stored_as_refl _
  | cons cmd rest ih =>
    intro st st1 h j
    rw [List.foldlM_cons] at h
    cases hstep : apply_command L delim st cmd with
    | error e =>
      rw [hstep] at h
      exact absurd h (by simp [bind, Except.bind])
    | ok st2 =>
      rw [hstep] at h
      exact stored_as_trans _ _ _ (apply_command_stored L delim st st2 cmd hstep j)
        (ih st2 st1 h j)

theorem dispatched_min {α : Type} (L : numeric_lib α) (delim : CStr)
    (st : exec_state) (cmd : command_t) (k : Nat)
    (hp : cmd.selection = some (sel_ptr.entry k))
    (hty : (st.selections.getD k new_init).type = stype_t.MIN) :
    dispatched L delim st cmd =
      (if (find_min_cell L.lt L.strtod st.table (st.selections.getD (k - 1) new_init)
          new_init).1
        then some (find_min_cell L.lt L.strtod st.table (st.selections.getD (k - 1) new_init)
          new_init).2
        else none) ∧
    ((find_min_cell L.lt L.strtod st.table (st.selections.getD (k - 1) new_init)
        new_init).1 = false →
      apply_command L delim st cmd = Except.error exec_error.no_match) := by
  constructor
  · unfold dispatched resolve_selection
    simp only [hp, deref, hty]
    split_ifs <;> rfl
  · intro hf
    unfold apply_command resolve_selection
    simp only [hp, deref, hty, hf]
    rfl

theorem dispatched_max {α : Type} (L : numeric_lib α) (delim : CStr)
    (st : exec_state) (cmd : command_t) (k : Nat)
    (hp : cmd.selection = some (sel_ptr.entry k))
    (hty : (st.selections.getD k new_init).type = stype_t.MAX) :
    dispatched L delim st cmd =
      (if (find_max_cell L.lt L.strtod st.table (st.selections.getD (k - 1) new_init)
          new_init).1
        then some (find_max_cell L.lt L.strtod st.table (st.selections.getD (k - 1) new_init)
          new_init).2
        else none) ∧
    ((find_max_cell L.lt L.strtod st.table (st.selections.getD (k - 1) new_init)
        new_init).1 = false →
      apply_command L delim st cmd = Except.error exec_error.no_match) := by
  constructor
  · unfold dispatched resolve_selection
    simp only [hp, deref, hty]
    split_ifs <;> rfl
  · intro hf
    unfold apply_command resolve_selection
    simp only [hp, deref, hty, hf]
    rfl

theorem dispatched_str {α : Type} (L : numeric_lib α) (delim : CStr)
    (st : exec_state) (cmd : command_t) (k : Nat)
    (hp : cmd.selection = some (sel_ptr.entry k))
    (hty : (st.selections.getD k new_init).type = stype_t.STR) :
    dispatched L delim st cmd =
      (if (find_substr_cell delim st.table (st.selections.getD (k - 1) new_init)
          (st.selections.getD k new_init) new_init).1
        then some (find_substr_cell delim st.table (st.selections.getD (k - 1) new_init)
          (st.selections.getD k new_init) new_init).2.1
        else none) ∧
    ((find_substr_cell delim st.table (st.selections.getD (k - 1) new_init)
        (st.selections.getD k new_init) new_init).1 = false →
      apply_command L delim st cmd = Except.error exec_error.no_match) := by
  constructor
  · unfold dispatched resolve_selection
    simp only [hp, deref, hty]
    split_ifs <;> rfl
  · intro hf
    unfold apply_command resolve_selection
    simp only [hp, deref, hty, hf]
    rfl

theorem scanned_min_spec {α : Type} (lt le : α → α → Bool) (strtod : CStr → α × CStr)
    (t : table_t) (ref : selection_t) (hin : inside t ref) :
    scanned_min lt le strtod t ref
      (if (find_min_cell lt strtod t ref new_init).1
        then some (find_min_cell lt strtod t ref new_init).2 else none) := by
  obtain ⟨h1, h2⟩ := find_min_cell_spec lt le strtod t ref hin
  unfold scanned_min
  cases hf : (find_min_cell lt strtod t ref new_init).1
  · simp only [Bool.false_eq_true, if_false, true_iff]
    refine ⟨?_, fun c hc => absurd hc (by simp)⟩
    intro p hp
    cases hn : (get_cell_numeric strtod t p.1 p.2).1
    · rfl
    · have := h1.2 ⟨p, hp, hn⟩
      rw [hf] at this
      exact absurd this (by simp)
  · simp only [if_true]
    constructor
    · constructor
      · intro hc
        exact absurd hc (by simp)
      · intro hall
        obtain ⟨p, hp, hn⟩ := h1.1 hf
        rw [hall p hp] at hn
        exact absurd hn (by simp)
    · intro c hc
      simp only [Option.some.injEq] at hc
      rw [← hc]
      exact h2 hf

theorem scanned_str_spec (delim : CStr) (t : table_t) (ref cur : selection_t)
    (hin : inside t ref) :
    scanned_str t ref (unescape_string delim (cur.str.getD []))
      (if (find_substr_cell delim t ref cur new_init).1
        then some (find_substr_cell delim t ref cur new_init).2.1 else none) := by
  obtain ⟨h1, h2⟩ := find_substr_cell_spec delim t ref cur hin
  unfold scanned_str
  cases hf : (find_substr_cell delim t ref cur new_init).1
  · simp only [Bool.false_eq_true, if_false, true_iff]
    refine ⟨?_, fun c hc => absurd hc (by simp)⟩
    intro p hp
    cases hn : col_substr (get_cell_content t p.1 p.2) (unescape_string delim (cur.str.getD []))
    · rfl
    · have := h1.2 ⟨p, hp, hn⟩
      rw [hf] at this
      exact absurd this (by simp)
  · simp only [if_true]
    constructor
    · constructor
      · intro hc
        exact absurd hc (by simp)
      · intro hall
        obtain ⟨p, hp, hn⟩ := h1.1 hf
        rw [hall p hp] at hn
        exact absurd hn (by simp)
    · intro c hc
      simp only [Option.some.injEq] at hc
      rw [← hc]
      exact h2 hf

/-- C4: for every script accepted by the parser.  A selection fragment is
stored at an index `k ≥ 1` of the selection list, the entry at index `k - 1`
being the selection fragment written immediately before it, or the seeded
`Cell(1,1)` when it is the first selection fragment; an entry loaded as MIN,
MAX or STR has an index `k ≥ 1`.  And when `apply_call` comes to a command
that points to such an entry at index `k`, the commands before it applied:
the entry at index `k - 1` is still the selection parsed there (an open bound
possibly closed), the entry at index `k` has kept its kind, and, the entry at
`k - 1` lying inside the table, the command is dispatched with the outcome of
the search over the cells that the entry at `k - 1` covers, for the minimum,
for the maximum or for the pattern; without outcome the command ends
`apply_call` with the no-match error. -/
theorem dynamic_selection_reference {α : Type} (L : numeric_lib α)
    (script delim : CStr) (call : call_t) (h : cmd_parse script delim = Except.ok call) :
    (∀ (pre : List CStr) (g : CStr) (post : List CStr),
      (fragments script).filter is_sel_fragment = pre ++ g :: post →
        call.selections[pre.length + 1]? = some (load_selection_info g) ∧
        call.selections[pre.length + 1 - 1]? =
          some (match pre.getLast? with
            | none => default_selection
            | some p => load_selection_info p)) ∧
    (∀ (k : Nat) (sel : selection_t), call.selections[k]? = some sel →
      sel.type = stype_t.MIN ∨ sel.type = stype_t.MAX ∨ sel.type = stype_t.STR → 1 ≤ k) ∧
    (∀ (t : table_t) (before : List command_t) (cmd : command_t) (after : List command_t)
      (k : Nat) (st : exec_state),
      call.commands = before ++ cmd :: after →
      cmd.selection = some (sel_ptr.entry k) →
      searched (call.selections.getD k new_init) →
      before.foldlM (apply_command L call.delim)
        { table := t, selections := call.selections, vars := variables_ctor } = Except.ok st →
      stored_as (call.selections.getD (k - 1) new_init)
        (st.selections.getD (k - 1) new_init) ∧
      (st.selections.getD k new_init).type = (call.selections.getD k new_init).type ∧
      (dispatched L call.delim st cmd = none →
        apply_command L call.delim st cmd = Except.error exec_error.no_match) ∧
      (inside st.table (st.selections.getD (k - 1) new_init) →
        ((st.selections.getD k new_init).type = stype_t.MIN →
          scanned_min L.lt L.le L.strtod st.table (st.selections.getD (k - 1) new_init)
            (dispatched L call.delim st cmd)) ∧
        ((st.selections.getD k new_init).type = stype_t.MAX →
          scanned_min (fun a b => L.lt b a) (fun a b => L.le b a) L.strtod st.table
            (st.selections.getD (k - 1) new_init) (dispatched L call.delim st cmd)) ∧
        ((st.selections.getD k new_init).type = stype_t.STR →
          scanned_str st.table (st.selections.getD (k - 1) new_init)
            (unescape_string call.delim ((st.selections.getD k new_init).str.getD []))
            (dispatched L call.delim st cmd)))) := by
  obtain ⟨n, hfold⟩ := cmd_parse_ok script delim call h
  obtain ⟨hsel0, -⟩ := foldlM_load_shape (fragments script) _ _ hfold
  have hsel : call.selections =
      default_selection ::
        ((fragments script).filter is_sel_fragment).map load_selection_info := by
    simpa [call_seed] using hsel0
  refine ⟨?_, ?_, ?_⟩
  · intro pre g post hfr
    rw [hsel, hfr]
    constructor
    · rw [List.getElem?_cons_succ, List.map_append, List.getElem?_append_right (by simp)]
      simp
    · rw [Nat.add_sub_cancel]
      exact latest_selection_lookup pre (g :: post)
  · intro k sel hk hty
    cases k with
    | zero =>
      rw [hsel] at hk
      simp only [List.getElem?_cons_zero, Option.some.injEq] at hk
      rw [← hk] at hty
      revert hty
      decide
    | succ k => omega
  · intro t before cmd after k st _ hp hdyn hrun
    have hst := apply_commands_stored L call.delim before _ st hrun
    have hk := (hst k).1
    simp only [] at hk
    have hsearch : searched (st.selections.getD k new_init) := by
      unfold searched at hdyn ⊢
      rw [hk]
      exact hdyn
    refine ⟨hst (k - 1), hk, ?_, ?_⟩
    · intro hnone
      rcases hsearch with hty | hty | hty
      · obtain ⟨e, herr⟩ := dispatched_min L call.delim st cmd k hp hty
        apply herr
        rw [e] at hnone
        cases hf : (find_min_cell L.lt L.strtod st.table
          (st.selections.getD (k - 1) new_init) new_init).1
        · rfl
        · rw [hf] at hnone
          exact absurd hnone (by simp)
      · obtain ⟨e, herr⟩ := dispatched_max L call.delim st cmd k hp hty
        apply herr
        rw [e] at hnone
        cases hf : (find_max_cell L.lt L.strtod st.table
          (st.selections.getD (k - 1) new_init) new_init).1
        · rfl
        · rw [hf] at hnone
          exact absurd hnone (by simp)
      · obtain ⟨e, herr⟩ := dispatched_str L call.delim st cmd k hp hty
        apply herr
        rw [e] at hnone
        cases hf : (find_substr_cell call.delim st.table
          (st.selections.getD (k - 1) new_init) (st.selections.getD k new_init) new_init).1
        · rfl
        · rw [hf] at hnone
          exact absurd hnone (by simp)
    · intro hin
      refine ⟨?_, ?_, ?_⟩
      · intro hty
        rw [(dispatched_min L call.delim st cmd k hp hty).1]
        exact scanned_min_spec L.lt L.le L.strtod st.table _ hin
      · intro hty
        rw [(dispatched_max L call.delim st cmd k hp hty).1, find_max_cell_eq_min]
        exact scanned_min_spec (fun a b => L.lt b a) (fun a b => L.le b a) L.strtod
          st.table _ hin
      · intro hty
        rw [(dispatched_str L call.delim st cmd k hp hty).1]
        exact scanned_str_spec call.delim st.table _ _ hin

/-- C4, witness on the script `[3,1];set 9;[_,1];[max];set x` and the column
`5 / 8 / 2`: `[max]` is stored at index 3, the column `[_,1]` written before
it at index 2; `set x`, which points to index 3, comes after `set 9` has made
the column `5 / 8 / 9`, and is dispatched with the outcome of the search for
the maximum over `[_,1]`, the cell of row 3; the run gives `5 / 8 / x`. -/
theorem dynamic_selection_reference_witness :
    run sample_lib " ".toList "[3,1];set 9;[_,1];[max];set x".toList
        [["5".toList], ["8".toList], ["2".toList]] =
      Except.ok [["5".toList], ["8".toList], ["x".toList]] ∧
    dispatched sample_lib " ".toList
        { table := [["5".toList], ["8".toList], ["9".toList]],
          selections := [default_selection,
            { type := stype_t.CELL, row1 := 3, col1 := 1, row2 := 0, col2 := 0, str := none },
            { type := stype_t.COL, row1 := 0, col1 := 1, row2 := 0, col2 := 0, str := none },
            { type := stype_t.MAX, row1 := 0, col1 := 0, row2 := 0, col2 := 0, str := none }],
          vars := variables_ctor }
        { type := cmd_types_t.DATA, cmd_name := "set".toList, cmd_num := 0, arg1 := 0,
          arg2 := 0, str := some "x".toList, selection := some (sel_ptr.entry 3) } =
      some { type := stype_t.CELL, row1 := 3, col1 := 1, row2 := 0, col2 := 0, str := none } ∧
    scanned_min (fun a b => sample_lib.lt b a) (fun a b => sample_lib.le b a) sample_lib.strtod
      [["5".toList], ["8".toList], ["9".toList]]
      { type := stype_t.COL, row1 := 0, col1 := 1, row2 := 0, col2 := 0, str := none }
      (dispatched sample_lib " ".toList
        { table := [["5".toList], ["8".toList], ["9".toList]],
          selections := [default_selection,
            { type := stype_t.CELL, row1 := 3, col1 := 1, row2 := 0, col2 := 0, str := none },
            { type := stype_t.COL, row1 := 0, col1 := 1, row2 := 0, col2 := 0, str := none },
            { type := stype_t.MAX, row1 := 0, col1 := 0, row2 := 0, col2 := 0, str := none }],
          vars := variables_ctor }
        { type := cmd_types_t.DATA, cmd_name := "set".toList, cmd_num := 0, arg1 := 0,
          arg2 := 0, str := some "x".toList, selection := some (sel_ptr.entry 3) }) :=
  ⟨by decide, by decide,
    (((dynamic_selection_reference sample_lib "[3,1];set 9;[_,1];[max];set x".toList
      " ".toList
      { commands := [
          { type := cmd_types_t.DATA, cmd_name := "set".toList, cmd_num := 0, arg1 := 0,
            arg2 := 0, str := some "9".toList, selection := some (sel_ptr.entry 1) },
          { type := cmd_types_t.DATA, cmd_name := "set".toList, cmd_num := 0, arg1 := 0,
            arg2 := 0, str := some "x".toList, selection := some (sel_ptr.entry 3) }],
        selections := [default_selection,
          { type := stype_t.CELL, row1 := 3, col1 := 1, row2 := 0, col2 := 0, str := none },
          { type := stype_t.COL, row1 := 0, col1 := 1, row2 := 0, col2 := 0, str := none },
          { type := stype_t.MAX, row1 := 0, col1 := 0, row2 := 0, col2 := 0, str := none }],
        delim := " ".toList }
      (by decide)).2.2
      [["5".toList], ["8".toList], ["2".toList]]
      [{ type := cmd_types_t.DATA, cmd_name := "set".toList, cmd_num := 0, arg1 := 0,
         arg2 := 0, str := some "9".toList, selection := some (sel_ptr.entry 1) }]
      { type := cmd_types_t.DATA, cmd_name := "set".toList, cmd_num := 0, arg1 := 0, arg2 := 0,
        str := some "x".toList, selection := some (sel_ptr.entry 3) }
      []
      3
      { table := [["5".toList], ["8".toList], ["9".toList]],
        selections := [default_selection,
          { type := stype_t.CELL, row1 := 3, col1 := 1, row2 := 0, col2 := 0, str := none },
          { type := stype_t.COL, row1 := 0, col1 := 1, row2 := 0, col2 := 0, str := none },
          { type := stype_t.MAX, row1 := 0, col1 := 0, row2 := 0, col2 := 0, str := none }],
        vars := variables_ctor }
      (by decide) (by decide) (by unfold searched; decide) (by decide)).2.2.2
      (by
        show inside [["5".toList], ["8".toList], ["9".toList]]
          { type := stype_t.COL, row1 := 0, col1 := 1, row2 := 0, col2 := 0, str := none }
        unfold inside
        decide)).2.1 (by decide)⟩

end Sps
